import Mathlib

/-!
# Scratch cards: round and reveal state machine

A shallow embedding of the round bookkeeping (`src/game/gameRules.js`), the
demo assignment generator and betting coordinator (`src/main.js`) and the
reveal orchestration (`src/game/game.js`), followed by theorems about them.

Conventions of the embedding:

* JavaScript `null` / `undefined` is `none`; a content key is a `String`.
* A `Map` is an association list with the lookup and update of `Map.get`,
  `Map.has`, `Map.set`.
* The map key of a tile, the template string made of row, a comma and col,
  is the pair `(row, col)`: the template is injective on numbers.
* `Math.random()` is an explicit list of draws threaded through the code:
  `Math.floor(Math.random() * n)` takes the next draw modulo `n`, so that every
  index below `n` is a possible outcome.
-/

namespace ScratchCard

/-! ## JavaScript maps -/

/-- A JavaScript `Map` as an association list in insertion order. -/
abbrev JsMap (κ υ : Type) := List (κ × υ)

namespace JsMap

variable {κ υ : Type} [DecidableEq κ]

/-- Lookup `Map.get`: `none` stands for `undefined`. -/
def get : JsMap κ υ → κ → Option υ
  | [], _ => none
  | (k', v) :: rest, k => if k' = k then some v else get rest k

/-- Membership `Map.has`. -/
def has (m : JsMap κ υ) (k : κ) : Bool := (get m k).isSome

/-- Update `Map.set`: an existing key keeps its place, a new key goes last. -/
def set : JsMap κ υ → κ → υ → JsMap κ υ
  | [], k, v => [(k, v)]
  | (k', v') :: rest, k, v =>
    if k' = k then (k, v) :: rest else (k', v') :: set rest k v

/-- Construction `new Map(entries)`: later entries overwrite earlier ones. -/
def ofEntries (entries : List (κ × υ)) : JsMap κ υ :=
  entries.foldl (fun m e => set m e.1 e.2) []

end JsMap

/-! ## GameRules (`src/game/gameRules.js`) -/

/-- A content key or `null`. -/
abbrev Face := Option String

/-- Key of a tile in the maps, `getCardKey(row, col)`. -/
abbrev TileKey := Int × Int

/-- The key of tile `(row, col)` (`src/main.js`, `getCardKey`). -/
def getCardKey (row col : Int) : TileKey := (row, col)

/-- A number as one half of a key `${row},${col}`: an integer, or another
number (a fraction, `NaN`, `Infinity`), which is given by `String(value)`. -/
inductive NumKey where
  | int (value : Int)
  | text (rendering : String)
  deriving DecidableEq, Repr

/-- Key of `currentRoundAssignments` (`src/main.js`): `getCardKey(row, col)` of
two numbers. -/
abbrev RoundKey := NumKey × NumKey

/-- The key `getCardKey(row, col)` of two integers in `currentRoundAssignments`. -/
def roundKey (row col : Int) : RoundKey := (.int row, .int col)

/-- How often `n` is halved until it is below `2^53`: the exponent `e` for
which `n / 2^e` has 53 bits. -/
def halvings : Nat → Nat → Nat
  | 0, _ => 0
  | fuel + 1, n => if n < 9007199254740992 then 0 else halvings fuel (n / 2) + 1

/-- The double nearest to the non-negative integer `n` (53 bits, round to
nearest, ties to even): the value of `Number(digits)` and of the arithmetic of
JS numbers on integers; `none` is `Infinity` (the rounded value is `2^1024` or
more). Integers below `2^53` are exact. -/
def jsNumber (n : Nat) : Option Nat :=
  if n < 9007199254740992 then some n
  else
    let e := halvings n n
    let q := n / 2 ^ e
    let r := n % 2 ^ e
    let m := if 2 ^ e < 2 * r ∨ (2 * r = 2 ^ e ∧ q % 2 = 1) then q + 1 else q
    if e < 971 ∨ (e = 971 ∧ m < 9007199254740992) then some (m * 2 ^ e) else none

/-- The method `getNumberOfBetsValue()` of the control panel when the digits of
`n` are in the number-of-bets input: `Number(value)` floored if it is finite
and positive, else 0. -/
def readNumberOfBets (n : Nat) : Nat :=
  (jsNumber n).getD 0

/-- The expression `Math.max(0, x - 1)` on a positive integer-valued number
`x`: the double nearest to `x - 1`. -/
def jsMinusOne (x : Nat) : Nat :=
  (jsNumber (x - 1)).getD x

/-- The object returned and memoized by `revealResult`. -/
structure Outcome where
  face : Face
  gameOver : Bool
  win : Bool
  deriving DecidableEq, Repr

/-- The fields of a `GameRules` instance. -/
structure GameRules where
  gridSize : Nat
  gameOver : Bool
  waitingForChoice : Bool
  selectedTile : Option (Int × Int)
  revealedMap : JsMap TileKey Outcome
  assignments : JsMap TileKey Face
  revealedCount : Nat
  totalTiles : Nat
  deriving DecidableEq, Repr

/-- The snapshot returned by `getState()`. -/
structure RulesState where
  grid : Nat
  totalTiles : Nat
  revealed : Nat
  gameOver : Bool
  waitingForChoice : Bool
  selectedTile : Option (Int × Int)
  deriving DecidableEq, Repr

namespace GameRules

/-- The method `reset()`. -/
def reset (g : GameRules) : GameRules :=
  { g with
    gameOver := false
    waitingForChoice := false
    selectedTile := none
    revealedMap := []
    assignments := []
    revealedCount := 0
    totalTiles := g.gridSize * g.gridSize }

/-- The constructor: stores `gridSize`, then calls `reset()`. -/
def create (gridSize : Nat) : GameRules :=
  reset
    { gridSize := gridSize, gameOver := false, waitingForChoice := false,
      selectedTile := none, revealedMap := [], assignments := [],
      revealedCount := 0, totalTiles := 0 }

/-- The method `setAssignments(map)`; `none` is a `null`/`undefined` argument,
for which `map ?? []` copies the empty list. -/
def setAssignments (g : GameRules) (map : Option (List (TileKey × Face))) : GameRules :=
  { g with
    assignments := JsMap.ofEntries (map.getD [])
    revealedMap := []
    revealedCount := 0
    gameOver := false }

/-- The method `selectTile(row, col)`. -/
def selectTile (g : GameRules) (row col : Int) : GameRules :=
  { g with waitingForChoice := true, selectedTile := some (row, col) }

/-- The method `clearSelection()`. -/
def clearSelection (g : GameRules) : GameRules :=
  { g with waitingForChoice := false, selectedTile := none }

/-- The method `revealResult({ row, col, result })`: the returned outcome and
the instance after the call. The face is `result ?? assigned ?? null`. -/
def revealResult (g : GameRules) (row col : Int) (result : Face) : Outcome × GameRules :=
  if g.gameOver then
    ({ face := none, gameOver := true, win := false }, g)
  else
    let key := getCardKey row col
    match JsMap.get g.revealedMap key with
    | some recorded => (recorded, g)
    | none =>
      let assigned := JsMap.get g.assignments key
      let face : Face := result.orElse (fun _ => assigned.join)
      let revealedCount := g.revealedCount + 1
      let over : Bool := decide (g.totalTiles ≤ revealedCount)
      let outcome : Outcome := { face := face, gameOver := over, win := false }
      (outcome,
        { g with
          revealedCount := revealedCount
          gameOver := if over then true else g.gameOver
          revealedMap := JsMap.set g.revealedMap key outcome })

/-- The method `getState()`. -/
def getState (g : GameRules) : RulesState :=
  { grid := g.gridSize, totalTiles := g.totalTiles, revealed := g.revealedCount,
    gameOver := g.gameOver, waitingForChoice := g.waitingForChoice,
    selectedTile := g.selectedTile }

/-- The states a `GameRules` instance of grid size `n` can be in: the
constructor followed by any calls of its methods. -/
inductive Reachable (n : Nat) : GameRules → Prop
  | create : Reachable n (create n)
  | reset {g} : Reachable n g → Reachable n (reset g)
  | setAssignments {g} (map) : Reachable n g → Reachable n (setAssignments g map)
  | selectTile {g} (row col) : Reachable n g → Reachable n (selectTile g row col)
  | clearSelection {g} : Reachable n g → Reachable n (clearSelection g)
  | revealResult {g} (row col result) :
      Reachable n g → Reachable n (revealResult g row col result).2

/-- The calls that can occur within one round: everything but `reset()` and
`setAssignments()`. -/
inductive RoundOp where
  | selectTile (row col : Int)
  | clearSelection
  | revealResult (row col : Int) (result : Face)
  | getState
  deriving DecidableEq, Repr

/-- One call of a round. -/
def applyOp (g : GameRules) : RoundOp → GameRules
  | .selectTile row col => selectTile g row col
  | .clearSelection => clearSelection g
  | .revealResult row col result => (revealResult g row col result).2
  | .getState => g

/-- A sequence of calls of a round, left to right. -/
def runOps (g : GameRules) (ops : List RoundOp) : GameRules :=
  ops.foldl applyOp g

/-- A 3x3 round in which the eight tiles before `(2, 2)` are revealed. -/
def eightRevealed : GameRules :=
  runOps (setAssignments (create 3) (some [((2, 2), some "A")]))
    [.revealResult 0 0 none, .revealResult 0 1 none, .revealResult 0 2 none,
     .revealResult 1 0 none, .revealResult 1 1 none, .revealResult 1 2 none,
     .revealResult 2 0 none, .revealResult 2 1 none]

end GameRules

/-! ### `Map` objects by reference

`setAssignments` stores `new Map(map ?? [])`. To tell a copy from an alias the
`Map` objects are given references here: the store holds the contents of every
object, and the reference of an object is its index. -/

/-- The `Map` objects alive, by reference. -/
abbrev MapStore := List (JsMap TileKey Face)

namespace MapStore

/-- The expression `new Map(map ?? [])`, where `map` is a reference to a `Map`
or is `null`/`undefined`: a new object is created, last in the store, with
the entries of the argument copied into it; returns the store and the
reference of the new object. -/
def newMap (store : MapStore) (map : Option Nat) : MapStore × Nat :=
  (store ++ [JsMap.ofEntries ((map.bind fun ref => store[ref]?).getD [])], store.length)

/-- A mutation (`set`, `delete`, `clear`) of the object behind `ref`, `update`
being what it does to the contents. -/
def mutate (store : MapStore) (ref : Nat)
    (update : JsMap TileKey Face → JsMap TileKey Face) : MapStore :=
  match store[ref]? with
  | some contents => store.set ref (update contents)
  | none => store

end MapStore

/-! ## Assignment generator (`src/main.js`) -/

/-- The draws still to be returned by `Math.random()`. -/
abbrev Rng := List Nat

/-- The expression `Math.floor(Math.random() * n)`: the next draw, reduced to
an index below `n` (0 when `n` is 0 or the draws are used up), and the
remaining draws. -/
def randomIndex (rng : Rng) (n : Nat) : Nat × Rng :=
  match rng with
  | [] => (0, [])
  | r :: rest => (if n = 0 then 0 else r % n, rest)

/-- The destructuring swap of `array[i]` and `array[j]`. -/
def swapAt {α : Type} (array : List α) (i j : Nat) : List α :=
  match array[i]?, array[j]? with
  | some x, some y => (array.set i y).set j x
  | _, _ => array

/-- The loop of `shuffleArray` from index `i` down to 1. -/
def shuffleLoop {α : Type} : Nat → List α → Rng → List α × Rng
  | 0, array, rng => (array, rng)
  | i + 1, array, rng =>
    let draw := randomIndex rng (i + 2)
    shuffleLoop i (swapAt array (i + 1) draw.1) draw.2

/-- The function `shuffleArray(values)` (Fisher-Yates on a copy). -/
def shuffleArray {α : Type} (values : List α) (rng : Rng) : List α × Rng :=
  shuffleLoop (values.length - 1) values rng

/-- The constant `GRID_SIZE`. -/
def GRID_SIZE : Nat := 3

/-- A grid position `{ row, col }`. -/
structure Position where
  row : Int
  col : Int
  deriving DecidableEq, Repr

/-- The function `createCardPositions()`: all positions in row-major order. -/
def createCardPositions : List Position :=
  (List.range GRID_SIZE).flatMap fun row =>
    (List.range GRID_SIZE).map fun col => { row := (row : Int), col := (col : Int) }

/-- An entry `{ row, col, contentKey }` of the generated assignments. -/
structure Entry where
  row : Int
  col : Int
  contentKey : Face
  deriving DecidableEq, Repr

/-- The position of an entry. -/
def Entry.position (e : Entry) : Position := { row := e.row, col := e.col }

/-- The expression `counts.get(type) ?? 0`. -/
def countOf (counts : JsMap Face Nat) (type : Face) : Nat :=
  (JsMap.get counts type).getD 0

/-- The mutable locals of `generateScratchCardAssignments`. -/
structure GenState where
  assignments : List Entry
  counts : JsMap Face Nat
  rng : Rng
  deriving DecidableEq, Repr

/-- The first loop of the win branch: up to `slots` times, `positions.shift()`
and assign `primaryType`; returns the positions left and the new locals. -/
def primaryLoop (primaryType : Face) : Nat → List Position → GenState → List Position × GenState
  | 0, positions, st => (positions, st)
  | _ + 1, [], st => ([], st)
  | slots + 1, position :: rest, st =>
    primaryLoop primaryType slots rest
      { st with
        assignments :=
          st.assignments ++ [{ row := position.row, col := position.col, contentKey := primaryType }]
        counts := JsMap.set st.counts primaryType (countOf st.counts primaryType + 1) }

/-- The pool a choice is drawn from: the types still under their cap,
`cardTypes.filter(...)`, or all of `cardTypes` when none is. -/
def poolOf (cardTypes : List Face) (cap : Face → Nat) (counts : JsMap Face Nat) : List Face :=
  let available := cardTypes.filter fun type => decide (countOf counts type < cap type)
  if available.length > 0 then available else cardTypes

/-- The expression `pool[Math.floor(Math.random() * pool.length)] ?? null`
and the draws left. -/
def chooseType (pool : List Face) (rng : Rng) : Face × Rng :=
  let draw := randomIndex rng pool.length
  ((pool[draw.1]?).join, draw.2)

/-- The body of the `for (const position of positions)` loops of both
branches; `cap type` is the bound of the `filter` callback: 3 for the primary
type and 2 otherwise in the win branch, 2 in the other branch. -/
def assignStep (cardTypes : List Face) (cap : Face → Nat) (st : GenState)
    (position : Position) : GenState :=
  let pick := chooseType (poolOf cardTypes cap st.counts) st.rng
  { assignments :=
      st.assignments ++ [{ row := position.row, col := position.col, contentKey := pick.1 }]
    counts := JsMap.set st.counts pick.1 (countOf st.counts pick.1 + 1)
    rng := pick.2 }

/-- The `for (const position of positions)` loops of both branches. -/
def assignLoop (cardTypes : List Face) (cap : Face → Nat) (positions : List Position)
    (st : GenState) : GenState :=
  positions.foldl (assignStep cardTypes cap) st

/-- The result `{ assignments, winningKey }`. -/
structure Generated where
  assignments : List Entry
  winningKey : Face
  deriving DecidableEq, Repr

/-- The local `cardTypes`: a copy of the catalog, or `[null]` when it is empty. -/
def cardTypesOf (availableCardTypes : List String) : List Face :=
  if availableCardTypes.length > 0 then availableCardTypes.map some else [none]

/-- The function `generateScratchCardAssignments(betResult)`, with the module
variable `availableCardTypes` and the random draws as arguments; returns the
result and the draws left. -/
def generateScratchCardAssignments (availableCardTypes : List String) (betResult : String)
    (rng : Rng) : Generated × Rng :=
  let cardTypes := cardTypesOf availableCardTypes
  let shuffledPositions := shuffleArray createCardPositions rng
  let positions := shuffledPositions.1
  let counts : JsMap Face Nat := JsMap.ofEntries (cardTypes.map fun key => (key, 0))
  if betResult = "win" then
    let shuffledTypes := shuffleArray cardTypes shuffledPositions.2
    let primaryType : Face :=
      if shuffledTypes.1.length > 0 then (shuffledTypes.1[0]?).join else none
    let winningKey : Face := primaryType
    let primarySlots := min 3 positions.length
    let afterPrimary := primaryLoop primaryType primarySlots positions
      { assignments := [], counts := counts, rng := shuffledTypes.2 }
    let final := assignLoop cardTypes (fun type => if type = primaryType then 3 else 2)
      afterPrimary.1 afterPrimary.2
    ({ assignments := final.assignments, winningKey := winningKey }, final.rng)
  else
    let final := assignLoop cardTypes (fun _ => 2) positions
      { assignments := [], counts := counts, rng := shuffledPositions.2 }
    ({ assignments := final.assignments, winningKey := none }, final.rng)

/-- How many entries carry content key `key`. -/
def occurrences (key : Face) (assignments : List Entry) : Nat :=
  assignments.countP fun e => decide (e.contentKey = key)

/-- The counts map agrees with the entries pushed so far. -/
def Tracks (st : GenState) : Prop :=
  ∀ key, countOf st.counts key = occurrences key st.assignments

/-! ## Reveal orchestration (`src/game/game.js`, `src/game/card.js`)

The rendering of a card is left out; what is kept of a card are the flags the
orchestration reads and writes. A reveal or wiggle tween that is running is an
explicit record, completed by a later event, unless animations are disabled,
in which case `tween` runs its completion at once. Pending `setTimeout`
callbacks are explicit records too. The effects of manual play that touch no
other state (match sparks and shakes, the two-match sound, hover and press
tints) are left out. -/

/-- A `Card` of the scene. -/
structure Card where
  id : Nat
  row : Int
  col : Int
  revealed : Bool
  destroyed : Bool
  animating : Bool
  wiggling : Bool
  autoRevealScheduled : Bool
  autoRevealTimer : Option Nat
  pendingWinningReveal : Bool
  randomSelectionPending : Bool
  assignedContent : Face
  revealedFace : Face
  taped : Bool
  deriving DecidableEq, Repr

/-- A card as its constructor leaves it. -/
def Card.fresh (id : Nat) (row col : Int) : Card :=
  { id := id, row := row, col := col, revealed := false, destroyed := false,
    animating := false, wiggling := false, autoRevealScheduled := false,
    autoRevealTimer := none, pendingWinningReveal := false,
    randomSelectionPending := false, assignedContent := none, revealedFace := none,
    taped := false }

/-- The object `currentRoundOutcome`; `winningCards` holds card ids. -/
structure RoundOutcome where
  betResult : Option String
  winningKey : Face
  winningCountRequired : Nat
  revealedWinning : Nat
  pendingWinningReveals : Nat
  autoRevealTriggered : Bool
  feedbackPlayed : Bool
  soundKey : Option String
  winningCards : List Nat
  pendingReveals : Nat
  winFramesShown : Bool
  deriving DecidableEq, Repr

/-- A pending `setTimeout` callback of `revealRemainingTiles`. -/
structure SweepTimer where
  handle : Nat
  delay : Nat
  cardId : Nat
  row : Int
  col : Int
  assignedFace : Face
  deriving DecidableEq, Repr

/-- A flip tween started by `card.reveal` whose `complete` has not run yet;
`key` is `completionPayload.key`. -/
structure Flight where
  cardId : Nat
  key : Face
  deriving DecidableEq, Repr

/-- The argument `meta` of `setRoundAssignments` / `applyRoundOutcomeMeta`;
`totalWinningCards = none` is a missing or non-numeric field. -/
structure OutcomeMeta where
  betResult : Option String
  winningKey : Face
  totalWinningCards : Option Nat
  deriving DecidableEq, Repr

/-- The state held by the closure of `createGame`. `cards` is `scene.cards`
(`cardsByKey` indexes the same cards by key, it is rebuilt by `registerCards`
after every `buildGrid`); `detached` are destroyed cards whose flip tween is
still running; `handles` is the set `scheduledAutoRevealTimers`. -/
structure Game where
  rules : GameRules
  cards : List Card
  detached : List Card
  currentAssignments : JsMap TileKey Face
  outcome : RoundOutcome
  timers : List SweepTimer
  handles : List Nat
  nextHandle : Nat
  nextCardId : Nat
  flights : List Flight
  disableAnimations : Bool
  flipDuration : Nat
  wiggleSelectionEnabled : Bool
  revealAllIntervalDelay : Nat
  autoResetDelayMs : Nat
  contentKeys : List String
  feedbackSounds : List String
  deriving DecidableEq, Repr

namespace Game

/-- The constant `GRID` of `createGame`. -/
def GRID : Nat := 3

/-- Apply `f` to the card with the given id. -/
def modifyCard (g : Game) (id : Nat) (f : Card → Card) : Game :=
  { g with
    cards := g.cards.map fun c => if c.id = id then f c else c
    detached := g.detached.map fun c => if c.id = id then f c else c }

/-- The card object with the given id, on the board or detached. -/
def findCard (g : Game) (id : Nat) : Option Card :=
  (g.cards ++ g.detached).find? fun c => c.id = id

/-- The lookup `cardsByKey.get(key)`. -/
def cardAt (g : Game) (row col : Int) : Option Card :=
  g.cards.find? fun c => c.row = row ∧ c.col = col

/-- The function `clearScheduledAutoReveal(card)`. -/
def clearScheduledAutoReveal (g : Game) (id : Nat) : Game :=
  match g.findCard id with
  | none => g
  | some card =>
    let g₁ : Game :=
      match card.autoRevealTimer with
      | some handle =>
        { g with
          timers := g.timers.filter fun t => t.handle ≠ handle
          handles := g.handles.filter fun h => h ≠ handle }
      | none => g
    g₁.modifyCard id fun c => { c with autoRevealTimer := none, autoRevealScheduled := false }

/-- The function `cancelPendingAutoReveals()`. -/
def cancelPendingAutoReveals (g : Game) : Game :=
  let g₁ : Game :=
    if g.handles.length > 0 then
      { g with timers := g.timers.filter (fun t => t.handle ∉ g.handles), handles := [] }
    else g
  (g₁.cards.map Card.id).foldl clearScheduledAutoReveal g₁

/-- The function `isAutoRevealInProgress()`. -/
def isAutoRevealInProgress (g : Game) : Bool :=
  decide (g.handles.length > 0) || g.cards.any fun c => c.autoRevealScheduled

/-- The function `resetRoundOutcome()`. -/
def resetRoundOutcome (g : Game) : Game :=
  cancelPendingAutoReveals
    { g with
      outcome :=
        { betResult := none, winningKey := none, winningCountRequired := 0,
          revealedWinning := 0, pendingWinningReveals := 0, autoRevealTriggered := false,
          feedbackPlayed := false, soundKey := none, winningCards := [],
          pendingReveals := 0, winFramesShown := false } }

/-- The function `applyRoundOutcomeMeta(meta, assignments)`. -/
def applyRoundOutcomeMeta (g : Game) (info : OutcomeMeta) (assignments : List Entry) : Game :=
  let g₁ := resetRoundOutcome g
  let o₁ := { g₁.outcome with betResult := info.betResult }
  let o₂ :=
    if info.betResult = some "win" ∧ info.winningKey ≠ none then
      { o₁ with
        winningKey := info.winningKey
        winningCountRequired :=
          match info.totalWinningCards with
          | some (explicitCount + 1) => explicitCount + 1
          | _ => occurrences info.winningKey assignments }
    else o₁
  let o₃ :=
    if info.betResult = some "win" then { o₂ with soundKey := some "roundWin" }
    else if info.betResult = some "lost" then { o₂ with soundKey := some "roundLost" }
    else o₂
  { g₁ with outcome := o₃ }

/-- The function `registerCards()`. -/
def registerCards (g : Game) : Game :=
  (g.cards.map Card.id).foldl
    (fun (acc : Game) id =>
      clearScheduledAutoReveal
        (acc.modifyCard id fun c =>
          { c with
            assignedContent := (JsMap.get acc.currentAssignments (getCardKey c.row c.col)).join
            pendingWinningReveal := false
            randomSelectionPending := false })
        id)
    g

/-- The comparator of the sort in `revealRemainingTiles`, as the relation
`compare(a, b) <= 0`: row ascending, then column ascending. -/
def rowMajorLE (a b : Card) : Prop :=
  if a.row = b.row then a.col ≤ b.col else a.row ≤ b.row

instance : DecidableRel rowMajorLE := fun a b => by
  unfold rowMajorLE
  exact inferInstance

/-- The body of the `forEach` of `revealRemainingTiles` for one card and its
index in the sorted list. -/
def scheduleReveal (g : Game) (card : Card) (index : Nat) : Game :=
  let g₁ := clearScheduledAutoReveal g card.id
  let assignedFace : Face := (JsMap.get g₁.currentAssignments (getCardKey card.row card.col)).join
  let delay := if g₁.disableAnimations then 0 else g₁.revealAllIntervalDelay * index
  let handle := g₁.nextHandle
  let g₂ : Game :=
    { g₁ with
      nextHandle := handle + 1
      timers := g₁.timers ++
        [{ handle := handle, delay := delay, cardId := card.id, row := card.row,
           col := card.col, assignedFace := assignedFace }]
      handles := g₁.handles ++ [handle] }
  g₂.modifyCard card.id fun c =>
    { c with autoRevealScheduled := true, autoRevealTimer := some handle }

/-- The function `revealRemainingTiles({ exclude })`; `exclude` holds card ids. -/
def revealRemainingTiles (g : Game) (exclude : List Nat) : Game :=
  let g₁ : Game := { g with outcome := { g.outcome with autoRevealTriggered := true } }
  if exclude.length = 0 ∧ isAutoRevealInProgress g₁ = true then g₁
  else
    let unrevealed := g₁.cards.filter fun card =>
      !card.revealed && !card.destroyed && !card.animating && !card.autoRevealScheduled
        && !decide (card.id ∈ exclude)
    if unrevealed.length = 0 then g₁
    else
      let ordered := unrevealed.insertionSort rowMajorLE
      (ordered.enum).foldl (fun acc item => scheduleReveal acc item.2 item.1) g₁

/-- The function `handleCardRevealComplete(card, payload)`, `key` being
`payload.key`. -/
def handleCardRevealComplete (g : Game) (id : Nat) (key : Face) : Game :=
  match g.findCard id with
  | none => g
  | some card =>
    let g₁ := g.modifyCard id fun c => { c with randomSelectionPending := false }
    let payloadKey : Face :=
      key.orElse fun _ => card.revealedFace.orElse fun _ =>
        (JsMap.get g₁.currentAssignments (getCardKey card.row card.col)).join
    let o := g₁.outcome
    let o₁ :=
      if o.betResult = some "win" ∧ o.winningKey ≠ none ∧ payloadKey ≠ none
          ∧ payloadKey = o.winningKey then
        { o with
          revealedWinning := o.revealedWinning + 1
          winningCards := if id ∈ o.winningCards then o.winningCards else o.winningCards ++ [id] }
      else o
    let reachedWinningThreshold : Bool :=
      decide (o₁.betResult = some "win" ∧ o₁.winningCountRequired > 0
        ∧ o₁.revealedWinning ≥ o₁.winningCountRequired)
    let o₂ :=
      if reachedWinningThreshold = true ∧ o₁.winFramesShown = false ∧ o₁.winningCards.length > 0
      then { o₁ with winFramesShown := true }
      else o₁
    let g₂ : Game :=
      if card.pendingWinningReveal then
        ({ g₁ with outcome := { o₂ with pendingWinningReveals := o₂.pendingWinningReveals - 1 } }
          : Game).modifyCard id fun c => { c with pendingWinningReveal := false }
      else { g₁ with outcome := o₂ }
    let state := g₂.rules.getState
    let g₃ : Game :=
      if g₂.outcome.betResult = some "win" ∧ g₂.outcome.autoRevealTriggered = false
          ∧ g₂.outcome.winningKey ≠ none ∧ g₂.outcome.winningCountRequired > 0
          ∧ g₂.outcome.revealedWinning ≥ g₂.outcome.winningCountRequired
          ∧ state.revealed < state.totalTiles then
        revealRemainingTiles
          { g₂ with outcome := { g₂.outcome with autoRevealTriggered := true } } []
      else g₂
    let allCardsRevealed : Bool := decide (state.revealed ≥ state.totalTiles)
    let animationsCompleted : Bool := decide (g₃.outcome.pendingReveals ≤ 0)
    if g₃.outcome.feedbackPlayed = false ∧ allCardsRevealed = true ∧ animationsCompleted = true then
      { g₃ with
        outcome := { g₃.outcome with feedbackPlayed := true, winningCards := [] }
        feedbackSounds :=
          match g₃.outcome.soundKey with
          | some name => g₃.feedbackSounds ++ [name]
          | none => g₃.feedbackSounds }
    else g₃

/-- The `complete` callback of the flip tween of `card.reveal`, followed by the
`onComplete` passed by `revealCard`. -/
def completeReveal (g : Game) (id : Nat) (key : Face) : Game :=
  let g₁ := g.modifyCard id fun c => { c with animating := false, revealed := true }
  let g₂ : Game :=
    { g₁ with outcome := { g₁.outcome with pendingReveals := g₁.outcome.pendingReveals - 1 } }
  handleCardRevealComplete g₂ id key

/-- The method `card.reveal(...)`: whether the reveal started, and the state
after it. `face` is the key looked up in `contentLibrary`. -/
def cardReveal (g : Game) (id : Nat) (face : Face) : Bool × Game :=
  match g.findCard id with
  | none => (false, g)
  | some card =>
    if card.destroyed ∨ card.revealed then (false, g)
    else
      -- `stopWiggle()` when a wiggle runs, then `_animating = true` and, among the
      -- resets that follow, `stopWiggle()` again, which clears `_animating`
      let g₁ := g.modifyCard id fun c => { c with animating := false, wiggling := false }
      let contentKey : Face :=
        match face with
        | some name => if name ∈ g.contentKeys then some name else none
        | none => none
      if g₁.disableAnimations ∨ g₁.flipDuration = 0 then
        (true, completeReveal g₁ id contentKey)
      else
        (true, { g₁ with flights := g₁.flights ++ [{ cardId := id, key := contentKey }] })

/-- The function `revealCard(card, face, options)`. -/
def revealCard (g : Game) (id : Nat) (face : Face) : Game :=
  let g₁ := clearScheduledAutoReveal g id
  let g₂ := g₁.modifyCard id fun c => { c with revealedFace := face }
  let isWinningFace : Bool :=
    decide (g₂.outcome.betResult = some "win" ∧ g₂.outcome.winningKey ≠ none ∧ face ≠ none
      ∧ face = g₂.outcome.winningKey)
  let engagedWinningBefore := g₂.outcome.revealedWinning + g₂.outcome.pendingWinningReveals
  let result := cardReveal g₂ id face
  let g₃ := result.2
  if result.1 then
    let g₄ : Game :=
      ({ g₃ with outcome := { g₃.outcome with pendingReveals := g₃.outcome.pendingReveals + 1 } }
        : Game).modifyCard id fun c => { c with pendingWinningReveal := isWinningFace }
    if isWinningFace then
      let g₅ : Game :=
        { g₄ with
          outcome :=
            { g₄.outcome with pendingWinningReveals := g₄.outcome.pendingWinningReveals + 1 } }
      let engagedWinningAfter := engagedWinningBefore + 1
      if g₅.outcome.autoRevealTriggered = false ∧ g₅.outcome.winningCountRequired > 0
          ∧ engagedWinningAfter ≥ g₅.outcome.winningCountRequired then
        revealRemainingTiles
          { g₅ with outcome := { g₅.outcome with autoRevealTriggered := true } } [id]
      else g₅
    else g₄
  else
    g₃.modifyCard id fun c => { c with pendingWinningReveal := false }

/-- The completion of a running flip tween (an event of the renderer). -/
def finishFlight (g : Game) (flight : Flight) : Game :=
  if flight ∈ g.flights then
    completeReveal { g with flights := g.flights.erase flight } flight.cardId flight.key
  else g

end Game

namespace Game

/-- The calls `scene.clearGrid()` and `scene.buildGrid(...)`: every card is
destroyed and nine new cards are created in row-major order. A destroyed card
whose flip tween is still running stays reachable from that tween. -/
def buildGrid (g : Game) : Game :=
  let stale := (g.cards.filter fun c => g.flights.any fun f => f.cardId = c.id).map fun c =>
    { c with destroyed := true, animating := false, wiggling := false }
  { g with
    detached := g.detached ++ stale
    cards := (createCardPositions.enum).map fun item =>
      Card.fresh (g.nextCardId + item.1) item.2.row item.2.col
    nextCardId := g.nextCardId + GRID * GRID }

/-- The function `reset()` up to, not including, its `notifyStateChange()`. -/
def resetBoard (g : Game) : Game :=
  let g₁ : Game := { g with rules := g.rules.reset, currentAssignments := [] }
  let g₂ := resetRoundOutcome g₁
  let g₃ : Game := { g₂ with rules := g₂.rules.setAssignments (some g₂.currentAssignments) }
  registerCards (buildGrid g₃)

/-- The function `setRoundAssignments(assignments, meta)` up to, not
including, its `notifyStateChange()`. -/
def installAssignments (g : Game) (assignments : List Entry) (info : OutcomeMeta) : Game :=
  let g₁ : Game := { g with currentAssignments := [] }
  let g₂ := applyRoundOutcomeMeta g₁ info assignments
  let g₃ : Game :=
    { g₂ with
      currentAssignments :=
        assignments.foldl (fun m e => JsMap.set m (getCardKey e.row e.col) e.contentKey)
          g₂.currentAssignments }
  let g₄ : Game := { g₃ with rules := g₃.rules.setAssignments (some g₃.currentAssignments) }
  { g₄ with
    cards := g₄.cards.map fun c =>
      { c with
        assignedContent := (JsMap.get g₄.currentAssignments (getCardKey c.row c.col)).join } }

/-- The game as `createGame` returns it, for the options read by the
orchestration and the keys of `contentLibrary`. -/
def create (disableAnimations : Bool) (flipDuration revealAllIntervalDelay autoResetDelayMs : Nat)
    (wiggleSelectionEnabled : Bool) (contentKeys : List String) : Game :=
  registerCards
    (buildGrid
      { rules := GameRules.create GRID, cards := [], detached := [], currentAssignments := [],
        outcome :=
          { betResult := none, winningKey := none, winningCountRequired := 0,
            revealedWinning := 0, pendingWinningReveals := 0, autoRevealTriggered := false,
            feedbackPlayed := false, soundKey := none, winningCards := [],
            pendingReveals := 0, winFramesShown := false },
        timers := [], handles := [], nextHandle := 1, nextCardId := 0, flights := [],
        disableAnimations := disableAnimations, flipDuration := flipDuration,
        wiggleSelectionEnabled := wiggleSelectionEnabled,
        revealAllIntervalDelay := revealAllIntervalDelay,
        autoResetDelayMs := autoResetDelayMs, contentKeys := contentKeys,
        feedbackSounds := [] })

end Game

/-! ## Betting coordinator (`src/main.js`)

The module variables of `main.js` are the fields of `Vars`. The control panel is
the record of what `main.js` sets on it and reads from it. `applyMinesOption`
is left out: it stores `opts.mines`, which the round machine never reads, and
calls `game.setMines`, which does nothing. Numbers of bets are exact naturals. -/

/-- The two values of `controlPanelMode`. -/
inductive Mode where
  | manual
  | auto
  deriving DecidableEq, Repr

/-- The three values of `betButtonMode`. -/
inductive BetButtonMode where
  | bet
  | cashout
  | scratch
  deriving DecidableEq, Repr

/-- The three modes of the auto-start button. -/
inductive AutoStartMode where
  | start
  | stop
  | finish
  deriving DecidableEq, Repr

/-- The state of the control panel that `main.js` writes and reads; a `Bool`
state is true for `clickable`. -/
structure Panel where
  betButtonMode : BetButtonMode
  betButtonState : Bool
  randomPickState : Bool
  autoStartButtonState : Bool
  autoStartButtonMode : AutoStartMode
  minesSelectState : Bool
  modeToggleClickable : Bool
  betControlsClickable : Bool
  numberOfBetsClickable : Bool
  advancedToggleClickable : Bool
  advancedStrategyControlsClickable : Bool
  stopOnProfitClickable : Bool
  stopOnLossClickable : Bool
  numberOfBetsValue : Nat
  deriving DecidableEq, Repr

/-- The payload of an outbound relay message. -/
inductive Payload where
  | empty
  | bet (result : String)
  | selection (row col : Int)
  | startAutobet (numberOfBets : Nat)
  | stopAutobet (reason : String) (completed : Bool)
  deriving DecidableEq, Repr

/-- An outbound message handed to `serverRelay.send`. -/
structure RelayMessage where
  type : String
  payload : Payload
  deriving DecidableEq, Repr

/-- The module variables of `main.js` (its top-level `let` bindings).
`autoResetTimer` holds the delay of the pending auto-round timer. -/
structure Vars where
  demoMode : Bool
  suppressRelay : Bool
  betButtonMode : BetButtonMode
  roundActive : Bool
  cashoutAvailable : Bool
  lastKnownGameState : Option RulesState
  selectionDelayHandle : Option Nat
  selectionPending : Bool
  minesSelectionLocked : Bool
  controlPanelMode : Mode
  autoRunActive : Bool
  autoRoundInProgress : Bool
  autoResetTimer : Option Nat
  autoStopPending : Bool
  autoRemainingBets : Nat
  manualRoundNeedsReset : Bool
  availableCardTypes : List String
  currentBetResult : Option String
  currentRoundAssignments : JsMap RoundKey Face
  autoResetDelayMs : Nat
  deriving DecidableEq, Repr

/-- The state of the application: the module variables, the game and the
control panel they point to, whether the board accepts pointer input
(`setGameBoardInteractivity`), the number of pending zero-delay callbacks of
`executeAutoBetRound`, the messages given to `serverRelay.send`, and the draws
of `Math.random()`. The last two fields are ghost counters, absent from the
source: how many times `finalizeRound` has run and how many auto-bet runs
`startAutoBetProcess` has started. -/
structure App where
  vars : Vars
  game : Option Game
  controlPanel : Option Panel
  boardInteractive : Bool
  revealAllTimers : Nat
  sent : List RelayMessage
  rng : Rng
  finalizeCalls : Nat
  autoStarts : Nat
  deriving DecidableEq, Repr

namespace App

/-- Run a control panel setter, `controlPanel?.setter?.(...)`. -/
def panel (a : App) (f : Panel → Panel) : App :=
  { a with controlPanel := a.controlPanel.map f }

/-- Run a method of the game that calls nothing back, `game?.method?.(...)`. -/
def withGame (a : App) (f : Game → Game) : App :=
  { a with game := a.game.map f }

/-- Assign module variables. -/
def setVars (a : App) (f : Vars → Vars) : App :=
  { a with vars := f a.vars }

/-- The label of the auto-start button, when there is a control panel. -/
def autoStartLabel (a : App) : Option AutoStartMode :=
  a.controlPanel.map fun p => p.autoStartButtonMode

/-- The function `sendRelayMessage(type, payload)`. -/
def sendRelayMessage (a : App) (type : String) (payload : Payload) : App :=
  if a.vars.demoMode = true ∨ a.vars.suppressRelay = true then a
  else { a with sent := a.sent ++ [{ type := type, payload := payload }] }

/-- The function `setControlPanelBetMode(mode)`. -/
def setControlPanelBetMode (a : App) (mode : BetButtonMode) : App :=
  (a.setVars fun v => { v with betButtonMode := mode }).panel fun p =>
    { p with betButtonMode := mode }

/-- The function `setControlPanelBetState(isClickable)`. -/
def setControlPanelBetState (a : App) (isClickable : Bool) : App :=
  a.panel fun p => { p with betButtonState := isClickable }

/-- The function `setControlPanelRandomState(isClickable)`. -/
def setControlPanelRandomState (a : App) (isClickable : Bool) : App :=
  a.panel fun p => { p with randomPickState := isClickable }

/-- The function `setControlPanelAutoStartState(isClickable)`. -/
def setControlPanelAutoStartState (a : App) (isClickable : Bool) : App :=
  a.panel fun p => { p with autoStartButtonState := isClickable }

/-- The function `setControlPanelMinesState(isClickable)`. -/
def setControlPanelMinesState (a : App) (isClickable : Bool) : App :=
  a.panel fun p => { p with minesSelectState := isClickable }

/-- The calls `setModeToggleClickable(x)` and `setBetControlsClickable(x)`,
which always come together. -/
def setModeAndBetControls (a : App) (isClickable : Bool) : App :=
  a.panel fun p => { p with modeToggleClickable := isClickable, betControlsClickable := isClickable }

/-- The function `disableServerRoundSetupControls()`. -/
def disableServerRoundSetupControls (a : App) : App :=
  (((a.setControlPanelBetState false).setControlPanelRandomState false).setControlPanelMinesState
    false).setModeAndBetControls false

/-- The function `setGameBoardInteractivity(enabled)`. -/
def setGameBoardInteractivity (a : App) (enabled : Bool) : App :=
  { a with boardInteractive := enabled }

/-- The function `clearSelectionDelay()`. -/
def clearSelectionDelay (a : App) : App :=
  a.setVars fun v => { v with selectionDelayHandle := none, selectionPending := false }

/-- The function `beginSelectionDelay()`. -/
def beginSelectionDelay (a : App) : App :=
  ((a.clearSelectionDelay.setVars fun v => { v with selectionPending := true
    }).setControlPanelBetState false).setControlPanelRandomState false

/-- The tail shared by `setAutoRunUIState` and `setAutoRunFinishingState`: the
auto-start button state, then the toggles of the remaining controls. -/
def setAutoControls (a : App) (autoStart : Bool) (others : Bool) : App :=
  (((a.setControlPanelAutoStartState autoStart).setModeAndBetControls
    others).setControlPanelMinesState others).panel fun p =>
      { p with
        numberOfBetsClickable := others, advancedToggleClickable := others
        advancedStrategyControlsClickable := others, stopOnProfitClickable := others
        stopOnLossClickable := others }

/-- The function `setAutoRunUIState(active)`. -/
def setAutoRunUIState (a : App) (active : Bool) : App :=
  if a.controlPanel.isNone then a
  else if active then
    (a.panel fun p => { p with autoStartButtonMode := .stop }).setAutoControls true false
  else
    (a.panel fun p => { p with autoStartButtonMode := .start }).setAutoControls
      (decide (a.vars.controlPanelMode = .auto)) true

/-- The function `setAutoRunFinishingState()`. -/
def setAutoRunFinishingState (a : App) : App :=
  if a.controlPanel.isNone then a
  else (a.panel fun p => { p with autoStartButtonMode := .finish }).setAutoControls false false

/-- The function `clearAutoRoundTimer()`. -/
def clearAutoRoundTimer (a : App) : App :=
  a.setVars fun v => { v with autoResetTimer := none }

/-- The function `determineDemoBetResult()`: `Math.random() < 0.4` is read off
the next draw, four residues out of ten giving `lost`. -/
def determineDemoBetResult (a : App) : String × App :=
  let draw := randomIndex a.rng 10
  (if draw.1 < 4 then "lost" else "win", { a with rng := draw.2 })

/-- The function `finalizeRound()`. -/
def finalizeRound (a : App) : App :=
  let a₁ : App :=
    ({ a with finalizeCalls := a.finalizeCalls + 1 } : App).setVars fun v =>
      { v with roundActive := false, cashoutAvailable := false }
  let a₂ := (((a₁.clearSelectionDelay.setControlPanelBetMode .bet).setControlPanelRandomState
    false).setGameBoardInteractivity false).setVars fun v => { v with minesSelectionLocked := false }
  let a₃ := a₂.setControlPanelMinesState true
  let a₄ : App :=
    if a₃.vars.autoRunActive then
      (((a₃.setControlPanelBetState false).setControlPanelMinesState false).setModeAndBetControls
        false).setControlPanelAutoStartState true
    else
      (((a₃.setControlPanelBetState true).setControlPanelMinesState true).setModeAndBetControls
        true).setControlPanelAutoStartState (decide (a₃.vars.controlPanelMode = .auto))
  let a₅ := a₄.setVars fun v => { v with currentBetResult := none, currentRoundAssignments := [] }
  if a₅.vars.autoStopPending then
    (a₅.setVars fun v => { v with autoStopPending := false }).setAutoRunUIState false
  else a₅

/-- The function `stopAutoBetProcess({ reason, completed })`. -/
def stopAutoBetProcess (a : App) (reason : String) (completed : Bool) : App :=
  let a₁ := a.clearSelectionDelay.clearAutoRoundTimer
  let wasActive := a₁.vars.autoRunActive
  let a₂ := a₁.setVars fun v => { v with autoRunActive := false, autoRoundInProgress := false }
  let a₃ : App :=
    if a₂.vars.demoMode = false ∧ a₂.vars.suppressRelay = false ∧ wasActive = true then
      a₂.sendRelayMessage "action:stop-autobet" (.stopAutobet reason completed)
    else a₂
  let shouldWaitForRound : Bool := a₃.vars.roundActive && !completed
  if shouldWaitForRound then
    let a₄ := (a₃.setVars fun v => { v with autoStopPending := true }).setAutoRunFinishingState
    a₄.withGame fun g => if g.isAutoRevealInProgress then g else g.revealRemainingTiles []
  else
    let a₄ := a₃.setVars fun v => { v with autoStopPending := false }
    let a₅ := if a₄.vars.roundActive then a₄.finalizeRound else a₄
    a₅.setAutoRunUIState false

end App

/-- A value found in the field `row` or `col` of an inbound payload, as the
code reads it: through `typeof value === "number"` (`main.js`) and through
`String(value)` in the key template `${row},${col}` (`game.js`, `main.js`). -/
inductive Coord where
  /-- An integer-valued number. -/
  | number (value : Int)
  /-- Another number (a fraction, `NaN`, `Infinity`), given by `String(value)`. -/
  | fraction (rendering : String)
  /-- A value that is not a number (`undefined` for a missing field, a string,
  an object, ...); `index` is the integer whose decimal rendering
  `String(value)` is, if there is one (`'0'` has index 0). -/
  | other (index : Option Int)
  deriving DecidableEq, Repr

/-- The integer named by `String(value)`, as the key template of `game.js`
reads the value. -/
def Coord.index : Coord → Option Int
  | .number value => some value
  | .fraction _ => none
  | .other index => index

/-- The half of a key of `currentRoundAssignments` that the value gives when
`typeof value === "number"`. -/
def Coord.numKey : Coord → Option NumKey
  | .number value => some (.int value)
  | .fraction rendering => some (.text rendering)
  | .other _ => none

/-- An entry of the `results` of an inbound `auto-bet-result` message, or the
payload of `bet-result`, as far as the code reads it: the fields `row` and
`col`, and `contentKey ?? result ?? null`. -/
structure ResultEntry where
  row : Coord
  col : Coord
  contentKey : Face
  deriving DecidableEq, Repr

/-- An exception thrown by the code. -/
inductive JsError where
  | typeError
  deriving DecidableEq, Repr

/-- An inbound relay message `{ type, payload }`. In the `results` of
`auto-bet-result`, `none` is an entry that is `null` or `undefined`; `results`
itself is `none` when it is not an array. -/
inductive Inbound where
  | startBet
  | betResult (payload : ResultEntry)
  | autoBetResult (results : Option (List (Option ResultEntry)))
  | stopAutobet (reason : Option String) (completed : Bool)
  | finalizeBet
  | cashout
  | profitUpdate
  | other (type : String)
  deriving DecidableEq, Repr

namespace App

/-- The function `scheduleNextAutoBetRound(delay)` with the default delay. -/
def scheduleNextAutoBetRound (a : App) : App :=
  if a.vars.autoRunActive = false then a
  else a.clearAutoRoundTimer.setVars fun v => { v with autoResetTimer := some v.autoResetDelayMs }

/-- The function `handleAutoRoundCompleted()`. -/
def handleAutoRoundCompleted (a : App) : App :=
  let hadFiniteLimit : Bool := decide (a.vars.autoRemainingBets > 0)
  let a₁ : App :=
    if hadFiniteLimit then
      (a.setVars fun v => { v with autoRemainingBets := jsMinusOne v.autoRemainingBets }).panel
        fun p => { p with numberOfBetsValue := jsMinusOne a.vars.autoRemainingBets }
    else a
  let a₂ := a₁.setVars fun v => { v with autoRoundInProgress := false }
  if a₂.vars.autoRunActive = false then a₂
  else if hadFiniteLimit = true ∧ a₂.vars.autoRemainingBets = 0 then
    a₂.stopAutoBetProcess "completed" true
  else a₂.scheduleNextAutoBetRound

/-- The function `applyRoundInteractiveState(state)`. -/
def applyRoundInteractiveState (a : App) (state : RulesState) : App :=
  if a.vars.roundActive = false then a
  else if a.vars.controlPanelMode = .auto then
    (((a.setControlPanelBetState false).setControlPanelRandomState
      false).setGameBoardInteractivity false).setVars fun v => { v with cashoutAvailable := false }
  else if a.vars.selectionPending = true ∨ state.waitingForChoice = true then
    ((a.setControlPanelBetState false).setControlPanelRandomState false).setVars fun v =>
      { v with cashoutAvailable := false }
  else
    let a₁ := a.setVars fun v => { v with cashoutAvailable := false }
    let hasHiddenTiles : Bool := decide (state.revealed < state.totalTiles)
    let a₂ :=
      if a₁.vars.betButtonMode = .scratch then a₁.setControlPanelBetState hasHiddenTiles
      else a₁.setControlPanelBetState false
    a₂.setControlPanelRandomState true

/-- The function `handleGameStateChange(state)`, the `onChange` of the game. -/
def handleGameStateChange (a : App) (state : RulesState) : App :=
  let a₁ := a.setVars fun v => { v with lastKnownGameState := some state }
  if a₁.vars.roundActive = false then a₁
  else if state.gameOver then
    let a₂ := a₁.finalizeRound
    if a₂.vars.controlPanelMode = .auto
        ∧ (a₂.vars.autoRunActive = true ∨ a₂.vars.autoRoundInProgress = true) then
      a₂.handleAutoRoundCompleted
    else a₂
  else a₁.applyRoundInteractiveState state

/-- The function `notifyStateChange()` of the game: `onChange(rules.getState())`. -/
def notifyStateChange (a : App) : App :=
  match a.game with
  | some g => a.handleGameStateChange g.rules.getState
  | none => a

/-- The call `game?.reset?.()`. -/
def gameReset (a : App) : App :=
  (a.withGame Game.resetBoard).notifyStateChange

/-- The call `game?.setRoundAssignments?.(assignments, meta)`. -/
def setRoundAssignments (a : App) (assignments : List Entry) (info : OutcomeMeta) : App :=
  (a.withGame fun g => g.installAssignments assignments info).notifyStateChange

/-- The function `prepareForNewRoundState()`. -/
def prepareForNewRoundState (a : App) : App :=
  let a₁ := (a.setVars fun v => { v with roundActive := true, cashoutAvailable := false
    }).clearSelectionDelay
  let isAutoMode : Bool := decide (a₁.vars.controlPanelMode = .auto)
  let a₂ :=
    if isAutoMode then (a₁.setControlPanelBetMode .bet).setControlPanelBetState false
    else (a₁.setControlPanelBetMode .scratch).setControlPanelBetState true
  let a₃ := (a₂.setControlPanelRandomState (!isAutoMode)).setGameBoardInteractivity (!isAutoMode)
  let a₄ := a₃.setVars fun v => { v with minesSelectionLocked := false }
  if isAutoMode = false then
    ((a₄.setVars fun v => { v with manualRoundNeedsReset := false }).setControlPanelMinesState
      false).setModeAndBetControls false
  else
    let a₅ := a₄.setModeAndBetControls (!a₄.vars.autoRunActive)
    if a₅.vars.autoRunActive = false then
      (a₅.setControlPanelMinesState true).setControlPanelAutoStartState true
    else a₅

/-- The function `performBet()`. -/
def performBet (a : App) : App :=
  a.prepareForNewRoundState.setVars fun v => { v with manualRoundNeedsReset := false }

/-- The function `prepareScratchRound(betResult)`. -/
def prepareScratchRound (a : App) (betResult : String) : App :=
  let a₁ := a.setVars fun v => { v with currentBetResult := some betResult }
  if a₁.game.isNone then a₁
  else
    let generated := generateScratchCardAssignments a₁.vars.availableCardTypes betResult a₁.rng
    let assignments := generated.1.assignments
    let winningKey := generated.1.winningKey
    let a₂ : App :=
      ({ a₁ with rng := generated.2 } : App).setVars fun v =>
        { v with
          currentRoundAssignments :=
            assignments.foldl (fun m e => JsMap.set m (roundKey e.row e.col) e.contentKey) [] }
    let totalWinningCards : Nat :=
      if winningKey ≠ none then occurrences winningKey assignments else 0
    a₂.setRoundAssignments assignments
      { betResult := some betResult, winningKey := winningKey,
        totalWinningCards := some totalWinningCards }

/-- The function `handleBet(betResult)`. -/
def handleBet (a : App) (betResult : String) : App :=
  if a.vars.demoMode = false ∧ a.vars.suppressRelay = false then
    a.disableServerRoundSetupControls.sendRelayMessage "action:bet" (.bet betResult)
  else
    (a.performBet.gameReset).prepareScratchRound betResult

/-- The function `executeAutoBetRound()`; the zero-delay callback it leaves is
counted in `revealAllTimers`. -/
def executeAutoBetRound (a : App) : App :=
  if a.vars.autoRunActive = false then a
  else
    let a₁ := a.setVars fun v => { v with autoRoundInProgress := true }
    if a₁.vars.demoMode = false ∧ a₁.vars.suppressRelay = false then
      a₁.sendRelayMessage "game:auto-round-request" .empty
    else
      let picked := a₁.determineDemoBetResult
      let a₂ := picked.2.handleBet picked.1
      { a₂ with revealAllTimers := a₂.revealAllTimers + 1 }

/-- The zero-delay callback of `executeAutoBetRound` runs. -/
def fireRevealAllTimer (a : App) : App :=
  if a.revealAllTimers = 0 then a
  else
    let a₁ : App := { a with revealAllTimers := a.revealAllTimers - 1 }
    if a₁.vars.autoRunActive = false then a₁
    else a₁.withGame fun g => g.revealRemainingTiles []

/-- The callback of the timer of `scheduleNextAutoBetRound` runs. -/
def fireAutoResetTimer (a : App) : App :=
  match a.vars.autoResetTimer with
  | none => a
  | some _ =>
    let a₁ := a.setVars fun v => { v with autoResetTimer := none }
    if a₁.vars.autoRunActive = false then a₁ else a₁.executeAutoBetRound

/-- The number `Math.max(0, Math.floor(Number(controlPanel?.getNumberOfBetsValue?.()) || 0))`
read by `startAutoBetProcess`: the value of the number-of-bets input, 0 without
a control panel. -/
def configuredBets (a : App) : Nat :=
  match a.controlPanel with
  | some p => p.numberOfBetsValue
  | none => 0

/-- The function `startAutoBetProcess()`. -/
def startAutoBetProcess (a : App) : App :=
  if a.vars.autoRunActive = true ∨ a.vars.controlPanelMode ≠ .auto then a
  else
    let configuredBets := a.configuredBets
    let a₁ : App :=
      ({ a with autoStarts := a.autoStarts + 1 } : App).setVars fun v =>
        { v with
          autoRunActive := true, autoRoundInProgress := false, autoStopPending := false
          autoRemainingBets := configuredBets }
    let a₂ :=
      if a₁.vars.demoMode = false ∧ a₁.vars.suppressRelay = false then
        (a₁.sendRelayMessage "control:start-autobet" (.startAutobet configuredBets)).sendRelayMessage
          "action:start-autobet" (.startAutobet configuredBets)
      else a₁
    (a₂.setAutoRunUIState true).executeAutoBetRound

/-- The function `handleStartAutobetClick()`. -/
def handleStartAutobetClick (a : App) : App :=
  if a.vars.autoRunActive then a.stopAutoBetProcess "user" false
  else if a.vars.controlPanelMode ≠ .auto then a
  else a.startAutoBetProcess

/-- The function `markManualRoundForReset()`. -/
def markManualRoundForReset (a : App) : App :=
  if a.vars.controlPanelMode = .manual then
    a.setVars fun v => { v with manualRoundNeedsReset := true }
  else a

/-- The function `handleCashout()`. -/
def handleCashout (a : App) : App :=
  if a.vars.roundActive = false ∨ a.vars.cashoutAvailable = false then a
  else if a.vars.demoMode = false ∧ a.vars.suppressRelay = false then
    a.sendRelayMessage "action:cashout" .empty
  else
    (a.markManualRoundForReset.withGame fun g => g.revealRemainingTiles []).finalizeRound

/-- The function `revealRemainingTilesAndFinalize()`. -/
def revealRemainingTilesAndFinalize (a : App) : App :=
  if a.vars.roundActive = false ∨ a.vars.selectionPending = true then a
  else (a.markManualRoundForReset.withGame fun g => g.revealRemainingTiles []).finalizeRound

/-- The function `handleScratchButtonClick()`. -/
def handleScratchButtonClick (a : App) : App :=
  if a.vars.controlPanelMode ≠ .manual then a else a.revealRemainingTilesAndFinalize

/-- The function `handleBetButtonClick()`. -/
def handleBetButtonClick (a : App) : App :=
  match a.vars.betButtonMode with
  | .cashout => a.handleCashout
  | .scratch => a.handleScratchButtonClick
  | .bet =>
    if a.vars.demoMode = true ∨ a.vars.suppressRelay = true then
      let picked := a.determineDemoBetResult
      picked.2.handleBet picked.1
    else a.handleBet "lost"

/-- The body shared by the sweep timer, `revealSelectedCard` and
`revealAutoSelections`: `rules.revealResult(...)` then `revealCard(card,
outcome.face)`. -/
def revealTile (g : Game) (card : Card) (result : Face) : Game :=
  let outcome := g.rules.revealResult card.row card.col result
  Game.revealCard { g with rules := outcome.2 } card.id outcome.1.face

/-- The body of the callback of a sweep timer, up to, not including, its
`notifyStateChange()`; the flag tells whether that call is reached. -/
def sweepTimerBody (g : Game) (timer : SweepTimer) : Bool × Game :=
  let g₁ : Game :=
    ({ g with
      timers := g.timers.filter fun t => t.handle ≠ timer.handle
      handles := g.handles.filter fun h => h ≠ timer.handle } : Game).modifyCard timer.cardId
      fun c => { c with autoRevealTimer := none, autoRevealScheduled := false }
  match g₁.findCard timer.cardId with
  | none => (false, g₁)
  | some card =>
    if card.destroyed ∨ card.revealed then (false, g₁)
    else (true, revealTile g₁ card timer.assignedFace)

/-- The callback of a sweep timer of `revealRemainingTiles` runs. -/
def fireSweepTimer (a : App) (handle : Nat) : App :=
  match a.game with
  | none => a
  | some g =>
    match g.timers.find? fun t => t.handle = handle with
    | none => a
    | some timer =>
      let result := sweepTimerBody g timer
      let a₁ : App := { a with game := some result.2 }
      if result.1 then a₁.notifyStateChange else a₁

/-- The flip tween of a card completes (an event of the renderer). -/
def finishFlight (a : App) (flight : Flight) : App :=
  a.withGame fun g => g.finishFlight flight

/-- The call `game?.revealSelectedCard?.(contentKey)`. -/
def revealSelectedCard (a : App) (contentKey : Face) : App :=
  match a.game with
  | none => a
  | some g =>
    match g.rules.selectedTile with
    | none => a
    | some selection =>
      match g.cardAt selection.1 selection.2 with
      | none => a
      | some card =>
        if card.revealed then a
        else
          let resolvedContent : Face :=
            contentKey.orElse fun _ =>
              ((JsMap.get g.currentAssignments (getCardKey selection.1 selection.2)).join).orElse
                fun _ => card.assignedContent
          let g₁ := revealTile g card resolvedContent
          ({ a with game := some { g₁ with rules := g₁.rules.clearSelection } }
            : App).notifyStateChange

/-- The function `handleCardSelected(selection)`, the `onCardSelected` of the
game. -/
def handleCardSelected (a : App) (row col : Int) : App :=
  if a.vars.roundActive = false then a
  else if a.vars.controlPanelMode = .auto then a
  else
    let a₁ :=
      if a.vars.minesSelectionLocked = false then
        (a.setVars fun v => { v with minesSelectionLocked := true }).setControlPanelMinesState false
      else a
    let a₂ := a₁.beginSelectionDelay
    if a₂.vars.demoMode = false ∧ a₂.vars.suppressRelay = false then
      a₂.sendRelayMessage "game:manual-selection" (.selection row col)
    else
      let contentKey : Face :=
        (JsMap.get a₂.vars.currentRoundAssignments (roundKey row col)).join
      (a₂.setVars fun v => { v with selectionDelayHandle := none, selectionPending := false
        }).revealSelectedCard contentKey

/-- The function `handleCardTap(card)` of the game, with `enterWaitingState`
inlined: select the tile, start the wiggle (a tween, unless animations are
disabled), call `onCardSelected`, notify. -/
def handleCardTap (a : App) (id : Nat) : App :=
  match a.game with
  | none => a
  | some g =>
    match g.findCard id with
    | none => a
    | some card =>
      if card.revealed ∨ card.animating ∨ g.rules.gameOver then a
      else if a.vars.controlPanelMode = .auto then a
      else if g.rules.waitingForChoice then a
      else
        let g₁ := g.modifyCard id fun c => { c with taped := true }
        let g₂ : Game := { g₁ with rules := g₁.rules.selectTile card.row card.col }
        let g₃ :=
          if g₂.wiggleSelectionEnabled = false ∨ g₂.disableAnimations = true then g₂
          else g₂.modifyCard id fun c => { c with animating := true, wiggling := true }
        (({ a with game := some g₃ } : App).handleCardSelected card.row card.col).notifyStateChange

/-- The wiggle tween of a card completes (an event of the renderer). -/
def finishWiggle (a : App) (id : Nat) : App :=
  a.withGame fun g =>
    g.modifyCard id fun c =>
      if c.wiggling then { c with animating := false, wiggling := false } else c

/-- The call `game?.selectRandomTile?.()`. -/
def selectRandomTile (a : App) : App :=
  match a.game with
  | none => a
  | some g =>
    let candidates := g.cards.filter fun card =>
      !(card.revealed || card.animating || card.destroyed || card.randomSelectionPending)
        && !(match g.rules.selectedTile with
            | some selection => decide (card.row = selection.1 ∧ card.col = selection.2)
            | none => false)
    if candidates.length = 0 then a
    else
      let draw := randomIndex a.rng candidates.length
      match candidates[draw.1]? with
      | none => { a with rng := draw.2 }
      | some card =>
        let g₁ := g.modifyCard card.id fun c => { c with randomSelectionPending := true }
        ({ a with game := some g₁, rng := draw.2 } : App).handleCardTap card.id

/-- The function `handleRandomPickClick()`. -/
def handleRandomPickClick (a : App) : App :=
  if a.vars.roundActive = false ∨ a.vars.selectionPending = true then a else a.selectRandomTile

/-- The `modechange` listener, `nextMode` being the normalized `event.detail.mode`. -/
def handleModeChange (a : App) (nextMode : Mode) : App :=
  let previousMode := a.vars.controlPanelMode
  if nextMode = previousMode then a
  else
    let a₁ :=
      if a.vars.autoRunActive = true ∧ nextMode ≠ .auto then a.stopAutoBetProcess "user" false
      else a
    let a₂ := a₁.setVars fun v => { v with controlPanelMode := nextMode }
    if nextMode = .auto then
      let a₃ :=
        if previousMode = .manual then
          let a₄ := if a₂.vars.roundActive then a₂.finalizeRound else a₂
          if a₄.vars.manualRoundNeedsReset then
            a₄.gameReset.setVars fun v => { v with manualRoundNeedsReset := false }
          else a₄
        else a₂
      let a₅ := (a₃.setControlPanelRandomState false).setGameBoardInteractivity false
      if a₅.vars.autoRunActive = false then a₅.setControlPanelAutoStartState true else a₅
    else
      let a₃ := a₂.setControlPanelAutoStartState false
      if previousMode = .auto then
        (((a₃.gameReset.setVars fun v => { v with manualRoundNeedsReset := false
          }).setGameBoardInteractivity false).setControlPanelRandomState
            false).setControlPanelBetState true
      else
        let a₄ := a₃.setGameBoardInteractivity true
        if a₄.vars.roundActive = false then a₄.setControlPanelRandomState true else a₄

/-- The `numberofbetschange` listener; `value` are the digits in the input
when the panel dispatches the event, `event.detail.value` is what
`getNumberOfBetsValue()` reads from them. -/
def handleNumberOfBetsChange (a : App) (value : Nat) : App :=
  let a₁ :=
    if a.vars.autoRunActive = false then
      a.setVars fun v => { v with autoRemainingBets := readNumberOfBets value }
    else a
  a₁.sendRelayMessage "control:number-of-bets" .empty

/-- One turn of the loop of `revealAutoSelections(results)` for an entry that
is an object. The card is looked up by the key `${entry.row},${entry.col}`, so
by the integers that `String(entry.row)` and `String(entry.col)` name;
`rules.revealResult` is given `entry.row` and `entry.col` and builds the same
key, which is the key of the card found. -/
def revealAutoEntry (g : Game) (entry : ResultEntry) : Game :=
  match entry.row.index, entry.col.index with
  | some row, some col =>
    match g.cardAt row col with
    | none => g
    | some card =>
      if card.revealed then g
      else
        revealTile g card
          (entry.contentKey.orElse fun _ =>
            (JsMap.get g.currentAssignments (getCardKey row col)).join)
  | _, _ => g

/-- The loop of `revealAutoSelections(results)`: the state when the loop is
left, and the `TypeError` that `entry.row` throws on an entry that is `null` or
`undefined`, if the loop meets one. -/
def revealAutoEntries (g : Game) : List (Option ResultEntry) → Game × Option JsError
  | [] => (g, none)
  | none :: _ => (g, some .typeError)
  | some entry :: rest => revealAutoEntries (revealAutoEntry g entry) rest

/-- The call `game?.revealAutoSelections?.(results)` on an array: the loop, and
`notifyStateChange()` unless the loop threw. -/
def revealAutoSelections (a : App) (results : List (Option ResultEntry)) :
    App × Option JsError :=
  match a.game with
  | none => (a, none)
  | some g =>
    let result := revealAutoEntries g results
    let a₁ : App := { a with game := some result.1 }
    match result.2 with
    | some error => (a₁, some error)
    | none => (a₁.notifyStateChange, none)

/-- The function `applyServerReveal(payload)`. -/
def applyServerReveal (a : App) (payload : ResultEntry) : App :=
  let a₁ := a.clearSelectionDelay.setVars fun v => { v with selectionPending := false }
  let a₂ : App :=
    match payload.row.numKey, payload.col.numKey with
    | some row, some col =>
      a₁.setVars fun v =>
        { v with
          currentRoundAssignments :=
            JsMap.set v.currentRoundAssignments (row, col) payload.contentKey }
    | _, _ => a₁
  a₂.revealSelectedCard payload.contentKey

/-- The loop `results.forEach(...)` of `applyAutoResultsFromServer`: an entry
whose `row` and `col` are numbers is stored (`entry?.row` is `undefined` on an
entry that is `null` or `undefined`). -/
def storeAutoResults (m : JsMap RoundKey Face) (entries : List (Option ResultEntry)) :
    JsMap RoundKey Face :=
  entries.foldl
    (fun m entry =>
      match entry with
      | some e =>
        match e.row.numKey, e.col.numKey with
        | some row, some col => JsMap.set m (row, col) e.contentKey
        | _, _ => m
      | none => m)
    m

/-- The function `applyAutoResultsFromServer(results)`; `none` is a payload
whose `results` is not an array. The exception is the one of
`game.revealAutoSelections`, if it throws. -/
def applyAutoResultsFromServer (a : App) (results : Option (List (Option ResultEntry))) :
    App × Option JsError :=
  let a₁ := a.clearSelectionDelay.setVars fun v => { v with selectionPending := false }
  match results with
  | none => (a₁, none)
  | some [] => (a₁, none)
  | some entries =>
    let a₂ := a₁.setVars fun v =>
      { v with currentRoundAssignments := storeAutoResults v.currentRoundAssignments entries }
    a₂.revealAutoSelections entries

/-- The function `withRelaySuppressed(callback)`. The callback is given by what
it does to the state and by the exception it throws, if any (`none`: it
returns); the `finally` block runs either way, and the exception, if any,
leaves the function. -/
def withRelaySuppressed {ε : Type} (a : App) (callback : App → App × Option ε) :
    App × Option ε :=
  let result := callback (a.setVars fun v => { v with suppressRelay := true })
  (result.1.setVars fun v => { v with suppressRelay := false }, result.2)

/-- The `switch` of the `incoming` listener of the relay: the state it leaves
and the exception it throws, if any. -/
def dispatchIncoming (a : App) (message : Inbound) : App × Option JsError :=
  match message with
  | .startBet => (a.performBet.setControlPanelRandomState true, none)
  | .betResult payload => (a.applyServerReveal payload, none)
  | .autoBetResult results => a.applyAutoResultsFromServer results
  | .stopAutobet reason completed => (a.stopAutoBetProcess (reason.getD "user") completed, none)
  | .finalizeBet => (a.finalizeRound, none)
  | .cashout =>
    (if a.vars.roundActive = true ∧ a.vars.cashoutAvailable = true then a.handleCashout else a,
      none)
  | .profitUpdate => (a, none)
  | .other _ => (a, none)

/-- The `incoming` listener of the relay: the `switch` runs inside
`withRelaySuppressed`. The state is the one the listener leaves, whether it
returns or throws (`dispatchEvent` reports the exception of a listener and goes
on). -/
def handleIncoming (a : App) (message : Inbound) : App :=
  (withRelaySuppressed a fun b => b.dispatchIncoming message).1

/-- The exception that leaves the `incoming` listener, if any. -/
def incomingError (a : App) (message : Inbound) : Option JsError :=
  (withRelaySuppressed a fun b => b.dispatchIncoming message).2

end App

/-- The control panel as its constructor leaves it, with the number typed in
the number-of-bets input. -/
def Panel.initial (numberOfBets : Nat) : Panel :=
  { betButtonMode := .bet, betButtonState := true, randomPickState := true,
    autoStartButtonState := true, autoStartButtonMode := .start, minesSelectState := true,
    modeToggleClickable := true, betControlsClickable := true, numberOfBetsClickable := true,
    advancedToggleClickable := true, advancedStrategyControlsClickable := true,
    stopOnProfitClickable := true, stopOnLossClickable := true,
    numberOfBetsValue := readNumberOfBets numberOfBets }

namespace App

/-- The module variables as their declarations initialize them. -/
def initial : App :=
  { vars :=
      { demoMode := true, suppressRelay := false, betButtonMode := .bet, roundActive := false,
        cashoutAvailable := false, lastKnownGameState := none, selectionDelayHandle := none,
        selectionPending := false, minesSelectionLocked := false, controlPanelMode := .manual,
        autoRunActive := false, autoRoundInProgress := false, autoResetTimer := none,
        autoStopPending := false, autoRemainingBets := 0, manualRoundNeedsReset := false,
        availableCardTypes := [], currentBetResult := none, currentRoundAssignments := [],
        autoResetDelayMs := 1000 },
    game := none, controlPanel := none, boardInteractive := true, revealAllTimers := 0,
    sent := [], rng := [], finalizeCalls := 0, autoStarts := 0 }

/-- The application once the start-up code of `main.js` has run: the control
panel is built and `finalizeRound()` called, then the game is created with the
options of `main.js` (flip 300 ms, sweep interval 40 ms, auto reset 1000 ms)
and its content keys become `availableCardTypes`. -/
def boot (contentKeys : List String) (numberOfBets : Nat) (disableAnimations : Bool)
    (rng : Rng) : App :=
  let a₁ : App := { initial with controlPanel := some (Panel.initial numberOfBets), rng := rng }
  let a₂ := a₁.finalizeRound
  ({ a₂ with game := some (Game.create disableAnimations 300 40 1000 true contentKeys) }
    : App).setVars fun v => { v with availableCardTypes := contentKeys, autoResetDelayMs := 1000 }

end App

namespace App

/-- A manual round in demo mode right after the bet button was clicked. -/
def manualRoundStarted : App :=
  (boot ["A", "B"] 0 false [7, 3, 5, 1, 2, 0, 2, 1, 0, 1, 0, 1, 1, 0, 1, 1]).handleBetButtonClick

/-- A relay-mode round in auto mode without an auto run: the panel was switched
to auto, then an inbound `start-bet` started the round. -/
def autoModeRoundStarted : App :=
  (((boot ["A", "B"] 0 false []).setVars fun v => { v with demoMode := false }).handleModeChange
    .auto).handleIncoming .startBet

end App

/-- The variables that steer an auto-bet run: `demoMode`, `suppressRelay`,
`controlPanelMode`, `autoRunActive`, `autoRemainingBets`, `autoResetTimer`,
`autoResetDelayMs`, `autoStopPending`. -/
def Vars.run (v : Vars) : Bool × Bool × Mode × Bool × Nat × Option Nat × Nat × Bool :=
  (v.demoMode, v.suppressRelay, v.controlPanelMode, v.autoRunActive, v.autoRemainingBets,
    v.autoResetTimer, v.autoResetDelayMs, v.autoStopPending)

namespace App

/-- An auto-bet run seen from the game: each state of the list is a
notification that ends the round in flight, and the timer of
`scheduleNextAutoBetRound`, when one is pending, fires after it. -/
def autoRounds (a : App) : List RulesState → App
  | [] => a
  | st :: rest => autoRounds ((a.handleGameStateChange st).fireAutoResetTimer) rest

end App

namespace App

/-- The application in demo mode with the panel switched to auto and 3 typed in
the number-of-bets input. -/
def autoReady : App :=
  (boot ["A", "B"] 3 false [7, 3, 5, 1, 2, 0, 2, 1, 0, 1, 0, 1, 1, 0, 1, 1]).handleModeChange .auto

/-- The state a game reports when its last tile has been revealed. -/
def allRevealed : RulesState :=
  { grid := 3, totalTiles := 9, revealed := 9, gameOver := true, waitingForChoice := false,
    selectedTile := none }

end App

namespace App

/-- The state of a running demo auto-bet run while a round is in flight, with
`remaining` bets left on the counter. -/
def Running (remaining delay : Nat) (b : App) : Prop :=
  b.vars.demoMode = true ∧ b.vars.controlPanelMode = .auto ∧ b.vars.autoRunActive = true ∧
    b.vars.roundActive = true ∧ b.vars.autoRemainingBets = remaining ∧
    b.vars.autoResetDelayMs = delay

end App

namespace App

/-- The function `setDemoMode(value)` and the `demomodechange` listener of the
relay, which act alike on the module variables. -/
def handleDemoModeChange (a : App) (value : Bool) : App :=
  if a.vars.demoMode = value then a
  else
    let a₁ := a.setVars fun v => { v with demoMode := value }
    if value then a₁.clearSelectionDelay else a₁

/-- The `animationschange` listener: `game.setAnimationsEnabled(enabled)`. -/
def handleAnimationsChange (a : App) (enabled : Bool) : App :=
  a.withGame fun g => { g with disableAnimations := !enabled }

/-- The listeners that only relay the change of a control (`betvaluechange`,
`mineschanged`, whose `game.setMines` is empty, `strategychange`,
`strategyvaluechange`, `stoponprofitchange`, `stoponlosschange`). -/
def handleControlChange (a : App) (type : String) : App :=
  a.sendRelayMessage type .empty

end App

/-- What can happen to the application once it runs: a click or change on the
control panel, a tap on a card, an inbound relay message, a timer callback, the
completion of a tween, a state notification of the game. -/
inductive Event where
  | betClick
  | randomPickClick
  | startAutobetClick
  | modeChange (mode : Mode)
  | numberOfBetsChange (value : Nat)
  | cardTap (id : Nat)
  | incoming (message : Inbound)
  | autoResetTimer
  | revealAllTimer
  | sweepTimer (handle : Nat)
  | flightDone (flight : Flight)
  | wiggleDone (id : Nat)
  | stateChange (state : RulesState)
  | demoModeChange (value : Bool)
  | animationsChange (enabled : Bool)
  | controlChange (type : String)
  deriving DecidableEq, Repr

namespace App

/-- The listener or callback that an event runs. -/
def step (a : App) : Event → App
  | .betClick => a.handleBetButtonClick
  | .randomPickClick => a.handleRandomPickClick
  | .startAutobetClick => a.handleStartAutobetClick
  | .modeChange mode => a.handleModeChange mode
  | .numberOfBetsChange value => a.handleNumberOfBetsChange value
  | .cardTap id => a.handleCardTap id
  | .incoming message => a.handleIncoming message
  | .autoResetTimer => a.fireAutoResetTimer
  | .revealAllTimer => a.fireRevealAllTimer
  | .sweepTimer handle => a.fireSweepTimer handle
  | .flightDone flight => a.finishFlight flight
  | .wiggleDone id => a.finishWiggle id
  | .stateChange state => a.handleGameStateChange state
  | .demoModeChange value => a.handleDemoModeChange value
  | .animationsChange enabled => a.handleAnimationsChange enabled
  | .controlChange type => a.handleControlChange type

/-- A sequence of events, left to right. -/
def run (a : App) (events : List Event) : App :=
  events.foldl step a

/-- Whether the browser delivers the event: a click needs its button enabled
(`disabled` is set by the `set...State` / `set...Clickable` methods of the
panel), anything else is always delivered. -/
def delivered (a : App) : Event → Bool
  | .betClick => a.controlPanel.any fun p => p.betButtonState
  | .randomPickClick => a.controlPanel.any fun p => p.randomPickState
  | .startAutobetClick => a.controlPanel.any fun p => p.autoStartButtonState
  | .modeChange _ => a.controlPanel.any fun p => p.modeToggleClickable
  | .numberOfBetsChange _ => a.controlPanel.any fun p => p.numberOfBetsClickable
  | _ => true

/-- A stop of the auto-bet run is pending on the round in flight: the flag is
set, the round is active and the auto-start button, when there is a panel, is
labelled as finishing. -/
def StopPending (a : App) : Prop :=
  a.vars.autoStopPending = true ∧ a.vars.roundActive = true ∧
    (a.autoStartLabel = none ∨ a.autoStartLabel = some .finish)

/-- From `a` to `b` neither ghost counter went down, and if neither went up
(no `finalizeRound` ran, no auto-bet run was started) a pending stop is still
pending. -/
def Holds (a b : App) : Prop :=
  a.finalizeCalls ≤ b.finalizeCalls ∧ a.autoStarts ≤ b.autoStarts ∧
    (b.finalizeCalls = a.finalizeCalls → b.autoStarts = a.autoStarts →
      StopPending a → StopPending b)

/-- An auto-bet run in demo mode, its first round in flight. -/
def autoRunning : App := autoReady.startAutoBetProcess

end App


namespace App

/-- A round of demo play prepared for a win over the catalog `['A','B']`:
the application is started with animations enabled and `handleBet('win')` run,
which goes through `prepareScratchRound` and `setRoundAssignments`; `rng` are
the draws of the generator. -/
def preparedRound (rng : Rng) : App :=
  (boot ["A", "B"] 0 false rng).handleBet "win"

end App

/-- What happens to the game while tiles that carry the winning key are being
revealed: the reveal of a tile is issued through `revealCard`, or a running
flip completes. -/
inductive PlayStep where
  | issue (id : Nat)
  | complete (flight : Flight)
  deriving DecidableEq, Repr

/-- The ids of the tiles whose reveal the steps issue, in order. -/
def PlayStep.issued : List PlayStep → List Nat
  | [] => []
  | .issue id :: rest => id :: PlayStep.issued rest
  | .complete _ :: rest => PlayStep.issued rest

namespace Game

/-- One step on the game; a reveal is issued with face `key`. -/
def play (key : Face) (g : Game) : PlayStep → Game
  | .issue id => g.revealCard id key
  | .complete flight => g.finishFlight flight

/-- The steps in order, the reveals being issued with the winning key. -/
def playAll (g : Game) (steps : List PlayStep) : Game :=
  steps.foldl (play g.outcome.winningKey) g

/-- The ids of the tiles that carry the winning key of the round. -/
def winningIds (g : Game) : List Nat :=
  (g.cards.filter fun c => decide (c.assignedContent = g.outcome.winningKey)).map Card.id

/-- The sweep expected of the reveal of tile `exclude`: one timer for every
tile of `scene.cards`, in that order, whose flip has not completed and which is
not `exclude`, the timers `revealAllIntervalDelay` apart, each to reveal the
face assigned to its tile. -/
def expectedSweep (g : Game) (exclude : Nat) : List SweepTimer :=
  ((g.cards.filter fun c => !c.revealed && !decide (c.id = exclude)).enum).map fun item =>
    { handle := g.nextHandle + item.1, delay := g.revealAllIntervalDelay * item.1,
      cardId := item.2.id, row := item.2.row, col := item.2.col,
      assignedFace := item.2.assignedContent }

/-- The state of a round on its way to the sweep: `g` is the round prepared as
`g₀` after the reveals of the tiles `issued`, which carry the winning key `w`,
have been issued with animations enabled and some of their flips have
completed. Nothing is scheduled, the tiles are those of `g₀`, a tile is
revealed only if its reveal was issued, and the running flips are those of the
issued tiles that are not revealed yet. -/
structure Issuing (g₀ g : Game) (w : String) (issued : List Nat) : Prop where
  timers : g.timers = []
  detached : g.detached = []
  animations : g.disableAnimations = false
  flip : g.flipDuration ≠ 0
  delay : g.revealAllIntervalDelay = g₀.revealAllIntervalDelay
  nextHandle : g.nextHandle = g₀.nextHandle
  keys : w ∈ g.contentKeys
  assignments : g.currentAssignments = g₀.currentAssignments
  betResult : g.outcome.betResult = some "win"
  winningKey : g.outcome.winningKey = some w
  required : g.outcome.winningCountRequired = g₀.outcome.winningCountRequired
  untriggered : g.outcome.autoRevealTriggered = false
  engaged : g.outcome.revealedWinning + g.outcome.pendingWinningReveals = issued.length
  pending : g.outcome.pendingWinningReveals = g.flights.length
  board : g.cards.map (fun c => (c.id, c.row, c.col, c.assignedContent))
    = g₀.cards.map fun c => (c.id, c.row, c.col, c.assignedContent)
  atRest : ∀ c ∈ g.cards, c.destroyed = false ∧ c.animating = false ∧
    c.autoRevealScheduled = false ∧ c.autoRevealTimer = none
  revealed : ∀ c ∈ g.cards, c.revealed = true → c.id ∈ issued
  flying : ∀ c ∈ g.cards, c.id ∈ issued → c.revealed = false →
    ({ cardId := c.id, key := some w } : Flight) ∈ g.flights
  flights : ∀ f ∈ g.flights, f.key = some w ∧ f.cardId ∈ issued ∧
    ∀ c ∈ g.cards, c.id = f.cardId → c.pendingWinningReveal = true
  distinct : (g.flights.map Flight.cardId).Nodup

/-- The tiles that `revealRemainingTiles({ exclude })` filters out of
`scene.cards`: not revealed, not destroyed, not animating, not scheduled, not
excluded. -/
def eligible (g : Game) (exclude : List Nat) : List Card :=
  g.cards.filter fun card =>
    !card.revealed && !card.destroyed && !card.animating && !card.autoRevealScheduled
      && !decide (card.id ∈ exclude)

/-- The timers that a sweep over `ordered` adds to the game: the `index`-th
tile gets the next free handle, the delay `revealAllIntervalDelay * index` (0
when animations are disabled) and the content assigned to its position, `null`
when there is none. -/
def sweepTimers (g : Game) (ordered : List Card) : List SweepTimer :=
  ordered.enum.map fun item =>
    { handle := g.nextHandle + item.1,
      delay := if g.disableAnimations then 0 else g.revealAllIntervalDelay * item.1,
      cardId := item.2.id, row := item.2.row, col := item.2.col,
      assignedFace := (JsMap.get g.currentAssignments (getCardKey item.2.row item.2.col)).join }

/-- What holds of the bookkeeping of the auto-reveal timers in every state of
the game. The cards are distinct objects, with ids below the next id; a card
that is not marked `_autoRevealScheduled` has no `_autoRevealTimer` (the two
fields are always written together); every pending timer is the one its card
remembers; `scheduledAutoRevealTimers` holds the handles of the pending
timers, which are distinct and were issued before; and a sweep in progress
means `autoRevealTriggered` is set (`revealRemainingTiles` sets it before it
schedules, `resetRoundOutcome` clears it and cancels the timers). -/
structure Sound (g : Game) : Prop where
  ids : ((g.cards ++ g.detached).map Card.id).Nodup
  cardIds : ∀ c ∈ g.cards ++ g.detached, c.id < g.nextCardId
  flags : ∀ c ∈ g.cards ++ g.detached, c.autoRevealScheduled = false → c.autoRevealTimer = none
  owners : ∀ t ∈ g.timers, ∃ c ∈ g.cards ++ g.detached,
    c.id = t.cardId ∧ c.autoRevealTimer = some t.handle
  handles : g.handles = g.timers.map SweepTimer.handle
  distinct : (g.timers.map SweepTimer.handle).Nodup
  fresh : ∀ t ∈ g.timers, t.handle < g.nextHandle
  triggered : g.isAutoRevealInProgress = true → g.outcome.autoRevealTriggered = true

/-- A round as `setRoundAssignments` leaves it on a fresh board for a win with
key `w`: nothing issued yet, the tiles of `scene.cards` in row-major order with
distinct ids, each with the face assigned to its position, and the required
count equal to the number of tiles that carry `w`. -/
structure Prepared (g₀ : Game) (w : String) : Prop where
  start : Issuing g₀ g₀ w []
  ids : (g₀.cards.map Card.id).Nodup
  positions : g₀.cards.map (fun c => (c.row, c.col))
    = createCardPositions.map fun p => (p.row, p.col)
  faces : ∀ c ∈ g₀.cards,
    (JsMap.get g₀.currentAssignments (getCardKey c.row c.col)).join = c.assignedContent
  count : g₀.outcome.winningCountRequired = g₀.winningIds.length

/-- The block of `handleCardRevealComplete` that counts the reveal: a reveal
of the winning key of a 'win' round is added to `revealedWinning` and to
`winningCards`, and the win frames are marked as shown once the required count
is reached. -/
def countReveal (o : RoundOutcome) (id : Nat) (payloadKey : Face) : RoundOutcome :=
  let o₁ :=
    if o.betResult = some "win" ∧ o.winningKey ≠ none ∧ payloadKey ≠ none
        ∧ payloadKey = o.winningKey then
      { o with
        revealedWinning := o.revealedWinning + 1
        winningCards := if id ∈ o.winningCards then o.winningCards else o.winningCards ++ [id] }
    else o
  let reachedWinningThreshold : Bool :=
    decide (o₁.betResult = some "win" ∧ o₁.winningCountRequired > 0
      ∧ o₁.revealedWinning ≥ o₁.winningCountRequired)
  if reachedWinningThreshold = true ∧ o₁.winFramesShown = false ∧ o₁.winningCards.length > 0
  then { o₁ with winFramesShown := true }
  else o₁

/-- The block of `handleCardRevealComplete` that settles the pending winning
reveal of the card. -/
def settlePending (g₁ : Game) (id : Nat) (card : Card) (o₂ : RoundOutcome) : Game :=
  if card.pendingWinningReveal then
    ({ g₁ with outcome := { o₂ with pendingWinningReveals := o₂.pendingWinningReveals - 1 } }
      : Game).modifyCard id fun c => { c with pendingWinningReveal := false }
  else { g₁ with outcome := o₂ }

/-- The block of `handleCardRevealComplete` that starts the sweep when the
required count of winning tiles is revealed and tiles are left. -/
def sweepWhenDue (g₂ : Game) : Game :=
  let state := g₂.rules.getState
  if g₂.outcome.betResult = some "win" ∧ g₂.outcome.autoRevealTriggered = false
      ∧ g₂.outcome.winningKey ≠ none ∧ g₂.outcome.winningCountRequired > 0
      ∧ g₂.outcome.revealedWinning ≥ g₂.outcome.winningCountRequired
      ∧ state.revealed < state.totalTiles then
    revealRemainingTiles
      { g₂ with outcome := { g₂.outcome with autoRevealTriggered := true } } []
  else g₂

/-- The last block of `handleCardRevealComplete`, the round-finished feedback:
the latch `feedbackPlayed`, the win highlight (here the emptied `winningCards`)
and the win or lose sound. -/
def feedbackBlock (g₃ : Game) (allCardsRevealed : Bool) : Game :=
  let animationsCompleted : Bool := decide (g₃.outcome.pendingReveals ≤ 0)
  if g₃.outcome.feedbackPlayed = false ∧ allCardsRevealed = true ∧ animationsCompleted = true then
    { g₃ with
      outcome := { g₃.outcome with feedbackPlayed := true, winningCards := [] }
      feedbackSounds :=
        match g₃.outcome.soundKey with
        | some name => g₃.feedbackSounds ++ [name]
        | none => g₃.feedbackSounds }
  else g₃

/-- What happens to the game within one round, between two calls of
`resetRoundOutcome`: a tile is revealed (`rules.revealResult` then
`revealCard`, the body shared by the timers, `revealSelectedCard` and
`revealAutoSelections`), a running flip completes, a sweep timer fires,
`revealRemainingTiles` is called, or the animations are switched. -/
inductive RoundStep where
  | reveal (id : Nat) (result : Face)
  | complete (flight : Flight)
  | timer (handle : Nat)
  | sweep (exclude : List Nat)
  | animations (enabled : Bool)
  deriving DecidableEq, Repr

/-- One step of a round. -/
def roundStep (g : Game) : RoundStep → Game
  | .reveal id result =>
    match g.findCard id with
    | some card => App.revealTile g card result
    | none => g
  | .complete flight => g.finishFlight flight
  | .timer handle =>
    match g.timers.find? fun t => t.handle = handle with
    | some timer => (App.sweepTimerBody g timer).2
    | none => g
  | .sweep exclude => g.revealRemainingTiles exclude
  | .animations enabled => { g with disableAnimations := !enabled }

/-- A sequence of steps of a round. -/
def roundRun (g : Game) (steps : List RoundStep) : Game :=
  steps.foldl roundStep g

/-- The steps of a round of `demoRound` in which the animations are switched
off while a flip is running: the reveals of the eight tiles other than tile 12
are issued, the flips complete except that of tile 9, then the animations are
switched off. -/
def flipOfNineRunning : List RoundStep :=
  [.reveal 9 (some "A"), .reveal 13 (some "A"), .reveal 14 (some "A"), .reveal 15 (some "A"),
    .reveal 16 (some "A"), .reveal 17 (some "A"), .reveal 10 (some "B"), .reveal 11 (some "B"),
    .complete { cardId := 13, key := some "A" }, .complete { cardId := 14, key := some "A" },
    .complete { cardId := 15, key := some "A" }, .complete { cardId := 16, key := some "A" },
    .complete { cardId := 17, key := some "A" }, .complete { cardId := 10, key := some "B" },
    .complete { cardId := 11, key := some "B" }, .animations false]

/-- The invariant `Sound` as a test that can be evaluated. -/
def soundCheck (g : Game) : Bool :=
  decide ((g.cards ++ g.detached).map Card.id).Nodup
    && (g.cards ++ g.detached).all (fun c => decide (c.id < g.nextCardId))
    && (g.cards ++ g.detached).all (fun c => c.autoRevealScheduled || c.autoRevealTimer.isNone)
    && g.timers.all (fun t => (g.cards ++ g.detached).any fun c =>
        decide (c.id = t.cardId) && decide (c.autoRevealTimer = some t.handle))
    && decide (g.handles = g.timers.map SweepTimer.handle)
    && decide ((g.timers.map SweepTimer.handle).Nodup)
    && g.timers.all (fun t => decide (t.handle < g.nextHandle))
    && (!g.isAutoRevealInProgress || g.outcome.autoRevealTriggered)

/-- The game of `App.preparedRound []`: a win round over the catalog
`['A','B']` with animations enabled; the winning key `B` is on the tiles 10, 11
and 12. -/
def demoRound : Game :=
  (App.preparedRound []).game.getD (Game.create false 300 40 1000 true ["A", "B"])

/-- The round `demoRound` after `revealCard` was called on the tiles 10 and 11:
two of the three tiles that carry the winning key are engaged, their flips are
running, nothing is scheduled. -/
def twoIssued : Game :=
  (demoRound.revealCard 10 (some "B")).revealCard 11 (some "B")

/-- The round `demoRound` with the animations switched off, after `revealCard`
was called on tile 10: the tile is revealed, its completion has run inside
`card.reveal`, and the reveal is counted both in `revealedWinning` and in
`pendingWinningReveals`. -/
def oneInstant : Game :=
  ({ demoRound with disableAnimations := true } : Game).revealCard 10 (some "B")

/-- The round `demoRound` after `revealCard` was called on the tiles 10, 11 and
12 back to back: the third call started the sweep with tile 12 excluded, the
three flips are still running. -/
def sweepRunning : Game :=
  ((demoRound.revealCard 10 (some "B")).revealCard 11 (some "B")).revealCard 12 (some "B")

end Game

/-- Whether the loop over `positions` from `st` ever takes the fallback
`pool = cardTypes`: at some step the `filter` leaves no type under its cap. -/
def usesFallback (cardTypes : List Face) (cap : Face → Nat) : List Position → GenState → Bool
  | [], _ => false
  | p :: rest, st =>
    (cardTypes.filter fun type => decide (countOf st.counts type < cap type)).isEmpty
      || usesFallback cardTypes cap rest (assignStep cardTypes cap st p)

/-- Whether `generateScratchCardAssignments('lost')` ever takes the fallback,
for the catalog and the draws given. -/
def lostUsesFallback (availableCardTypes : List String) (rng : Rng) : Bool :=
  usesFallback (cardTypesOf availableCardTypes) (fun _ => 2)
    (shuffleArray createCardPositions rng).1
    { assignments := []
      counts := JsMap.ofEntries ((cardTypesOf availableCardTypes).map fun key => (key, 0))
      rng := (shuffleArray createCardPositions rng).2 }

/-- An entry that takes its key to more than `cap` occurrences was pushed when
every type of `cardTypes` had reached its cap: `assignments.take i` are the
entries pushed before the `i`-th. -/
def OverCapOnlyWhenFull (cardTypes : List Face) (cap : Face → Nat)
    (assignments : List Entry) : Prop :=
  ∀ (i : Nat) (e : Entry), assignments[i]? = some e →
    cap e.contentKey ≤ occurrences e.contentKey (assignments.take i) →
    ∀ k ∈ cardTypes, cap k ≤ occurrences k (assignments.take i)

namespace GameRules

/-- Whether a call of a round names a tile of the `n` x `n` grid: the `row`
and `col` of a `revealResult` are integers from 0 to `n - 1`. -/
def inRange (n : Nat) : RoundOp → Bool
  | .revealResult row col _ => decide (0 ≤ row ∧ row < n ∧ 0 ≤ col ∧ col < n)
  | _ => true

/-- The positions that have a reveal record, in the order of their reveal. -/
def recorded (g : GameRules) : List TileKey :=
  g.revealedMap.map Prod.fst

/-- The bookkeeping of a `GameRules` instance of grid size `n`. -/
structure Counted (n : Nat) (g : GameRules) : Prop where
  distinct : g.recorded.Nodup
  count : g.revealedCount = g.recorded.length
  bound : g.revealedCount ≤ g.totalTiles
  total : g.totalTiles = n * n
  over : g.gameOver = true ↔ g.totalTiles ≤ g.revealedCount

end GameRules

namespace App

/-- From `a` to `b` the two switches of the relay are as they were,
`cashoutAvailable` has not become true, and nothing was handed to
`serverRelay.send` if the relay was muted in `a` (`demoMode` or
`suppressRelay`). -/
def Kept (a b : App) : Prop :=
  b.vars.demoMode = a.vars.demoMode ∧ b.vars.suppressRelay = a.vars.suppressRelay ∧
    (a.vars.cashoutAvailable = false → b.vars.cashoutAvailable = false) ∧
    (a.vars.demoMode = true ∨ a.vars.suppressRelay = true → b.sent = a.sent)

end App

namespace App

/-- A round of an auto-bet run in relay mode: the panel is switched to auto with
3 typed in the number-of-bets input, the run is started, and the relay answers
the round request with `start-bet`. -/
def relayAutoRound : App :=
  ((((boot ["A", "B"] 3 false []).setVars fun v => { v with demoMode := false }).handleModeChange
    .auto).startAutoBetProcess).handleIncoming .startBet

end App

namespace App

/-- The `results` of an inbound `auto-bet-result` that names every tile. -/
def allTiles : List (Option ResultEntry) :=
  [some ⟨.number 0, .number 0, some "A"⟩, some ⟨.number 0, .number 1, some "A"⟩,
   some ⟨.number 0, .number 2, some "B"⟩, some ⟨.number 1, .number 0, some "A"⟩,
   some ⟨.number 1, .number 1, some "B"⟩, some ⟨.number 1, .number 2, some "A"⟩,
   some ⟨.number 2, .number 0, some "B"⟩, some ⟨.number 2, .number 1, some "A"⟩,
   some ⟨.number 2, .number 2, some "B"⟩]

/-- The relay-mode auto round after the relay has sent the results of the
first eight tiles and the user has clicked the stop button: the eight flips
run, the stop waits for the round, and the sweep it has requested is scheduled. -/
def lastTileScheduled : App :=
  relayAutoRound.run [.incoming (.autoBetResult (some (allTiles.take 8))), .startAutobetClick]

/-- The game of `lastTileScheduled`. -/
def lastTileGame : Game :=
  lastTileScheduled.game.getD (Game.create false 300 40 1000 true ["A", "B"])

end App

namespace App

/-- A manual round played over the relay: the relay is switched on, the bet
button is clicked and answered with `start-bet`, the tile `(0, 0)` is tapped
and answered with `bet-result`, its flip completes, and the relay settles with
`finalize-bet`. -/
def afterRelayRound : App :=
  (boot ["A", "B"] 0 false [3, 5, 1]).run
    [.demoModeChange false, .betClick, .incoming .startBet, .cardTap 0,
     .incoming (.betResult ⟨.number 0, .number 0, some "A"⟩),
     .flightDone { cardId := 0, key := some "A" }, .incoming .finalizeBet]

end App

namespace App

/-- From `a` to `b` the invariant `Game.Sound` of the game is kept: if the game
of `a` is sound, so is the game of `b`. -/
def SoundKept (a b : App) : Prop :=
  (∀ g, a.game = some g → Game.Sound g) → ∀ g, b.game = some g → Game.Sound g

end App

namespace App

/-- An auto-bet run over the relay stopped by the user while its round is in
flight: the relay has answered the round request with `start-bet` and sent the
results of eight tiles, and the click on the stop button has requested the
sweep, whose timers are pending. -/
def sweepPending : App :=
  (boot ["A", "B"] 3 false []).run
    [.demoModeChange false, .modeChange .auto, .startAutobetClick, .incoming .startBet,
     .incoming (.autoBetResult (some (allTiles.take 8))), .startAutobetClick]

/-- The game of `sweepPending`. -/
def sweepPendingGame : Game :=
  sweepPending.game.getD (Game.create false 300 40 1000 true ["A", "B"])

end App

namespace Game

/-- The round `demoRound` after the tiles 10 and 11, two of the three that
carry the winning key `B`, were revealed and their flips completed, and the
animations were then switched off: `revealedWinning` is 2, no flip is running,
nothing is scheduled. -/
def twoDoneInstant : Game :=
  demoRound.roundRun
    [.reveal 10 (some "B"), .complete { cardId := 10, key := some "B" },
      .reveal 11 (some "B"), .complete { cardId := 11, key := some "B" }, .animations false]

end Game

namespace App

/-- A manual round started over the relay, no tile revealed yet: the relay is
switched on, the bet button is clicked, and the relay answers with
`start-bet`. -/
def manualRelayRound : App :=
  (boot ["A", "B"] 0 false []).run [.demoModeChange false, .betClick, .incoming .startBet]

end App

/-! ## Lemmas on maps -/

namespace JsMap

variable {κ υ : Type} [DecidableEq κ]

theorem get_set (m : JsMap κ υ) (k k' : κ) (v : υ) :
    get (set m k v) k' = if k = k' then some v else get m k' := by
  induction m with
  | nil => simp [set, get]
  | cons e rest ih =>
    obtain ⟨a, b⟩ := e
    by_cases h : a = k
    · subst h
      by_cases h' : a = k' <;> simp [set, get, h']
    · by_cases h' : a = k'
      · subst h'
        have hk : ¬ k = a := fun e => h e.symm
        simp [set, get, h, hk]
      · simp [set, get, h, h', ih]

theorem get_set_self (m : JsMap κ υ) (k : κ) (v : υ) :
    get (set m k v) k = some v := by
  simp [get_set]

end JsMap

/-! ## Theorems on GameRules -/

namespace GameRules

theorem reachable_runOps {n : Nat} {g : GameRules} (h : Reachable n g)
    (ops : List RoundOp) : Reachable n (runOps g ops) := by
  induction ops generalizing g with
  | nil => exact h
  | cons op ops ih =>
    apply ih
    cases op with
    | selectTile row col => exact Reachable.selectTile row col h
    | clearSelection => exact Reachable.clearSelection h
    | revealResult row col result => exact Reachable.revealResult row col result h
    | getState => exact h

theorem eightRevealed_reachable : Reachable 3 eightRevealed :=
  reachable_runOps (Reachable.setAssignments _ Reachable.create) _

/-- C1, as stated, fails: in a reachable 3x3 round with eight tiles revealed,
the first `revealResult(2, 2)` reveals the last hidden tile and returns face
`A` with `gameOver = true`; the second call returns face `null`. -/
theorem c1_last_tile_not_idempotent :
    Reachable 3 eightRevealed ∧
    (revealResult eightRevealed 2 2 none).1
      = { face := some "A", gameOver := true, win := false } ∧
    (revealResult (revealResult eightRevealed 2 2 none).2 2 2 none).1
      = { face := none, gameOver := true, win := false } ∧
    (revealResult (revealResult eightRevealed 2 2 none).2 2 2 none).1
      ≠ (revealResult eightRevealed 2 2 none).1 := by
  refine ⟨eightRevealed_reachable, ?_, ?_, ?_⟩ <;> decide

/-- C1, amended: two `revealResult` calls in a row for the same tile return
the same outcome whenever the first call does not end the round (it leaves
`gameOver` as it was); when the first call ends the round, the second returns
`{face: null, gameOver: true, win: false}`. Holds in every state. -/
theorem c1_revealResult_twice (g : GameRules) (row col : Int) (r₁ r₂ : Face) :
    ((revealResult g row col r₁).2.gameOver = g.gameOver →
      (revealResult (revealResult g row col r₁).2 row col r₂).1
        = (revealResult g row col r₁).1) ∧
    ((revealResult g row col r₁).2.gameOver ≠ g.gameOver →
      (revealResult (revealResult g row col r₁).2 row col r₂).1
        = { face := none, gameOver := true, win := false }) := by
  by_cases hover : g.gameOver = true
  · simp [revealResult, hover]
  · have hover' : g.gameOver = false := by simpa using hover
    cases hrec : JsMap.get g.revealedMap (getCardKey row col) with
    | some recorded => simp [revealResult, hover', hrec]
    | none =>
      by_cases hlast : g.totalTiles ≤ g.revealedCount + 1
      · simp [revealResult, hover', hrec, hlast]
      · simp [revealResult, hover', hrec, hlast, JsMap.get_set_self]

theorem applyOp_revealedCount (g : GameRules) (op : RoundOp) :
    g.revealedCount ≤ (applyOp g op).revealedCount := by
  cases op with
  | selectTile row col => simp [applyOp, selectTile]
  | clearSelection => simp [applyOp, clearSelection]
  | getState => simp [applyOp]
  | revealResult row col result =>
    simp only [applyOp, revealResult]
    split
    · exact le_refl _
    · split
      · exact le_refl _
      · simp

theorem applyOp_gameOver (g : GameRules) (op : RoundOp) (h : g.gameOver = true) :
    (applyOp g op).gameOver = true := by
  cases op with
  | selectTile row col => simpa [applyOp, selectTile] using h
  | clearSelection => simpa [applyOp, clearSelection] using h
  | getState => simpa [applyOp] using h
  | revealResult row col result => simp [applyOp, revealResult, h]

theorem runOps_revealedCount (g : GameRules) (ops : List RoundOp) :
    g.revealedCount ≤ (runOps g ops).revealedCount := by
  induction ops generalizing g with
  | nil => exact le_refl _
  | cons op ops ih => exact le_trans (applyOp_revealedCount g op) (ih (applyOp g op))

theorem runOps_gameOver (g : GameRules) (ops : List RoundOp) (h : g.gameOver = true) :
    (runOps g ops).gameOver = true := by
  induction ops generalizing g with
  | nil => exact h
  | cons op ops ih => exact ih (applyOp g op) (applyOp_gameOver g op h)

theorem runOps_append (g : GameRules) (ops₁ ops₂ : List RoundOp) :
    runOps g (ops₁ ++ ops₂) = runOps (runOps g ops₁) ops₂ := by
  simp [runOps, List.foldl_append]

/-- C2: within one round (any calls of `selectTile`, `clearSelection`,
`revealResult`, `getState` from any state `g`), between any two points of the
round, the earlier after `ops₁` and the later after `ops₁ ++ ops₂`,
`revealedCount` does not decrease and `gameOver`, once true, stays true; so
`gameOver` changes at most once, from false to true. -/
theorem c2_round_monotone (g : GameRules) (ops₁ ops₂ : List RoundOp) :
    (runOps g ops₁).revealedCount ≤ (runOps g (ops₁ ++ ops₂)).revealedCount ∧
    ((runOps g ops₁).gameOver = true → (runOps g (ops₁ ++ ops₂)).gameOver = true) ∧
    ((runOps g (ops₁ ++ ops₂)).gameOver = false → (runOps g ops₁).gameOver = false) := by
  rw [runOps_append]
  refine ⟨runOps_revealedCount _ _, runOps_gameOver _ _, ?_⟩
  intro h
  cases hg : (runOps g ops₁).gameOver with
  | false => rfl
  | true => rw [runOps_gameOver _ _ hg] at h; exact absurd h (by simp)

end GameRules

/-! ## Theorems on the assignment generator -/

theorem randomIndex_lt (rng : Rng) {n : Nat} (h : 0 < n) : (randomIndex rng n).1 < n := by
  cases rng with
  | nil => simpa [randomIndex] using h
  | cons r rest =>
    have hn : n ≠ 0 := Nat.pos_iff_ne_zero.mp h
    simp [randomIndex, hn, Nat.mod_lt _ h]

theorem swapAt_length {α : Type} (array : List α) (i j : Nat) :
    (swapAt array i j).length = array.length := by
  unfold swapAt
  split <;> simp

theorem swapAt_perm {α : Type} (array : List α) (i j : Nat) :
    (swapAt array i j).Perm array := by
  classical
  unfold swapAt
  split
  · rename_i x y hx hy
    obtain ⟨hi, rfl⟩ := List.getElem?_eq_some_iff.mp hx
    obtain ⟨hj, rfl⟩ := List.getElem?_eq_some_iff.mp hy
    rw [List.perm_iff_count]
    intro b
    have hj' : j < (array.set i array[j]).length := by simpa using hj
    rw [List.count_set _ _ _ _ hj', List.count_set _ _ _ _ hi]
    have hget : (array.set i array[j])[j] = array[j] := by
      rw [List.getElem_set]
      split <;> simp_all
    rw [hget]
    have hle : (if array[i] == b then 1 else 0) ≤ List.count b array := by
      have := List.boole_getElem_le_countP (fun x => x == b) array i hi
      simpa [List.count_eq_countP] using this
    have key : ∀ c p q : Nat, p ≤ c → c - p + q - q + p = c := by omega
    exact key _ _ _ hle
  · exact List.Perm.refl _

theorem shuffleLoop_perm {α : Type} (i : Nat) (array : List α) (rng : Rng) :
    (shuffleLoop i array rng).1.Perm array := by
  induction i generalizing array rng with
  | zero => exact List.Perm.refl _
  | succ i ih => exact (ih _ _).trans (swapAt_perm _ _ _)

theorem shuffleArray_perm {α : Type} (values : List α) (rng : Rng) :
    (shuffleArray values rng).1.Perm values :=
  shuffleLoop_perm _ _ _

theorem shuffleArray_length {α : Type} (values : List α) (rng : Rng) :
    (shuffleArray values rng).1.length = values.length :=
  (shuffleArray_perm values rng).length_eq

theorem primaryLoop_positions (primaryType : Face) (slots : Nat) (positions : List Position)
    (st : GenState) :
    (primaryLoop primaryType slots positions st).1 = positions.drop slots := by
  induction slots generalizing positions st with
  | zero => simp [primaryLoop]
  | succ n ih =>
    cases positions with
    | nil => simp [primaryLoop]
    | cons p rest => simp [primaryLoop, ih]

theorem primaryLoop_assignments (primaryType : Face) (slots : Nat) (positions : List Position)
    (st : GenState) :
    (primaryLoop primaryType slots positions st).2.assignments
      = st.assignments ++ (positions.take slots).map fun p =>
          { row := p.row, col := p.col, contentKey := primaryType } := by
  induction slots generalizing positions st with
  | zero => simp [primaryLoop]
  | succ n ih =>
    cases positions with
    | nil => simp [primaryLoop]
    | cons p rest => simp [primaryLoop, ih]

theorem assignLoop_assignments (cardTypes : List Face) (cap : Face → Nat)
    (positions : List Position) (st : GenState) :
    ∃ tail : List Entry,
      (assignLoop cardTypes cap positions st).assignments = st.assignments ++ tail ∧
      tail.map Entry.position = positions := by
  induction positions generalizing st with
  | nil => exact ⟨[], by simp [assignLoop]⟩
  | cons p rest ih =>
    obtain ⟨tail, h₁, h₂⟩ := ih (assignStep cardTypes cap st p)
    refine ⟨(assignStep cardTypes cap st p).assignments.drop st.assignments.length ++ tail, ?_, ?_⟩
    · simp only [assignLoop, List.foldl_cons] at h₁ ⊢
      rw [h₁]
      simp [assignStep]
    · simp [h₂, Entry.position, assignStep]

theorem createCardPositions_eq :
    createCardPositions
      = [⟨0, 0⟩, ⟨0, 1⟩, ⟨0, 2⟩, ⟨1, 0⟩, ⟨1, 1⟩, ⟨1, 2⟩, ⟨2, 0⟩, ⟨2, 1⟩, ⟨2, 2⟩] := by
  decide

theorem mem_createCardPositions (p : Position) :
    p ∈ createCardPositions ↔ 0 ≤ p.row ∧ p.row < 3 ∧ 0 ≤ p.col ∧ p.col < 3 := by
  obtain ⟨r, c⟩ := p
  rw [createCardPositions_eq]
  simp only [List.mem_cons, Position.mk.injEq, List.mem_nil_iff, or_false]
  omega

theorem count_createCardPositions (p : Position) :
    createCardPositions.count p
      = if 0 ≤ p.row ∧ p.row < 3 ∧ 0 ≤ p.col ∧ p.col < 3 then 1 else 0 := by
  have hnd : createCardPositions.Nodup := by decide
  rw [List.count_eq_of_nodup hnd]
  simp only [mem_createCardPositions]

theorem countOf_set (counts : JsMap Face Nat) (k k' : Face) (v : Nat) :
    countOf (JsMap.set counts k v) k' = if k = k' then v else countOf counts k' := by
  unfold countOf
  rw [JsMap.get_set]
  split <;> simp

theorem countOf_initial (cardTypes : List Face) (k : Face) :
    countOf (JsMap.ofEntries (cardTypes.map fun key => (key, 0))) k = 0 := by
  unfold JsMap.ofEntries
  suffices h : ∀ (l : List Face) (m : JsMap Face Nat), (∀ k, countOf m k = 0) →
      ∀ k, countOf ((l.map fun key => (key, 0)).foldl (fun m e => JsMap.set m e.1 e.2) m) k = 0 by
    exact h cardTypes [] (fun _ => rfl) k
  intro l
  induction l with
  | nil => intro m hm k; simpa using hm k
  | cons a l ih =>
    intro m hm k
    simp only [List.map_cons, List.foldl_cons]
    apply ih
    intro k'
    rw [countOf_set]
    split
    · rfl
    · exact hm k'

theorem occurrences_append (key : Face) (xs ys : List Entry) :
    occurrences key (xs ++ ys) = occurrences key xs + occurrences key ys := by
  simp [occurrences]

theorem occurrences_singleton (key : Face) (e : Entry) :
    occurrences key [e] = if e.contentKey = key then 1 else 0 := by
  by_cases h : e.contentKey = key <;> simp [occurrences, h]

theorem tracks_assignStep (cardTypes : List Face) (cap : Face → Nat) (st : GenState)
    (p : Position) (h : Tracks st) : Tracks (assignStep cardTypes cap st p) := by
  intro key
  simp only [assignStep, countOf_set, occurrences_append, occurrences_singleton]
  generalize (chooseType (poolOf cardTypes cap st.counts) st.rng).1 = choice
  by_cases hk : choice = key
  · subst hk
    simp [h choice]
  · simp [hk, h key]

theorem poolOf_ne_nil (cardTypes : List Face) (cap : Face → Nat) (counts : JsMap Face Nat)
    (h : cardTypes ≠ []) : poolOf cardTypes cap counts ≠ [] := by
  unfold poolOf
  simp only
  split
  · rename_i hpos
    exact List.ne_nil_of_length_pos hpos
  · exact h

theorem chooseType_mem (pool : List Face) (rng : Rng) (h : pool ≠ []) :
    (chooseType pool rng).1 ∈ pool := by
  have hlt := randomIndex_lt rng (List.length_pos.mpr h)
  simp only [chooseType]
  rw [List.getElem?_eq_getElem hlt]
  simp

theorem distinct_mul_le_length (keys types : List Face) (c : Nat)
    (h : ∀ k ∈ types, c ≤ keys.countP fun x => decide (x = k)) :
    c * types.dedup.length ≤ keys.length := by
  classical
  have hcount : ∀ k, Multiset.count k (keys : Multiset Face)
      = keys.countP fun x => decide (x = k) := by
    intro k
    show Multiset.countP (k = ·) (keys : Multiset Face) = _
    rw [Multiset.coe_countP]
    congr 1
    funext x
    simp [eq_comm]
  rw [← List.card_toFinset]
  calc c * types.toFinset.card = ∑ _k in types.toFinset, c := by simp [mul_comm]
    _ ≤ ∑ k in types.toFinset, Multiset.count k (keys : Multiset Face) :=
        Finset.sum_le_sum fun k hk => by rw [hcount]; exact h k (List.mem_toFinset.mp hk)
    _ ≤ ∑ k in types.toFinset ∪ keys.toFinset, Multiset.count k (keys : Multiset Face) :=
        Finset.sum_le_sum_of_subset Finset.subset_union_left
    _ = keys.length := by
        have hm : ∀ a ∈ (keys : Multiset Face), a ∈ types.toFinset ∪ keys.toFinset := by
          intro a ha
          simp only [Finset.mem_union, List.mem_toFinset]
          exact Or.inr (by simpa using ha)
        rw [Multiset.sum_count_eq_card hm]
        simp

theorem occurrences_eq_countP_keys (key : Face) (xs : List Entry) :
    occurrences key xs = (xs.map Entry.contentKey).countP fun x => decide (x = key) := by
  simp only [occurrences, List.countP_map]
  rfl

theorem available_ne_nil (cardTypes : List Face) (cap : Nat) (st : GenState)
    (htr : Tracks st) (hroom : st.assignments.length < cap * cardTypes.dedup.length) :
    cardTypes.filter (fun type => decide (countOf st.counts type < cap)) ≠ [] := by
  intro hnil
  have hall : ∀ k ∈ cardTypes,
      cap ≤ (st.assignments.map Entry.contentKey).countP fun x => decide (x = k) := by
    intro k hk
    have hnot : k ∉ cardTypes.filter (fun type => decide (countOf st.counts type < cap)) := by
      rw [hnil]; simp
    rw [List.mem_filter] at hnot
    have : ¬ countOf st.counts k < cap := by
      intro hlt
      exact hnot ⟨hk, by simpa using hlt⟩
    rw [← occurrences_eq_countP_keys, ← htr k]
    omega
  have := distinct_mul_le_length _ _ _ hall
  simp at this
  omega

theorem capped_assignStep (cardTypes : List Face) (cap : Nat) (st : GenState) (p : Position)
    (htr : Tracks st) (hcap : ∀ k, occurrences k st.assignments ≤ cap)
    (hroom : st.assignments.length < cap * cardTypes.dedup.length) :
    ∀ k, occurrences k (assignStep cardTypes (fun _ => cap) st p).assignments ≤ cap := by
  intro k
  have hav := available_ne_nil cardTypes cap st htr hroom
  have hpool : poolOf cardTypes (fun _ => cap) st.counts
      = cardTypes.filter (fun type => decide (countOf st.counts type < cap)) := by
    unfold poolOf
    simp only
    rw [if_pos (List.length_pos.mpr hav)]
  have hmem := chooseType_mem (poolOf cardTypes (fun _ => cap) st.counts) st.rng
    (by rw [hpool]; exact hav)
  rw [hpool] at hmem
  rw [List.mem_filter] at hmem
  have hlt : countOf st.counts (chooseType (List.filter
      (fun type => decide (countOf st.counts type < cap)) cardTypes) st.rng).1 < cap := by
    simpa using hmem.2
  simp only [assignStep, occurrences_append, occurrences_singleton, hpool]
  split
  · rename_i heq
    rw [← heq, ← htr]
    omega
  · have := hcap k
    omega

theorem capped_assignLoop (cardTypes : List Face) (cap : Nat) (positions : List Position)
    (st : GenState) (htr : Tracks st) (hcap : ∀ k, occurrences k st.assignments ≤ cap)
    (hroom : st.assignments.length + positions.length ≤ cap * cardTypes.dedup.length) :
    ∀ k, occurrences k (assignLoop cardTypes (fun _ => cap) positions st).assignments ≤ cap := by
  induction positions generalizing st with
  | nil => simpa [assignLoop] using hcap
  | cons p rest ih =>
    simp only [List.length_cons] at hroom
    have hstep := capped_assignStep cardTypes cap st p htr hcap (by omega)
    have hlen : (assignStep cardTypes (fun _ => cap) st p).assignments.length
        = st.assignments.length + 1 := by simp [assignStep]
    exact ih _ (tracks_assignStep _ _ _ _ htr) hstep (by rw [hlen]; omega)

theorem cardTypesOf_ne_nil (catalog : List String) : cardTypesOf catalog ≠ [] := by
  unfold cardTypesOf
  split
  · rename_i h
    intro hnil
    have hl := congrArg List.length hnil
    simp only [List.length_map, List.length_nil] at hl
    omega
  · simp

theorem tracks_initial (cardTypes : List Face) (rng : Rng) :
    Tracks { assignments := [], counts := JsMap.ofEntries (cardTypes.map fun key => (key, 0)),
             rng := rng } := by
  intro key
  simp [countOf_initial, occurrences]

theorem generate_lost (catalog : List String) (betResult : String) (rng : Rng)
    (h : betResult ≠ "win") :
    (generateScratchCardAssignments catalog betResult rng).1
      = { assignments := (assignLoop (cardTypesOf catalog) (fun _ => 2)
            (shuffleArray createCardPositions rng).1
            { assignments := [],
              counts := JsMap.ofEntries ((cardTypesOf catalog).map fun key => (key, 0)),
              rng := (shuffleArray createCardPositions rng).2 }).assignments
          winningKey := none } := by
  simp [generateScratchCardAssignments, h]

theorem generate_win (catalog : List String) (rng : Rng) :
    ∃ tail : List Entry,
      (generateScratchCardAssignments catalog "win" rng).1.assignments
        = ((shuffleArray createCardPositions rng).1.take 3).map (fun p =>
            ({ row := p.row, col := p.col,
               contentKey := (generateScratchCardAssignments catalog "win" rng).1.winningKey }
              : Entry)) ++ tail ∧
      tail.map Entry.position = (shuffleArray createCardPositions rng).1.drop 3 ∧
      (generateScratchCardAssignments catalog "win" rng).1.winningKey
        = ((shuffleArray (cardTypesOf catalog) (shuffleArray createCardPositions rng).2).1[0]?).join
      := by
  have hlen : (shuffleArray createCardPositions rng).1.length = 9 := by
    rw [shuffleArray_length]; decide
  have hprim : ∀ l : List Face, (if l.length > 0 then (l[0]?).join else none) = (l[0]?).join := by
    intro l
    cases l <;> simp
  simp only [generateScratchCardAssignments, if_true, hprim, hlen]
  obtain ⟨tail, h₁, h₂⟩ := assignLoop_assignments (cardTypesOf catalog)
    (fun type => if type = ((shuffleArray (cardTypesOf catalog)
      (shuffleArray createCardPositions rng).2).1[0]?).join then 3 else 2)
    (primaryLoop ((shuffleArray (cardTypesOf catalog)
      (shuffleArray createCardPositions rng).2).1[0]?).join (min 3 9)
      (shuffleArray createCardPositions rng).1
      { assignments := [],
        counts := JsMap.ofEntries ((cardTypesOf catalog).map fun key => (key, 0)),
        rng := (shuffleArray (cardTypesOf catalog) (shuffleArray createCardPositions rng).2).2 }).1
    (primaryLoop ((shuffleArray (cardTypesOf catalog)
      (shuffleArray createCardPositions rng).2).1[0]?).join (min 3 9)
      (shuffleArray createCardPositions rng).1
      { assignments := [],
        counts := JsMap.ofEntries ((cardTypesOf catalog).map fun key => (key, 0)),
        rng := (shuffleArray (cardTypesOf catalog) (shuffleArray createCardPositions rng).2).2 }).2
  refine ⟨tail, ?_, ?_, trivial⟩
  · rw [h₁, primaryLoop_assignments]
    simp
  · rw [h₂, primaryLoop_positions]
    simp

/-- C3: for `betResult = 'win'`, any non-empty catalog and any random draws,
the returned `winningKey` is a key of the catalog and is the content key of at
least 3 of the returned entries. -/
theorem c3_win_key_occurs_three_times (catalog : List String) (rng : Rng)
    (h : catalog ≠ []) :
    ∃ key : String,
      (generateScratchCardAssignments catalog "win" rng).1.winningKey = some key ∧
      key ∈ catalog ∧
      3 ≤ occurrences (some key)
        (generateScratchCardAssignments catalog "win" rng).1.assignments := by
  obtain ⟨tail, hass, -, hkey⟩ := generate_win catalog rng
  have hne : cardTypesOf catalog = catalog.map some := by
    unfold cardTypesOf
    rw [if_pos (List.length_pos.mpr h)]
  have hperm := shuffleArray_perm (cardTypesOf catalog) (shuffleArray createCardPositions rng).2
  have hpos : 0 < (shuffleArray (cardTypesOf catalog)
      (shuffleArray createCardPositions rng).2).1.length := by
    rw [hperm.length_eq, hne]
    simpa using List.length_pos.mpr h
  have hmem : (shuffleArray (cardTypesOf catalog)
      (shuffleArray createCardPositions rng).2).1[0] ∈ catalog.map some := by
    rw [← hne]
    exact hperm.subset (List.getElem_mem _)
  obtain ⟨key, hk, hkeq⟩ := List.mem_map.mp hmem
  have hwin : (generateScratchCardAssignments catalog "win" rng).1.winningKey = some key := by
    rw [hkey, List.getElem?_eq_getElem hpos, ← hkeq]
    rfl
  refine ⟨key, hwin, hk, ?_⟩
  have hlen : (shuffleArray createCardPositions rng).1.length = 9 := by
    rw [shuffleArray_length]; decide
  rw [hass, occurrences_append, hwin]
  have : occurrences (some key) (((shuffleArray createCardPositions rng).1.take 3).map
      (fun p => ({ row := p.row, col := p.col, contentKey := some key } : Entry))) = 3 := by
    rw [occurrences, List.countP_eq_length.mpr]
    · simp [hlen]
    · intro a ha
      obtain ⟨p, -, rfl⟩ := List.mem_map.mp ha
      simp
  omega

theorem c3_win_key_witness :
    ∃ key : String,
      (generateScratchCardAssignments ["A", "B"] "win" [3, 5, 1]).1.winningKey = some key ∧
      key ∈ ["A", "B"] ∧
      3 ≤ occurrences (some key)
        (generateScratchCardAssignments ["A", "B"] "win" [3, 5, 1]).1.assignments :=
  c3_win_key_occurs_three_times ["A", "B"] [3, 5, 1] (by decide)

/-- C4, as stated, fails: with the one-key catalog `['A']` a lost round
assigns `A` to all 9 tiles (the full-catalog fallback once `A` is capped). -/
theorem c4_small_catalog_repeats :
    occurrences (some "A") (generateScratchCardAssignments ["A"] "lost" []).1.assignments = 9 ∧
    ¬ occurrences (some "A")
        (generateScratchCardAssignments ["A"] "lost" []).1.assignments < 3 := by
  have h : occurrences (some "A")
      (generateScratchCardAssignments ["A"] "lost" []).1.assignments = 9 := by rfl
  exact ⟨h, by rw [h]; decide⟩

/-- C4, amended: for a bet result other than `'win'` (so for `'lost'`),
`winningKey` is null for every catalog, and when the catalog holds at least 5
distinct keys no content key (nor null) occurs 3 or more times, whatever the
random draws. -/
theorem c4_lost_no_key_three_times (catalog : List String) (betResult : String) (rng : Rng)
    (hlost : betResult ≠ "win") :
    (generateScratchCardAssignments catalog betResult rng).1.winningKey = none ∧
    (5 ≤ catalog.dedup.length →
      ∀ key : Face,
        occurrences key (generateScratchCardAssignments catalog betResult rng).1.assignments
          < 3) := by
  have hshape := generate_lost catalog betResult rng hlost
  constructor
  · rw [hshape]
  · intro hfive key
    have hne : catalog ≠ [] := by
      intro hnil
      rw [hnil] at hfive
      simp at hfive
    have htypes : cardTypesOf catalog = catalog.map some := by
      unfold cardTypesOf
      rw [if_pos (List.length_pos.mpr hne)]
    have hdistinct : (cardTypesOf catalog).dedup.length = catalog.dedup.length := by
      rw [htypes, List.dedup_map_of_injective (Option.some_injective String), List.length_map]
    have hlen : (shuffleArray createCardPositions rng).1.length = 9 := by
      rw [shuffleArray_length]; decide
    have hroom : ([] : List Entry).length + (shuffleArray createCardPositions rng).1.length
        ≤ 2 * (cardTypesOf catalog).dedup.length := by
      rw [hlen, hdistinct]
      simp only [List.length_nil]
      omega
    have hcap := capped_assignLoop (cardTypesOf catalog) 2
      (shuffleArray createCardPositions rng).1
      { assignments := [],
        counts := JsMap.ofEntries ((cardTypesOf catalog).map fun key => (key, 0)),
        rng := (shuffleArray createCardPositions rng).2 }
      (tracks_initial _ _) (fun k => Nat.zero_le 2) hroom key
    rw [hshape]
    dsimp only
    omega

theorem c4_lost_witness :
    (generateScratchCardAssignments ["A", "B", "C", "D", "E"] "lost" [1, 2]).1.winningKey = none ∧
    ∀ key : Face,
      occurrences key
        (generateScratchCardAssignments ["A", "B", "C", "D", "E"] "lost" [1, 2]).1.assignments
        < 3 :=
  ⟨(c4_lost_no_key_three_times ["A", "B", "C", "D", "E"] "lost" [1, 2] (by decide)).1,
   (c4_lost_no_key_three_times ["A", "B", "C", "D", "E"] "lost" [1, 2] (by decide)).2
     (by decide)⟩

/-- C5: for every bet result, every catalog (also an empty one) and every
random draws, the generator returns `GRID_SIZE * GRID_SIZE = 9` entries, and
the positions of the entries hold each grid position (0 <= row, col < 3)
exactly once and no other position. -/
theorem c5_every_position_once (catalog : List String) (betResult : String) (rng : Rng) :
    (generateScratchCardAssignments catalog betResult rng).1.assignments.length
      = GRID_SIZE * GRID_SIZE ∧
    (generateScratchCardAssignments catalog betResult rng).1.assignments.length = 9 ∧
    ∀ p : Position,
      ((generateScratchCardAssignments catalog betResult rng).1.assignments.map
          Entry.position).count p
        = if 0 ≤ p.row ∧ p.row < 3 ∧ 0 ≤ p.col ∧ p.col < 3 then 1 else 0 := by
  have hperm : ((generateScratchCardAssignments catalog betResult rng).1.assignments.map
      Entry.position).Perm createCardPositions := by
    by_cases hwin : betResult = "win"
    · subst hwin
      obtain ⟨tail, hass, htail, -⟩ := generate_win catalog rng
      rw [hass]
      simp only [List.map_append, List.map_map, htail]
      have hid : (Entry.position ∘ fun p : Position =>
          ({ row := p.row, col := p.col,
             contentKey := (generateScratchCardAssignments catalog "win" rng).1.winningKey }
            : Entry)) = id := by
        funext p
        rfl
      rw [hid, List.map_id, List.take_append_drop]
      exact shuffleArray_perm _ _
    · rw [generate_lost catalog betResult rng hwin]
      obtain ⟨tail, hass, htail⟩ := assignLoop_assignments (cardTypesOf catalog) (fun _ => 2)
        (shuffleArray createCardPositions rng).1
        { assignments := [],
          counts := JsMap.ofEntries ((cardTypesOf catalog).map fun key => (key, 0)),
          rng := (shuffleArray createCardPositions rng).2 }
      simp only [hass, List.nil_append, htail]
      exact shuffleArray_perm _ _
  have hlen : (generateScratchCardAssignments catalog betResult rng).1.assignments.length = 9 := by
    have := hperm.length_eq
    rw [List.length_map] at this
    rw [this]
    decide
  refine ⟨by rw [hlen]; decide, hlen, ?_⟩
  intro p
  rw [hperm.count_eq, count_createCardPositions]

/-! ## Frame lemmas of the game -/

namespace Game

@[simp] theorem modifyCard_rules (g : Game) (id : Nat) (f : Card → Card) :
    (g.modifyCard id f).rules = g.rules := rfl

@[simp] theorem modifyCard_outcome (g : Game) (id : Nat) (f : Card → Card) :
    (g.modifyCard id f).outcome = g.outcome := rfl

@[simp] theorem modifyCard_currentAssignments (g : Game) (id : Nat) (f : Card → Card) :
    (g.modifyCard id f).currentAssignments = g.currentAssignments := rfl

@[simp] theorem modifyCard_timers (g : Game) (id : Nat) (f : Card → Card) :
    (g.modifyCard id f).timers = g.timers := rfl

@[simp] theorem modifyCard_handles (g : Game) (id : Nat) (f : Card → Card) :
    (g.modifyCard id f).handles = g.handles := rfl

@[simp] theorem modifyCard_flights (g : Game) (id : Nat) (f : Card → Card) :
    (g.modifyCard id f).flights = g.flights := rfl

@[simp] theorem clearScheduledAutoReveal_rules (g : Game) (id : Nat) :
    (g.clearScheduledAutoReveal id).rules = g.rules := by
  unfold clearScheduledAutoReveal
  split
  · rfl
  · split <;> rfl

@[simp] theorem clearScheduledAutoReveal_outcome (g : Game) (id : Nat) :
    (g.clearScheduledAutoReveal id).outcome = g.outcome := by
  unfold clearScheduledAutoReveal
  split
  · rfl
  · split <;> rfl

@[simp] theorem clearScheduledAutoReveal_currentAssignments (g : Game) (id : Nat) :
    (g.clearScheduledAutoReveal id).currentAssignments = g.currentAssignments := by
  unfold clearScheduledAutoReveal
  split
  · rfl
  · split <;> rfl

theorem foldl_clearScheduled_rules (ids : List Nat) (g : Game) :
    (ids.foldl clearScheduledAutoReveal g).rules = g.rules := by
  induction ids generalizing g with
  | nil => rfl
  | cons id ids ih => simp [ih]

theorem foldl_clearScheduled_outcome (ids : List Nat) (g : Game) :
    (ids.foldl clearScheduledAutoReveal g).outcome = g.outcome := by
  induction ids generalizing g with
  | nil => rfl
  | cons id ids ih => simp [ih]

theorem foldl_clearScheduled_currentAssignments (ids : List Nat) (g : Game) :
    (ids.foldl clearScheduledAutoReveal g).currentAssignments = g.currentAssignments := by
  induction ids generalizing g with
  | nil => rfl
  | cons id ids ih => simp [ih]

@[simp] theorem cancelPendingAutoReveals_rules (g : Game) :
    g.cancelPendingAutoReveals.rules = g.rules := by
  unfold cancelPendingAutoReveals
  simp only [foldl_clearScheduled_rules]
  split <;> rfl

@[simp] theorem cancelPendingAutoReveals_currentAssignments (g : Game) :
    g.cancelPendingAutoReveals.currentAssignments = g.currentAssignments := by
  unfold cancelPendingAutoReveals
  simp only [foldl_clearScheduled_currentAssignments]
  split <;> rfl

@[simp] theorem cancelPendingAutoReveals_outcome (g : Game) :
    g.cancelPendingAutoReveals.outcome = g.outcome := by
  unfold cancelPendingAutoReveals
  simp only [foldl_clearScheduled_outcome]
  split <;> rfl

@[simp] theorem resetRoundOutcome_rules (g : Game) : g.resetRoundOutcome.rules = g.rules := by
  simp [resetRoundOutcome]

@[simp] theorem resetRoundOutcome_currentAssignments (g : Game) :
    g.resetRoundOutcome.currentAssignments = g.currentAssignments := by
  simp [resetRoundOutcome]

@[simp] theorem buildGrid_rules (g : Game) : g.buildGrid.rules = g.rules := rfl

@[simp] theorem registerCards_rules (g : Game) : g.registerCards.rules = g.rules := by
  unfold registerCards
  generalize g.cards.map Card.id = ids
  induction ids generalizing g with
  | nil => rfl
  | cons id ids ih => simp only [List.foldl_cons]; rw [ih]; simp

theorem resetBoard_rules (g : Game) :
    g.resetBoard.rules = (g.rules.reset).setAssignments (some []) := by
  simp [resetBoard]

theorem installAssignments_rules_gameOver (g : Game) (assignments : List Entry)
    (info : OutcomeMeta) : (g.installAssignments assignments info).rules.gameOver = false := by
  simp [installAssignments, GameRules.setAssignments]

theorem resetBoard_rules_gameOver (g : Game) : g.resetBoard.rules.gameOver = false := by
  simp [resetBoard_rules, GameRules.setAssignments]

end Game

/-! ## Frame lemmas of the coordinator: what each function leaves alone -/

namespace App

@[simp] theorem panel_vars (a : App) (f : Panel → Panel) :
    (a.panel f).vars = a.vars := rfl

@[simp] theorem panel_game (a : App) (f : Panel → Panel) :
    (a.panel f).game = a.game := rfl

@[simp] theorem panel_controlPanel (a : App) (f : Panel → Panel) :
    (a.panel f).controlPanel = a.controlPanel.map f := rfl

@[simp] theorem panel_boardInteractive (a : App) (f : Panel → Panel) :
    (a.panel f).boardInteractive = a.boardInteractive := rfl

@[simp] theorem panel_revealAllTimers (a : App) (f : Panel → Panel) :
    (a.panel f).revealAllTimers = a.revealAllTimers := rfl

@[simp] theorem panel_sent (a : App) (f : Panel → Panel) :
    (a.panel f).sent = a.sent := rfl

@[simp] theorem panel_rng (a : App) (f : Panel → Panel) :
    (a.panel f).rng = a.rng := rfl

@[simp] theorem panel_finalizeCalls (a : App) (f : Panel → Panel) :
    (a.panel f).finalizeCalls = a.finalizeCalls := rfl

@[simp] theorem panel_autoStarts (a : App) (f : Panel → Panel) :
    (a.panel f).autoStarts = a.autoStarts := rfl

@[simp] theorem withGame_vars (a : App) (f : Game → Game) :
    (a.withGame f).vars = a.vars := rfl

@[simp] theorem withGame_game (a : App) (f : Game → Game) :
    (a.withGame f).game = a.game.map f := rfl

@[simp] theorem withGame_controlPanel (a : App) (f : Game → Game) :
    (a.withGame f).controlPanel = a.controlPanel := rfl

@[simp] theorem withGame_boardInteractive (a : App) (f : Game → Game) :
    (a.withGame f).boardInteractive = a.boardInteractive := rfl

@[simp] theorem withGame_revealAllTimers (a : App) (f : Game → Game) :
    (a.withGame f).revealAllTimers = a.revealAllTimers := rfl

@[simp] theorem withGame_sent (a : App) (f : Game → Game) :
    (a.withGame f).sent = a.sent := rfl

@[simp] theorem withGame_rng (a : App) (f : Game → Game) :
    (a.withGame f).rng = a.rng := rfl

@[simp] theorem withGame_finalizeCalls (a : App) (f : Game → Game) :
    (a.withGame f).finalizeCalls = a.finalizeCalls := rfl

@[simp] theorem withGame_autoStarts (a : App) (f : Game → Game) :
    (a.withGame f).autoStarts = a.autoStarts := rfl

@[simp] theorem setVars_vars (a : App) (f : Vars → Vars) :
    (a.setVars f).vars = f a.vars := rfl

@[simp] theorem setVars_game (a : App) (f : Vars → Vars) :
    (a.setVars f).game = a.game := rfl

@[simp] theorem setVars_controlPanel (a : App) (f : Vars → Vars) :
    (a.setVars f).controlPanel = a.controlPanel := rfl

@[simp] theorem setVars_boardInteractive (a : App) (f : Vars → Vars) :
    (a.setVars f).boardInteractive = a.boardInteractive := rfl

@[simp] theorem setVars_revealAllTimers (a : App) (f : Vars → Vars) :
    (a.setVars f).revealAllTimers = a.revealAllTimers := rfl

@[simp] theorem setVars_sent (a : App) (f : Vars → Vars) :
    (a.setVars f).sent = a.sent := rfl

@[simp] theorem setVars_rng (a : App) (f : Vars → Vars) :
    (a.setVars f).rng = a.rng := rfl

@[simp] theorem setVars_finalizeCalls (a : App) (f : Vars → Vars) :
    (a.setVars f).finalizeCalls = a.finalizeCalls := rfl

@[simp] theorem setVars_autoStarts (a : App) (f : Vars → Vars) :
    (a.setVars f).autoStarts = a.autoStarts := rfl

@[simp] theorem setControlPanelBetState_vars (a : App) (x : Bool) :
    (a.setControlPanelBetState x).vars = a.vars := rfl

@[simp] theorem setControlPanelBetState_game (a : App) (x : Bool) :
    (a.setControlPanelBetState x).game = a.game := rfl

@[simp] theorem setControlPanelBetState_controlPanel (a : App) (x : Bool) :
    (a.setControlPanelBetState x).controlPanel = a.controlPanel.map fun p => { p with betButtonState := x } := rfl

@[simp] theorem setControlPanelBetState_boardInteractive (a : App) (x : Bool) :
    (a.setControlPanelBetState x).boardInteractive = a.boardInteractive := rfl

@[simp] theorem setControlPanelBetState_revealAllTimers (a : App) (x : Bool) :
    (a.setControlPanelBetState x).revealAllTimers = a.revealAllTimers := rfl

@[simp] theorem setControlPanelBetState_sent (a : App) (x : Bool) :
    (a.setControlPanelBetState x).sent = a.sent := rfl

@[simp] theorem setControlPanelBetState_rng (a : App) (x : Bool) :
    (a.setControlPanelBetState x).rng = a.rng := rfl

@[simp] theorem setControlPanelBetState_finalizeCalls (a : App) (x : Bool) :
    (a.setControlPanelBetState x).finalizeCalls = a.finalizeCalls := rfl

@[simp] theorem setControlPanelBetState_autoStarts (a : App) (x : Bool) :
    (a.setControlPanelBetState x).autoStarts = a.autoStarts := rfl

@[simp] theorem setControlPanelRandomState_vars (a : App) (x : Bool) :
    (a.setControlPanelRandomState x).vars = a.vars := rfl

@[simp] theorem setControlPanelRandomState_game (a : App) (x : Bool) :
    (a.setControlPanelRandomState x).game = a.game := rfl

@[simp] theorem setControlPanelRandomState_controlPanel (a : App) (x : Bool) :
    (a.setControlPanelRandomState x).controlPanel = a.controlPanel.map fun p => { p with randomPickState := x } := rfl

@[simp] theorem setControlPanelRandomState_boardInteractive (a : App) (x : Bool) :
    (a.setControlPanelRandomState x).boardInteractive = a.boardInteractive := rfl

@[simp] theorem setControlPanelRandomState_revealAllTimers (a : App) (x : Bool) :
    (a.setControlPanelRandomState x).revealAllTimers = a.revealAllTimers := rfl

@[simp] theorem setControlPanelRandomState_sent (a : App) (x : Bool) :
    (a.setControlPanelRandomState x).sent = a.sent := rfl

@[simp] theorem setControlPanelRandomState_rng (a : App) (x : Bool) :
    (a.setControlPanelRandomState x).rng = a.rng := rfl

@[simp] theorem setControlPanelRandomState_finalizeCalls (a : App) (x : Bool) :
    (a.setControlPanelRandomState x).finalizeCalls = a.finalizeCalls := rfl

@[simp] theorem setControlPanelRandomState_autoStarts (a : App) (x : Bool) :
    (a.setControlPanelRandomState x).autoStarts = a.autoStarts := rfl

@[simp] theorem setControlPanelAutoStartState_vars (a : App) (x : Bool) :
    (a.setControlPanelAutoStartState x).vars = a.vars := rfl

@[simp] theorem setControlPanelAutoStartState_game (a : App) (x : Bool) :
    (a.setControlPanelAutoStartState x).game = a.game := rfl

@[simp] theorem setControlPanelAutoStartState_controlPanel (a : App) (x : Bool) :
    (a.setControlPanelAutoStartState x).controlPanel = a.controlPanel.map fun p => { p with autoStartButtonState := x } := rfl

@[simp] theorem setControlPanelAutoStartState_boardInteractive (a : App) (x : Bool) :
    (a.setControlPanelAutoStartState x).boardInteractive = a.boardInteractive := rfl

@[simp] theorem setControlPanelAutoStartState_revealAllTimers (a : App) (x : Bool) :
    (a.setControlPanelAutoStartState x).revealAllTimers = a.revealAllTimers := rfl

@[simp] theorem setControlPanelAutoStartState_sent (a : App) (x : Bool) :
    (a.setControlPanelAutoStartState x).sent = a.sent := rfl

@[simp] theorem setControlPanelAutoStartState_rng (a : App) (x : Bool) :
    (a.setControlPanelAutoStartState x).rng = a.rng := rfl

@[simp] theorem setControlPanelAutoStartState_finalizeCalls (a : App) (x : Bool) :
    (a.setControlPanelAutoStartState x).finalizeCalls = a.finalizeCalls := rfl

@[simp] theorem setControlPanelAutoStartState_autoStarts (a : App) (x : Bool) :
    (a.setControlPanelAutoStartState x).autoStarts = a.autoStarts := rfl

@[simp] theorem setControlPanelMinesState_vars (a : App) (x : Bool) :
    (a.setControlPanelMinesState x).vars = a.vars := rfl

@[simp] theorem setControlPanelMinesState_game (a : App) (x : Bool) :
    (a.setControlPanelMinesState x).game = a.game := rfl

@[simp] theorem setControlPanelMinesState_controlPanel (a : App) (x : Bool) :
    (a.setControlPanelMinesState x).controlPanel = a.controlPanel.map fun p => { p with minesSelectState := x } := rfl

@[simp] theorem setControlPanelMinesState_boardInteractive (a : App) (x : Bool) :
    (a.setControlPanelMinesState x).boardInteractive = a.boardInteractive := rfl

@[simp] theorem setControlPanelMinesState_revealAllTimers (a : App) (x : Bool) :
    (a.setControlPanelMinesState x).revealAllTimers = a.revealAllTimers := rfl

@[simp] theorem setControlPanelMinesState_sent (a : App) (x : Bool) :
    (a.setControlPanelMinesState x).sent = a.sent := rfl

@[simp] theorem setControlPanelMinesState_rng (a : App) (x : Bool) :
    (a.setControlPanelMinesState x).rng = a.rng := rfl

@[simp] theorem setControlPanelMinesState_finalizeCalls (a : App) (x : Bool) :
    (a.setControlPanelMinesState x).finalizeCalls = a.finalizeCalls := rfl

@[simp] theorem setControlPanelMinesState_autoStarts (a : App) (x : Bool) :
    (a.setControlPanelMinesState x).autoStarts = a.autoStarts := rfl

@[simp] theorem setModeAndBetControls_vars (a : App) (x : Bool) :
    (a.setModeAndBetControls x).vars = a.vars := rfl

@[simp] theorem setModeAndBetControls_game (a : App) (x : Bool) :
    (a.setModeAndBetControls x).game = a.game := rfl

@[simp] theorem setModeAndBetControls_controlPanel (a : App) (x : Bool) :
    (a.setModeAndBetControls x).controlPanel = a.controlPanel.map fun p => { p with modeToggleClickable := x, betControlsClickable := x } := rfl

@[simp] theorem setModeAndBetControls_boardInteractive (a : App) (x : Bool) :
    (a.setModeAndBetControls x).boardInteractive = a.boardInteractive := rfl

@[simp] theorem setModeAndBetControls_revealAllTimers (a : App) (x : Bool) :
    (a.setModeAndBetControls x).revealAllTimers = a.revealAllTimers := rfl

@[simp] theorem setModeAndBetControls_sent (a : App) (x : Bool) :
    (a.setModeAndBetControls x).sent = a.sent := rfl

@[simp] theorem setModeAndBetControls_rng (a : App) (x : Bool) :
    (a.setModeAndBetControls x).rng = a.rng := rfl

@[simp] theorem setModeAndBetControls_finalizeCalls (a : App) (x : Bool) :
    (a.setModeAndBetControls x).finalizeCalls = a.finalizeCalls := rfl

@[simp] theorem setModeAndBetControls_autoStarts (a : App) (x : Bool) :
    (a.setModeAndBetControls x).autoStarts = a.autoStarts := rfl

@[simp] theorem setControlPanelBetMode_vars (a : App) (m : BetButtonMode) :
    (a.setControlPanelBetMode m).vars = { a.vars with betButtonMode := m } := rfl

@[simp] theorem setControlPanelBetMode_game (a : App) (m : BetButtonMode) :
    (a.setControlPanelBetMode m).game = a.game := rfl

@[simp] theorem setControlPanelBetMode_controlPanel (a : App) (m : BetButtonMode) :
    (a.setControlPanelBetMode m).controlPanel = a.controlPanel.map fun p => { p with betButtonMode := m } := rfl

@[simp] theorem setControlPanelBetMode_boardInteractive (a : App) (m : BetButtonMode) :
    (a.setControlPanelBetMode m).boardInteractive = a.boardInteractive := rfl

@[simp] theorem setControlPanelBetMode_revealAllTimers (a : App) (m : BetButtonMode) :
    (a.setControlPanelBetMode m).revealAllTimers = a.revealAllTimers := rfl

@[simp] theorem setControlPanelBetMode_sent (a : App) (m : BetButtonMode) :
    (a.setControlPanelBetMode m).sent = a.sent := rfl

@[simp] theorem setControlPanelBetMode_rng (a : App) (m : BetButtonMode) :
    (a.setControlPanelBetMode m).rng = a.rng := rfl

@[simp] theorem setControlPanelBetMode_finalizeCalls (a : App) (m : BetButtonMode) :
    (a.setControlPanelBetMode m).finalizeCalls = a.finalizeCalls := rfl

@[simp] theorem setControlPanelBetMode_autoStarts (a : App) (m : BetButtonMode) :
    (a.setControlPanelBetMode m).autoStarts = a.autoStarts := rfl

@[simp] theorem setGameBoardInteractivity_vars (a : App) (x : Bool) :
    (a.setGameBoardInteractivity x).vars = a.vars := rfl

@[simp] theorem setGameBoardInteractivity_game (a : App) (x : Bool) :
    (a.setGameBoardInteractivity x).game = a.game := rfl

@[simp] theorem setGameBoardInteractivity_controlPanel (a : App) (x : Bool) :
    (a.setGameBoardInteractivity x).controlPanel = a.controlPanel := rfl

@[simp] theorem setGameBoardInteractivity_boardInteractive (a : App) (x : Bool) :
    (a.setGameBoardInteractivity x).boardInteractive = x := rfl

@[simp] theorem setGameBoardInteractivity_revealAllTimers (a : App) (x : Bool) :
    (a.setGameBoardInteractivity x).revealAllTimers = a.revealAllTimers := rfl

@[simp] theorem setGameBoardInteractivity_sent (a : App) (x : Bool) :
    (a.setGameBoardInteractivity x).sent = a.sent := rfl

@[simp] theorem setGameBoardInteractivity_rng (a : App) (x : Bool) :
    (a.setGameBoardInteractivity x).rng = a.rng := rfl

@[simp] theorem setGameBoardInteractivity_finalizeCalls (a : App) (x : Bool) :
    (a.setGameBoardInteractivity x).finalizeCalls = a.finalizeCalls := rfl

@[simp] theorem setGameBoardInteractivity_autoStarts (a : App) (x : Bool) :
    (a.setGameBoardInteractivity x).autoStarts = a.autoStarts := rfl

@[simp] theorem clearSelectionDelay_vars (a : App) :
    (a.clearSelectionDelay).vars = { a.vars with selectionDelayHandle := none, selectionPending := false } := rfl

@[simp] theorem clearSelectionDelay_game (a : App) :
    (a.clearSelectionDelay).game = a.game := rfl

@[simp] theorem clearSelectionDelay_controlPanel (a : App) :
    (a.clearSelectionDelay).controlPanel = a.controlPanel := rfl

@[simp] theorem clearSelectionDelay_boardInteractive (a : App) :
    (a.clearSelectionDelay).boardInteractive = a.boardInteractive := rfl

@[simp] theorem clearSelectionDelay_revealAllTimers (a : App) :
    (a.clearSelectionDelay).revealAllTimers = a.revealAllTimers := rfl

@[simp] theorem clearSelectionDelay_sent (a : App) :
    (a.clearSelectionDelay).sent = a.sent := rfl

@[simp] theorem clearSelectionDelay_rng (a : App) :
    (a.clearSelectionDelay).rng = a.rng := rfl

@[simp] theorem clearSelectionDelay_finalizeCalls (a : App) :
    (a.clearSelectionDelay).finalizeCalls = a.finalizeCalls := rfl

@[simp] theorem clearSelectionDelay_autoStarts (a : App) :
    (a.clearSelectionDelay).autoStarts = a.autoStarts := rfl

@[simp] theorem clearAutoRoundTimer_vars (a : App) :
    (a.clearAutoRoundTimer).vars = { a.vars with autoResetTimer := none } := rfl

@[simp] theorem clearAutoRoundTimer_game (a : App) :
    (a.clearAutoRoundTimer).game = a.game := rfl

@[simp] theorem clearAutoRoundTimer_controlPanel (a : App) :
    (a.clearAutoRoundTimer).controlPanel = a.controlPanel := rfl

@[simp] theorem clearAutoRoundTimer_boardInteractive (a : App) :
    (a.clearAutoRoundTimer).boardInteractive = a.boardInteractive := rfl

@[simp] theorem clearAutoRoundTimer_revealAllTimers (a : App) :
    (a.clearAutoRoundTimer).revealAllTimers = a.revealAllTimers := rfl

@[simp] theorem clearAutoRoundTimer_sent (a : App) :
    (a.clearAutoRoundTimer).sent = a.sent := rfl

@[simp] theorem clearAutoRoundTimer_rng (a : App) :
    (a.clearAutoRoundTimer).rng = a.rng := rfl

@[simp] theorem clearAutoRoundTimer_finalizeCalls (a : App) :
    (a.clearAutoRoundTimer).finalizeCalls = a.finalizeCalls := rfl

@[simp] theorem clearAutoRoundTimer_autoStarts (a : App) :
    (a.clearAutoRoundTimer).autoStarts = a.autoStarts := rfl

end App

namespace App

section sendRelay
variable (a : App) (type : String) (payload : Payload)

@[simp] theorem sendRelayMessage_vars : (a.sendRelayMessage type payload).vars = a.vars := by
  unfold sendRelayMessage; split <;> rfl
@[simp] theorem sendRelayMessage_game : (a.sendRelayMessage type payload).game = a.game := by
  unfold sendRelayMessage; split <;> rfl
@[simp] theorem sendRelayMessage_controlPanel :
    (a.sendRelayMessage type payload).controlPanel = a.controlPanel := by
  unfold sendRelayMessage; split <;> rfl
@[simp] theorem sendRelayMessage_boardInteractive :
    (a.sendRelayMessage type payload).boardInteractive = a.boardInteractive := by
  unfold sendRelayMessage; split <;> rfl
@[simp] theorem sendRelayMessage_revealAllTimers :
    (a.sendRelayMessage type payload).revealAllTimers = a.revealAllTimers := by
  unfold sendRelayMessage; split <;> rfl
@[simp] theorem sendRelayMessage_rng : (a.sendRelayMessage type payload).rng = a.rng := by
  unfold sendRelayMessage; split <;> rfl
@[simp] theorem sendRelayMessage_finalizeCalls :
    (a.sendRelayMessage type payload).finalizeCalls = a.finalizeCalls := by
  unfold sendRelayMessage; split <;> rfl
@[simp] theorem sendRelayMessage_autoStarts :
    (a.sendRelayMessage type payload).autoStarts = a.autoStarts := by
  unfold sendRelayMessage; split <;> rfl

end sendRelay

section autoControls
variable (a : App) (x y : Bool)

@[simp] theorem setAutoControls_vars : (a.setAutoControls x y).vars = a.vars := rfl
@[simp] theorem setAutoControls_game : (a.setAutoControls x y).game = a.game := rfl
@[simp] theorem setAutoControls_boardInteractive :
    (a.setAutoControls x y).boardInteractive = a.boardInteractive := rfl
@[simp] theorem setAutoControls_revealAllTimers :
    (a.setAutoControls x y).revealAllTimers = a.revealAllTimers := rfl
@[simp] theorem setAutoControls_sent : (a.setAutoControls x y).sent = a.sent := rfl
@[simp] theorem setAutoControls_rng : (a.setAutoControls x y).rng = a.rng := rfl
@[simp] theorem setAutoControls_finalizeCalls :
    (a.setAutoControls x y).finalizeCalls = a.finalizeCalls := rfl
@[simp] theorem setAutoControls_autoStarts :
    (a.setAutoControls x y).autoStarts = a.autoStarts := rfl

@[simp] theorem setAutoRunUIState_vars : (a.setAutoRunUIState x).vars = a.vars := by
  unfold setAutoRunUIState; split <;> [rfl; (split <;> rfl)]
@[simp] theorem setAutoRunUIState_game : (a.setAutoRunUIState x).game = a.game := by
  unfold setAutoRunUIState; split <;> [rfl; (split <;> rfl)]
@[simp] theorem setAutoRunUIState_boardInteractive :
    (a.setAutoRunUIState x).boardInteractive = a.boardInteractive := by
  unfold setAutoRunUIState; split <;> [rfl; (split <;> rfl)]
@[simp] theorem setAutoRunUIState_revealAllTimers :
    (a.setAutoRunUIState x).revealAllTimers = a.revealAllTimers := by
  unfold setAutoRunUIState; split <;> [rfl; (split <;> rfl)]
@[simp] theorem setAutoRunUIState_sent : (a.setAutoRunUIState x).sent = a.sent := by
  unfold setAutoRunUIState; split <;> [rfl; (split <;> rfl)]
@[simp] theorem setAutoRunUIState_rng : (a.setAutoRunUIState x).rng = a.rng := by
  unfold setAutoRunUIState; split <;> [rfl; (split <;> rfl)]
@[simp] theorem setAutoRunUIState_finalizeCalls :
    (a.setAutoRunUIState x).finalizeCalls = a.finalizeCalls := by
  unfold setAutoRunUIState; split <;> [rfl; (split <;> rfl)]
@[simp] theorem setAutoRunUIState_autoStarts :
    (a.setAutoRunUIState x).autoStarts = a.autoStarts := by
  unfold setAutoRunUIState; split <;> [rfl; (split <;> rfl)]

@[simp] theorem setAutoRunFinishingState_vars : a.setAutoRunFinishingState.vars = a.vars := by
  unfold setAutoRunFinishingState; split <;> rfl
@[simp] theorem setAutoRunFinishingState_game : a.setAutoRunFinishingState.game = a.game := by
  unfold setAutoRunFinishingState; split <;> rfl
@[simp] theorem setAutoRunFinishingState_boardInteractive :
    a.setAutoRunFinishingState.boardInteractive = a.boardInteractive := by
  unfold setAutoRunFinishingState; split <;> rfl
@[simp] theorem setAutoRunFinishingState_revealAllTimers :
    a.setAutoRunFinishingState.revealAllTimers = a.revealAllTimers := by
  unfold setAutoRunFinishingState; split <;> rfl
@[simp] theorem setAutoRunFinishingState_sent : a.setAutoRunFinishingState.sent = a.sent := by
  unfold setAutoRunFinishingState; split <;> rfl
@[simp] theorem setAutoRunFinishingState_rng : a.setAutoRunFinishingState.rng = a.rng := by
  unfold setAutoRunFinishingState; split <;> rfl
@[simp] theorem setAutoRunFinishingState_finalizeCalls :
    a.setAutoRunFinishingState.finalizeCalls = a.finalizeCalls := by
  unfold setAutoRunFinishingState; split <;> rfl
@[simp] theorem setAutoRunFinishingState_autoStarts :
    a.setAutoRunFinishingState.autoStarts = a.autoStarts := by
  unfold setAutoRunFinishingState; split <;> rfl

end autoControls

section finalize
variable (a : App)

@[simp] theorem finalizeRound_vars :
    a.finalizeRound.vars
      = { a.vars with
          roundActive := false, cashoutAvailable := false, selectionDelayHandle := none
          selectionPending := false, betButtonMode := .bet, minesSelectionLocked := false
          currentBetResult := none, currentRoundAssignments := [], autoStopPending := false } := by
  unfold finalizeRound
  simp only [clearSelectionDelay_vars, setControlPanelBetMode_vars, setControlPanelRandomState_vars,
    setGameBoardInteractivity_vars, setVars_vars, setControlPanelMinesState_vars,
    setControlPanelBetState_vars, setModeAndBetControls_vars, setControlPanelAutoStartState_vars,
    setAutoRunUIState_vars, apply_ite App.vars, ite_self]
  split
  · rfl
  · rename_i h
    simp only [Bool.not_eq_true] at h
    cases hv : a.vars
    simp_all

@[simp] theorem finalizeRound_game : a.finalizeRound.game = a.game := by
  unfold finalizeRound
  simp [apply_ite App.game]

@[simp] theorem finalizeRound_finalizeCalls :
    a.finalizeRound.finalizeCalls = a.finalizeCalls + 1 := by
  unfold finalizeRound
  simp [apply_ite App.finalizeCalls]

@[simp] theorem finalizeRound_autoStarts : a.finalizeRound.autoStarts = a.autoStarts := by
  unfold finalizeRound
  simp [apply_ite App.autoStarts]

@[simp] theorem finalizeRound_sent : a.finalizeRound.sent = a.sent := by
  unfold finalizeRound
  simp [apply_ite App.sent]

@[simp] theorem finalizeRound_rng : a.finalizeRound.rng = a.rng := by
  unfold finalizeRound
  simp [apply_ite App.rng]

@[simp] theorem finalizeRound_revealAllTimers :
    a.finalizeRound.revealAllTimers = a.revealAllTimers := by
  unfold finalizeRound
  simp [apply_ite App.revealAllTimers]

end finalize

end App

namespace App

section roundState
variable (a : App) (st : RulesState)

@[simp] theorem applyRoundInteractiveState_vars :
    (a.applyRoundInteractiveState st).vars
      = { a.vars with cashoutAvailable := a.vars.cashoutAvailable && !a.vars.roundActive } := by
  unfold applyRoundInteractiveState
  cases hv : a.vars
  rename_i demoMode suppressRelay betButtonMode roundActive cashoutAvailable lastKnownGameState
    selectionDelayHandle selectionPending minesSelectionLocked controlPanelMode autoRunActive
    autoRoundInProgress autoResetTimer autoStopPending autoRemainingBets manualRoundNeedsReset
    availableCardTypes currentBetResult currentRoundAssignments autoResetDelayMs
  cases roundActive <;> simp [hv, apply_ite App.vars]

@[simp] theorem applyRoundInteractiveState_game :
    (a.applyRoundInteractiveState st).game = a.game := by
  unfold applyRoundInteractiveState
  simp [apply_ite App.game]

@[simp] theorem applyRoundInteractiveState_finalizeCalls :
    (a.applyRoundInteractiveState st).finalizeCalls = a.finalizeCalls := by
  unfold applyRoundInteractiveState
  simp [apply_ite App.finalizeCalls]

@[simp] theorem applyRoundInteractiveState_autoStarts :
    (a.applyRoundInteractiveState st).autoStarts = a.autoStarts := by
  unfold applyRoundInteractiveState
  simp [apply_ite App.autoStarts]

@[simp] theorem applyRoundInteractiveState_sent :
    (a.applyRoundInteractiveState st).sent = a.sent := by
  unfold applyRoundInteractiveState
  simp [apply_ite App.sent]

@[simp] theorem applyRoundInteractiveState_rng :
    (a.applyRoundInteractiveState st).rng = a.rng := by
  unfold applyRoundInteractiveState
  simp [apply_ite App.rng]

@[simp] theorem applyRoundInteractiveState_revealAllTimers :
    (a.applyRoundInteractiveState st).revealAllTimers = a.revealAllTimers := by
  unfold applyRoundInteractiveState
  simp [apply_ite App.revealAllTimers]

/-- A state notification that does not end a round (no round is active, or the
state is not game over) only records the state and clears `cashoutAvailable`. -/
theorem handleGameStateChange_quiet (h : a.vars.roundActive = false ∨ st.gameOver = false) :
    (a.handleGameStateChange st).vars
        = { a.vars with
            lastKnownGameState := some st
            cashoutAvailable := a.vars.cashoutAvailable && !a.vars.roundActive } ∧
      (a.handleGameStateChange st).game = a.game ∧
      (a.handleGameStateChange st).finalizeCalls = a.finalizeCalls ∧
      (a.handleGameStateChange st).autoStarts = a.autoStarts ∧
      (a.handleGameStateChange st).sent = a.sent ∧
      (a.handleGameStateChange st).rng = a.rng ∧
      (a.handleGameStateChange st).revealAllTimers = a.revealAllTimers := by
  unfold handleGameStateChange
  simp only [setVars_vars]
  by_cases hr : a.vars.roundActive = false
  · simp [hr]
  · have hg : st.gameOver = false := by
      rcases h with h | h
      · exact absurd h hr
      · exact h
    simp [hr, hg]

end roundState

/-- What `game.reset()` leaves of the module variables: all but the recorded
state and `cashoutAvailable`. -/
theorem gameReset_shape (a : App) :
    (∃ l c, a.gameReset.vars
        = { a.vars with lastKnownGameState := l, cashoutAvailable := c }) ∧
      a.gameReset.game = a.game.map Game.resetBoard ∧
      a.gameReset.finalizeCalls = a.finalizeCalls ∧
      a.gameReset.autoStarts = a.autoStarts ∧
      a.gameReset.sent = a.sent ∧
      a.gameReset.rng = a.rng ∧
      a.gameReset.revealAllTimers = a.revealAllTimers := by
  unfold gameReset notifyStateChange
  cases hg : a.game with
  | none =>
    simp only [withGame_game, hg, Option.map_none', withGame_vars, withGame_finalizeCalls,
      withGame_autoStarts, withGame_sent, withGame_rng, withGame_revealAllTimers, and_self,
      and_true]
    exact ⟨a.vars.lastKnownGameState, a.vars.cashoutAvailable, rfl⟩
  | some g =>
    simp only [withGame_game, hg, Option.map_some']
    have h := handleGameStateChange_quiet (a.withGame Game.resetBoard) g.resetBoard.rules.getState
      (Or.inr (by simp [GameRules.getState, Game.resetBoard_rules_gameOver]))
    simp only [withGame_vars, withGame_game, hg, Option.map_some', withGame_finalizeCalls,
      withGame_autoStarts, withGame_sent, withGame_rng, withGame_revealAllTimers] at h
    exact ⟨⟨_, _, h.1⟩, h.2⟩

end App

namespace App

section stop
variable (a : App) (reason : String)

/-- What `stopAutoBetProcess` does when it has to wait for the round. -/
theorem stopAutoBetProcess_wait (h : a.vars.roundActive = true) :
    (a.stopAutoBetProcess reason false).vars
        = { a.vars with
            selectionDelayHandle := none, selectionPending := false, autoResetTimer := none
            autoRunActive := false, autoRoundInProgress := false, autoStopPending := true } ∧
      (a.stopAutoBetProcess reason false).game
        = a.game.map (fun g => if g.isAutoRevealInProgress then g else g.revealRemainingTiles []) ∧
      (a.stopAutoBetProcess reason false).finalizeCalls = a.finalizeCalls ∧
      (a.stopAutoBetProcess reason false).autoStarts = a.autoStarts ∧
      (a.stopAutoBetProcess reason false).rng = a.rng ∧
      (a.stopAutoBetProcess reason false).revealAllTimers = a.revealAllTimers := by
  unfold stopAutoBetProcess
  simp [h, apply_ite App.vars, apply_ite App.game, apply_ite App.finalizeCalls,
    apply_ite App.autoStarts, apply_ite App.rng, apply_ite App.revealAllTimers]

/-- What `stopAutoBetProcess` does when it does not wait: the round, if one is
active, is finalized. -/
theorem stopAutoBetProcess_now (completed : Bool)
    (h : a.vars.roundActive = false ∨ completed = true) :
    (a.stopAutoBetProcess reason completed).vars
        = (if a.vars.roundActive then
            { a.vars with
              roundActive := false, cashoutAvailable := false, selectionDelayHandle := none
              selectionPending := false, betButtonMode := .bet, minesSelectionLocked := false
              currentBetResult := none, currentRoundAssignments := [], autoStopPending := false
              autoResetTimer := none, autoRunActive := false, autoRoundInProgress := false }
          else
            { a.vars with
              selectionDelayHandle := none, selectionPending := false, autoResetTimer := none
              autoRunActive := false, autoRoundInProgress := false, autoStopPending := false }) ∧
      (a.stopAutoBetProcess reason completed).game = a.game ∧
      (a.stopAutoBetProcess reason completed).finalizeCalls
        = (if a.vars.roundActive then a.finalizeCalls + 1 else a.finalizeCalls) ∧
      (a.stopAutoBetProcess reason completed).autoStarts = a.autoStarts ∧
      (a.stopAutoBetProcess reason completed).rng = a.rng ∧
      (a.stopAutoBetProcess reason completed).revealAllTimers = a.revealAllTimers := by
  unfold stopAutoBetProcess
  cases completed with
  | true =>
    cases hr : a.vars.roundActive <;>
      simp [hr, apply_ite App.vars, apply_ite App.game, apply_ite App.finalizeCalls,
        apply_ite App.autoStarts, apply_ite App.rng, apply_ite App.revealAllTimers]
  | false =>
    have hr : a.vars.roundActive = false := by simpa using h
    simp [hr, apply_ite App.vars, apply_ite App.game, apply_ite App.finalizeCalls,
      apply_ite App.autoStarts, apply_ite App.rng, apply_ite App.revealAllTimers]

end stop

/-- Switching from auto to manual never finalizes: the round stays active and
`finalizeRound` does not run. -/
theorem handleModeChange_manual_keeps_round (a : App) (hmode : a.vars.controlPanelMode = .auto)
    (hround : a.vars.roundActive = true) :
    (a.handleModeChange .manual).vars.roundActive = true ∧
      (a.handleModeChange .manual).vars.controlPanelMode = .manual ∧
      (a.handleModeChange .manual).finalizeCalls = a.finalizeCalls := by
  unfold handleModeChange
  simp only [hmode]
  have hw := stopAutoBetProcess_wait a "user" hround
  obtain ⟨⟨l, c, hshape⟩, -, hfin, -⟩ := gameReset_shape
    (((if a.vars.autoRunActive = true ∧ Mode.manual ≠ Mode.auto then
        a.stopAutoBetProcess "user" false else a).setVars
          fun v => { v with controlPanelMode := Mode.manual }).setControlPanelAutoStartState false)
  simp only [reduceCtorEq, ↓reduceIte, ne_eq, not_false_eq_true, and_true,
    setControlPanelBetState_vars, setControlPanelRandomState_vars, setGameBoardInteractivity_vars,
    setVars_vars, setControlPanelBetState_finalizeCalls, setControlPanelRandomState_finalizeCalls,
    setGameBoardInteractivity_finalizeCalls, setVars_finalizeCalls] at hshape hfin ⊢
  rw [hshape, hfin]
  simp only [setControlPanelAutoStartState_vars, setVars_vars,
    setControlPanelAutoStartState_finalizeCalls, setVars_finalizeCalls]
  by_cases hauto : a.vars.autoRunActive = true
  · simp [hauto, hw.1, hw.2.2.1, hround]
  · simp [hauto, hround]

end App

namespace App

/-- C8, the code at a failing input: in auto mode with a round active and no
auto run (relay mode, the round started by an inbound `start-bet`), the
`modechange` handler to manual returns with `roundActive` still true and
without having run `finalizeRound`. -/
theorem c8_auto_to_manual_round_stays_active :
    autoModeRoundStarted.vars.controlPanelMode = .auto ∧
      autoModeRoundStarted.vars.roundActive = true ∧
      autoModeRoundStarted.vars.autoRunActive = false ∧
      (autoModeRoundStarted.handleModeChange .manual).vars.controlPanelMode = .manual ∧
      (autoModeRoundStarted.handleModeChange .manual).vars.roundActive = true ∧
      (autoModeRoundStarted.handleModeChange .manual).finalizeCalls
        = autoModeRoundStarted.finalizeCalls := by
  decide

/-- C9: from any state in manual mode with a round active, the `modechange`
handler to auto finalizes the round (`finalizeRound` runs once and
`roundActive` is false on return), the mode is auto, and when
`manualRoundNeedsReset` was set the board has been reset (`game.reset()`) and
the flag cleared; otherwise the game is left as it was. -/
theorem c9_manual_to_auto_finalizes (a : App) (hmode : a.vars.controlPanelMode = .manual)
    (hround : a.vars.roundActive = true) :
    (a.handleModeChange .auto).vars.roundActive = false ∧
      (a.handleModeChange .auto).vars.controlPanelMode = .auto ∧
      (a.handleModeChange .auto).finalizeCalls = a.finalizeCalls + 1 ∧
      (a.vars.manualRoundNeedsReset = true →
        (a.handleModeChange .auto).vars.manualRoundNeedsReset = false ∧
        (a.handleModeChange .auto).game = a.game.map Game.resetBoard) ∧
      (a.vars.manualRoundNeedsReset = false → (a.handleModeChange .auto).game = a.game) := by
  unfold handleModeChange
  obtain ⟨⟨l, c, hshape⟩, hgame, hfin, -⟩ := gameReset_shape
    ((a.setVars fun v => { v with controlPanelMode := Mode.auto }).finalizeRound)
  cases hreset : a.vars.manualRoundNeedsReset <;>
    simp [hmode, hround, hreset, hshape, hgame, hfin, apply_ite App.vars, apply_ite App.game,
      apply_ite App.finalizeCalls]

theorem c9_manual_to_auto_witness :
    (manualRoundStarted.handleModeChange .auto).vars.roundActive = false ∧
      (manualRoundStarted.handleModeChange .auto).vars.controlPanelMode = .auto ∧
      (manualRoundStarted.handleModeChange .auto).finalizeCalls
        = manualRoundStarted.finalizeCalls + 1 ∧
      (manualRoundStarted.vars.manualRoundNeedsReset = true →
        (manualRoundStarted.handleModeChange .auto).vars.manualRoundNeedsReset = false ∧
        (manualRoundStarted.handleModeChange .auto).game
          = manualRoundStarted.game.map Game.resetBoard) ∧
      (manualRoundStarted.vars.manualRoundNeedsReset = false →
        (manualRoundStarted.handleModeChange .auto).game = manualRoundStarted.game) :=
  c9_manual_to_auto_finalizes manualRoundStarted (by decide) (by decide)

end App

namespace App

theorem prepareForNewRoundState_run (a : App) :
    a.prepareForNewRoundState.vars.run = a.vars.run ∧
      a.prepareForNewRoundState.vars.roundActive = true ∧
      a.prepareForNewRoundState.finalizeCalls = a.finalizeCalls ∧
      a.prepareForNewRoundState.autoStarts = a.autoStarts ∧
      a.prepareForNewRoundState.game = a.game ∧
      a.prepareForNewRoundState.rng = a.rng := by
  unfold prepareForNewRoundState
  cases hm : a.vars.controlPanelMode <;> cases hr : a.vars.autoRunActive <;>
    simp [hm, hr, Vars.run]

theorem performBet_run (a : App) :
    a.performBet.vars.run = a.vars.run ∧
      a.performBet.vars.roundActive = true ∧
      a.performBet.finalizeCalls = a.finalizeCalls ∧
      a.performBet.autoStarts = a.autoStarts ∧
      a.performBet.game = a.game ∧
      a.performBet.rng = a.rng := by
  have h := prepareForNewRoundState_run a
  unfold performBet
  simp only [setVars_vars, setVars_finalizeCalls, setVars_autoStarts, setVars_game, setVars_rng]
  refine ⟨?_, h.2.1, h.2.2⟩
  rw [← h.1]
  rfl

theorem gameReset_run (a : App) :
    a.gameReset.vars.run = a.vars.run ∧
      a.gameReset.vars.roundActive = a.vars.roundActive ∧
      a.gameReset.finalizeCalls = a.finalizeCalls ∧
      a.gameReset.autoStarts = a.autoStarts ∧
      a.gameReset.game = a.game.map Game.resetBoard ∧
      a.gameReset.rng = a.rng := by
  obtain ⟨⟨l, c, hv⟩, hg, hf, hs, -, hr, -⟩ := gameReset_shape a
  refine ⟨?_, ?_, hf, hs, hg, hr⟩ <;> (rw [hv]; try rfl)

theorem setRoundAssignments_run (a : App) (assignments : List Entry) (info : OutcomeMeta) :
    (a.setRoundAssignments assignments info).vars.run = a.vars.run ∧
      (a.setRoundAssignments assignments info).vars.roundActive = a.vars.roundActive ∧
      (a.setRoundAssignments assignments info).finalizeCalls = a.finalizeCalls ∧
      (a.setRoundAssignments assignments info).autoStarts = a.autoStarts ∧
      (a.setRoundAssignments assignments info).game
        = a.game.map (fun g => g.installAssignments assignments info) ∧
      (a.setRoundAssignments assignments info).rng = a.rng := by
  unfold setRoundAssignments notifyStateChange
  cases hg : a.game with
  | none => simp [hg]
  | some g =>
    simp only [withGame_game, hg, Option.map_some']
    have h := handleGameStateChange_quiet
      (a.withGame fun g => g.installAssignments assignments info)
      (g.installAssignments assignments info).rules.getState
      (Or.inr (by simp [GameRules.getState, Game.installAssignments_rules_gameOver]))
    simp only [withGame_vars, withGame_game, hg, Option.map_some', withGame_finalizeCalls,
      withGame_autoStarts, withGame_sent, withGame_rng, withGame_revealAllTimers] at h
    obtain ⟨hv, hgame, hf, hs, -, hr, -⟩ := h
    refine ⟨?_, ?_, hf, hs, hgame, hr⟩ <;> (rw [hv]; try rfl)

theorem prepareScratchRound_run (a : App) (betResult : String) :
    (a.prepareScratchRound betResult).vars.run = a.vars.run ∧
      (a.prepareScratchRound betResult).vars.roundActive = a.vars.roundActive ∧
      (a.prepareScratchRound betResult).finalizeCalls = a.finalizeCalls ∧
      (a.prepareScratchRound betResult).autoStarts = a.autoStarts := by
  unfold prepareScratchRound
  simp only [setVars_game]
  split
  · simp [Vars.run]
  · refine ⟨?_, ?_, ?_, ?_⟩
    · rw [(setRoundAssignments_run _ _ _).1]; rfl
    · rw [(setRoundAssignments_run _ _ _).2.1]; rfl
    · rw [(setRoundAssignments_run _ _ _).2.2.1]; rfl
    · rw [(setRoundAssignments_run _ _ _).2.2.2.1]; rfl

end App

namespace App

theorem handleBet_demo_run (a : App) (betResult : String) (hdemo : a.vars.demoMode = true) :
    (a.handleBet betResult).vars.run = a.vars.run ∧
      (a.handleBet betResult).vars.roundActive = true ∧
      (a.handleBet betResult).finalizeCalls = a.finalizeCalls ∧
      (a.handleBet betResult).autoStarts = a.autoStarts := by
  unfold handleBet
  simp only [hdemo, Bool.true_eq_false, false_and, ↓reduceIte]
  obtain ⟨h₁, h₂, h₃, h₄⟩ := prepareScratchRound_run a.performBet.gameReset betResult
  obtain ⟨g₁, g₂, g₃, g₄, -⟩ := gameReset_run a.performBet
  obtain ⟨p₁, p₂, p₃, p₄, -⟩ := performBet_run a
  exact ⟨by rw [h₁, g₁, p₁], by rw [h₂, g₂, p₂], by rw [h₃, g₃, p₃], by rw [h₄, g₄, p₄]⟩

/-- A round of an auto-bet run started in demo mode: the run variables are
untouched and a round is active. -/
theorem executeAutoBetRound_demo (a : App) (hdemo : a.vars.demoMode = true)
    (hrun : a.vars.autoRunActive = true) :
    a.executeAutoBetRound.vars.run = a.vars.run ∧
      a.executeAutoBetRound.vars.roundActive = true ∧
      a.executeAutoBetRound.finalizeCalls = a.finalizeCalls ∧
      a.executeAutoBetRound.autoStarts = a.autoStarts := by
  unfold executeAutoBetRound
  simp only [hrun, Bool.true_eq_false, ↓reduceIte, setVars_vars, hdemo, false_and]
  have h := handleBet_demo_run
    (a.setVars fun v => { v with autoRoundInProgress := true }).determineDemoBetResult.2
    (a.setVars fun v => { v with autoRoundInProgress := true }).determineDemoBetResult.1
    (by simpa [determineDemoBetResult] using hdemo)
  simp only [determineDemoBetResult, setVars_vars, setVars_rng, setVars_finalizeCalls,
    setVars_autoStarts] at h ⊢
  exact ⟨by rw [h.1]; rfl, h.2.1, h.2.2.1, h.2.2.2⟩

/-- Up to `2^53` the subtraction is exact. -/
theorem jsMinusOne_of_le (x : Nat) (h : x ≤ 9007199254740992) : jsMinusOne x = x - 1 := by
  unfold jsMinusOne jsNumber
  rw [if_pos (by omega)]
  rfl

theorem readNumberOfBets_of_lt (n : Nat) (h : n < 9007199254740992) :
    readNumberOfBets n = n := by
  unfold readNumberOfBets jsNumber
  rw [if_pos h]
  rfl

theorem handleAutoRoundCompleted_continue (a : App) (hrun : a.vars.autoRunActive = true)
    (hmore : a.vars.autoRemainingBets ≠ 1)
    (hsafe : a.vars.autoRemainingBets ≤ 9007199254740992) :
    a.handleAutoRoundCompleted.vars
      = { a.vars with
          autoRemainingBets := a.vars.autoRemainingBets - 1
          autoRoundInProgress := false
          autoResetTimer := some a.vars.autoResetDelayMs } ∧
      a.handleAutoRoundCompleted.finalizeCalls = a.finalizeCalls ∧
      a.handleAutoRoundCompleted.autoStarts = a.autoStarts := by
  unfold handleAutoRoundCompleted scheduleNextAutoBetRound
  rw [jsMinusOne_of_le _ hsafe]
  by_cases hzero : a.vars.autoRemainingBets = 0
  · simp [hzero, hrun]
  · have hpos : 0 < a.vars.autoRemainingBets := Nat.pos_of_ne_zero hzero
    have hne : ¬ a.vars.autoRemainingBets - 1 = 0 := by omega
    simp [hpos, hrun, hne, jsMinusOne_of_le _ hsafe]

theorem jsMinusOne_one : jsMinusOne 1 = 0 := rfl

theorem handleAutoRoundCompleted_last (a : App) (hrun : a.vars.autoRunActive = true)
    (hlast : a.vars.autoRemainingBets = 1) :
    a.handleAutoRoundCompleted
      = (((a.setVars fun v => { v with autoRemainingBets := jsMinusOne v.autoRemainingBets
          }).panel fun p => { p with numberOfBetsValue := jsMinusOne a.vars.autoRemainingBets
            }).setVars
            fun v => { v with autoRoundInProgress := false }).stopAutoBetProcess "completed" true := by
  unfold handleAutoRoundCompleted
  simp [hlast, hrun, jsMinusOne_one]

theorem handleGameStateChange_over (a : App) (st : RulesState)
    (hround : a.vars.roundActive = true) (hover : st.gameOver = true)
    (hmode : a.vars.controlPanelMode = .auto) (hrun : a.vars.autoRunActive = true) :
    a.handleGameStateChange st
      = ((a.setVars fun v => { v with lastKnownGameState := some st
          }).finalizeRound).handleAutoRoundCompleted := by
  unfold handleGameStateChange
  simp [hround, hover, hmode, hrun]

end App

namespace App

theorem run_eq_iff (v w : Vars) :
    v.run = w.run ↔
      v.demoMode = w.demoMode ∧ v.suppressRelay = w.suppressRelay ∧
      v.controlPanelMode = w.controlPanelMode ∧ v.autoRunActive = w.autoRunActive ∧
      v.autoRemainingBets = w.autoRemainingBets ∧ v.autoResetTimer = w.autoResetTimer ∧
      v.autoResetDelayMs = w.autoResetDelayMs ∧ v.autoStopPending = w.autoStopPending := by
  simp [Vars.run]

theorem running_start (a : App) (hdemo : a.vars.demoMode = true)
    (hmode : a.vars.controlPanelMode = .auto) (hidle : a.vars.autoRunActive = false) :
    Running a.configuredBets a.vars.autoResetDelayMs a.startAutoBetProcess := by
  unfold startAutoBetProcess
  simp only [hidle, hmode, Bool.false_eq_true, ne_eq, not_true_eq_false, or_self, ↓reduceIte,
    setVars_vars, hdemo, Bool.true_eq_false, false_and]
  obtain ⟨h₁, h₂, -⟩ := executeAutoBetRound_demo
    ((({ a with autoStarts := a.autoStarts + 1 } : App).setVars fun v =>
        { v with
          autoRunActive := true, autoRoundInProgress := false, autoStopPending := false
          autoRemainingBets := a.configuredBets }).setAutoRunUIState true)
    (by simpa using hdemo) (by simp)
  rw [run_eq_iff] at h₁
  simp only [setAutoRunUIState_vars, setVars_vars] at h₁
  exact ⟨by rw [h₁.1, hdemo], by rw [h₁.2.2.1, hmode], h₁.2.2.2.1, h₂, h₁.2.2.2.2.1,
    h₁.2.2.2.2.2.2.1⟩

theorem fireAutoResetTimer_pending (a : App) (d : Nat) (htimer : a.vars.autoResetTimer = some d)
    (hrun : a.vars.autoRunActive = true) :
    a.fireAutoResetTimer
      = (a.setVars fun v => { v with autoResetTimer := none }).executeAutoBetRound := by
  unfold fireAutoResetTimer
  simp [htimer, hrun]

theorem fireAutoResetTimer_none (a : App) (htimer : a.vars.autoResetTimer = none) :
    a.fireAutoResetTimer = a := by
  unfold fireAutoResetTimer
  simp [htimer]

/-- A round completion that is not the last one of the run: the counter goes
down by one unless it is 0, the run stays active and the next round is
scheduled; when the timer fires, the next round is in flight. -/
theorem running_step (b : App) (st : RulesState) (r d : Nat) (hb : Running r d b)
    (hover : st.gameOver = true) (hmore : r ≠ 1) (hsafe : r ≤ 9007199254740992) :
    (b.handleGameStateChange st).vars.autoRunActive = true ∧
      (b.handleGameStateChange st).vars.autoRemainingBets = r - 1 ∧
      (b.handleGameStateChange st).vars.autoResetTimer = some d ∧
      (b.handleGameStateChange st).vars.roundActive = false ∧
      Running (r - 1) d (b.handleGameStateChange st).fireAutoResetTimer := by
  obtain ⟨hdemo, hmode, hrun, hround, hrem, hdelay⟩ := hb
  rw [handleGameStateChange_over b st hround hover hmode hrun]
  obtain ⟨hv, -⟩ := handleAutoRoundCompleted_continue
    ((b.setVars fun v => { v with lastKnownGameState := some st }).finalizeRound)
    (by simpa using hrun) (by simpa [hrem] using hmore) (by simpa [hrem] using hsafe)
  simp only [finalizeRound_vars, setVars_vars] at hv
  refine ⟨by rw [hv]; exact hrun, by rw [hv, ← hrem], by rw [hv, ← hdelay], by rw [hv], ?_⟩
  rw [fireAutoResetTimer_pending _ d (by rw [hv, ← hdelay]) (by rw [hv]; exact hrun)]
  obtain ⟨h₁, h₂, -⟩ := executeAutoBetRound_demo
    ((((b.setVars fun v => { v with lastKnownGameState := some st
        }).finalizeRound).handleAutoRoundCompleted).setVars
          fun v => { v with autoResetTimer := none })
    (by simp only [setVars_vars, hv]; exact hdemo) (by simp only [setVars_vars, hv]; exact hrun)
  rw [run_eq_iff] at h₁
  simp only [setVars_vars, hv] at h₁
  exact ⟨by rw [h₁.1, hdemo], by rw [h₁.2.2.1, hmode], by rw [h₁.2.2.2.1, hrun], h₂,
    by rw [h₁.2.2.2.2.1, hrem], by rw [h₁.2.2.2.2.2.2.1, hdelay]⟩

theorem running_autoRounds (sts : List RulesState) (b : App) (r d : Nat) (hb : Running r d b)
    (hover : ∀ s ∈ sts, s.gameOver = true) (hroom : r = 0 ∨ sts.length < r)
    (hsafe : r ≤ 9007199254740992) :
    Running (r - sts.length) d (autoRounds b sts) := by
  induction sts generalizing b r with
  | nil => simpa [autoRounds] using hb
  | cons s rest ih =>
    simp only [List.length_cons] at hroom
    have hstep := running_step b s r d hb (hover s (List.mem_cons_self _ _)) (by omega) hsafe
    have := ih (b.handleGameStateChange s).fireAutoResetTimer (r - 1) hstep.2.2.2.2
      (fun x hx => hover x (List.mem_cons_of_mem _ hx)) (by omega) (by omega)
    simp only [autoRounds, List.length_cons]
    have heq : r - (rest.length + 1) = r - 1 - rest.length := by omega
    rw [heq]
    exact this

end App

namespace App

/-- C6, as stated, fails: the counter is a JS number. With `N = 2^53 + 2`
typed in the number-of-bets input, the first round completion of a demo auto
run leaves `autoRemainingBets = 2^53 = N - 2` (`N - 1` is not a double and the
subtraction rounds to even); with `N = 10^20` a round completion leaves the
counter at `10^20`, so the run does not count down. -/
theorem c6_counter_is_a_double :
    (boot ["A", "B"] 9007199254740994 false []).configuredBets = 9007199254740994 ∧
    ((((boot ["A", "B"] 9007199254740994 false []).handleModeChange
        .auto).startAutoBetProcess).handleGameStateChange allRevealed).vars.autoRemainingBets
      = 9007199254740992 ∧
    (boot ["A", "B"] 100000000000000000000 false []).configuredBets = 100000000000000000000 ∧
    ((((boot ["A", "B"] 100000000000000000000 false []).handleModeChange
        .auto).startAutoBetProcess).handleGameStateChange allRevealed).vars.autoRemainingBets
      = 100000000000000000000 ∧
    ((((boot ["A", "B"] 100000000000000000000 false []).handleModeChange
        .auto).startAutoBetProcess).handleGameStateChange allRevealed).vars.autoRunActive
      = true := by
  refine ⟨?_, ?_, ?_, ?_, ?_⟩ <;> decide

/-- C6, amended: in demo mode, start auto-bet in auto mode with
`N = configuredBets` bets, `N` at most `2^53` (up to there the subtraction of
JS numbers is exact). Let the rounds complete one after the other (`sts` are
the completions seen so far, each followed by the timer of the next round) and
let `st` be the next completion. If it is not the `N`-th (or `N` is 0,
unlimited), the run stays active, the counter is `N` minus the number of
completions (0 stays 0), the next round is scheduled and is in flight once the
timer fires. If it is the `N`-th, the handler is
`stopAutoBetProcess('completed', true)` applied after the finalize and the
decrement, the run is inactive, no timer is pending, no round is active, and
neither the timer callback nor `executeAutoBetRound` starts another round. -/
theorem c6_auto_run_counts_down (a : App) (sts : List RulesState) (st : RulesState)
    (hdemo : a.vars.demoMode = true) (hmode : a.vars.controlPanelMode = .auto)
    (hidle : a.vars.autoRunActive = false) (hsts : ∀ s ∈ sts, s.gameOver = true)
    (hst : st.gameOver = true) (hsafe : a.configuredBets ≤ 9007199254740992) :
    (sts.length + 1 < a.configuredBets ∨ a.configuredBets = 0 →
      ((autoRounds a.startAutoBetProcess sts).handleGameStateChange st).vars.autoRunActive = true ∧
      ((autoRounds a.startAutoBetProcess sts).handleGameStateChange st).vars.autoRemainingBets
        = a.configuredBets - (sts.length + 1) ∧
      ((autoRounds a.startAutoBetProcess sts).handleGameStateChange st).vars.autoResetTimer
        = some a.vars.autoResetDelayMs ∧
      ((autoRounds a.startAutoBetProcess sts).handleGameStateChange
        st).fireAutoResetTimer.vars.roundActive = true) ∧
    (sts.length + 1 = a.configuredBets →
      (autoRounds a.startAutoBetProcess sts).handleGameStateChange st
        = ((((((autoRounds a.startAutoBetProcess sts).setVars fun v =>
              { v with lastKnownGameState := some st }).finalizeRound).setVars fun v =>
                { v with autoRemainingBets := jsMinusOne v.autoRemainingBets }).panel fun p =>
                  { p with numberOfBetsValue := 0 }).setVars fun v =>
                    { v with autoRoundInProgress := false }).stopAutoBetProcess "completed" true ∧
      ((autoRounds a.startAutoBetProcess sts).handleGameStateChange st).vars.autoRunActive = false ∧
      ((autoRounds a.startAutoBetProcess sts).handleGameStateChange st).vars.autoRemainingBets = 0 ∧
      ((autoRounds a.startAutoBetProcess sts).handleGameStateChange st).vars.autoResetTimer = none ∧
      ((autoRounds a.startAutoBetProcess sts).handleGameStateChange st).vars.roundActive = false ∧
      ((autoRounds a.startAutoBetProcess sts).handleGameStateChange st).fireAutoResetTimer
        = (autoRounds a.startAutoBetProcess sts).handleGameStateChange st ∧
      ((autoRounds a.startAutoBetProcess sts).handleGameStateChange st).executeAutoBetRound
        = (autoRounds a.startAutoBetProcess sts).handleGameStateChange st) := by
  have hstart := running_start a hdemo hmode hidle
  constructor
  · intro hmore
    have hrun := running_autoRounds sts a.startAutoBetProcess a.configuredBets
      a.vars.autoResetDelayMs hstart hsts (by omega) hsafe
    have hstep := running_step _ st _ _ hrun hst (by omega) (by omega)
    obtain ⟨h₁, h₂, h₃, -, h₅⟩ := hstep
    exact ⟨h₁, by rw [h₂]; omega, h₃, h₅.2.2.2.1⟩
  · intro hlast
    have hrun := running_autoRounds sts a.startAutoBetProcess a.configuredBets
      a.vars.autoResetDelayMs hstart hsts (by omega) hsafe
    obtain ⟨-, hm, hr, hround, hrem, -⟩ := hrun
    have hone : (autoRounds a.startAutoBetProcess sts).vars.autoRemainingBets = 1 := by
      rw [hrem]; omega
    have heq : (autoRounds a.startAutoBetProcess sts).handleGameStateChange st
        = ((((((autoRounds a.startAutoBetProcess sts).setVars fun v =>
              { v with lastKnownGameState := some st }).finalizeRound).setVars fun v =>
                { v with autoRemainingBets := jsMinusOne v.autoRemainingBets }).panel fun p =>
                  { p with numberOfBetsValue := 0 }).setVars fun v =>
                    { v with autoRoundInProgress := false }).stopAutoBetProcess
                      "completed" true := by
      rw [handleGameStateChange_over _ st hround hst hm hr,
        handleAutoRoundCompleted_last _ (by simpa using hr) (by simpa using hone)]
      simp [hone, jsMinusOne_one]
    obtain ⟨hv, -⟩ := stopAutoBetProcess_now
      ((((((autoRounds a.startAutoBetProcess sts).setVars fun v =>
          { v with lastKnownGameState := some st }).finalizeRound).setVars fun v =>
            { v with autoRemainingBets := jsMinusOne v.autoRemainingBets }).panel fun p =>
              { p with numberOfBetsValue := 0 }).setVars fun v =>
                { v with autoRoundInProgress := false }) "completed" true (Or.inr rfl)
    simp only [setVars_vars, panel_vars, finalizeRound_vars, Bool.false_eq_true, ↓reduceIte,
      hone, jsMinusOne_one] at hv
    rw [heq]
    refine ⟨rfl, by rw [hv], by rw [hv], by rw [hv], by rw [hv], ?_, ?_⟩
    · exact fireAutoResetTimer_none _ (by rw [hv])
    · unfold executeAutoBetRound
      rw [hv]
      simp

/-- C6 on the demo run `autoReady` with 3 bets configured: at the third
completion the run is inactive, the counter is 0, no timer is pending and no
round is active. -/
theorem c6_auto_run_witness :
    autoReady.configuredBets = 3 ∧
    ((autoRounds autoReady.startAutoBetProcess [allRevealed, allRevealed]).handleGameStateChange
        allRevealed).vars.autoRunActive = false ∧
      ((autoRounds autoReady.startAutoBetProcess [allRevealed, allRevealed]).handleGameStateChange
        allRevealed).vars.autoRemainingBets = 0 ∧
      ((autoRounds autoReady.startAutoBetProcess [allRevealed, allRevealed]).handleGameStateChange
        allRevealed).vars.autoResetTimer = none ∧
      ((autoRounds autoReady.startAutoBetProcess [allRevealed, allRevealed]).handleGameStateChange
        allRevealed).vars.roundActive = false :=
  have h := (c6_auto_run_counts_down autoReady [allRevealed, allRevealed] allRevealed
    (by decide) (by decide) (by decide) (by decide) (by decide) (by decide)).2 (by decide)
  ⟨by decide, h.2.1, h.2.2.1, h.2.2.2.1, h.2.2.2.2.1⟩

end App

namespace App

theorem Holds.refl (a : App) : Holds a a :=
  ⟨le_refl _, le_refl _, fun _ _ h => h⟩

theorem Holds.trans {a b c : App} (h₁ : Holds a b) (h₂ : Holds b c) : Holds a c := by
  obtain ⟨f₁, s₁, k₁⟩ := h₁
  obtain ⟨f₂, s₂, k₂⟩ := h₂
  refine ⟨le_trans f₁ f₂, le_trans s₁ s₂, ?_⟩
  intro hf hs hp
  have hf₁ : b.finalizeCalls = a.finalizeCalls := by omega
  have hs₁ : b.autoStarts = a.autoStarts := by omega
  exact k₂ (by omega) (by omega) (k₁ hf₁ hs₁ hp)

/-- A step that leaves the flag, the round, the label and the counters alone. -/
theorem Holds.of_same {a b : App} (h₁ : b.vars.autoStopPending = a.vars.autoStopPending)
    (h₂ : b.vars.roundActive = a.vars.roundActive) (h₃ : b.autoStartLabel = a.autoStartLabel)
    (h₄ : b.finalizeCalls = a.finalizeCalls) (h₅ : b.autoStarts = a.autoStarts) : Holds a b := by
  refine ⟨by omega, by omega, ?_⟩
  intro _ _ hp
  unfold StopPending at hp ⊢
  rw [h₁, h₂, h₃]
  exact hp

/-- A step that runs `finalizeRound` or starts a run, whatever else it does. -/
theorem Holds.of_counted {a b : App} (h₁ : a.finalizeCalls ≤ b.finalizeCalls)
    (h₂ : a.autoStarts ≤ b.autoStarts)
    (h₃ : a.finalizeCalls < b.finalizeCalls ∨ a.autoStarts < b.autoStarts) : Holds a b := by
  refine ⟨h₁, h₂, ?_⟩
  intro hf hs
  omega

section labels
variable (a : App) (x : Bool)

@[simp] theorem setVars_autoStartLabel (f : Vars → Vars) :
    (a.setVars f).autoStartLabel = a.autoStartLabel := rfl
@[simp] theorem withGame_autoStartLabel (f : Game → Game) :
    (a.withGame f).autoStartLabel = a.autoStartLabel := rfl
@[simp] theorem setControlPanelBetState_autoStartLabel :
    (a.setControlPanelBetState x).autoStartLabel = a.autoStartLabel := by
  cases h : a.controlPanel <;> simp [autoStartLabel, h]
@[simp] theorem setControlPanelRandomState_autoStartLabel :
    (a.setControlPanelRandomState x).autoStartLabel = a.autoStartLabel := by
  cases h : a.controlPanel <;> simp [autoStartLabel, h]
@[simp] theorem setControlPanelAutoStartState_autoStartLabel :
    (a.setControlPanelAutoStartState x).autoStartLabel = a.autoStartLabel := by
  cases h : a.controlPanel <;> simp [autoStartLabel, h]
@[simp] theorem setControlPanelMinesState_autoStartLabel :
    (a.setControlPanelMinesState x).autoStartLabel = a.autoStartLabel := by
  cases h : a.controlPanel <;> simp [autoStartLabel, h]
@[simp] theorem setModeAndBetControls_autoStartLabel :
    (a.setModeAndBetControls x).autoStartLabel = a.autoStartLabel := by
  cases h : a.controlPanel <;> simp [autoStartLabel, h]
@[simp] theorem setControlPanelBetMode_autoStartLabel (m : BetButtonMode) :
    (a.setControlPanelBetMode m).autoStartLabel = a.autoStartLabel := by
  cases h : a.controlPanel <;> simp [autoStartLabel, h]
@[simp] theorem setGameBoardInteractivity_autoStartLabel :
    (a.setGameBoardInteractivity x).autoStartLabel = a.autoStartLabel := rfl
@[simp] theorem clearSelectionDelay_autoStartLabel :
    a.clearSelectionDelay.autoStartLabel = a.autoStartLabel := rfl
@[simp] theorem clearAutoRoundTimer_autoStartLabel :
    a.clearAutoRoundTimer.autoStartLabel = a.autoStartLabel := rfl
@[simp] theorem sendRelayMessage_autoStartLabel (type : String) (payload : Payload) :
    (a.sendRelayMessage type payload).autoStartLabel = a.autoStartLabel := by
  simp [autoStartLabel]
@[simp] theorem setAutoControls_autoStartLabel (y : Bool) :
    (a.setAutoControls x y).autoStartLabel = a.autoStartLabel := by
  cases h : a.controlPanel <;> simp [autoStartLabel, setAutoControls, h]
@[simp] theorem setAutoRunFinishingState_autoStartLabel :
    a.setAutoRunFinishingState.autoStartLabel = a.controlPanel.map fun _ => .finish := by
  cases h : a.controlPanel <;> simp [autoStartLabel, setAutoRunFinishingState, setAutoControls, h]
@[simp] theorem setAutoRunUIState_autoStartLabel :
    (a.setAutoRunUIState x).autoStartLabel
      = a.controlPanel.map fun _ => if x then AutoStartMode.stop else AutoStartMode.start := by
  cases h : a.controlPanel <;> cases x <;>
    simp [autoStartLabel, setAutoRunUIState, setAutoControls, h]

end labels

end App

namespace App

/-- A step that leaves the flag, the label and the counters alone and leaves
a round active. -/
theorem Holds.of_round {a b : App} (h₁ : b.vars.autoStopPending = a.vars.autoStopPending)
    (h₂ : b.vars.roundActive = true) (h₃ : b.autoStartLabel = a.autoStartLabel)
    (h₄ : b.finalizeCalls = a.finalizeCalls) (h₅ : b.autoStarts = a.autoStarts) : Holds a b := by
  refine ⟨by omega, by omega, ?_⟩
  intro _ _ hp
  unfold StopPending at hp ⊢
  rw [h₁, h₂, h₃]
  exact ⟨hp.1, rfl, hp.2.2⟩

theorem Holds.ite {a x y : App} {c : Prop} [Decidable c] (hx : Holds a x) (hy : Holds a y) :
    Holds a (if c then x else y) := by
  split <;> assumption

theorem holds_finalizeRound (a : App) : Holds a a.finalizeRound :=
  Holds.of_counted (by simp) (by simp) (Or.inl (by simp))

@[simp] theorem applyRoundInteractiveState_autoStartLabel (a : App) (st : RulesState) :
    (a.applyRoundInteractiveState st).autoStartLabel = a.autoStartLabel := by
  unfold applyRoundInteractiveState
  simp only [apply_ite App.autoStartLabel, setVars_autoStartLabel,
    setGameBoardInteractivity_autoStartLabel, setControlPanelRandomState_autoStartLabel,
    setControlPanelBetState_autoStartLabel, ite_self]

theorem holds_applyRoundInteractiveState (a : App) (st : RulesState) :
    Holds a (a.applyRoundInteractiveState st) :=
  Holds.of_same (by simp) (by simp) (by simp) (by simp) (by simp)

theorem holds_stopAutoBetProcess (a : App) (reason : String) (completed : Bool) :
    Holds a (a.stopAutoBetProcess reason completed) := by
  by_cases hwait : a.vars.roundActive = true ∧ completed = false
  · obtain ⟨hr, rfl⟩ := hwait
    obtain ⟨hv, -, hf, hs, -⟩ := stopAutoBetProcess_wait a reason hr
    refine ⟨by omega, by omega, ?_⟩
    intro _ _ _
    refine ⟨by rw [hv], by rw [hv]; exact hr, ?_⟩
    unfold stopAutoBetProcess
    simp only [clearAutoRoundTimer_vars, clearSelectionDelay_vars, setVars_vars,
      apply_ite App.vars, sendRelayMessage_vars, ite_self, hr, Bool.not_false, Bool.and_self,
      ↓reduceIte, withGame_autoStartLabel, setAutoRunFinishingState_autoStartLabel,
      setVars_controlPanel, apply_ite App.controlPanel, sendRelayMessage_controlPanel,
      clearAutoRoundTimer_controlPanel, clearSelectionDelay_controlPanel]
    cases a.controlPanel <;> simp
  · have hnow : a.vars.roundActive = false ∨ completed = true := by
      cases hr : a.vars.roundActive <;> cases completed <;> simp_all
    obtain ⟨-, -, hf, hs, -⟩ := stopAutoBetProcess_now a reason completed hnow
    refine ⟨by rw [hf]; split <;> omega, by omega, ?_⟩
    intro hfe _ hp
    rw [hf, hp.2.1] at hfe
    simp at hfe

theorem holds_scheduleNextAutoBetRound (a : App) : Holds a a.scheduleNextAutoBetRound := by
  unfold scheduleNextAutoBetRound
  exact Holds.ite (Holds.refl a) (Holds.of_same rfl rfl rfl rfl rfl)

theorem holds_handleAutoRoundCompleted (a : App) : Holds a a.handleAutoRoundCompleted := by
  unfold handleAutoRoundCompleted
  have h₁ : Holds a ((if decide (a.vars.autoRemainingBets > 0) = true then
      (a.setVars fun v => { v with autoRemainingBets := jsMinusOne v.autoRemainingBets }).panel
        fun p => { p with numberOfBetsValue := jsMinusOne a.vars.autoRemainingBets }
      else a).setVars fun v => { v with autoRoundInProgress := false }) := by
    refine Holds.trans (b := if decide (a.vars.autoRemainingBets > 0) = true then
      (a.setVars fun v => { v with autoRemainingBets := jsMinusOne v.autoRemainingBets }).panel
        fun p => { p with numberOfBetsValue := jsMinusOne a.vars.autoRemainingBets }
      else a) (Holds.ite ?_ (Holds.refl a)) (Holds.of_same rfl rfl rfl rfl rfl)
    refine Holds.of_same rfl rfl ?_ rfl rfl
    cases h : a.controlPanel <;> simp [autoStartLabel, h]
  exact Holds.ite h₁ (Holds.ite (h₁.trans (holds_stopAutoBetProcess _ _ _))
    (h₁.trans (holds_scheduleNextAutoBetRound _)))

theorem holds_handleGameStateChange (a : App) (st : RulesState) :
    Holds a (a.handleGameStateChange st) := by
  unfold handleGameStateChange
  have h₁ : Holds a (a.setVars fun v => { v with lastKnownGameState := some st }) :=
    Holds.of_same rfl rfl rfl rfl rfl
  exact Holds.ite h₁ (Holds.ite
    (Holds.ite ((h₁.trans (holds_finalizeRound _)).trans (holds_handleAutoRoundCompleted _))
      (h₁.trans (holds_finalizeRound _)))
    (h₁.trans (holds_applyRoundInteractiveState _ _)))

theorem holds_withGame (a : App) (f : Game → Game) : Holds a (a.withGame f) :=
  Holds.of_same rfl rfl rfl rfl rfl

theorem holds_setGame (a : App) (g : Option Game) : Holds a { a with game := g } :=
  Holds.of_same rfl rfl rfl rfl rfl

theorem holds_notifyStateChange (a : App) : Holds a a.notifyStateChange := by
  unfold notifyStateChange
  split
  · exact holds_handleGameStateChange _ _
  · exact Holds.refl a

theorem holds_gameReset (a : App) : Holds a a.gameReset :=
  (holds_withGame a _).trans (holds_notifyStateChange _)

theorem holds_setRoundAssignments (a : App) (assignments : List Entry) (info : OutcomeMeta) :
    Holds a (a.setRoundAssignments assignments info) :=
  (holds_withGame a _).trans (holds_notifyStateChange _)

theorem holds_prepareForNewRoundState (a : App) : Holds a a.prepareForNewRoundState := by
  obtain ⟨hrun, hround, hf, hs, -⟩ := prepareForNewRoundState_run a
  rw [run_eq_iff] at hrun
  refine Holds.of_round hrun.2.2.2.2.2.2.2 hround ?_ hf hs
  unfold prepareForNewRoundState
  simp only [apply_ite App.autoStartLabel, setModeAndBetControls_autoStartLabel,
    setControlPanelMinesState_autoStartLabel, setVars_autoStartLabel,
    setControlPanelAutoStartState_autoStartLabel, setGameBoardInteractivity_autoStartLabel,
    setControlPanelRandomState_autoStartLabel, setControlPanelBetState_autoStartLabel,
    setControlPanelBetMode_autoStartLabel, clearSelectionDelay_autoStartLabel, ite_self]

theorem holds_performBet (a : App) : Holds a a.performBet :=
  (holds_prepareForNewRoundState a).trans (Holds.of_same rfl rfl rfl rfl rfl)

theorem holds_prepareScratchRound (a : App) (betResult : String) :
    Holds a (a.prepareScratchRound betResult) := by
  unfold prepareScratchRound
  refine Holds.ite (Holds.of_same rfl rfl rfl rfl rfl) ?_
  exact Holds.trans (b := (({ a.setVars fun v => { v with currentBetResult := some betResult }
        with rng := (generateScratchCardAssignments
          (a.setVars fun v => { v with currentBetResult := some betResult }).vars.availableCardTypes
          betResult (a.setVars fun v => { v with currentBetResult := some betResult }).rng).2 }
        : App).setVars fun v =>
          { v with
            currentRoundAssignments :=
              (generateScratchCardAssignments
                (a.setVars fun v => { v with currentBetResult := some betResult
                  }).vars.availableCardTypes
                betResult (a.setVars fun v => { v with currentBetResult := some betResult
                  }).rng).1.assignments.foldl
                (fun m e => JsMap.set m (roundKey e.row e.col) e.contentKey) [] }))
      (Holds.of_same rfl rfl rfl rfl rfl) (holds_setRoundAssignments _ _ _)

theorem holds_sendRelayMessage (a : App) (type : String) (payload : Payload) :
    Holds a (a.sendRelayMessage type payload) :=
  Holds.of_same (by simp) (by simp) (by simp) (by simp) (by simp)

theorem holds_handleBet (a : App) (betResult : String) : Holds a (a.handleBet betResult) := by
  unfold handleBet
  refine Holds.ite ?_
    (((holds_performBet a).trans (holds_gameReset _)).trans (holds_prepareScratchRound _ _))
  refine Holds.trans (b := a.disableServerRoundSetupControls) ?_ (holds_sendRelayMessage _ _ _)
  exact Holds.of_same rfl rfl (by simp [disableServerRoundSetupControls]) rfl rfl

end App

namespace App

theorem holds_setVars_other (a : App) (f : Vars → Vars)
    (h₁ : (f a.vars).autoStopPending = a.vars.autoStopPending)
    (h₂ : (f a.vars).roundActive = a.vars.roundActive) : Holds a (a.setVars f) :=
  Holds.of_same h₁ h₂ rfl rfl rfl

theorem holds_determineDemoBetResult (a : App) : Holds a a.determineDemoBetResult.2 :=
  Holds.of_same rfl rfl rfl rfl rfl

theorem holds_executeAutoBetRound (a : App) : Holds a a.executeAutoBetRound := by
  unfold executeAutoBetRound
  refine Holds.ite (Holds.refl a) ?_
  have h₁ : Holds a (a.setVars fun v => { v with autoRoundInProgress := true }) :=
    holds_setVars_other a _ rfl rfl
  refine Holds.ite (h₁.trans (holds_sendRelayMessage _ _ _)) ?_
  exact ((h₁.trans (holds_determineDemoBetResult _)).trans (holds_handleBet _ _)).trans
    (Holds.of_same rfl rfl rfl rfl rfl)

theorem holds_fireRevealAllTimer (a : App) : Holds a a.fireRevealAllTimer := by
  unfold fireRevealAllTimer
  refine Holds.ite (Holds.refl a) (Holds.ite ?_ ?_)
  · exact Holds.of_same rfl rfl rfl rfl rfl
  · exact Holds.of_same rfl rfl rfl rfl rfl

theorem holds_fireAutoResetTimer (a : App) : Holds a a.fireAutoResetTimer := by
  unfold fireAutoResetTimer
  split
  · exact Holds.refl a
  · have h₁ : Holds a (a.setVars fun v => { v with autoResetTimer := none }) :=
      holds_setVars_other a _ rfl rfl
    exact Holds.ite h₁ (h₁.trans (holds_executeAutoBetRound _))

theorem holds_setAutoRunUIState_counted (a b : App) (x : Bool)
    (h : Holds a b) (hc : a.finalizeCalls < b.finalizeCalls ∨ a.autoStarts < b.autoStarts) :
    Holds a (b.setAutoRunUIState x) :=
  Holds.of_counted (by simpa using h.1) (by simpa using h.2.1) (by simpa using hc)

theorem holds_startAutoBetProcess (a : App) : Holds a a.startAutoBetProcess := by
  unfold startAutoBetProcess
  refine Holds.ite (Holds.refl a) ?_
  have h₁ : Holds a (({ a with autoStarts := a.autoStarts + 1 } : App).setVars fun v =>
      { v with
        autoRunActive := true, autoRoundInProgress := false, autoStopPending := false
        autoRemainingBets := a.configuredBets }) :=
    Holds.of_counted (le_refl _) (Nat.le_succ _) (Or.inr (Nat.lt_succ_self _))
  have h₂ := holds_executeAutoBetRound
    ((if (({ a with autoStarts := a.autoStarts + 1 } : App).setVars fun v =>
        { v with
          autoRunActive := true, autoRoundInProgress := false, autoStopPending := false
          autoRemainingBets := a.configuredBets }).vars.demoMode = false ∧
        (({ a with autoStarts := a.autoStarts + 1 } : App).setVars fun v =>
        { v with
          autoRunActive := true, autoRoundInProgress := false, autoStopPending := false
          autoRemainingBets := a.configuredBets }).vars.suppressRelay = false then
      ((({ a with autoStarts := a.autoStarts + 1 } : App).setVars fun v =>
        { v with
          autoRunActive := true, autoRoundInProgress := false, autoStopPending := false
          autoRemainingBets := a.configuredBets }).sendRelayMessage "control:start-autobet"
            (.startAutobet a.configuredBets)).sendRelayMessage "action:start-autobet"
              (.startAutobet a.configuredBets)
      else (({ a with autoStarts := a.autoStarts + 1 } : App).setVars fun v =>
        { v with
          autoRunActive := true, autoRoundInProgress := false, autoStopPending := false
          autoRemainingBets := a.configuredBets })).setAutoRunUIState true)
  refine Holds.of_counted (le_trans ?_ h₂.1) (le_trans ?_ h₂.2.1) (Or.inr (lt_of_lt_of_le ?_ h₂.2.1))
  · simp [apply_ite App.finalizeCalls]
  · simp [apply_ite App.autoStarts]
  · simp [apply_ite App.autoStarts]

theorem holds_handleStartAutobetClick (a : App) : Holds a a.handleStartAutobetClick := by
  unfold handleStartAutobetClick
  exact Holds.ite (holds_stopAutoBetProcess _ _ _)
    (Holds.ite (Holds.refl a) (holds_startAutoBetProcess a))

theorem holds_markManualRoundForReset (a : App) : Holds a a.markManualRoundForReset := by
  unfold markManualRoundForReset
  exact Holds.ite (holds_setVars_other a _ rfl rfl) (Holds.refl a)

theorem holds_revealAndFinalize (a : App) :
    Holds a (a.markManualRoundForReset.withGame fun g => g.revealRemainingTiles []).finalizeRound :=
  ((holds_markManualRoundForReset a).trans (holds_withGame _ _)).trans (holds_finalizeRound _)

theorem holds_handleCashout (a : App) : Holds a a.handleCashout := by
  unfold handleCashout
  exact Holds.ite (Holds.refl a)
    (Holds.ite (holds_sendRelayMessage _ _ _) (holds_revealAndFinalize a))

theorem holds_revealRemainingTilesAndFinalize (a : App) :
    Holds a a.revealRemainingTilesAndFinalize := by
  unfold revealRemainingTilesAndFinalize
  exact Holds.ite (Holds.refl a) (holds_revealAndFinalize a)

theorem holds_handleScratchButtonClick (a : App) : Holds a a.handleScratchButtonClick := by
  unfold handleScratchButtonClick
  exact Holds.ite (Holds.refl a) (holds_revealRemainingTilesAndFinalize a)

theorem holds_handleBetButtonClick (a : App) : Holds a a.handleBetButtonClick := by
  unfold handleBetButtonClick
  split
  · exact holds_handleCashout a
  · exact holds_handleScratchButtonClick a
  · exact Holds.ite ((holds_determineDemoBetResult a).trans (holds_handleBet _ _))
      (holds_handleBet _ _)

theorem holds_fireSweepTimer (a : App) (handle : Nat) : Holds a (a.fireSweepTimer handle) := by
  unfold fireSweepTimer
  split
  · exact Holds.refl a
  · split
    · exact Holds.refl a
    · exact Holds.ite ((holds_setGame a _).trans (holds_notifyStateChange _)) (holds_setGame a _)

theorem holds_finishFlight (a : App) (flight : Flight) : Holds a (a.finishFlight flight) :=
  holds_withGame a _

theorem holds_finishWiggle (a : App) (id : Nat) : Holds a (a.finishWiggle id) :=
  holds_withGame a _

theorem holds_revealSelectedCard (a : App) (contentKey : Face) :
    Holds a (a.revealSelectedCard contentKey) := by
  unfold revealSelectedCard
  split
  · exact Holds.refl a
  · split
    · exact Holds.refl a
    · split
      · exact Holds.refl a
      · exact Holds.ite (Holds.refl a) ((holds_setGame a _).trans (holds_notifyStateChange _))

theorem holds_beginSelectionDelay (a : App) : Holds a a.beginSelectionDelay :=
  Holds.of_same rfl rfl (by simp [beginSelectionDelay]) rfl rfl

theorem holds_handleCardSelected (a : App) (row col : Int) :
    Holds a (a.handleCardSelected row col) := by
  unfold handleCardSelected
  refine Holds.ite (Holds.refl a) (Holds.ite (Holds.refl a) ?_)
  have h₁ : Holds a (if a.vars.minesSelectionLocked = false then
      (a.setVars fun v => { v with minesSelectionLocked := true }).setControlPanelMinesState false
      else a) :=
    Holds.ite (Holds.of_same rfl rfl (by simp) rfl rfl) (Holds.refl a)
  have h₂ := h₁.trans (holds_beginSelectionDelay _)
  refine Holds.ite (h₂.trans (holds_sendRelayMessage _ _ _)) ?_
  exact (h₂.trans (holds_setVars_other _ _ rfl rfl)).trans (holds_revealSelectedCard _ _)

theorem holds_handleCardTap (a : App) (id : Nat) : Holds a (a.handleCardTap id) := by
  unfold handleCardTap
  split
  · exact Holds.refl a
  · split
    · exact Holds.refl a
    · refine Holds.ite (Holds.refl a) (Holds.ite (Holds.refl a) (Holds.ite (Holds.refl a) ?_))
      exact ((holds_setGame a _).trans (holds_handleCardSelected _ _ _)).trans
        (holds_notifyStateChange _)

theorem holds_selectRandomTile (a : App) : Holds a a.selectRandomTile := by
  unfold selectRandomTile
  split
  · exact Holds.refl a
  · rename_i g _
    dsimp only
    refine Holds.ite (Holds.refl a) ?_
    generalize (List.filter _ g.cards) = candidates
    split
    · exact Holds.of_same rfl rfl rfl rfl rfl
    · refine Holds.trans ?_ (holds_handleCardTap _ _)
      exact Holds.of_same rfl rfl rfl rfl rfl

theorem holds_handleRandomPickClick (a : App) : Holds a a.handleRandomPickClick := by
  unfold handleRandomPickClick
  exact Holds.ite (Holds.refl a) (holds_selectRandomTile a)

theorem holds_handleNumberOfBetsChange (a : App) (value : Nat) :
    Holds a (a.handleNumberOfBetsChange value) := by
  unfold handleNumberOfBetsChange
  exact Holds.trans (Holds.ite (holds_setVars_other a _ rfl rfl) (Holds.refl a))
    (holds_sendRelayMessage _ _ _)

theorem holds_revealAutoSelections (a : App) (results : List (Option ResultEntry)) :
    Holds a (a.revealAutoSelections results).1 := by
  unfold revealAutoSelections
  cases hgame : a.game with
  | none => exact Holds.refl a
  | some g =>
    dsimp only
    have h₁ : Holds a { a with game := some (revealAutoEntries g results).1 } := holds_setGame a _
    split
    · exact h₁
    · exact h₁.trans (holds_notifyStateChange _)

theorem holds_applyServerReveal (a : App) (payload : ResultEntry) :
    Holds a (a.applyServerReveal payload) := by
  unfold applyServerReveal
  have h₁ : Holds a (a.clearSelectionDelay.setVars fun v => { v with selectionPending := false }) :=
    Holds.of_same rfl rfl rfl rfl rfl
  refine Holds.trans (b := _) ?_ (holds_revealSelectedCard _ _)
  split
  · exact h₁.trans (holds_setVars_other _ _ rfl rfl)
  · exact h₁

theorem holds_applyAutoResultsFromServer (a : App)
    (results : Option (List (Option ResultEntry))) :
    Holds a (a.applyAutoResultsFromServer results).1 := by
  unfold applyAutoResultsFromServer
  have h₁ : Holds a (a.clearSelectionDelay.setVars fun v => { v with selectionPending := false }) :=
    Holds.of_same rfl rfl rfl rfl rfl
  split
  · exact h₁
  · exact h₁
  · exact (h₁.trans (holds_setVars_other _ _ rfl rfl)).trans (holds_revealAutoSelections _ _)

theorem holds_dispatchIncoming (a : App) (message : Inbound) :
    Holds a (a.dispatchIncoming message).1 := by
  unfold dispatchIncoming
  split
  · exact (holds_performBet a).trans (Holds.of_same rfl rfl (by simp) rfl rfl)
  · exact holds_applyServerReveal a _
  · exact holds_applyAutoResultsFromServer a _
  · exact holds_stopAutoBetProcess a _ _
  · exact holds_finalizeRound a
  · exact Holds.ite (holds_handleCashout a) (Holds.refl a)
  · exact Holds.refl a
  · exact Holds.refl a

theorem holds_handleIncoming (a : App) (message : Inbound) :
    Holds a (a.handleIncoming message) := by
  unfold handleIncoming withRelaySuppressed
  exact ((holds_setVars_other a _ rfl rfl).trans (holds_dispatchIncoming _ _)).trans
    (holds_setVars_other _ _ rfl rfl)

theorem holds_setControlPanelRandomState (a : App) (x : Bool) :
    Holds a (a.setControlPanelRandomState x) :=
  Holds.of_same (by simp) (by simp) (by simp) (by simp) (by simp)

theorem holds_setControlPanelBetState (a : App) (x : Bool) :
    Holds a (a.setControlPanelBetState x) :=
  Holds.of_same (by simp) (by simp) (by simp) (by simp) (by simp)

theorem holds_setControlPanelAutoStartState (a : App) (x : Bool) :
    Holds a (a.setControlPanelAutoStartState x) :=
  Holds.of_same (by simp) (by simp) (by simp) (by simp) (by simp)

theorem holds_setGameBoardInteractivity (a : App) (x : Bool) :
    Holds a (a.setGameBoardInteractivity x) :=
  Holds.of_same (by simp) (by simp) (by simp) (by simp) (by simp)

theorem holds_handleModeChange (a : App) (nextMode : Mode) :
    Holds a (a.handleModeChange nextMode) := by
  unfold handleModeChange
  dsimp only
  refine Holds.ite (Holds.refl a) ?_
  have h₁ : Holds a (if a.vars.autoRunActive = true ∧ nextMode ≠ .auto then
      a.stopAutoBetProcess "user" false else a) :=
    Holds.ite (holds_stopAutoBetProcess _ _ _) (Holds.refl a)
  have h₂ := h₁.trans (holds_setVars_other _ (fun v => { v with controlPanelMode := nextMode })
    rfl rfl)
  refine Holds.ite ?_ (Holds.ite ?_ ?_)
  · refine Holds.ite (Holds.trans ?_ (holds_setControlPanelAutoStartState _ _)) ?_ <;>
    · refine Holds.trans ?_ (holds_setGameBoardInteractivity _ _)
      refine Holds.trans ?_ (holds_setControlPanelRandomState _ _)
      refine Holds.ite ?_ h₂
      refine Holds.ite (Holds.trans (Holds.trans ?_ (holds_gameReset _))
        (holds_setVars_other _ _ rfl rfl)) ?_ <;>
      · exact Holds.ite (h₂.trans (holds_finalizeRound _)) h₂
  · refine Holds.trans ?_ (holds_setControlPanelBetState _ _)
    refine Holds.trans ?_ (holds_setControlPanelRandomState _ _)
    refine Holds.trans ?_ (holds_setGameBoardInteractivity _ _)
    refine Holds.trans ?_ (holds_setVars_other _ _ rfl rfl)
    refine Holds.trans ?_ (holds_gameReset _)
    exact h₂.trans (holds_setControlPanelAutoStartState _ _)
  · have h₃ := (h₂.trans (holds_setControlPanelAutoStartState _ false)).trans
      (holds_setGameBoardInteractivity _ true)
    exact Holds.ite (h₃.trans (holds_setControlPanelRandomState _ _)) h₃

/-- Every event keeps a pending stop pending unless it runs `finalizeRound` or
starts an auto-bet run, and no event lowers the counters. -/
theorem holds_step (a : App) (e : Event) : Holds a (a.step e) := by
  cases e with
  | betClick => exact holds_handleBetButtonClick a
  | randomPickClick => exact holds_handleRandomPickClick a
  | startAutobetClick => exact holds_handleStartAutobetClick a
  | modeChange mode => exact holds_handleModeChange a mode
  | numberOfBetsChange value => exact holds_handleNumberOfBetsChange a value
  | cardTap id => exact holds_handleCardTap a id
  | incoming message => exact holds_handleIncoming a message
  | autoResetTimer => exact holds_fireAutoResetTimer a
  | revealAllTimer => exact holds_fireRevealAllTimer a
  | sweepTimer handle => exact holds_fireSweepTimer a handle
  | flightDone flight => exact holds_finishFlight a flight
  | wiggleDone id => exact holds_finishWiggle a id
  | stateChange state => exact holds_handleGameStateChange a state
  | demoModeChange value =>
    exact Holds.ite (Holds.refl a) (Holds.ite (Holds.of_same rfl rfl rfl rfl rfl)
      (holds_setVars_other a _ rfl rfl))
  | animationsChange enabled => exact holds_withGame a _
  | controlChange type => exact holds_sendRelayMessage a _ _

theorem holds_run (events : List Event) (a : App) : Holds a (a.run events) := by
  induction events generalizing a with
  | nil => exact Holds.refl a
  | cons e rest ih => exact (holds_step a e).trans (ih (a.step e))

end App

namespace App

/-- The state right after a deferred stop: the stop is pending. -/
theorem stopAutoBetProcess_pending (a : App) (reason : String)
    (hround : a.vars.roundActive = true) : StopPending (a.stopAutoBetProcess reason false) := by
  have hw := stopAutoBetProcess_wait a reason hround
  refine ⟨by rw [hw.1], by rw [hw.1]; exact hround, ?_⟩
  unfold stopAutoBetProcess
  simp only [clearSelectionDelay_vars, clearAutoRoundTimer_vars, setVars_vars,
    apply_ite App.vars, sendRelayMessage_vars, ite_self, hround, Bool.not_false, Bool.and_true,
    if_true, withGame_autoStartLabel, setAutoRunFinishingState_autoStartLabel]
  have key : ∀ o : Option Panel, o.map (fun _ => AutoStartMode.finish) = none ∨
      o.map (fun _ => AutoStartMode.finish) = some .finish := by
    intro o
    cases o <;> simp
  exact key _

/-- What `finalizeRound` does to a pending stop: the flag is cleared and the
auto-start button is back to its idle label. -/
theorem finalizeRound_clears_stop (a : App) (h : a.vars.autoStopPending = true) :
    a.finalizeRound.vars.autoStopPending = false ∧
      a.finalizeRound.autoStartLabel = a.controlPanel.map fun _ => AutoStartMode.start := by
  refine ⟨by simp, ?_⟩
  unfold finalizeRound
  simp only [h, apply_ite App.vars, clearSelectionDelay_vars,
    setControlPanelBetMode_vars, setControlPanelRandomState_vars, setGameBoardInteractivity_vars,
    setVars_vars, setControlPanelMinesState_vars, setControlPanelBetState_vars,
    setModeAndBetControls_vars, setControlPanelAutoStartState_vars, ite_self, if_true,
    setAutoRunUIState_autoStartLabel, Bool.false_eq_true, if_false]
  simp only [apply_ite App.controlPanel, setVars_controlPanel, setControlPanelBetMode_controlPanel,
    setControlPanelRandomState_controlPanel, setGameBoardInteractivity_controlPanel,
    setControlPanelMinesState_controlPanel, setControlPanelBetState_controlPanel,
    setModeAndBetControls_controlPanel, setControlPanelAutoStartState_controlPanel,
    clearSelectionDelay_controlPanel]
  split <;> cases a.controlPanel <;> rfl

end App
end ScratchCard

namespace ScratchCard
namespace App

/-- C7, the claim as worded fails: in a demo auto-bet run with its first round
in flight, `stopAutoBetProcess` defers the stop (`autoStopPending` is true); an
inbound `start-bet` then re-enables the auto-start button, a click on it is
delivered and starts a new run, and `autoStopPending` is false although
`finalizeRound` has not run since the stop and the round is still active. -/
theorem c7_new_run_clears_pending_stop :
    autoRunning.vars.roundActive = true ∧
      (autoRunning.stopAutoBetProcess "user" false).vars.autoStopPending = true ∧
      ((autoRunning.stopAutoBetProcess "user" false).step (.incoming .startBet)).delivered
        .startAutobetClick = true ∧
      ((autoRunning.stopAutoBetProcess "user" false).run
        [.incoming .startBet, .startAutobetClick]).vars.autoStopPending = false ∧
      ((autoRunning.stopAutoBetProcess "user" false).run
        [.incoming .startBet, .startAutobetClick]).vars.roundActive = true ∧
      ((autoRunning.stopAutoBetProcess "user" false).run
        [.incoming .startBet, .startAutobetClick]).finalizeCalls = autoRunning.finalizeCalls := by
  decide

/-- C7 (amended): `stopAutoBetProcess` called with `completed = false` while
`roundActive` is true does not finalize the round: on return `finalizeRound`
has not run, `roundActive` is still true, `autoRunActive` and
`autoRoundInProgress` are false, `autoStopPending` is true and the game has been
asked to reveal all remaining tiles unless a sweep is in progress. Whatever
events follow, as long as `finalizeRound` has not run and no new auto-bet run
has been started (`startAutoBetProcess`), the stop stays pending:
`autoStopPending` is true, the round is active and the auto-start button, when
there is a panel, is still labelled as finishing, not back to its idle label;
`finalizeRound` run from there sets `autoStopPending` to false and returns the
button to its idle label (`setAutoRunUIState(false)`). -/
theorem c7_stop_deferred_until_finalize (a : App) (reason : String)
    (hround : a.vars.roundActive = true) :
    (a.stopAutoBetProcess reason false).finalizeCalls = a.finalizeCalls ∧
      (a.stopAutoBetProcess reason false).vars.roundActive = true ∧
      (a.stopAutoBetProcess reason false).vars.autoRunActive = false ∧
      (a.stopAutoBetProcess reason false).vars.autoRoundInProgress = false ∧
      (a.stopAutoBetProcess reason false).vars.autoStopPending = true ∧
      (a.stopAutoBetProcess reason false).game
        = a.game.map (fun g => if g.isAutoRevealInProgress then g else g.revealRemainingTiles []) ∧
      ∀ events : List Event,
        ((a.stopAutoBetProcess reason false).run events).finalizeCalls = a.finalizeCalls →
        ((a.stopAutoBetProcess reason false).run events).autoStarts = a.autoStarts →
          ((a.stopAutoBetProcess reason false).run events).vars.autoStopPending = true ∧
          ((a.stopAutoBetProcess reason false).run events).vars.roundActive = true ∧
          (((a.stopAutoBetProcess reason false).run events).autoStartLabel = none ∨
            ((a.stopAutoBetProcess reason false).run events).autoStartLabel = some .finish) ∧
          ((a.stopAutoBetProcess reason false).run events).finalizeRound.vars.autoStopPending
            = false ∧
          ((a.stopAutoBetProcess reason false).run events).finalizeRound.autoStartLabel
            = ((a.stopAutoBetProcess reason false).run events).controlPanel.map
                fun _ => AutoStartMode.start := by
  have hw := stopAutoBetProcess_wait a reason hround
  refine ⟨hw.2.2.1, by rw [hw.1]; exact hround, by rw [hw.1], by rw [hw.1], by rw [hw.1],
    hw.2.1, ?_⟩
  intro events hf hs
  have hp := (holds_run events (a.stopAutoBetProcess reason false)).2.2
    (by rw [hf, hw.2.2.1]) (by rw [hs, hw.2.2.2.1]) (stopAutoBetProcess_pending a reason hround)
  exact ⟨hp.1, hp.2.1, hp.2.2, finalizeRound_clears_stop _ hp.1⟩

/-- C7 at a running demo auto-bet run: the stop is deferred and stays pending
over an inbound `start-bet`. -/
theorem c7_stop_deferred_witness :
    autoRunning.vars.roundActive = true ∧
      (autoRunning.stopAutoBetProcess "user" false).vars.autoStopPending = true ∧
      ((autoRunning.stopAutoBetProcess "user" false).run
        [.incoming .startBet]).vars.autoStopPending = true :=
  ⟨by decide, (c7_stop_deferred_until_finalize autoRunning "user" (by decide)).2.2.2.2.1,
    ((c7_stop_deferred_until_finalize autoRunning "user" (by decide)).2.2.2.2.2.2
      [.incoming .startBet] (by decide) (by decide)).1⟩

end App

namespace Game

theorem findCard_modifyCard (g : Game) (id id' : Nat) (f : Card → Card)
    (hf : ∀ c, (f c).id = c.id) :
    (g.modifyCard id f).findCard id'
      = (g.findCard id').map fun c => if c.id = id then f c else c := by
  unfold findCard modifyCard
  simp only [← List.map_append, List.find?_map]
  congr 1
  apply congrArg (fun p => List.find? p (g.cards ++ g.detached))
  funext c
  simp only [Function.comp]
  split
  · rw [hf]
  · rfl

theorem clearScheduledAutoReveal_quiet (g : Game) (id : Nat) (card : Card)
    (hfind : g.findCard id = some card) (htimer : card.autoRevealTimer = none) :
    g.clearScheduledAutoReveal id
      = g.modifyCard id fun c => { c with autoRevealTimer := none, autoRevealScheduled := false } := by
  unfold clearScheduledAutoReveal
  rw [hfind]
  simp only [htimer]

theorem cardReveal_started (g : Game) (id : Nat) (w : String) (card : Card)
    (hfind : g.findCard id = some card)
    (hdestroyed : card.destroyed = false) (hrevealed : card.revealed = false)
    (hanim : g.disableAnimations = false) (hflip : g.flipDuration ≠ 0)
    (hw : w ∈ g.contentKeys) :
    g.cardReveal id (some w)
      = (true,
          { g.modifyCard id fun c => { c with animating := false, wiggling := false } with
            flights := g.flights ++ [{ cardId := id, key := some w }] }) := by
  unfold cardReveal
  rw [hfind]
  simp [hdestroyed, hrevealed, hanim, hflip, hw, modifyCard]

theorem map_modify_map (id : Nat) (f f' : Card → Card) (hf : ∀ c, (f c).id = c.id)
    (l : List Card) :
    (l.map fun c => if c.id = id then f c else c).map (fun c => if c.id = id then f' c else c)
      = l.map fun c => if c.id = id then f' (f c) else c := by
  rw [List.map_map]
  apply List.map_congr_left
  intro c _
  simp only [Function.comp]
  by_cases h : c.id = id
  · simp [h, hf]
  · simp [h]

/-- What `revealCard` does with a winning face on a tile at rest when
animations are enabled: the flip starts, the counters go up, and the sweep is
triggered once the engaged winning tiles reach the required count. -/
theorem revealCard_started (g : Game) (id : Nat) (w : String) (card : Card)
    (hfind : g.findCard id = some card) (htimer : card.autoRevealTimer = none)
    (hdestroyed : card.destroyed = false) (hrevealed : card.revealed = false)
    (hanim : g.disableAnimations = false) (hflip : g.flipDuration ≠ 0)
    (hbet : g.outcome.betResult = some "win") (hkey : g.outcome.winningKey = some w)
    (hw : w ∈ g.contentKeys) :
    g.revealCard id (some w)
      = if g.outcome.autoRevealTriggered = false ∧ g.outcome.winningCountRequired > 0 ∧
          g.outcome.revealedWinning + g.outcome.pendingWinningReveals + 1
            ≥ g.outcome.winningCountRequired then
          revealRemainingTiles
            ({ g.modifyCard id fun c =>
                { c with
                  autoRevealTimer := none, autoRevealScheduled := false, revealedFace := some w
                  animating := false, wiggling := false, pendingWinningReveal := true } with
              flights := g.flights ++ [{ cardId := id, key := some w }]
              outcome :=
                { g.outcome with
                  pendingReveals := g.outcome.pendingReveals + 1
                  pendingWinningReveals := g.outcome.pendingWinningReveals + 1
                  autoRevealTriggered := true } }) [id]
        else
          { g.modifyCard id fun c =>
              { c with
                autoRevealTimer := none, autoRevealScheduled := false, revealedFace := some w
                animating := false, wiggling := false, pendingWinningReveal := true } with
            flights := g.flights ++ [{ cardId := id, key := some w }]
            outcome :=
              { g.outcome with
                pendingReveals := g.outcome.pendingReveals + 1
                pendingWinningReveals := g.outcome.pendingWinningReveals + 1 } } := by
  have hid : card.id = id := by
    unfold findCard at hfind
    simpa using List.find?_some hfind
  have hfind₂ : ((g.modifyCard id fun c =>
      { c with autoRevealTimer := none, autoRevealScheduled := false }).modifyCard id fun c =>
      { c with revealedFace := some w }).findCard id
      = some { card with
          autoRevealTimer := none, autoRevealScheduled := false, revealedFace := some w } := by
    rw [findCard_modifyCard, findCard_modifyCard, hfind]
    · simp [hid]
    · intro c; rfl
    · intro c; rfl
  unfold revealCard
  rw [clearScheduledAutoReveal_quiet g id card hfind htimer]
  dsimp only
  rw [cardReveal_started _ id w _ hfind₂ hdestroyed hrevealed hanim hflip hw]
  simp only [if_true, modifyCard_outcome, hbet, hkey, ne_eq, not_false_eq_true,
    reduceCtorEq, decide_True, and_self, true_and]
  simp only [modifyCard]
  rw [map_modify_map, map_modify_map, map_modify_map, map_modify_map, map_modify_map,
    map_modify_map]
  all_goals try (intro c; rfl)


theorem handleCardRevealComplete_winning (g : Game) (id : Nat) (w : String) (card : Card)
    (hfind : g.findCard id = some card) (hbet : g.outcome.betResult = some "win")
    (hkey : g.outcome.winningKey = some w) (hpending : card.pendingWinningReveal = true)
    (hbelow : g.outcome.revealedWinning + 1 < g.outcome.winningCountRequired) :
    ∃ (o : RoundOutcome) (sounds : List String),
      g.handleCardRevealComplete id (some w)
        = { g.modifyCard id fun c =>
              { c with randomSelectionPending := false, pendingWinningReveal := false } with
            outcome := o, feedbackSounds := sounds } ∧
      o.betResult = g.outcome.betResult ∧ o.winningKey = g.outcome.winningKey ∧
      o.winningCountRequired = g.outcome.winningCountRequired ∧
      o.autoRevealTriggered = g.outcome.autoRevealTriggered ∧
      o.revealedWinning = g.outcome.revealedWinning + 1 ∧
      o.pendingWinningReveals = g.outcome.pendingWinningReveals - 1 := by
  have hlt : ¬ g.outcome.winningCountRequired ≤ g.outcome.revealedWinning + 1 := by omega
  unfold handleCardRevealComplete
  rw [hfind]
  simp only [modifyCard_outcome, hbet, hkey, hpending, Option.orElse, ne_eq, reduceCtorEq,
    not_false_eq_true, and_self, if_true, ge_iff_le, hlt, and_false, decide_False,
    Bool.false_eq_true, false_and, if_false]
  generalize (if id ∈ g.outcome.winningCards then g.outcome.winningCards
    else g.outcome.winningCards ++ [id]) = cards
  simp only [modifyCard]
  rw [map_modify_map, map_modify_map]
  all_goals try (intro c; rfl)
  split
  · exact ⟨_, _, rfl, rfl, rfl, rfl, rfl, rfl, rfl⟩
  · exact ⟨_, _, rfl, rfl, rfl, rfl, rfl, rfl, rfl⟩

/-- What the completion of the flip of a winning tile does while the required
count has not been reached: the tile is revealed, one winning reveal moves
from pending to revealed, nothing is scheduled. -/
theorem finishFlight_winning (g : Game) (flight : Flight) (w : String) (card : Card)
    (hmem : flight ∈ g.flights) (hfind : g.findCard flight.cardId = some card)
    (hface : flight.key = some w) (hbet : g.outcome.betResult = some "win")
    (hkey : g.outcome.winningKey = some w) (hpending : card.pendingWinningReveal = true)
    (hbelow : g.outcome.revealedWinning + 1 < g.outcome.winningCountRequired) :
    ∃ (o : RoundOutcome) (sounds : List String),
      g.finishFlight flight
        = { g.modifyCard flight.cardId fun c =>
              { c with
                animating := false, revealed := true, randomSelectionPending := false
                pendingWinningReveal := false } with
            flights := g.flights.erase flight, outcome := o, feedbackSounds := sounds } ∧
      o.betResult = g.outcome.betResult ∧ o.winningKey = g.outcome.winningKey ∧
      o.winningCountRequired = g.outcome.winningCountRequired ∧
      o.autoRevealTriggered = g.outcome.autoRevealTriggered ∧
      o.revealedWinning = g.outcome.revealedWinning + 1 ∧
      o.pendingWinningReveals = g.outcome.pendingWinningReveals - 1 := by
  have hid : card.id = flight.cardId := by
    unfold findCard at hfind
    simpa using List.find?_some hfind
  have hfind₂ : (({ g with flights := g.flights.erase flight } : Game).modifyCard flight.cardId
      fun c => { c with animating := false, revealed := true }).findCard flight.cardId
      = some { card with animating := false, revealed := true } := by
    rw [findCard_modifyCard]
    · have : ({ g with flights := g.flights.erase flight } : Game).findCard flight.cardId
          = some card := hfind
      rw [this]
      simp [hid]
    · intro c; rfl
  obtain ⟨o, sounds, heq, h₁, h₂, h₃, h₄, h₅, h₆⟩ := handleCardRevealComplete_winning
    ({ ({ g with flights := g.flights.erase flight } : Game).modifyCard flight.cardId
        fun c => { c with animating := false, revealed := true } with
      outcome := { g.outcome with pendingReveals := g.outcome.pendingReveals - 1 } })
    flight.cardId w { card with animating := false, revealed := true } hfind₂ hbet hkey hpending
    hbelow
  refine ⟨o, sounds, ?_, h₁, h₂, h₃, h₄, h₅, h₆⟩
  unfold finishFlight
  rw [if_pos hmem]
  unfold completeReveal
  rw [hface]
  refine Eq.trans heq ?_
  simp only [modifyCard]
  rw [map_modify_map, map_modify_map]
  all_goals try (intro c; rfl)

end Game

namespace Game

@[simp] theorem modifyCard_nextHandle (g : Game) (id : Nat) (f : Card → Card) :
    (g.modifyCard id f).nextHandle = g.nextHandle := rfl
@[simp] theorem modifyCard_disableAnimations (g : Game) (id : Nat) (f : Card → Card) :
    (g.modifyCard id f).disableAnimations = g.disableAnimations := rfl
@[simp] theorem modifyCard_revealAllIntervalDelay (g : Game) (id : Nat) (f : Card → Card) :
    (g.modifyCard id f).revealAllIntervalDelay = g.revealAllIntervalDelay := rfl

/-- A card of `modifyCard` with another id is a card of the game it came from. -/
theorem mem_modifyCard_other (g : Game) (id : Nat) (f : Card → Card) (c : Card)
    (hc : c ∈ (g.modifyCard id f).cards ++ (g.modifyCard id f).detached) (hne : c.id ≠ id)
    (hf : ∀ c, (f c).id = c.id) :
    c ∈ g.cards ++ g.detached := by
  unfold modifyCard at hc
  simp only [← List.map_append, List.mem_map] at hc
  obtain ⟨c₀, hc₀, rfl⟩ := hc
  by_cases h : c₀.id = id
  · rw [if_pos h, hf] at hne
    exact absurd h hne
  · rw [if_neg h]
    exact hc₀

/-- The function `clearScheduledAutoReveal` on a card without a timer leaves
the timers alone. -/
theorem clearScheduledAutoReveal_shape (g : Game) (id : Nat)
    (hq : ∀ c ∈ g.cards ++ g.detached, c.id = id → c.autoRevealTimer = none) :
    g.clearScheduledAutoReveal id = g ∨
      g.clearScheduledAutoReveal id
        = g.modifyCard id fun c => { c with autoRevealTimer := none, autoRevealScheduled := false } := by
  cases hfind : g.findCard id with
  | none =>
    left
    unfold clearScheduledAutoReveal
    rw [hfind]
  | some card =>
    right
    have hmem := List.mem_of_find?_eq_some hfind
    have hid : card.id = id := by
      unfold findCard at hfind
      simpa using List.find?_some hfind
    exact clearScheduledAutoReveal_quiet g id card hfind (hq card hmem hid)

/-- The body of the sweep for one card without a timer: one timer is added. -/
theorem scheduleReveal_shape (g : Game) (card : Card) (index : Nat)
    (hq : ∀ c ∈ g.cards ++ g.detached, c.id = card.id → c.autoRevealTimer = none) :
    (g.scheduleReveal card index).timers
        = g.timers ++
          [{ handle := g.nextHandle
             delay := if g.disableAnimations then 0 else g.revealAllIntervalDelay * index
             cardId := card.id, row := card.row, col := card.col
             assignedFace := (JsMap.get g.currentAssignments (getCardKey card.row card.col)).join }] ∧
      (g.scheduleReveal card index).nextHandle = g.nextHandle + 1 ∧
      (g.scheduleReveal card index).disableAnimations = g.disableAnimations ∧
      (g.scheduleReveal card index).revealAllIntervalDelay = g.revealAllIntervalDelay ∧
      (g.scheduleReveal card index).currentAssignments = g.currentAssignments ∧
      (g.scheduleReveal card index).outcome = g.outcome ∧
      ∀ c ∈ (g.scheduleReveal card index).cards ++ (g.scheduleReveal card index).detached,
        c.id ≠ card.id → c ∈ g.cards ++ g.detached := by
  unfold scheduleReveal
  rcases clearScheduledAutoReveal_shape g card.id hq with h | h
  · rw [h]
    refine ⟨rfl, rfl, rfl, rfl, rfl, rfl, ?_⟩
    intro c hc hne
    exact mem_modifyCard_other _ _ _ c hc hne (fun _ => rfl)
  · rw [h]
    refine ⟨rfl, rfl, rfl, rfl, rfl, rfl, ?_⟩
    intro c hc hne
    have h₁ := mem_modifyCard_other _ _ _ c hc hne (fun _ => rfl)
    exact mem_modifyCard_other _ _ _ c h₁ hne (fun _ => rfl)

/-- The `forEach` of the sweep over cards with distinct ids and without timers:
one timer per card, in order, with consecutive handles. -/
theorem foldl_scheduleReveal (cards : List Card) :
    ∀ (start base : Nat) (g : Game),
      g.nextHandle = base + start →
      (cards.map Card.id).Nodup →
      (∀ card ∈ cards, ∀ c ∈ g.cards ++ g.detached, c.id = card.id → c.autoRevealTimer = none) →
      ((cards.enumFrom start).foldl (fun acc item => scheduleReveal acc item.2 item.1) g).timers
          = g.timers ++ (cards.enumFrom start).map (fun item =>
              { handle := base + item.1
                delay := if g.disableAnimations then 0 else g.revealAllIntervalDelay * item.1
                cardId := item.2.id, row := item.2.row, col := item.2.col
                assignedFace :=
                  (JsMap.get g.currentAssignments (getCardKey item.2.row item.2.col)).join }) ∧
        ((cards.enumFrom start).foldl (fun acc item => scheduleReveal acc item.2 item.1) g).outcome
          = g.outcome := by
  induction cards with
  | nil =>
    intro start base g _ _ _
    simp
  | cons card rest ih =>
    intro start base g hbase hnodup hq
    simp only [List.map_cons, List.nodup_cons] at hnodup
    obtain ⟨h₁, h₂, h₃, h₄, h₅, h₆, h₇⟩ := scheduleReveal_shape g card start
      (hq card (List.mem_cons_self _ _))
    have hq' : ∀ card' ∈ rest, ∀ c ∈ (g.scheduleReveal card start).cards ++
        (g.scheduleReveal card start).detached, c.id = card'.id → c.autoRevealTimer = none := by
      intro card' hcard' c hc hid
      have hne : c.id ≠ card.id := by
        intro heq
        exact hnodup.1 (List.mem_map.mpr ⟨card', hcard', by rw [← hid, heq]⟩)
      exact hq card' (List.mem_cons_of_mem _ hcard') c (h₇ c hc hne) hid
    obtain ⟨ih₁, ih₂⟩ := ih (start + 1) base (g.scheduleReveal card start)
      (by rw [h₂, hbase]; omega) hnodup.2 hq'
    simp only [List.enumFrom_cons, List.foldl_cons, List.map_cons]
    refine ⟨?_, by rw [ih₂, h₆]⟩
    rw [ih₁, h₁, h₃, h₄, h₅, hbase, List.append_assoc]
    rfl

end Game

namespace Game

theorem findCard_of_mem_ids (g : Game) (id : Nat) (hd : g.detached = [])
    (hid : id ∈ g.cards.map Card.id) :
    ∃ card, g.findCard id = some card ∧ card ∈ g.cards ∧ card.id = id := by
  unfold findCard
  rw [hd, List.append_nil]
  cases h : g.cards.find? (fun c => decide (c.id = id)) with
  | none =>
    obtain ⟨c, hc, rfl⟩ := List.mem_map.mp hid
    have := List.find?_eq_none.mp h c hc
    simp at this
  | some card =>
    exact ⟨card, rfl, List.mem_of_find?_eq_some h, by simpa using List.find?_some h⟩

theorem Issuing.ids {g₀ g : Game} {w : String} {issued : List Nat} (h : Issuing g₀ g w issued) :
    g.cards.map Card.id = g₀.cards.map Card.id := by
  have := congrArg (List.map Prod.fst) h.board
  simpa [List.map_map, Function.comp] using this

/-- The reveal of a further winning tile is issued and the required count is
not reached yet: the invariant holds with that tile added. -/
theorem Issuing.issue {g₀ g : Game} {w : String} {issued : List Nat} (h : Issuing g₀ g w issued)
    (id : Nat) (hnew : id ∉ issued) (hid : id ∈ g₀.cards.map Card.id)
    (hbelow : issued.length + 1 < g₀.outcome.winningCountRequired) :
    Issuing g₀ (g.revealCard id (some w)) w (issued ++ [id]) := by
  obtain ⟨card, hfind, hmem, hcid⟩ := findCard_of_mem_ids g id h.detached (by rw [h.ids]; exact hid)
  have hrest := h.atRest card hmem
  have hrev : card.revealed = false := by
    cases hr : card.revealed with
    | false => rfl
    | true => exact absurd (hcid ▸ h.revealed card hmem hr) hnew
  have hengaged := h.engaged
  have hrequired := h.required
  rw [revealCard_started g id w card hfind hrest.2.2.2 hrest.1 hrev h.animations h.flip
    h.betResult h.winningKey h.keys, if_neg (by omega)]
  have hcards : ∀ c, c ∈ (g.modifyCard id fun c =>
      { c with
        autoRevealTimer := none, autoRevealScheduled := false, revealedFace := some w
        animating := false, wiggling := false, pendingWinningReveal := true }).cards →
      ∃ c₀ ∈ g.cards, (c₀.id ≠ id ∧ c = c₀) ∨ (c₀.id = id ∧ c =
        { c₀ with
          autoRevealTimer := none, autoRevealScheduled := false, revealedFace := some w
          animating := false, wiggling := false, pendingWinningReveal := true }) := by
    intro c hc
    obtain ⟨c₀, hc₀, rfl⟩ := List.mem_map.mp hc
    refine ⟨c₀, hc₀, ?_⟩
    by_cases hi : c₀.id = id
    · right; exact ⟨hi, by rw [if_pos hi]⟩
    · left; exact ⟨hi, by rw [if_neg hi]⟩
  refine
    { timers := h.timers
      detached := by
        show List.map _ g.detached = []
        rw [h.detached]; rfl
      animations := h.animations
      flip := h.flip
      delay := h.delay
      nextHandle := h.nextHandle
      keys := h.keys
      assignments := h.assignments
      betResult := h.betResult
      winningKey := h.winningKey
      required := h.required
      untriggered := h.untriggered
      engaged := by
        show g.outcome.revealedWinning + (g.outcome.pendingWinningReveals + 1) = _
        rw [List.length_append]; simp only [List.length_singleton]; omega
      pending := by
        show g.outcome.pendingWinningReveals + 1 = (g.flights ++ [_]).length
        rw [List.length_append, h.pending]; rfl
      board := ?_
      atRest := ?_
      revealed := ?_
      flying := ?_
      flights := ?_
      distinct := ?_ }
  · rw [← h.board]
    show List.map _ (List.map _ g.cards) = _
    rw [List.map_map]
    apply List.map_congr_left
    intro c _
    simp only [Function.comp]
    by_cases hi : c.id = id
    · rw [if_pos hi]
    · rw [if_neg hi]
  · intro c hc
    obtain ⟨c₀, hc₀, ⟨-, rfl⟩ | ⟨-, rfl⟩⟩ := hcards c hc
    · exact h.atRest c hc₀
    · exact ⟨(h.atRest c₀ hc₀).1, rfl, rfl, rfl⟩
  · intro c hc hr
    obtain ⟨c₀, hc₀, ⟨-, rfl⟩ | ⟨-, rfl⟩⟩ := hcards c hc
    · exact List.mem_append_left _ (h.revealed c hc₀ hr)
    · exact List.mem_append_left _ (h.revealed c₀ hc₀ hr)
  · intro c hc hi hr
    obtain ⟨c₀, hc₀, ⟨hne, rfl⟩ | ⟨heq, rfl⟩⟩ := hcards c hc
    · have : c.id ∈ issued := by
        rcases List.mem_append.mp hi with hi | hi
        · exact hi
        · exact absurd (List.mem_singleton.mp hi) hne
      exact List.mem_append_left _ (h.flying c hc₀ this hr)
    · apply List.mem_append_right
      show _ ∈ [_]
      rw [List.mem_singleton]
      show Flight.mk c₀.id (some w) = Flight.mk id (some w)
      rw [heq]
  · intro f hf
    rcases List.mem_append.mp hf with hf | hf
    · obtain ⟨h₁, h₂, h₃⟩ := h.flights f hf
      refine ⟨h₁, List.mem_append_left _ h₂, ?_⟩
      intro c hc hi
      obtain ⟨c₀, hc₀, ⟨-, rfl⟩ | ⟨-, rfl⟩⟩ := hcards c hc
      · exact h₃ c hc₀ hi
      · rfl
    · rw [List.mem_singleton.mp hf]
      refine ⟨rfl, List.mem_append_right _ (List.mem_singleton_self _), ?_⟩
      intro c hc hi
      obtain ⟨c₀, hc₀, ⟨hne, rfl⟩ | ⟨-, rfl⟩⟩ := hcards c hc
      · exact absurd hi hne
      · rfl
  · show ((g.flights ++ [_]).map Flight.cardId).Nodup
    rw [List.map_append, List.nodup_append]
    refine ⟨h.distinct, List.nodup_singleton _, ?_⟩
    intro a ha hb
    obtain ⟨f, hf, rfl⟩ := List.mem_map.mp ha
    have : f.cardId = id := by simpa using hb
    exact hnew (this ▸ (h.flights f hf).2.1)

/-- A flip completes, or a completion arrives for a flip that is not running,
while the required count has not been reached: the invariant holds. -/
theorem Issuing.complete {g₀ g : Game} {w : String} {issued : List Nat}
    (h : Issuing g₀ g w issued) (flight : Flight)
    (hids : ∀ id ∈ issued, id ∈ g₀.cards.map Card.id)
    (hbelow : issued.length < g₀.outcome.winningCountRequired) :
    Issuing g₀ (g.finishFlight flight) w issued := by
  by_cases hmem : flight ∈ g.flights
  swap
  · unfold finishFlight
    rw [if_neg hmem]
    exact h
  obtain ⟨hface, hissued, hflag⟩ := h.flights flight hmem
  obtain ⟨card, hfind, hcard, hcid⟩ := findCard_of_mem_ids g flight.cardId h.detached
    (by rw [h.ids]; exact hids _ hissued)
  have hlen : 0 < g.flights.length := List.length_pos_of_mem hmem
  have hengaged := h.engaged
  have hpending := h.pending
  have hrequired := h.required
  obtain ⟨o, sounds, heq, h₁, h₂, h₃, h₄, h₅, h₆⟩ := finishFlight_winning g flight w card hmem
    hfind hface h.betResult h.winningKey (hflag card hcard hcid) (by omega)
  rw [heq]
  have hcards : ∀ c, c ∈ (g.modifyCard flight.cardId fun c =>
      { c with
        animating := false, revealed := true, randomSelectionPending := false
        pendingWinningReveal := false }).cards →
      ∃ c₀ ∈ g.cards, (c₀.id ≠ flight.cardId ∧ c = c₀) ∨ (c₀.id = flight.cardId ∧ c =
        { c₀ with
          animating := false, revealed := true, randomSelectionPending := false
          pendingWinningReveal := false }) := by
    intro c hc
    obtain ⟨c₀, hc₀, rfl⟩ := List.mem_map.mp hc
    refine ⟨c₀, hc₀, ?_⟩
    by_cases hi : c₀.id = flight.cardId
    · right; exact ⟨hi, by rw [if_pos hi]⟩
    · left; exact ⟨hi, by rw [if_neg hi]⟩
  have hother : ∀ f ∈ g.flights.erase flight, f.cardId ≠ flight.cardId := by
    intro f hf heq
    have hnodup : g.flights.Nodup := List.Nodup.of_map _ h.distinct
    rw [hnodup.erase_eq_filter] at hf
    have hf' := List.mem_filter.mp hf
    have : f = flight :=
      List.inj_on_of_nodup_map h.distinct hf'.1 hmem heq
    simp [this] at hf'
  refine
    { timers := h.timers
      detached := by
        show List.map _ g.detached = []
        rw [h.detached]; rfl
      animations := h.animations
      flip := h.flip
      delay := h.delay
      nextHandle := h.nextHandle
      keys := h.keys
      assignments := h.assignments
      betResult := by show o.betResult = _; rw [h₁, h.betResult]
      winningKey := by show o.winningKey = _; rw [h₂, h.winningKey]
      required := by show o.winningCountRequired = _; rw [h₃, h.required]
      untriggered := by show o.autoRevealTriggered = _; rw [h₄, h.untriggered]
      engaged := by
        show o.revealedWinning + o.pendingWinningReveals = _
        rw [h₅, h₆]; omega
      pending := by
        show o.pendingWinningReveals = (g.flights.erase flight).length
        rw [h₆, List.length_erase_of_mem hmem, hpending]
      board := ?_
      atRest := ?_
      revealed := ?_
      flying := ?_
      flights := ?_
      distinct := ?_ }
  · rw [← h.board]
    show List.map _ (List.map _ g.cards) = _
    rw [List.map_map]
    apply List.map_congr_left
    intro c _
    simp only [Function.comp]
    by_cases hi : c.id = flight.cardId
    · rw [if_pos hi]
    · rw [if_neg hi]
  · intro c hc
    obtain ⟨c₀, hc₀, ⟨-, rfl⟩ | ⟨-, rfl⟩⟩ := hcards c hc
    · exact h.atRest c hc₀
    · exact ⟨(h.atRest c₀ hc₀).1, rfl, (h.atRest c₀ hc₀).2.2.1, (h.atRest c₀ hc₀).2.2.2⟩
  · intro c hc hr
    obtain ⟨c₀, hc₀, ⟨-, rfl⟩ | ⟨hi, rfl⟩⟩ := hcards c hc
    · exact h.revealed c hc₀ hr
    · show c₀.id ∈ issued
      rw [hi]
      exact hissued
  · intro c hc hi hr
    obtain ⟨c₀, hc₀, ⟨hne, rfl⟩ | ⟨-, rfl⟩⟩ := hcards c hc
    · have hfl := h.flying c hc₀ hi hr
      refine (List.mem_erase_of_ne ?_).mpr hfl
      intro heq
      exact hne (congrArg Flight.cardId heq)
    · exact absurd hr (by simp)
  · intro f hf
    obtain ⟨k₁, k₂, k₃⟩ := h.flights f (List.mem_of_mem_erase hf)
    refine ⟨k₁, k₂, ?_⟩
    intro c hc hi
    obtain ⟨c₀, hc₀, ⟨-, rfl⟩ | ⟨heq, rfl⟩⟩ := hcards c hc
    · exact k₃ c hc₀ hi
    · exact absurd (hi.symm.trans heq) (hother f hf)
  · exact h.distinct.sublist ((List.erase_sublist _ _).map _)

end Game

namespace Game

theorem rowMajor_positions :
    (createCardPositions.map fun p => (p.row, p.col)).Pairwise
      (fun p q : Int × Int => if p.1 = q.1 then p.2 ≤ q.2 else p.1 ≤ q.1) := by
  decide

theorem Issuing.sorted {g₀ g : Game} {w : String} {issued : List Nat} (hp : Prepared g₀ w)
    (h : Issuing g₀ g w issued) : g.cards.Sorted rowMajorLE := by
  have hpos : g.cards.map (fun c => (c.row, c.col))
      = createCardPositions.map fun p => (p.row, p.col) := by
    rw [← hp.positions]
    have := congrArg (List.map fun t : Nat × Int × Int × Face => (t.2.1, t.2.2.1)) h.board
    simpa [List.map_map, Function.comp] using this
  have := rowMajor_positions
  rw [← hpos, List.pairwise_map] at this
  exact this

theorem Issuing.faces {g₀ g : Game} {w : String} {issued : List Nat} (hp : Prepared g₀ w)
    (h : Issuing g₀ g w issued) (c : Card) (hc : c ∈ g.cards) :
    (JsMap.get g.currentAssignments (getCardKey c.row c.col)).join = c.assignedContent := by
  have hmem : (c.id, c.row, c.col, c.assignedContent)
      ∈ g.cards.map fun c => (c.id, c.row, c.col, c.assignedContent) :=
    List.mem_map.mpr ⟨c, hc, rfl⟩
  rw [h.board] at hmem
  obtain ⟨c₀, hc₀, heq⟩ := List.mem_map.mp hmem
  simp only [Prod.mk.injEq] at heq
  rw [h.assignments, ← heq.2.1, ← heq.2.2.1, ← heq.2.2.2]
  exact hp.faces c₀ hc₀

/-- The reveal of the last winning tile is issued: the sweep is triggered and
schedules every tile whose flip has not completed, that tile apart. -/
theorem Issuing.sweep {g₀ g : Game} {w : String} {issued : List Nat} (hp : Prepared g₀ w)
    (h : Issuing g₀ g w issued) (last : Nat) (hnew : last ∉ issued)
    (hid : last ∈ g₀.cards.map Card.id)
    (hlast : issued.length + 1 = g₀.outcome.winningCountRequired) :
    (g.revealCard last (some w)).outcome.autoRevealTriggered = true ∧
      (g.revealCard last (some w)).timers = g.expectedSweep last := by
  obtain ⟨card, hfind, hmem, hcid⟩ := findCard_of_mem_ids g last h.detached
    (by rw [h.ids]; exact hid)
  have hrest := h.atRest card hmem
  have hrev : card.revealed = false := by
    cases hr : card.revealed with
    | false => rfl
    | true => exact absurd (hcid ▸ h.revealed card hmem hr) hnew
  have hengaged := h.engaged
  have hrequired := h.required
  rw [revealCard_started g last w card hfind hrest.2.2.2 hrest.1 hrev h.animations h.flip
    h.betResult h.winningKey h.keys, if_pos ⟨h.untriggered, by omega, by omega⟩]
  have hfilter : (g.modifyCard last fun c =>
      { c with
        autoRevealTimer := none, autoRevealScheduled := false, revealedFace := some w
        animating := false, wiggling := false, pendingWinningReveal := true }).cards.filter
        (fun card => !card.revealed && !card.destroyed && !card.animating
          && !card.autoRevealScheduled && !decide (card.id ∈ [last]))
      = g.cards.filter fun c => !c.revealed && !decide (c.id = last) := by
    show List.filter _ (List.map _ g.cards) = _
    rw [List.filter_map]
    have h₁ : ∀ c ∈ g.cards,
        ((fun card : Card => !card.revealed && !card.destroyed && !card.animating
          && !card.autoRevealScheduled && !decide (card.id ∈ [last])) ∘ fun c : Card =>
            if c.id = last then
              { c with
                autoRevealTimer := none, autoRevealScheduled := false, revealedFace := some w
                animating := false, wiggling := false, pendingWinningReveal := true }
            else c) c = (!c.revealed && !decide (c.id = last)) := by
      intro c hc
      obtain ⟨k₁, k₂, k₃, -⟩ := h.atRest c hc
      by_cases hi : c.id = last
      · simp [hi]
      · simp [hi, k₁, k₂, k₃]
    rw [List.filter_congr h₁]
    conv_rhs => rw [← List.map_id (List.filter _ g.cards)]
    apply List.map_congr_left
    intro c hc
    have hne : c.id ≠ last := by
      have := (List.mem_filter.mp hc).2
      simp only [Bool.and_eq_true, Bool.not_eq_true', decide_eq_false_iff_not] at this
      exact this.2
    rw [if_neg hne]
    rfl
  unfold revealRemainingTiles
  dsimp only
  rw [if_neg (by simp), hfilter]
  by_cases hempty : (g.cards.filter fun c => !c.revealed && !decide (c.id = last)).length = 0
  · rw [if_pos hempty]
    refine ⟨rfl, ?_⟩
    unfold expectedSweep
    rw [List.length_eq_zero.mp hempty]
    exact h.timers
  · rw [if_neg hempty, List.Sorted.insertionSort_eq ((Issuing.sorted hp h).filter _)]
    have hnodup : ((g.cards.filter fun c => !c.revealed && !decide (c.id = last)).map
        Card.id).Nodup := by
      have : (g.cards.map Card.id).Nodup := by rw [h.ids]; exact hp.ids
      exact this.sublist ((List.filter_sublist _).map _)
    obtain ⟨k₁, k₂⟩ := foldl_scheduleReveal
      (g.cards.filter fun c => !c.revealed && !decide (c.id = last)) 0 g.nextHandle
      ({ g.modifyCard last fun c =>
          { c with
            autoRevealTimer := none, autoRevealScheduled := false, revealedFace := some w
            animating := false, wiggling := false, pendingWinningReveal := true } with
        flights := g.flights ++ [{ cardId := last, key := some w }]
        outcome :=
          { g.outcome with
            pendingReveals := g.outcome.pendingReveals + 1
            pendingWinningReveals := g.outcome.pendingWinningReveals + 1
            autoRevealTriggered := true } })
      rfl hnodup
      (by
        intro _ _ c hc _
        have hc' : c ∈ (g.cards ++ g.detached).map (fun c : Card =>
            if c.id = last then
              { c with
                autoRevealTimer := none, autoRevealScheduled := false, revealedFace := some w
                animating := false, wiggling := false, pendingWinningReveal := true }
            else c) := by
          rw [List.map_append]
          exact hc
        obtain ⟨c₀, hc₀, rfl⟩ := List.mem_map.mp hc'
        rw [h.detached, List.append_nil] at hc₀
        by_cases hi : c₀.id = last
        · rw [if_pos hi]
        · rw [if_neg hi]
          exact (h.atRest c₀ hc₀).2.2.2)
    refine ⟨?_, ?_⟩
    · exact (congrArg RoundOutcome.autoRevealTriggered k₂).trans rfl
    · refine k₁.trans ?_
      unfold expectedSweep
      show g.timers ++ _ = _
      rw [h.timers, List.nil_append]
      apply List.map_congr_left
      intro item hitem
      have hc : item.2 ∈ g.cards :=
        List.mem_of_mem_filter (List.snd_mem_of_mem_enumFrom hitem)
      show SweepTimer.mk _ (if g.disableAnimations = true then 0 else _) _ _ _
        (JsMap.get g.currentAssignments _).join = _
      rw [h.animations, Issuing.faces hp h item.2 hc]
      rfl

end Game

theorem PlayStep.issued_append (l₁ l₂ : List PlayStep) :
    PlayStep.issued (l₁ ++ l₂) = PlayStep.issued l₁ ++ PlayStep.issued l₂ := by
  induction l₁ with
  | nil => rfl
  | cons s rest ih =>
    cases s with
    | issue id => simp [PlayStep.issued, ih]
    | complete flight => simp [PlayStep.issued, ih]

namespace Game

/-- Reveals of distinct winning tiles, fewer than the required count, and
completions of flips, in any order, keep the round on its way to the sweep. -/
theorem Prepared.playAll {g₀ : Game} {w : String} (hp : Prepared g₀ w) (steps : List PlayStep) :
    (PlayStep.issued steps).Nodup →
    (∀ id ∈ PlayStep.issued steps, id ∈ g₀.cards.map Card.id) →
    (PlayStep.issued steps).length < g₀.outcome.winningCountRequired →
    Issuing g₀ (g₀.playAll steps) w (PlayStep.issued steps) := by
  induction steps using List.reverseRecOn with
  | nil =>
    intro _ _ _
    exact hp.start
  | append_singleton steps s ih =>
    intro hnodup hids hbelow
    rw [PlayStep.issued_append] at hnodup hids hbelow ⊢
    have hplay : g₀.playAll (steps ++ [s]) = play (some w) (g₀.playAll steps) s := by
      unfold Game.playAll
      rw [List.foldl_append, hp.start.winningKey]
      rfl
    rw [hplay]
    have ih' := ih (List.Nodup.of_append_left hnodup)
      (fun id hid => hids id (List.mem_append_left _ hid))
      (by rw [List.length_append] at hbelow; omega)
    cases s with
    | issue id =>
      have hs : PlayStep.issued [PlayStep.issue id] = [id] := rfl
      rw [hs] at hnodup hids hbelow ⊢
      refine ih'.issue id ?_ (hids id (List.mem_append_right _ (List.mem_singleton_self _))) ?_
      · intro hmem
        exact (List.nodup_append.mp hnodup).2.2 hmem (List.mem_singleton_self _) 
      · simpa using hbelow
    | complete flight =>
      have hs : PlayStep.issued [PlayStep.complete flight] = [] := rfl
      rw [hs, List.append_nil] at hnodup hids hbelow ⊢
      exact ih'.complete flight hids hbelow

end Game

theorem generate_win_positions (catalog : List String) (rng : Rng) :
    ((generateScratchCardAssignments catalog "win" rng).1.assignments.map
      Entry.position).Perm createCardPositions := by
  obtain ⟨tail, hass, htail, -⟩ := generate_win catalog rng
  rw [hass]
  simp only [List.map_append, List.map_map, htail]
  have hid : (Entry.position ∘ fun p : Position =>
      ({ row := p.row, col := p.col,
         contentKey := (generateScratchCardAssignments catalog "win" rng).1.winningKey }
        : Entry)) = id := by
    funext p
    rfl
  rw [hid, List.map_id, List.take_append_drop]
  exact shuffleArray_perm _ _

theorem generate_win_key (catalog : List String) (rng : Rng) (h : catalog ≠ []) :
    ∃ key : String,
      (generateScratchCardAssignments catalog "win" rng).1.winningKey = some key ∧
        key ∈ catalog := by
  obtain ⟨-, -, -, hkey⟩ := generate_win catalog rng
  have hne : cardTypesOf catalog = catalog.map some := by
    unfold cardTypesOf
    rw [if_pos (List.length_pos.mpr h)]
  have hperm := shuffleArray_perm (cardTypesOf catalog) (shuffleArray createCardPositions rng).2
  have hpos : 0 < (shuffleArray (cardTypesOf catalog)
      (shuffleArray createCardPositions rng).2).1.length := by
    rw [hperm.length_eq, hne]
    simpa using List.length_pos.mpr h
  have hmem : (shuffleArray (cardTypesOf catalog)
      (shuffleArray createCardPositions rng).2).1[0] ∈ catalog.map some := by
    rw [← hne]
    exact hperm.subset (List.getElem_mem _)
  obtain ⟨key, hk, hkeq⟩ := List.mem_map.mp hmem
  refine ⟨key, ?_, hk⟩
  rw [hkey, List.getElem?_eq_getElem hpos, ← hkeq]
  rfl

/-- A key that no entry sets keeps its value over the loop that fills the
assignment map. -/
theorem get_foldl_set_other (entries : List Entry) (k : TileKey) :
    ∀ m : JsMap TileKey Face, k ∉ entries.map (fun e => getCardKey e.row e.col) →
      JsMap.get (entries.foldl (fun m e => JsMap.set m (getCardKey e.row e.col) e.contentKey) m) k
        = JsMap.get m k := by
  induction entries with
  | nil => intro m _; rfl
  | cons e rest ih =>
    intro m hk
    simp only [List.map_cons, List.mem_cons, not_or] at hk
    rw [List.foldl_cons, ih _ hk.2, JsMap.get_set, if_neg (fun h => hk.1 h.symm)]

/-- Over entries with distinct positions, the assignment map holds the content
key of every entry at its position. -/
theorem get_foldl_set_mem (entries : List Entry) :
    ∀ m : JsMap TileKey Face, (entries.map fun e => getCardKey e.row e.col).Nodup →
      ∀ e ∈ entries,
        JsMap.get (entries.foldl (fun m e => JsMap.set m (getCardKey e.row e.col) e.contentKey) m)
          (getCardKey e.row e.col) = some e.contentKey := by
  induction entries with
  | nil => intro m _ e he; cases he
  | cons e₀ rest ih =>
    intro m hnodup e he
    simp only [List.map_cons, List.nodup_cons] at hnodup
    rw [List.foldl_cons]
    rcases List.mem_cons.mp he with rfl | he
    · rw [get_foldl_set_other rest _ _ hnodup.1, JsMap.get_set, if_pos rfl]
    · exact ih _ hnodup.2 e he

namespace App

theorem prepareScratchRound_game (a : App) (betResult : String) (g : Game)
    (hg : a.game = some g) :
    (a.prepareScratchRound betResult).game
      = some (g.installAssignments
          (generateScratchCardAssignments a.vars.availableCardTypes betResult a.rng).1.assignments
          { betResult := some betResult
            winningKey :=
              (generateScratchCardAssignments a.vars.availableCardTypes betResult a.rng).1.winningKey
            totalWinningCards := some
              (if (generateScratchCardAssignments a.vars.availableCardTypes betResult
                  a.rng).1.winningKey ≠ none then
                occurrences
                  (generateScratchCardAssignments a.vars.availableCardTypes betResult
                    a.rng).1.winningKey
                  (generateScratchCardAssignments a.vars.availableCardTypes betResult
                    a.rng).1.assignments
              else 0) }) := by
  unfold prepareScratchRound
  simp only [setVars_game, hg, Option.isNone_some, Bool.false_eq_true, if_false]
  rw [(setRoundAssignments_run _ _ _).2.2.2.2.1]
  simp [hg]

theorem performBet_availableCardTypes (a : App) :
    a.performBet.vars.availableCardTypes = a.vars.availableCardTypes := by
  unfold performBet prepareForNewRoundState
  cases hm : a.vars.controlPanelMode <;> cases hr : a.vars.autoRunActive <;> simp [hm, hr]

theorem handleBet_demo_game (a : App) (betResult : String) (g : Game)
    (hdemo : a.vars.demoMode = true) (hg : a.game = some g) :
    (a.handleBet betResult).game
      = some (g.resetBoard.installAssignments
          (generateScratchCardAssignments a.vars.availableCardTypes betResult a.rng).1.assignments
          { betResult := some betResult
            winningKey :=
              (generateScratchCardAssignments a.vars.availableCardTypes betResult a.rng).1.winningKey
            totalWinningCards := some
              (if (generateScratchCardAssignments a.vars.availableCardTypes betResult
                  a.rng).1.winningKey ≠ none then
                occurrences
                  (generateScratchCardAssignments a.vars.availableCardTypes betResult
                    a.rng).1.winningKey
                  (generateScratchCardAssignments a.vars.availableCardTypes betResult
                    a.rng).1.assignments
              else 0) }) := by
  unfold handleBet
  simp only [hdemo, Bool.true_eq_false, false_and, if_false]
  obtain ⟨⟨l, c, hv⟩, hgame, -, -, -, hrng, -⟩ := gameReset_shape a.performBet
  obtain ⟨-, -, -, -, pgame, prng⟩ := performBet_run a
  have hg' : a.performBet.gameReset.game = some g.resetBoard := by
    rw [hgame, pgame, hg]
    rfl
  have htypes : a.performBet.gameReset.vars.availableCardTypes = a.vars.availableCardTypes := by
    rw [hv]
    exact performBet_availableCardTypes a
  rw [prepareScratchRound_game _ _ _ hg', htypes, hrng, prng]

theorem preparedRound_game (rng : Rng) :
    (preparedRound rng).game
      = some ((Game.create false 300 40 1000 true ["A", "B"]).resetBoard.installAssignments
          (generateScratchCardAssignments ["A", "B"] "win" rng).1.assignments
          { betResult := some "win"
            winningKey := (generateScratchCardAssignments ["A", "B"] "win" rng).1.winningKey
            totalWinningCards := some
              (if (generateScratchCardAssignments ["A", "B"] "win" rng).1.winningKey ≠ none then
                occurrences (generateScratchCardAssignments ["A", "B"] "win" rng).1.winningKey
                  (generateScratchCardAssignments ["A", "B"] "win" rng).1.assignments
              else 0) }) := by
  unfold preparedRound
  exact handleBet_demo_game (boot ["A", "B"] 0 false rng) "win" _ rfl rfl

end App

namespace Game

/-- The round that `setRoundAssignments` leaves on the board of a started
application after `reset()`: nine fresh tiles in row-major order, each with the
face the assignment map holds for its position, nothing scheduled or running,
the counters at zero. -/
theorem installAssignments_fresh (assignments : List Entry) (info : OutcomeMeta) :
    ((Game.create false 300 40 1000 true ["A", "B"]).resetBoard.installAssignments
        assignments info).cards
      = (createCardPositions.enum.map fun item =>
          { Card.fresh (9 + item.1) item.2.row item.2.col with
            assignedContent :=
              (JsMap.get
                (assignments.foldl
                  (fun m e => JsMap.set m (getCardKey e.row e.col) e.contentKey) [])
                (getCardKey item.2.row item.2.col)).join }) ∧
    ((Game.create false 300 40 1000 true ["A", "B"]).resetBoard.installAssignments
        assignments info).currentAssignments
      = assignments.foldl (fun m e => JsMap.set m (getCardKey e.row e.col) e.contentKey) [] ∧
    ((Game.create false 300 40 1000 true ["A", "B"]).resetBoard.installAssignments
        assignments info).timers = [] ∧
    ((Game.create false 300 40 1000 true ["A", "B"]).resetBoard.installAssignments
        assignments info).detached = [] ∧
    ((Game.create false 300 40 1000 true ["A", "B"]).resetBoard.installAssignments
        assignments info).flights = [] ∧
    ((Game.create false 300 40 1000 true ["A", "B"]).resetBoard.installAssignments
        assignments info).disableAnimations = false ∧
    ((Game.create false 300 40 1000 true ["A", "B"]).resetBoard.installAssignments
        assignments info).flipDuration = 300 ∧
    ((Game.create false 300 40 1000 true ["A", "B"]).resetBoard.installAssignments
        assignments info).revealAllIntervalDelay = 40 ∧
    ((Game.create false 300 40 1000 true ["A", "B"]).resetBoard.installAssignments
        assignments info).nextHandle = 1 ∧
    ((Game.create false 300 40 1000 true ["A", "B"]).resetBoard.installAssignments
        assignments info).contentKeys = ["A", "B"] := by
  refine ⟨rfl, rfl, rfl, rfl, rfl, rfl, rfl, rfl, rfl, rfl⟩

/-- The number of tiles that are given face `key` is the number of entries that
carry it, when the entries hold every position of the grid once. -/
theorem count_assigned (assignments : List Entry) (key : Face)
    (hperm : (assignments.map Entry.position).Perm createCardPositions) :
    (createCardPositions.enum.countP fun item =>
        decide ((JsMap.get
          (assignments.foldl (fun m e => JsMap.set m (getCardKey e.row e.col) e.contentKey) [])
          (getCardKey item.2.row item.2.col)).join = key))
      = occurrences key assignments := by
  have hkeys : (assignments.map fun e => getCardKey e.row e.col).Nodup := by
    have h₁ : (assignments.map fun e => getCardKey e.row e.col)
        = (assignments.map Entry.position).map fun p => (p.row, p.col) := by
      rw [List.map_map]
      rfl
    rw [h₁, (hperm.map _).nodup_iff]
    decide
  have h₂ : (createCardPositions.enum.countP fun item =>
        decide ((JsMap.get
          (assignments.foldl (fun m e => JsMap.set m (getCardKey e.row e.col) e.contentKey) [])
          (getCardKey item.2.row item.2.col)).join = key))
      = (createCardPositions.enum.map Prod.snd).countP fun p =>
        decide ((JsMap.get
          (assignments.foldl (fun m e => JsMap.set m (getCardKey e.row e.col) e.contentKey) [])
          (getCardKey p.row p.col)).join = key) := by
    rw [List.countP_map]
    rfl
  rw [h₂, List.enum_map_snd, ← hperm.countP_eq, List.countP_map]
  unfold occurrences
  apply List.countP_congr
  intro e he
  have hget := get_foldl_set_mem assignments [] hkeys e he
  simp [Entry.position, hget]

theorem prepared_of_assignments (assignments : List Entry) (w : String) (hw : w ∈ ["A", "B"])
    (hperm : (assignments.map Entry.position).Perm createCardPositions) :
    Prepared
      ((Game.create false 300 40 1000 true ["A", "B"]).resetBoard.installAssignments assignments
        { betResult := some "win", winningKey := some w
          totalWinningCards := some (occurrences (some w) assignments) }) w := by
  obtain ⟨hcards, -, -, -, hflights, -⟩ := installAssignments_fresh assignments
    { betResult := some "win", winningKey := some w
      totalWinningCards := some (occurrences (some w) assignments) }
  have hrequired : ((Game.create false 300 40 1000 true ["A", "B"]).resetBoard.installAssignments
      assignments
        { betResult := some "win", winningKey := some w
          totalWinningCards := some (occurrences (some w) assignments)
        }).outcome.winningCountRequired = occurrences (some w) assignments := by
    show (match some (occurrences (some w) assignments) with
      | some (explicitCount + 1) => explicitCount + 1
      | _ => occurrences (some w) assignments) = _
    cases h : occurrences (some w) assignments <;> rfl
  refine
    { start :=
        { timers := rfl
          detached := rfl
          animations := rfl
          flip := by show (300 : Nat) ≠ 0; decide
          delay := rfl
          nextHandle := rfl
          keys := hw
          assignments := rfl
          betResult := rfl
          winningKey := rfl
          required := rfl
          untriggered := rfl
          engaged := rfl
          pending := rfl
          board := rfl
          atRest := ?_
          revealed := ?_
          flying := fun _ _ h => absurd h (List.not_mem_nil _)
          flights := ?_
          distinct := ?_ }
      ids := ?_
      positions := ?_
      faces := ?_
      count := ?_ }
  · intro c hc
    rw [hcards] at hc
    obtain ⟨item, -, rfl⟩ := List.mem_map.mp hc
    exact ⟨rfl, rfl, rfl, rfl⟩
  · intro c hc hr
    rw [hcards] at hc
    obtain ⟨item, -, rfl⟩ := List.mem_map.mp hc
    cases hr
  · intro f hf
    rw [hflights] at hf
    cases hf
  · rw [hflights]
    exact List.nodup_nil
  · rw [hcards, List.map_map]
    show (createCardPositions.enum.map fun item => 9 + item.1).Nodup
    decide
  · rw [hcards, List.map_map]
    show (createCardPositions.enum.map fun item => (item.2.row, item.2.col)) = _
    decide
  · intro c hc
    rw [hcards] at hc
    obtain ⟨item, -, rfl⟩ := List.mem_map.mp hc
    rfl
  · rw [hrequired]
    unfold winningIds
    rw [List.length_map, hcards, List.filter_map, List.length_map, ← List.countP_eq_length_filter]
    exact (count_assigned assignments (some w) hperm).symm

end Game

theorem generate_win_three (catalog : List String) (rng : Rng) :
    3 ≤ occurrences (generateScratchCardAssignments catalog "win" rng).1.winningKey
      (generateScratchCardAssignments catalog "win" rng).1.assignments := by
  obtain ⟨tail, hass, -, -⟩ := generate_win catalog rng
  have hlen : (shuffleArray createCardPositions rng).1.length = 9 := by
    rw [shuffleArray_length]; decide
  rw [hass, occurrences_append]
  have : occurrences (generateScratchCardAssignments catalog "win" rng).1.winningKey
      (((shuffleArray createCardPositions rng).1.take 3).map (fun p =>
        ({ row := p.row, col := p.col,
           contentKey := (generateScratchCardAssignments catalog "win" rng).1.winningKey }
          : Entry))) = 3 := by
    rw [occurrences, List.countP_eq_length.mpr]
    · simp [hlen]
    · intro a ha
      obtain ⟨p, -, rfl⟩ := List.mem_map.mp ha
      simp
  omega

namespace Game

theorem Issuing.positions {g₀ g : Game} {w : String} {issued : List Nat} (hp : Prepared g₀ w)
    (h : Issuing g₀ g w issued) :
    g.cards.map (fun c => (c.row, c.col)) = createCardPositions.map fun p => (p.row, p.col) := by
  rw [← hp.positions]
  have := congrArg (List.map fun t : Nat × Int × Int × Face => (t.2.1, t.2.2.1)) h.board
  simpa [List.map_map, Function.comp] using this

theorem required_of_assignments (assignments : List Entry) (w : String) :
    ((Game.create false 300 40 1000 true ["A", "B"]).resetBoard.installAssignments assignments
        { betResult := some "win", winningKey := some w
          totalWinningCards := some (occurrences (some w) assignments)
        }).outcome.winningCountRequired = occurrences (some w) assignments := by
  show (match some (occurrences (some w) assignments) with
    | some (explicitCount + 1) => explicitCount + 1
    | _ => occurrences (some w) assignments) = _
  cases h : occurrences (some w) assignments <;> rfl

/-- The round that `preparedRound` leaves is a prepared round for its winning
key, a key of the catalog carried by at least three tiles. -/
theorem prepared_of_round (rng : Rng) (g₀ : Game)
    (hprepared : (App.preparedRound rng).game = some g₀) :
    ∃ w : String, g₀.outcome.winningKey = some w ∧ Prepared g₀ w ∧ 3 ≤ g₀.winningIds.length := by
  obtain ⟨w, hkey, hw⟩ := generate_win_key ["A", "B"] rng (by decide)
  have hthree := generate_win_three ["A", "B"] rng
  rw [App.preparedRound_game, hkey] at hprepared
  simp only [ne_eq, reduceCtorEq, not_false_eq_true, if_true, Option.some.injEq] at hprepared
  have hp := prepared_of_assignments
    (generateScratchCardAssignments ["A", "B"] "win" rng).1.assignments w hw
    (generate_win_positions ["A", "B"] rng)
  rw [hprepared] at hp
  refine ⟨w, hp.start.winningKey, hp, ?_⟩
  rw [← hp.count, ← hp.start.required]
  rw [← hprepared]
  rw [hkey] at hthree
  have hrequired := required_of_assignments
    (generateScratchCardAssignments ["A", "B"] "win" rng).1.assignments w
  rw [hrequired]
  exact hthree

end Game

namespace Game

theorem winningIds_subset (g : Game) (id : Nat) (h : id ∈ g.winningIds) :
    id ∈ g.cards.map Card.id := by
  unfold winningIds at h
  obtain ⟨c, hc, rfl⟩ := List.mem_map.mp h
  exact List.mem_map.mpr ⟨c, List.mem_of_mem_filter hc, rfl⟩

/-- When no flip is running, the tiles left to the sweep are those that do not
carry the winning key. -/
theorem Issuing.sweep_ids {g₀ g : Game} {w : String} {issued : List Nat} (hp : Prepared g₀ w)
    (h : Issuing g₀ g w issued) (last : Nat)
    (hall : (issued ++ [last]).Perm g₀.winningIds) (hflights : g.flights = []) :
    (g.expectedSweep last).map SweepTimer.cardId
      = (g₀.cards.filter fun c => decide (c.assignedContent ≠ g₀.outcome.winningKey)).map
          Card.id := by
  have hkey : g₀.outcome.winningKey = some w := hp.start.winningKey
  have hwin : ∀ c ∈ g.cards, (c.id ∈ g₀.winningIds ↔ c.assignedContent = some w) := by
    intro c hc
    have hmem : (c.id, c.row, c.col, c.assignedContent)
        ∈ g.cards.map fun c => (c.id, c.row, c.col, c.assignedContent) :=
      List.mem_map.mpr ⟨c, hc, rfl⟩
    rw [h.board] at hmem
    obtain ⟨c₁, hc₁, heq⟩ := List.mem_map.mp hmem
    simp only [Prod.mk.injEq] at heq
    unfold winningIds
    rw [hkey]
    constructor
    · intro hin
      obtain ⟨c₀, hc₀, hid⟩ := List.mem_map.mp hin
      have hc₀' := List.mem_filter.mp hc₀
      have : c₀ = c₁ :=
        List.inj_on_of_nodup_map hp.ids hc₀'.1 hc₁ (hid.trans heq.1.symm)
      rw [← heq.2.2.2, ← this]
      simpa using hc₀'.2
    · intro hface
      refine List.mem_map.mpr ⟨c₁, List.mem_filter.mpr ⟨hc₁, ?_⟩, heq.1⟩
      rw [heq.2.2.2, hface]
      simp
  have hq : ∀ c ∈ g.cards,
      (!c.revealed && !decide (c.id = last)) = decide (c.assignedContent ≠ some w) := by
    intro c hc
    have hiff : c.id ∈ issued ++ [last] ↔ c.id ∈ g₀.winningIds := hall.mem_iff
    rw [hwin c hc] at hiff
    have hrev : c.revealed = true ↔ c.id ∈ issued := by
      constructor
      · exact h.revealed c hc
      · intro hi
        cases hr : c.revealed with
        | true => rfl
        | false =>
          have := h.flying c hc hi hr
          rw [hflights] at this
          cases this
    by_cases hface : c.assignedContent = some w
    · have := hiff.mpr hface
      rcases List.mem_append.mp this with hi | hi
      · simp [hrev.mpr hi, hface]
      · simp [List.mem_singleton.mp hi, hface]
    · have hnot : c.id ∉ issued ++ [last] := fun hin => hface (hiff.mp hin)
      simp only [List.mem_append, List.mem_singleton, not_or] at hnot
      have hr : c.revealed = false := by
        cases hr : c.revealed with
        | false => rfl
        | true => exact absurd (hrev.mp hr) hnot.1
      simp [hr, hnot.2, hface]
  unfold expectedSweep
  rw [List.map_map, List.filter_congr hq, hkey]
  have h₁ : (SweepTimer.cardId ∘ fun item : Nat × Card =>
      ({ handle := g.nextHandle + item.1, delay := g.revealAllIntervalDelay * item.1,
         cardId := item.2.id, row := item.2.row, col := item.2.col,
         assignedFace := item.2.assignedContent } : SweepTimer)) = Card.id ∘ Prod.snd := rfl
  rw [h₁, ← List.map_map, List.enum_map_snd]
  have h₂ : ∀ l : List Card,
      (l.filter fun c => decide (c.assignedContent ≠ some w)).map Card.id
        = ((l.map fun c => (c.id, c.row, c.col, c.assignedContent)).filter
            fun t => decide (t.2.2.2 ≠ some w)).map Prod.fst := by
    intro l
    rw [List.filter_map, List.map_map]
    rfl
  rw [h₂, h₂, h.board]

/-- Whatever flips are still running, the timers of the sweep that are for
tiles without the winning key are one for each such tile, in the order of the
board. -/
theorem Issuing.sweep_ids_losing {g₀ g : Game} {w : String} {issued : List Nat}
    (hp : Prepared g₀ w) (h : Issuing g₀ g w issued) (last : Nat)
    (hall : (issued ++ [last]).Perm g₀.winningIds) :
    (((g.expectedSweep last).map SweepTimer.cardId).filter
        fun id => decide (id ∉ g₀.winningIds))
      = (g₀.cards.filter fun c => decide (c.assignedContent ≠ g₀.outcome.winningKey)).map
          Card.id := by
  have hkey : g₀.outcome.winningKey = some w := hp.start.winningKey
  have hwin : ∀ c ∈ g.cards, (c.id ∈ g₀.winningIds ↔ c.assignedContent = some w) := by
    intro c hc
    have hmem : (c.id, c.row, c.col, c.assignedContent)
        ∈ g.cards.map fun c => (c.id, c.row, c.col, c.assignedContent) :=
      List.mem_map.mpr ⟨c, hc, rfl⟩
    rw [h.board] at hmem
    obtain ⟨c₁, hc₁, heq⟩ := List.mem_map.mp hmem
    simp only [Prod.mk.injEq] at heq
    unfold winningIds
    rw [hkey]
    constructor
    · intro hin
      obtain ⟨c₀, hc₀, hid⟩ := List.mem_map.mp hin
      have hc₀' := List.mem_filter.mp hc₀
      have : c₀ = c₁ :=
        List.inj_on_of_nodup_map hp.ids hc₀'.1 hc₁ (hid.trans heq.1.symm)
      rw [← heq.2.2.2, ← this]
      simpa using hc₀'.2
    · intro hface
      refine List.mem_map.mpr ⟨c₁, List.mem_filter.mpr ⟨hc₁, ?_⟩, heq.1⟩
      rw [heq.2.2.2, hface]
      simp
  have hq : ∀ c ∈ g.cards,
      (decide (c.id ∉ g₀.winningIds) && (!c.revealed && !decide (c.id = last)))
        = decide (c.assignedContent ≠ some w) := by
    intro c hc
    have hiff : c.id ∈ issued ++ [last] ↔ c.id ∈ g₀.winningIds := hall.mem_iff
    by_cases hface : c.assignedContent = some w
    · have := (hwin c hc).mpr hface
      simp [this, hface]
    · have hout : c.id ∉ g₀.winningIds := fun hin => hface ((hwin c hc).mp hin)
      have hnot : c.id ∉ issued ++ [last] := fun hin => hout (hiff.mp hin)
      simp only [List.mem_append, List.mem_singleton, not_or] at hnot
      have hr : c.revealed = false := by
        cases hr : c.revealed with
        | false => rfl
        | true => exact absurd (h.revealed c hc hr) hnot.1
      simp [hr, hnot.2, hface, hout]
  have h₁ : (SweepTimer.cardId ∘ fun item : Nat × Card =>
      ({ handle := g.nextHandle + item.1, delay := g.revealAllIntervalDelay * item.1,
         cardId := item.2.id, row := item.2.row, col := item.2.col,
         assignedFace := item.2.assignedContent } : SweepTimer)) = Card.id ∘ Prod.snd := rfl
  have h₀ : (g.expectedSweep last).map SweepTimer.cardId
      = (g.cards.filter fun c => !c.revealed && !decide (c.id = last)).map Card.id := by
    unfold expectedSweep
    rw [List.map_map, h₁, ← List.map_map, List.enum_map_snd]
  have h₃ : ((g.cards.filter fun c => !c.revealed && !decide (c.id = last)).map Card.id).filter
        (fun id => decide (id ∉ g₀.winningIds))
      = (g.cards.filter fun c => decide (c.assignedContent ≠ some w)).map Card.id := by
    rw [List.filter_map, List.filter_filter]
    congr 1
    exact List.filter_congr hq
  rw [h₀, h₃, hkey]
  have h₂ : ∀ l : List Card,
      (l.filter fun c => decide (c.assignedContent ≠ some w)).map Card.id
        = ((l.map fun c => (c.id, c.row, c.col, c.assignedContent)).filter
            fun t => decide (t.2.2.2 ≠ some w)).map Prod.fst := by
    intro l
    rw [List.filter_map, List.map_map]
    rfl
  rw [h₂, h₂, h.board]

end Game

/-- C10, the claim as worded fails. For the draws `[7, 3, 5, 1, ...]` the
winning key `B` is on six tiles and the required count is 6: after `revealCard`
on the first three of them in row-major order (ids 10, 13, 14), or on the three
primary entries of the generator (ids 17, 15, 13), `autoRevealTriggered` is
false and nothing is scheduled. -/
theorem c10_three_reveals_do_not_trigger :
    (App.preparedRound [7, 3, 5, 1, 2, 0, 2, 1, 0, 1, 0, 1, 1, 0, 1, 1]).game.map
        (fun g =>
          (g.outcome.winningKey, g.outcome.winningCountRequired, g.winningIds,
            (((g.revealCard 10 (some "B")).revealCard 13 (some "B")).revealCard 14
              (some "B")).outcome.autoRevealTriggered,
            (((g.revealCard 10 (some "B")).revealCard 13 (some "B")).revealCard 14
              (some "B")).timers,
            (((g.revealCard 17 (some "B")).revealCard 15 (some "B")).revealCard 13
              (some "B")).outcome.autoRevealTriggered,
            (((g.revealCard 17 (some "B")).revealCard 15 (some "B")).revealCard 13
              (some "B")).timers))
        = some (some "B", 6, [10, 13, 14, 15, 16, 17], false, [], false, []) :=
  rfl

/-- C10 (amended): for a 3x3 grid, catalog `['A','B']`, `betResult = 'win'` and
every sequence of draws, on the round prepared by `prepareScratchRound` and
`setRoundAssignments` the required count is the number of tiles that carry
`winningKey`, at least 3. With animations enabled, while reveals of distinct
tiles carrying `winningKey` are issued through `revealCard` and flips complete,
in any order, `autoRevealTriggered` stays false and nothing is scheduled until
the reveal of the last such tile is issued; that reveal sets
`autoRevealTriggered` and schedules the sweep of the remaining tiles, those
that do not carry `winningKey`: one timer for each of them, in row-major order
(the order of the tiles on the board). When the flips of the tiles revealed
before have completed, these are all the timers there are, 40 ms apart, each
with the face assigned to its tile. -/
theorem c10_sweep_after_all_winning_reveals (rng : Rng) (g₀ : Game) (steps : List PlayStep)
    (last : Nat) (hprepared : (App.preparedRound rng).game = some g₀)
    (hall : (PlayStep.issued steps ++ [last]).Perm g₀.winningIds) :
    g₀.outcome.winningCountRequired = g₀.winningIds.length ∧
      3 ≤ g₀.winningIds.length ∧
      (g₀.playAll steps).outcome.autoRevealTriggered = false ∧
      (g₀.playAll steps).timers = [] ∧
      ((g₀.playAll steps).revealCard last g₀.outcome.winningKey).outcome.autoRevealTriggered
        = true ∧
      ((((g₀.playAll steps).revealCard last g₀.outcome.winningKey).timers.map
          SweepTimer.cardId).filter fun id => decide (id ∉ g₀.winningIds))
        = (g₀.cards.filter fun c => decide (c.assignedContent ≠ g₀.outcome.winningKey)).map
            Card.id ∧
      (g₀.playAll steps).cards.map (fun c => (c.row, c.col))
        = createCardPositions.map (fun p => (p.row, p.col)) ∧
      (g₀.playAll steps).revealAllIntervalDelay = 40 ∧
      ((g₀.playAll steps).flights = [] →
        ((g₀.playAll steps).revealCard last g₀.outcome.winningKey).timers.map SweepTimer.cardId
          = (g₀.cards.filter fun c => decide (c.assignedContent ≠ g₀.outcome.winningKey)).map
              Card.id ∧
        ((g₀.playAll steps).revealCard last g₀.outcome.winningKey).timers
          = (g₀.playAll steps).expectedSweep last) := by
  obtain ⟨w, hkey, hp, hthree⟩ := Game.prepared_of_round rng g₀ hprepared
  have hnodup : (PlayStep.issued steps ++ [last]).Nodup := by
    rw [hall.nodup_iff]
    unfold Game.winningIds
    exact hp.ids.sublist ((List.filter_sublist _).map _)
  have hlen : (PlayStep.issued steps).length + 1 = g₀.outcome.winningCountRequired := by
    rw [hp.count, ← hall.length_eq, List.length_append]
    rfl
  have hI := hp.playAll steps (List.Nodup.of_append_left hnodup)
    (fun id hid => Game.winningIds_subset g₀ id (hall.subset (List.mem_append_left _ hid)))
    (by omega)
  have hsweep := hI.sweep hp last
    (fun hmem => (List.nodup_append.mp hnodup).2.2 hmem (List.mem_singleton_self _))
    (Game.winningIds_subset g₀ last (hall.subset (List.mem_append_right _
      (List.mem_singleton_self _))))
    hlen
  have hlosing := hI.sweep_ids_losing hp last hall
  rw [hkey]
  rw [hkey] at hlosing
  refine ⟨hp.count, hthree, hI.untriggered, hI.timers, hsweep.1, ?_, hI.positions hp, ?_, ?_⟩
  · rw [hsweep.2]
    exact hlosing
  · rw [hI.delay]
    have := hprepared
    rw [App.preparedRound_game] at this
    rw [← Option.some.inj this]
    rfl
  · intro hflights
    refine ⟨?_, hsweep.2⟩
    rw [hsweep.2, ← hkey]
    exact hI.sweep_ids hp last hall hflights

end ScratchCard

namespace ScratchCard

set_option maxRecDepth 100000 in
/-- C10 at the draws `[]`: the key is on tiles 10, 11 and 12; the reveals of
tiles 10 and 11 are issued and their flips complete, then the reveal of tile 12
sets `autoRevealTriggered` and schedules the six tiles that do not carry the
key, in the order of the board. -/
theorem c10_sweep_witness :
    (App.preparedRound []).game = some Game.demoRound ∧
      (PlayStep.issued
          [.issue 10, .complete { cardId := 10, key := some "B" }, .issue 11,
            .complete { cardId := 11, key := some "B" }] ++ [12]).Perm
        Game.demoRound.winningIds ∧
      (Game.demoRound.playAll
          [.issue 10, .complete { cardId := 10, key := some "B" }, .issue 11,
            .complete { cardId := 11, key := some "B" }]).flights = [] ∧
      ((Game.demoRound.playAll
            [.issue 10, .complete { cardId := 10, key := some "B" }, .issue 11,
              .complete { cardId := 11, key := some "B" }]).revealCard 12
          Game.demoRound.outcome.winningKey).outcome.autoRevealTriggered = true ∧
      ((Game.demoRound.playAll
            [.issue 10, .complete { cardId := 10, key := some "B" }, .issue 11,
              .complete { cardId := 11, key := some "B" }]).revealCard 12
          Game.demoRound.outcome.winningKey).timers.map SweepTimer.cardId
        = (Game.demoRound.cards.filter fun c =>
            decide (c.assignedContent ≠ Game.demoRound.outcome.winningKey)).map Card.id ∧
      (Game.demoRound.cards.filter fun c =>
          decide (c.assignedContent ≠ Game.demoRound.outcome.winningKey)).map Card.id
        = [9, 13, 14, 15, 16, 17] :=
  have h := c10_sweep_after_all_winning_reveals [] Game.demoRound
    [.issue 10, .complete { cardId := 10, key := some "B" }, .issue 11,
      .complete { cardId := 11, key := some "B" }] 12 rfl (List.Perm.refl [10, 11, 12])
  ⟨rfl, List.Perm.refl [10, 11, 12], rfl, h.2.2.2.2.1, (h.2.2.2.2.2.2.2.2 rfl).1, rfl⟩

namespace GameRules

/-- C11: when `gameOver` is already true, `revealResult` returns
`{face: null, gameOver: true, win: false}` for every position and every result
and leaves the instance as it was (so `revealedCount`, the reveal records, the
assignments, the selection and `gameOver` are unchanged). -/
theorem c11_revealResult_after_game_over (g : GameRules) (row col : Int) (result : Face)
    (hover : g.gameOver = true) :
    (revealResult g row col result).1 = { face := none, gameOver := true, win := false } ∧
      (revealResult g row col result).2 = g := by
  simp [revealResult, hover]

/-- C11 on the 3x3 round whose nine tiles have been revealed. -/
theorem c11_game_over_witness :
    (revealResult eightRevealed 2 2 none).2.gameOver = true ∧
      (revealResult (revealResult eightRevealed 2 2 none).2 0 0 (some "B")).1
        = { face := none, gameOver := true, win := false } ∧
      (revealResult (revealResult eightRevealed 2 2 none).2 0 0 (some "B")).2
        = (revealResult eightRevealed 2 2 none).2 :=
  ⟨by decide,
    c11_revealResult_after_game_over (revealResult eightRevealed 2 2 none).2 0 0 (some "B")
      (by decide)⟩

/-- C12: when `gameOver` is false and the position has a reveal record,
`revealResult` returns the recorded outcome whatever the result override and
whatever the assignment map holds, and leaves the instance as it was. -/
theorem c12_revealResult_replays_record (g : GameRules) (row col : Int) (result : Face)
    (recorded : Outcome) (hover : g.gameOver = false)
    (hrecord : JsMap.get g.revealedMap (getCardKey row col) = some recorded) :
    (revealResult g row col result).1 = recorded ∧ (revealResult g row col result).2 = g := by
  simp [revealResult, hover, hrecord]

/-- C12 on the round with eight tiles revealed: tile `(0, 0)` was revealed with
face `null`; a later call with override `B` returns the record. -/
theorem c12_replay_witness :
    eightRevealed.gameOver = false ∧
      JsMap.get eightRevealed.revealedMap (getCardKey 0 0)
        = some { face := none, gameOver := false, win := false } ∧
      (revealResult eightRevealed 0 0 (some "B")).1
        = { face := none, gameOver := false, win := false } ∧
      (revealResult eightRevealed 0 0 (some "B")).2 = eightRevealed :=
  ⟨by decide, by decide,
    c12_revealResult_replays_record eightRevealed 0 0 (some "B")
      { face := none, gameOver := false, win := false } (by decide) (by decide)⟩

/-- C13: when `gameOver` is false and the position has no reveal record,
`revealResult` returns the face `result ?? assignments.get(position) ?? null`
(the override when it is not null, else the face assigned to the position, else
null), `win = false`, and `gameOver` true exactly when the incremented
`revealedCount` reaches `totalTiles`; it increments `revealedCount` by one, sets
`gameOver` to the returned flag, records the returned outcome for the position
and leaves everything else alone. -/
theorem c13_revealResult_fresh (g : GameRules) (row col : Int) (result : Face)
    (hover : g.gameOver = false)
    (hfresh : JsMap.get g.revealedMap (getCardKey row col) = none) :
    (revealResult g row col result).1.face
        = (match result with
          | some key => some key
          | none =>
            match JsMap.get g.assignments (getCardKey row col) with
            | some (some key) => some key
            | _ => none) ∧
      (revealResult g row col result).1.win = false ∧
      ((revealResult g row col result).1.gameOver = true
        ↔ g.totalTiles ≤ g.revealedCount + 1) ∧
      (revealResult g row col result).2.revealedCount = g.revealedCount + 1 ∧
      ((revealResult g row col result).2.gameOver = true
        ↔ g.totalTiles ≤ (revealResult g row col result).2.revealedCount) ∧
      (revealResult g row col result).2.gameOver = (revealResult g row col result).1.gameOver ∧
      JsMap.get (revealResult g row col result).2.revealedMap (getCardKey row col)
        = some (revealResult g row col result).1 ∧
      (∀ key, key ≠ getCardKey row col →
        JsMap.get (revealResult g row col result).2.revealedMap key
          = JsMap.get g.revealedMap key) ∧
      (revealResult g row col result).2.assignments = g.assignments ∧
      (revealResult g row col result).2.selectedTile = g.selectedTile ∧
      (revealResult g row col result).2.waitingForChoice = g.waitingForChoice ∧
      (revealResult g row col result).2.totalTiles = g.totalTiles ∧
      (revealResult g row col result).2.gridSize = g.gridSize := by
  have hr : revealResult g row col result
      = ({ face := result.orElse fun _ => (JsMap.get g.assignments (getCardKey row col)).join
           gameOver := decide (g.totalTiles ≤ g.revealedCount + 1), win := false },
         { g with
           revealedCount := g.revealedCount + 1
           gameOver := if decide (g.totalTiles ≤ g.revealedCount + 1) = true then true
             else g.gameOver
           revealedMap := JsMap.set g.revealedMap (getCardKey row col)
             { face := result.orElse fun _ =>
                 (JsMap.get g.assignments (getCardKey row col)).join
               gameOver := decide (g.totalTiles ≤ g.revealedCount + 1), win := false } }) := by
    simp [revealResult, hover, hfresh]
  rw [hr]
  refine ⟨?_, rfl, ?_, rfl, ?_, ?_, JsMap.get_set_self _ _ _, ?_, rfl, rfl, rfl, rfl, rfl⟩
  · cases result with
    | some key => rfl
    | none =>
      cases h : JsMap.get g.assignments (getCardKey row col) with
      | none => simp [Option.orElse]
      | some face => cases face <;> simp [Option.orElse]
  · simp
  · simp [hover]
  · simp [hover]
  · intro key hne
    show JsMap.get (JsMap.set g.revealedMap _ _) key = _
    rw [JsMap.get_set, if_neg (fun h => hne h.symm)]

/-- C13 on the round with eight tiles revealed: the ninth reveal returns the
assigned face `A` and ends the round. -/
theorem c13_fresh_witness :
    eightRevealed.gameOver = false ∧
      JsMap.get eightRevealed.revealedMap (getCardKey 2 2) = none ∧
      (revealResult eightRevealed 2 2 none).1.face = some "A" ∧
      (revealResult eightRevealed 2 2 none).2.revealedCount = 9 :=
  ⟨by decide, by decide,
    (c13_revealResult_fresh eightRevealed 2 2 none (by decide) (by decide)).1.trans (by decide),
    (c13_revealResult_fresh eightRevealed 2 2 none (by decide) (by decide)).2.2.2.1⟩

end GameRules

namespace JsMap

variable {κ υ : Type} [DecidableEq κ]

theorem set_of_not_mem (m : JsMap κ υ) (k : κ) (v : υ) (h : k ∉ m.map Prod.fst) :
    set m k v = m ++ [(k, v)] := by
  induction m with
  | nil => rfl
  | cons e rest ih =>
    obtain ⟨a, b⟩ := e
    simp only [List.map_cons, List.mem_cons, not_or] at h
    have hne : ¬ a = k := fun e => h.1 e.symm
    simp [set, hne, ih h.2]

theorem foldl_set_of_nodup (entries : List (κ × υ)) :
    ∀ m : JsMap κ υ, ((m ++ entries).map Prod.fst).Nodup →
      entries.foldl (fun m e => set m e.1 e.2) m = m ++ entries := by
  induction entries with
  | nil => intro m _; simp
  | cons e rest ih =>
    intro m h
    have hk : e.1 ∉ m.map Prod.fst := by
      rw [List.map_append, List.nodup_append] at h
      intro hmem
      exact h.2.2 hmem (by simp)
    rw [List.foldl_cons, set_of_not_mem m e.1 e.2 hk, ih]
    · simp
    · simpa using h

/-- A `Map` built from entries with distinct keys holds these entries, in
order. -/
theorem ofEntries_of_nodup (entries : List (κ × υ)) (h : (entries.map Prod.fst).Nodup) :
    ofEntries entries = entries := by
  unfold ofEntries
  rw [foldl_set_of_nodup entries [] (by simpa using h)]
  rfl

end JsMap

namespace GameRules

/-- C14: for every instance and every mapping `m` (a `Map`: its keys are
distinct), `setAssignments(m)` makes the assignment map equal to `m`, removes
every reveal record, sets `revealedCount` to 0 and `gameOver` to false, and
leaves `selectedTile`, `waitingForChoice`, `gridSize` and `totalTiles` alone.
The map stored is a copy: when `m` is the contents of the caller's object
`ref`, the object that `new Map(m)` creates is another object, and it still
holds `m` after any mutation of the caller's object. -/
theorem c14_setAssignments (g : GameRules) (m : JsMap TileKey Face)
    (hmap : (m.map Prod.fst).Nodup) :
    (setAssignments g (some m)).assignments = m ∧
      (setAssignments g (some m)).revealedMap = [] ∧
      (∀ key, JsMap.get (setAssignments g (some m)).revealedMap key = none) ∧
      (setAssignments g (some m)).revealedCount = 0 ∧
      (setAssignments g (some m)).gameOver = false ∧
      (setAssignments g (some m)).selectedTile = g.selectedTile ∧
      (setAssignments g (some m)).waitingForChoice = g.waitingForChoice ∧
      (setAssignments g (some m)).gridSize = g.gridSize ∧
      (setAssignments g (some m)).totalTiles = g.totalTiles ∧
      ∀ (store : MapStore) (ref : Nat), store[ref]? = some m →
        (store.newMap (some ref)).2 ≠ ref ∧
        (store.newMap (some ref)).1[(store.newMap (some ref)).2]?
          = some (setAssignments g (some m)).assignments ∧
        ∀ update : JsMap TileKey Face → JsMap TileKey Face,
          ((store.newMap (some ref)).1.mutate ref update)[(store.newMap (some ref)).2]?
            = some (setAssignments g (some m)).assignments := by
  have hass : (setAssignments g (some m)).assignments = m := by
    show JsMap.ofEntries m = m
    exact JsMap.ofEntries_of_nodup m hmap
  refine ⟨hass, rfl, fun _ => rfl, rfl, rfl, rfl, rfl, rfl, rfl, ?_⟩
  intro store ref href
  have hlt : ref < store.length := by
    by_contra hge
    rw [List.getElem?_eq_none (by omega)] at href
    cases href
  have hnew : (store.newMap (some ref)).1[(store.newMap (some ref)).2]?
      = some (setAssignments g (some m)).assignments := by
    unfold MapStore.newMap
    have hsrc : ((some ref).bind fun ref => store[ref]?).getD [] = m := by
      show (store[ref]?).getD [] = m
      rw [href]
      rfl
    rw [hass, hsrc, JsMap.ofEntries_of_nodup m hmap]
    simp
  refine ⟨?_, hnew, ?_⟩
  · show store.length ≠ ref
    omega
  · intro update
    unfold MapStore.mutate
    have hold : (store.newMap (some ref)).1[ref]? = some m := by
      unfold MapStore.newMap
      simp only
      rw [List.getElem?_append_left hlt]
      exact href
    rw [hold]
    simp only
    rw [List.getElem?_set_ne (by show ref ≠ store.length; omega)]
    exact hnew

/-- C14 on the round with eight tiles revealed and a two-entry mapping. -/
theorem c14_setAssignments_witness :
    (setAssignments eightRevealed (some [((0, 0), some "A"), ((0, 1), none)])).assignments
        = [((0, 0), some "A"), ((0, 1), none)] ∧
      (setAssignments eightRevealed (some [((0, 0), some "A"), ((0, 1), none)])).revealedCount
        = 0 :=
  ⟨(c14_setAssignments eightRevealed [((0, 0), some "A"), ((0, 1), none)] (by decide)).1,
    (c14_setAssignments eightRevealed [((0, 0), some "A"), ((0, 1), none)]
      (by decide)).2.2.2.1⟩

/-- C15, the claim as worded fails: on the round with eight tiles revealed
and one assignment, `setAssignments(null)` empties the assignment map, removes
the eight reveal records and sets `revealedCount` from 8 to 0. -/
theorem c15_null_is_not_a_no_op :
    eightRevealed.assignments = [((2, 2), some "A")] ∧
      eightRevealed.revealedCount = 8 ∧
      eightRevealed.revealedMap.length = 8 ∧
      (setAssignments eightRevealed none).assignments = [] ∧
      (setAssignments eightRevealed none).revealedCount = 0 ∧
      (setAssignments eightRevealed none).revealedMap = [] ∧
      setAssignments eightRevealed none ≠ eightRevealed := by
  decide

/-- C15 (amended): `setAssignments` given `null` or `undefined` does not fail
and does what it does for an empty mapping: the assignment map is empty, every
reveal record is removed, `revealedCount` is 0 and `gameOver` is false; the
selection, `gridSize` and `totalTiles` are left alone. -/
theorem c15_setAssignments_null (g : GameRules) :
    setAssignments g none = setAssignments g (some []) ∧
      (setAssignments g none).assignments = [] ∧
      (setAssignments g none).revealedMap = [] ∧
      (setAssignments g none).revealedCount = 0 ∧
      (setAssignments g none).gameOver = false ∧
      (setAssignments g none).selectedTile = g.selectedTile ∧
      (setAssignments g none).waitingForChoice = g.waitingForChoice ∧
      (setAssignments g none).gridSize = g.gridSize ∧
      (setAssignments g none).totalTiles = g.totalTiles :=
  ⟨rfl, rfl, rfl, rfl, rfl, rfl, rfl, rfl, rfl⟩

end GameRules

namespace Game

theorem modifyCard_positions (g : Game) (id : Nat) (f : Card → Card)
    (hf : ∀ c, ((f c).row, (f c).col) = (c.row, c.col)) :
    (g.modifyCard id f).cards.map (fun c => (c.row, c.col))
      = g.cards.map fun c => (c.row, c.col) := by
  show List.map _ (List.map _ g.cards) = _
  rw [List.map_map]
  apply List.map_congr_left
  intro c _
  simp only [Function.comp]
  by_cases h : c.id = id
  · rw [if_pos h, hf]
  · rw [if_neg h]

theorem clearScheduledAutoReveal_positions (g : Game) (id : Nat) :
    (g.clearScheduledAutoReveal id).cards.map (fun c => (c.row, c.col))
      = g.cards.map fun c => (c.row, c.col) := by
  unfold clearScheduledAutoReveal
  split
  · rfl
  · dsimp only
    rw [modifyCard_positions]
    · split <;> rfl
    · intro c; rfl

theorem foldl_clearScheduled_positions (ids : List Nat) (g : Game) :
    (ids.foldl clearScheduledAutoReveal g).cards.map (fun c => (c.row, c.col))
      = g.cards.map fun c => (c.row, c.col) := by
  induction ids generalizing g with
  | nil => rfl
  | cons id rest ih => rw [List.foldl_cons, ih, clearScheduledAutoReveal_positions]

theorem resetRoundOutcome_positions (g : Game) :
    g.resetRoundOutcome.cards.map (fun c => (c.row, c.col))
      = g.cards.map fun c => (c.row, c.col) := by
  unfold resetRoundOutcome cancelPendingAutoReveals
  rw [foldl_clearScheduled_positions]
  split <;> rfl

@[simp] theorem resetRoundOutcome_outcome (g : Game) :
    g.resetRoundOutcome.outcome
      = { betResult := none, winningKey := none, winningCountRequired := 0,
          revealedWinning := 0, pendingWinningReveals := 0, autoRevealTriggered := false,
          feedbackPlayed := false, soundKey := none, winningCards := [],
          pendingReveals := 0, winFramesShown := false } := by
  simp [resetRoundOutcome]

/-- What `setRoundAssignments` leaves of the assignment map: the entries,
later ones overwriting earlier ones at the same position. -/
theorem installAssignments_currentAssignments (g : Game) (assignments : List Entry)
    (info : OutcomeMeta) :
    (g.installAssignments assignments info).currentAssignments
      = assignments.foldl (fun m e => JsMap.set m (getCardKey e.row e.col) e.contentKey) [] := by
  simp [installAssignments, applyRoundOutcomeMeta]

/-- Every tile carries the face that the assignment map holds for its
position, and the tiles stay where they were. -/
theorem installAssignments_cards (g : Game) (assignments : List Entry) (info : OutcomeMeta) :
    (∀ c ∈ (g.installAssignments assignments info).cards,
      c.assignedContent
        = (JsMap.get (g.installAssignments assignments info).currentAssignments
            (getCardKey c.row c.col)).join) ∧
      (g.installAssignments assignments info).cards.map (fun c => (c.row, c.col))
        = g.cards.map fun c => (c.row, c.col) := by
  constructor
  · intro c hc
    unfold installAssignments at hc
    simp only at hc
    obtain ⟨c₀, -, rfl⟩ := List.mem_map.mp hc
    rfl
  · unfold installAssignments
    dsimp only
    rw [List.map_map]
    exact resetRoundOutcome_positions { g with currentAssignments := [] }

theorem installAssignments_outcome_win (g : Game) (assignments : List Entry) (key : String)
    (count : Nat) :
    (g.installAssignments assignments
        { betResult := some "win", winningKey := some key
          totalWinningCards := some count }).outcome.betResult = some "win" ∧
      (g.installAssignments assignments
        { betResult := some "win", winningKey := some key
          totalWinningCards := some count }).outcome.winningKey = some key ∧
      (g.installAssignments assignments
        { betResult := some "win", winningKey := some key
          totalWinningCards := some count }).outcome.winningCountRequired
        = if count = 0 then occurrences (some key) assignments else count := by
  cases count <;> simp [installAssignments, applyRoundOutcomeMeta]

theorem installAssignments_outcome_other (g : Game) (assignments : List Entry)
    (betResult : Option String) (count : Option Nat) :
    (g.installAssignments assignments
        { betResult := betResult, winningKey := none
          totalWinningCards := count }).outcome.betResult = betResult ∧
      (g.installAssignments assignments
        { betResult := betResult, winningKey := none
          totalWinningCards := count }).outcome.winningKey = none ∧
      (g.installAssignments assignments
        { betResult := betResult, winningKey := none
          totalWinningCards := count }).outcome.winningCountRequired = 0 := by
  simp only [installAssignments, applyRoundOutcomeMeta, resetRoundOutcome_outcome, ne_eq,
    not_true_eq_false, and_false, if_false]
  refine ⟨?_, ?_, ?_⟩ <;> split <;> (try split) <;> rfl

end Game

theorem count_assigned_positions (assignments : List Entry) (key : Face)
    (hperm : (assignments.map Entry.position).Perm createCardPositions) :
    (createCardPositions.countP fun p =>
        decide ((JsMap.get
          (assignments.foldl (fun m e => JsMap.set m (getCardKey e.row e.col) e.contentKey) [])
          (getCardKey p.row p.col)).join = key))
      = occurrences key assignments := by
  rw [← Game.count_assigned assignments key hperm]
  conv_lhs => rw [← List.enum_map_snd createCardPositions]
  rw [List.countP_map]
  rfl

namespace Game

/-- On a board with one tile per position, the tiles that `setRoundAssignments`
gives face `key` are as many as the entries that carry it. -/
theorem installAssignments_count (g : Game) (assignments : List Entry) (info : OutcomeMeta)
    (key : Face) (hperm : (assignments.map Entry.position).Perm createCardPositions)
    (hboard : (g.cards.map fun c => (c.row, c.col)).Perm
      (createCardPositions.map fun p => (p.row, p.col))) :
    ((g.installAssignments assignments info).cards.countP fun c =>
        decide (c.assignedContent = key))
      = occurrences key assignments := by
  obtain ⟨hfaces, hpositions⟩ := installAssignments_cards g assignments info
  rw [installAssignments_currentAssignments] at hfaces
  have e₁ := List.countP_congr (l := (g.installAssignments assignments info).cards)
    (p := fun c => decide (c.assignedContent = key))
    (q := fun c => decide ((JsMap.get
        (assignments.foldl (fun m e => JsMap.set m (getCardKey e.row e.col) e.contentKey) [])
        (getCardKey c.row c.col)).join = key))
    (fun c hc => by simp only [hfaces c hc])
  have e₂ : ∀ l : List Card,
      (l.countP fun c => decide ((JsMap.get
        (assignments.foldl (fun m e => JsMap.set m (getCardKey e.row e.col) e.contentKey) [])
        (getCardKey c.row c.col)).join = key))
        = (l.map fun c => (c.row, c.col)).countP fun p => decide ((JsMap.get
          (assignments.foldl (fun m e => JsMap.set m (getCardKey e.row e.col) e.contentKey) [])
          (getCardKey p.1 p.2)).join = key) := by
    intro l
    rw [List.countP_map]
    rfl
  rw [e₁, e₂, hpositions, hboard.countP_eq, List.countP_map]
  exact count_assigned_positions assignments key hperm

end Game

namespace App

/-- C16: after `prepareScratchRound(betResult)` has run on an application with
a game, the round outcome of the game satisfies its invariant. For
`betResult = 'win'` and a non-empty catalog, `winningKey` is a key of the
catalog and `winningCountRequired`, which is at least 3, is exactly the number
of positions of the grid whose assigned content is `winningKey`, and the number
of such tiles when the board holds one tile per position. For any other
`betResult`, `winningKey` is null and `winningCountRequired` is 0. Every tile
carries the content that the assignment map holds for its position. -/
theorem c16_round_outcome_invariant (a : App) (g : Game) (betResult : String)
    (hgame : a.game = some g) :
    ∃ g' : Game, (a.prepareScratchRound betResult).game = some g' ∧
      g'.outcome.betResult = some betResult ∧
      (∀ c ∈ g'.cards,
        c.assignedContent = (JsMap.get g'.currentAssignments (getCardKey c.row c.col)).join) ∧
      (betResult = "win" → a.vars.availableCardTypes ≠ [] →
        ∃ key : String, key ∈ a.vars.availableCardTypes ∧
          g'.outcome.winningKey = some key ∧
          0 < g'.outcome.winningCountRequired ∧
          3 ≤ g'.outcome.winningCountRequired ∧
          g'.outcome.winningCountRequired
            = (createCardPositions.countP fun p =>
                decide ((JsMap.get g'.currentAssignments (getCardKey p.row p.col)).join
                  = some key)) ∧
          ((g.cards.map fun c => (c.row, c.col)).Perm
              (createCardPositions.map fun p => (p.row, p.col)) →
            g'.outcome.winningCountRequired
              = g'.cards.countP fun c => decide (c.assignedContent = some key))) ∧
      (betResult ≠ "win" →
        g'.outcome.winningKey = none ∧ g'.outcome.winningCountRequired = 0) := by
  refine ⟨_, prepareScratchRound_game a betResult g hgame, ?_, ?_, ?_, ?_⟩
  · cases hk : (generateScratchCardAssignments a.vars.availableCardTypes betResult
        a.rng).1.winningKey with
    | none => exact (Game.installAssignments_outcome_other g _ _ _).1
    | some key =>
      simp only [Game.installAssignments, Game.applyRoundOutcomeMeta,
        Game.resetRoundOutcome_outcome]
      split <;> split <;> (try split) <;> rfl
  · exact (Game.installAssignments_cards g _ _).1
  · intro hwin hcatalog
    subst hwin
    obtain ⟨key, hkey, hmem⟩ := generate_win_key a.vars.availableCardTypes a.rng hcatalog
    have hthree := generate_win_three a.vars.availableCardTypes a.rng
    have hperm := generate_win_positions a.vars.availableCardTypes a.rng
    rw [hkey] at hthree ⊢
    simp only [ne_eq, reduceCtorEq, not_false_eq_true, if_true]
    obtain ⟨-, h₂, h₃⟩ := Game.installAssignments_outcome_win g
      (generateScratchCardAssignments a.vars.availableCardTypes "win" a.rng).1.assignments key
      (occurrences (some key)
        (generateScratchCardAssignments a.vars.availableCardTypes "win" a.rng).1.assignments)
    have hrequired : (g.installAssignments
        (generateScratchCardAssignments a.vars.availableCardTypes "win" a.rng).1.assignments
        { betResult := some "win", winningKey := some key
          totalWinningCards := some (occurrences (some key)
            (generateScratchCardAssignments a.vars.availableCardTypes "win"
              a.rng).1.assignments) }).outcome.winningCountRequired
        = occurrences (some key)
          (generateScratchCardAssignments a.vars.availableCardTypes "win" a.rng).1.assignments := by
      rw [h₃]
      split
      · rename_i h; rw [h]
      · rfl
    refine ⟨key, hmem, h₂, ?_, ?_, ?_, ?_⟩
    · rw [hrequired]; omega
    · rw [hrequired]; exact hthree
    · rw [hrequired, Game.installAssignments_currentAssignments]
      exact (count_assigned_positions _ _ hperm).symm
    · intro hboard
      rw [hrequired]
      exact (Game.installAssignments_count g _ _ (some key) hperm hboard).symm
  · intro hlost
    rw [generate_lost _ _ _ hlost]
    exact (Game.installAssignments_outcome_other g _ _ _).2

/-- C16 at the started application: a win round over `['A','B']`. -/
theorem c16_round_outcome_witness :
    ∃ g' : Game, ((boot ["A", "B"] 0 false []).prepareScratchRound "win").game = some g' ∧
      g'.outcome.betResult = some "win" :=
  (c16_round_outcome_invariant (boot ["A", "B"] 0 false [])
    (Game.create false 300 40 1000 true ["A", "B"]) "win" rfl).imp
    fun _ h => ⟨h.1, h.2.1⟩

end App

namespace Game

theorem Sound.unique {g : Game} (h : Sound g) {c c' : Card} (hc : c ∈ g.cards ++ g.detached)
    (hc' : c' ∈ g.cards ++ g.detached) (hid : c.id = c'.id) : c = c' :=
  List.inj_on_of_nodup_map h.ids hc hc' hid

theorem Sound.quiet {g : Game} (h : Sound g) {card : Card} (hcard : card ∈ g.cards ++ g.detached)
    (hflag : card.autoRevealScheduled = false) :
    ∀ c ∈ g.cards ++ g.detached, c.id = card.id → c.autoRevealTimer = none := by
  intro c hc hid
  rw [h.unique hc hcard hid]
  exact h.flags card hcard hflag

/-- No two pending timers are for the same tile. -/
theorem Sound.one_timer_per_tile {g : Game} (h : Sound g) :
    (g.timers.map SweepTimer.cardId).Nodup := by
  have hnodup : g.timers.Nodup := List.Nodup.of_map _ h.distinct
  rw [List.nodup_map_iff_inj_on hnodup]
  intro t ht t' ht' hid
  obtain ⟨c, hc, hcid, hctimer⟩ := h.owners t ht
  obtain ⟨c', hc', hcid', hctimer'⟩ := h.owners t' ht'
  have : c = c' := h.unique hc hc' (by rw [hcid, hcid', hid])
  rw [this, hctimer'] at hctimer
  exact List.inj_on_of_nodup_map h.distinct ht ht' (Option.some.inj hctimer).symm

/-- The body of the sweep for a card without a timer, in closed form. -/
theorem scheduleReveal_eq (g : Game) (card : Card) (index : Nat)
    (hq : ∀ c ∈ g.cards ++ g.detached, c.id = card.id → c.autoRevealTimer = none) :
    g.scheduleReveal card index
      = ({ g with
            nextHandle := g.nextHandle + 1
            timers := g.timers ++
              [{ handle := g.nextHandle
                 delay := if g.disableAnimations then 0 else g.revealAllIntervalDelay * index
                 cardId := card.id, row := card.row, col := card.col
                 assignedFace :=
                   (JsMap.get g.currentAssignments (getCardKey card.row card.col)).join }]
            handles := g.handles ++ [g.nextHandle] } : Game).modifyCard card.id fun c =>
          { c with autoRevealScheduled := true, autoRevealTimer := some g.nextHandle } := by
  unfold scheduleReveal
  rcases clearScheduledAutoReveal_shape g card.id hq with h | h
  · rw [h]
  · rw [h]
    simp only [modifyCard]
    rw [map_modify_map, map_modify_map]
    all_goals try (intro c; rfl)

theorem mem_modifyCard_iff (g : Game) (id : Nat) (f : Card → Card) (c : Card) :
    c ∈ (g.modifyCard id f).cards ++ (g.modifyCard id f).detached ↔
      ∃ c₀ ∈ g.cards ++ g.detached, c = if c₀.id = id then f c₀ else c₀ := by
  show c ∈ List.map _ g.cards ++ List.map _ g.detached ↔ _
  rw [← List.map_append, List.mem_map]
  constructor
  · rintro ⟨c₀, hc₀, rfl⟩
    exact ⟨c₀, hc₀, rfl⟩
  · rintro ⟨c₀, hc₀, rfl⟩
    exact ⟨c₀, hc₀, rfl⟩

theorem modifyCard_ids (g : Game) (id : Nat) (f : Card → Card) (hf : ∀ c, (f c).id = c.id) :
    ((g.modifyCard id f).cards ++ (g.modifyCard id f).detached).map Card.id
      = (g.cards ++ g.detached).map Card.id := by
  show (List.map _ g.cards ++ List.map _ g.detached).map Card.id = _
  rw [← List.map_append, List.map_map]
  apply List.map_congr_left
  intro c _
  simp only [Function.comp]
  by_cases h : c.id = id
  · rw [if_pos h, hf]
  · rw [if_neg h]

theorem mem_cards_modifyCard_of_ne (g : Game) (id : Nat) (f : Card → Card) (c : Card)
    (hc : c ∈ g.cards) (hne : c.id ≠ id) : c ∈ (g.modifyCard id f).cards := by
  show c ∈ List.map _ g.cards
  exact List.mem_map.mpr ⟨c, hc, by rw [if_neg hne]⟩

theorem any_scheduled_modifyCard (g : Game) (id : Nat) (f : Card → Card)
    (hf : ∀ c, (f c).autoRevealScheduled = c.autoRevealScheduled) :
    ((g.modifyCard id f).cards.any fun c => c.autoRevealScheduled)
      = g.cards.any fun c => c.autoRevealScheduled := by
  show (List.map _ g.cards).any _ = _
  rw [List.any_map]
  congr 1
  funext c
  simp only [Function.comp]
  by_cases h : c.id = id
  · rw [if_pos h, hf]
  · rw [if_neg h]

/-- The body of the sweep keeps the bookkeeping sound. -/
theorem Sound.scheduleReveal {g : Game} (h : Sound g)
    (htriggered : g.outcome.autoRevealTriggered = true) (card : Card) (index : Nat)
    (hcard : card ∈ g.cards) (hflag : card.autoRevealScheduled = false) :
    Sound (g.scheduleReveal card index) := by
  have hcard' : card ∈ g.cards ++ g.detached := List.mem_append_left _ hcard
  have hq := h.quiet hcard' hflag
  rw [scheduleReveal_eq g card index hq]
  refine
    { ids := ?_, cardIds := ?_, flags := ?_, owners := ?_, handles := ?_, distinct := ?_
      fresh := ?_, triggered := fun _ => htriggered }
  · rw [modifyCard_ids]
    · exact h.ids
    · intro c
      rfl
  · intro c hc
    obtain ⟨c₀, hc₀, rfl⟩ := (mem_modifyCard_iff _ _ _ _).mp hc
    have := h.cardIds c₀ hc₀
    split <;> exact this
  · intro c hc hfl
    obtain ⟨c₀, hc₀, rfl⟩ := (mem_modifyCard_iff _ _ _ _).mp hc
    by_cases hi : c₀.id = card.id
    · rw [if_pos hi] at hfl
      cases hfl
    · rw [if_neg hi] at hfl ⊢
      exact h.flags c₀ hc₀ hfl
  · intro t ht
    rcases List.mem_append.mp ht with ht | ht
    · obtain ⟨c₀, hc₀, hid, htimer⟩ := h.owners t ht
      have hne : c₀.id ≠ card.id := by
        intro hi
        rw [hq c₀ hc₀ hi] at htimer
        cases htimer
      exact ⟨c₀, (mem_modifyCard_iff _ _ _ _).mpr ⟨c₀, hc₀, by rw [if_neg hne]⟩, hid, htimer⟩
    · rw [List.mem_singleton.mp ht]
      exact ⟨{ card with autoRevealScheduled := true, autoRevealTimer := some g.nextHandle },
        (mem_modifyCard_iff _ _ _ _).mpr ⟨card, hcard', by rw [if_pos rfl]⟩, rfl, rfl⟩
  · show g.handles ++ [g.nextHandle] = List.map _ (g.timers ++ [_])
    rw [List.map_append, h.handles]
    rfl
  · show (List.map _ (g.timers ++ [_])).Nodup
    rw [List.map_append, List.nodup_append]
    refine ⟨h.distinct, List.nodup_singleton _, ?_⟩
    intro a ha hb
    obtain ⟨t, ht, rfl⟩ := List.mem_map.mp ha
    have := h.fresh t ht
    have hb' : t.handle = g.nextHandle := by simpa using hb
    omega
  · intro t ht
    show t.handle < g.nextHandle + 1
    rcases List.mem_append.mp ht with ht | ht
    · have := h.fresh t ht
      omega
    · rw [List.mem_singleton.mp ht]
      exact Nat.lt_succ_self _

end Game

namespace Game

theorem rowMajorLE_total (a b : Card) : rowMajorLE a b ∨ rowMajorLE b a := by
  unfold rowMajorLE
  by_cases h : a.row = b.row
  · rw [if_pos h, if_pos h.symm]
    omega
  · rw [if_neg h, if_neg (fun h' => h h'.symm)]
    omega

theorem rowMajorLE_trans (a b c : Card) (hab : rowMajorLE a b) (hbc : rowMajorLE b c) :
    rowMajorLE a c := by
  unfold rowMajorLE at *
  split at hab <;> split at hbc <;> split <;> omega

/-- The sort of the sweep returns a row-major sorted permutation. -/
theorem sorted_insertionSort_rowMajor (cards : List Card) :
    (cards.insertionSort rowMajorLE).Sorted rowMajorLE := by
  haveI : IsTotal Card rowMajorLE := ⟨rowMajorLE_total⟩
  haveI : IsTrans Card rowMajorLE := ⟨rowMajorLE_trans⟩
  exact List.sorted_insertionSort rowMajorLE cards

/-- The cards of a sound board that the filter of the sweep keeps. -/
theorem Sound.eligible_ids {g : Game} (h : Sound g) (exclude : List Nat) :
    ((g.eligible exclude).map Card.id).Nodup := by
  have h₁ : (g.cards.map Card.id).Nodup := by
    have := h.ids
    rw [List.map_append] at this
    exact (List.nodup_append.mp this).1
  exact (List.filter_sublist _).map Card.id |>.nodup h₁

theorem mem_eligible {g : Game} {exclude : List Nat} {card : Card}
    (hcard : card ∈ g.eligible exclude) :
    card ∈ g.cards ∧ card.revealed = false ∧ card.destroyed = false ∧ card.animating = false ∧
      card.autoRevealScheduled = false ∧ card.id ∉ exclude := by
  unfold eligible at hcard
  obtain ⟨hmem, hp⟩ := List.mem_filter.mp hcard
  simp only [Bool.and_eq_true, Bool.not_eq_true', decide_eq_false_iff_not] at hp
  obtain ⟨⟨⟨⟨h₁, h₂⟩, h₃⟩, h₄⟩, h₅⟩ := hp
  exact ⟨hmem, h₁, h₂, h₃, h₄, h₅⟩

/-- The `forEach` of the sweep keeps the bookkeeping sound. -/
theorem Sound.after_fold (cards : List Card) :
    ∀ (start : Nat) (g : Game), Sound g → g.outcome.autoRevealTriggered = true →
      (cards.map Card.id).Nodup →
      (∀ card ∈ cards, card ∈ g.cards ∧ card.autoRevealScheduled = false) →
      Sound ((cards.enumFrom start).foldl (fun acc item => Game.scheduleReveal acc item.2 item.1) g) := by
  induction cards with
  | nil =>
    intro start g h _ _ _
    exact h
  | cons card rest ih =>
    intro start g h htriggered hnodup hcards
    simp only [List.map_cons, List.nodup_cons] at hnodup
    obtain ⟨hmem, hflag⟩ := hcards card (List.mem_cons_self _ _)
    have hq := h.quiet (List.mem_append_left _ hmem) hflag
    simp only [List.enumFrom_cons, List.foldl_cons]
    refine ih (start + 1) _ (h.scheduleReveal htriggered card start hmem hflag) ?_ hnodup.2 ?_
    · rw [(scheduleReveal_shape g card start hq).2.2.2.2.2.1]
      exact htriggered
    · intro card' hcard'
      obtain ⟨hmem', hflag'⟩ := hcards card' (List.mem_cons_of_mem _ hcard')
      refine ⟨?_, hflag'⟩
      rw [scheduleReveal_eq g card start hq]
      refine mem_cards_modifyCard_of_ne _ _ _ _ hmem' ?_
      intro heq
      exact hnodup.1 (List.mem_map.mpr ⟨card', hcard', heq⟩)

/-- The function `revealRemainingTiles` when it does not return early: one
timer per eligible card, in row-major order, after the timers already pending. -/
theorem revealRemainingTiles_timers (g : Game) (exclude : List Nat) (h : Sound g)
    (hgo : ¬(exclude.length = 0 ∧ g.isAutoRevealInProgress = true)) :
    (g.revealRemainingTiles exclude).timers
      = g.timers ++ g.sweepTimers ((g.eligible exclude).insertionSort rowMajorLE) := by
  have hgo' : ¬(exclude.length = 0 ∧ isAutoRevealInProgress
      { g with outcome := { g.outcome with autoRevealTriggered := true } } = true) := hgo
  unfold revealRemainingTiles
  dsimp only
  rw [if_neg hgo']
  split
  · rename_i hempty
    have : g.eligible exclude = [] := List.length_eq_zero.mp hempty
    rw [this]
    simp [sweepTimers]
  · have hperm := List.perm_insertionSort rowMajorLE (g.eligible exclude)
    have hnodup : (((g.eligible exclude).insertionSort rowMajorLE).map Card.id).Nodup :=
      ((hperm.map Card.id).nodup_iff).mpr (h.eligible_ids exclude)
    have hq : ∀ card ∈ (g.eligible exclude).insertionSort rowMajorLE,
        ∀ c ∈ g.cards ++ g.detached, c.id = card.id → c.autoRevealTimer = none := by
      intro card hcard
      obtain ⟨hmem, -, -, -, hflag, -⟩ := mem_eligible (hperm.subset hcard)
      exact h.quiet (List.mem_append_left _ hmem) hflag
    have := (Game.foldl_scheduleReveal ((g.eligible exclude).insertionSort rowMajorLE) 0 g.nextHandle
      { g with outcome := { g.outcome with autoRevealTriggered := true } }
      rfl hnodup hq).1
    exact this

/-- The function `revealRemainingTiles` keeps the bookkeeping sound. -/
theorem Sound.after_sweep {g : Game} (h : Sound g) (exclude : List Nat) :
    Sound (g.revealRemainingTiles exclude) := by
  have h₁ : Sound { g with outcome := { g.outcome with autoRevealTriggered := true } } :=
    { ids := h.ids, cardIds := h.cardIds, flags := h.flags, owners := h.owners
      handles := h.handles, distinct := h.distinct, fresh := h.fresh
      triggered := fun _ => rfl }
  unfold Game.revealRemainingTiles
  dsimp only
  split
  · exact h₁
  · split
    · exact h₁
    · have hperm := List.perm_insertionSort rowMajorLE (g.eligible exclude)
      refine Sound.after_fold _ 0 _ h₁ rfl
        (((hperm.map Card.id).nodup_iff).mpr (h.eligible_ids exclude)) ?_
      intro card hcard
      obtain ⟨hmem, -, -, -, hflag, -⟩ := mem_eligible (hperm.subset hcard)
      exact ⟨hmem, hflag⟩

/-- While a sweep is in progress on a sound board, `revealRemainingTiles()`
returns the state it was given. -/
theorem revealRemainingTiles_in_progress (g : Game) (h : Sound g)
    (hbusy : g.isAutoRevealInProgress = true) : g.revealRemainingTiles [] = g := by
  have htriggered := h.triggered hbusy
  have hg : ({ g with outcome := { g.outcome with autoRevealTriggered := true } } : Game) = g := by
    rw [← htriggered]
  unfold Game.revealRemainingTiles
  dsimp only
  rw [hg, if_pos ⟨rfl, hbusy⟩]

end Game

namespace Game

/-- A state that passes the test is sound. -/
theorem sound_of_check (g : Game) (h : g.soundCheck = true) : Sound g := by
  unfold soundCheck at h
  simp only [Bool.and_eq_true, decide_eq_true_eq, List.all_eq_true, List.any_eq_true,
    Bool.or_eq_true, Bool.not_eq_true', Option.isNone_iff_eq_none] at h
  obtain ⟨⟨⟨⟨⟨⟨⟨h₁, h₂⟩, h₃⟩, h₄⟩, h₅⟩, h₆⟩, h₇⟩, h₈⟩ := h
  refine
    { ids := h₁, cardIds := h₂, flags := ?_, owners := ?_, handles := h₅, distinct := h₆
      fresh := h₇, triggered := ?_ }
  · intro c hc hflag
    rcases h₃ c hc with h | h
    · rw [hflag] at h
      cases h
    · exact h
  · intro t ht
    obtain ⟨c, hc, h, h'⟩ := h₄ t ht
    exact ⟨c, hc, h, h'⟩
  · intro hbusy
    rcases h₈ with h | h
    · rw [hbusy] at h
      cases h
    · exact h

set_option maxRecDepth 100000 in
theorem demoRound_sound : Sound demoRound := sound_of_check _ rfl

theorem demoRound_board :
    demoRound.cards.map (fun c => (c.id, c.row, c.col, c.assignedContent))
        = [(9, 0, 0, some "A"), (10, 0, 1, some "B"), (11, 0, 2, some "B"),
            (12, 1, 0, some "B"), (13, 1, 1, some "A"), (14, 1, 2, some "A"),
            (15, 2, 0, some "A"), (16, 2, 1, some "A"), (17, 2, 2, some "A")] := rfl

end Game

namespace Game

theorem getElem?_sweepTimers (g : Game) (ordered : List Card) (i : Nat) :
    (g.sweepTimers ordered)[i]?
      = ordered[i]?.map fun card =>
          { handle := g.nextHandle + i
            delay := if g.disableAnimations then 0 else g.revealAllIntervalDelay * i
            cardId := card.id, row := card.row, col := card.col
            assignedFace :=
              (JsMap.get g.currentAssignments (getCardKey card.row card.col)).join } := by
  unfold sweepTimers
  rw [List.getElem?_map, List.enum, List.getElem?_enumFrom]
  cases ordered[i]? <;> simp

/-- A sweep is in progress when a timer is pending or a card of the board is
marked as scheduled. -/
theorem Sound.in_progress_iff {g : Game} (h : Sound g) :
    g.isAutoRevealInProgress = true ↔
      g.timers ≠ [] ∨ ∃ c ∈ g.cards, c.autoRevealScheduled = true := by
  unfold isAutoRevealInProgress
  rw [h.handles]
  simp only [Bool.or_eq_true, decide_eq_true_eq, List.length_map, List.any_eq_true]
  rw [gt_iff_lt, List.length_pos]

end Game

set_option maxRecDepth 100000 in
/-- C18, the claim as worded fails for a board on which a sweep is running. In
`sweepRunning` the tiles 9, 10, 11 and 13 to 17 have a pending timer and tile 12,
whose flip is running, is eligible: it is not revealed, not destroyed, not
animating (`card.reveal` ends with `stopWiggle()`, which clears `_animating`),
not scheduled and, in a call without an exclude list, not excluded. The call
`revealRemainingTiles()` returns early and schedules nothing, so the list of
scheduled tiles is empty while the list of eligible tiles is `[12]`. -/
theorem c18_nothing_scheduled_while_sweep_runs :
    Game.sweepRunning.timers.map SweepTimer.cardId = [9, 10, 11, 13, 14, 15, 16, 17] ∧
      (Game.sweepRunning.eligible []).map Card.id = [12] ∧
      Game.sweepRunning.isAutoRevealInProgress = true ∧
      (Game.sweepRunning.revealRemainingTiles []).timers = Game.sweepRunning.timers :=
  ⟨rfl, rfl, rfl, rfl⟩

/-- C18 (amended): on every sound board, a call of `revealRemainingTiles` that
has an exclude list, or that finds no sweep in progress, schedules the eligible
tiles (not revealed, not destroyed, not animating, not scheduled, not excluded)
in row-major order: the timers it adds, after those already pending, are one per
tile of a list `ordered` that is a permutation of the eligible tiles sorted by
row, then column; the timer of the `i`-th tile has delay
`revealAllIntervalDelay * i`, 0 when animations are disabled, and carries the
content assigned to the position of the tile, `null` when there is none. A call
without an exclude list while a sweep is in progress schedules nothing. -/
theorem c18_sweep_in_row_major_order (g : Game) (exclude : List Nat) (h : Game.Sound g) :
    (exclude.length = 0 ∧ g.isAutoRevealInProgress = true →
        (g.revealRemainingTiles exclude).timers = g.timers) ∧
      (¬(exclude.length = 0 ∧ g.isAutoRevealInProgress = true) →
        ∃ ordered : List Card,
          ordered.Perm (g.eligible exclude) ∧
          ordered.Sorted Game.rowMajorLE ∧
          (g.revealRemainingTiles exclude).timers = g.timers ++ g.sweepTimers ordered ∧
          (g.sweepTimers ordered).length = ordered.length ∧
          ∀ i : Nat, ∀ card : Card, ordered[i]? = some card →
            (g.sweepTimers ordered)[i]?
              = some
                { handle := g.nextHandle + i
                  delay := if g.disableAnimations then 0 else g.revealAllIntervalDelay * i
                  cardId := card.id, row := card.row, col := card.col
                  assignedFace :=
                    (JsMap.get g.currentAssignments (getCardKey card.row card.col)).join }) := by
  constructor
  · rintro ⟨hempty, hbusy⟩
    have hnil : exclude = [] := List.length_eq_zero.mp hempty
    rw [hnil, Game.revealRemainingTiles_in_progress g h hbusy]
  · intro hgo
    refine ⟨(g.eligible exclude).insertionSort Game.rowMajorLE,
      List.perm_insertionSort _ _, Game.sorted_insertionSort_rowMajor _,
      Game.revealRemainingTiles_timers g exclude h hgo, ?_, ?_⟩
    · simp [Game.sweepTimers]
    · intro i card hcard
      rw [Game.getElem?_sweepTimers, hcard]
      rfl

set_option maxRecDepth 100000 in
/-- C18 on the round `demoRound` with tile 10 excluded: the other eight tiles
are scheduled in row-major order, 40 ms apart, each with its assigned face. -/
theorem c18_sweep_order_witness :
    Game.Sound Game.demoRound ∧
      ∃ ordered : List Card,
        ordered.Perm (Game.demoRound.eligible [10]) ∧
        ordered.Sorted Game.rowMajorLE ∧
        (Game.demoRound.revealRemainingTiles [10]).timers
          = Game.demoRound.timers ++ Game.demoRound.sweepTimers ordered ∧
        (Game.demoRound.sweepTimers ordered).length = ordered.length ∧
        ∀ i : Nat, ∀ card : Card, ordered[i]? = some card →
          (Game.demoRound.sweepTimers ordered)[i]?
            = some
              { handle := Game.demoRound.nextHandle + i
                delay :=
                  if Game.demoRound.disableAnimations then 0
                  else Game.demoRound.revealAllIntervalDelay * i
                cardId := card.id, row := card.row, col := card.col
                assignedFace :=
                  (JsMap.get Game.demoRound.currentAssignments
                    (getCardKey card.row card.col)).join } :=
  ⟨Game.demoRound_sound,
    (c18_sweep_in_row_major_order Game.demoRound [10] Game.demoRound_sound).2 (by decide)⟩

/-- C19: on every sound board, while a sweep is in flight, that is while a
timer is pending or a card of the board is marked `_autoRevealScheduled`, a call
`revealRemainingTiles()` without an exclude list returns the state it was given:
no timer is scheduled and nothing changes. For every exclude list, the call
keeps the pending timers, the timers it adds are for tiles that had none, and
afterwards no two pending timers are for the same tile; the board stays
sound. -/
theorem c19_sweep_idempotent_in_flight (g : Game) (h : Game.Sound g) :
    ((g.timers ≠ [] ∨ ∃ c ∈ g.cards, c.autoRevealScheduled = true) →
        g.revealRemainingTiles [] = g) ∧
      ∀ exclude : List Nat,
        Game.Sound (g.revealRemainingTiles exclude) ∧
        ((g.revealRemainingTiles exclude).timers.map SweepTimer.cardId).Nodup ∧
        ∃ added : List SweepTimer,
          (g.revealRemainingTiles exclude).timers = g.timers ++ added ∧
          ∀ t ∈ added, ∀ pending ∈ g.timers, t.cardId ≠ pending.cardId := by
  refine ⟨fun hbusy => Game.revealRemainingTiles_in_progress g h (h.in_progress_iff.mpr hbusy), ?_⟩
  intro exclude
  have hs := h.after_sweep exclude
  have hnodup := hs.one_timer_per_tile
  refine ⟨hs, hnodup, ?_⟩
  have hadded : ∃ added : List SweepTimer,
      (g.revealRemainingTiles exclude).timers = g.timers ++ added := by
    by_cases hgo : exclude.length = 0 ∧ g.isAutoRevealInProgress = true
    · refine ⟨[], ?_⟩
      have hnil : exclude = [] := List.length_eq_zero.mp hgo.1
      rw [hnil, Game.revealRemainingTiles_in_progress g h hgo.2, List.append_nil]
    · exact ⟨_, Game.revealRemainingTiles_timers g exclude h hgo⟩
  obtain ⟨added, hadded⟩ := hadded
  refine ⟨added, hadded, ?_⟩
  intro t ht pending hpending heq
  rw [hadded, List.map_append, List.nodup_append] at hnodup
  exact hnodup.2.2 (List.mem_map.mpr ⟨pending, hpending, rfl⟩)
    (List.mem_map.mpr ⟨t, ht, heq⟩)

set_option maxRecDepth 100000 in
/-- C19 on the round `demoRound` after a sweep that left out tile 10: eight
timers are pending, a second call without an exclude list changes nothing, and
a call that excludes tile 17 adds the one timer that is missing, for tile 10. -/
theorem c19_sweep_idempotent_witness :
    Game.Sound (Game.demoRound.revealRemainingTiles [10]) ∧
      (Game.demoRound.revealRemainingTiles [10]).timers.map SweepTimer.cardId
        = [9, 11, 12, 13, 14, 15, 16, 17] ∧
      (Game.demoRound.revealRemainingTiles [10]).revealRemainingTiles []
        = Game.demoRound.revealRemainingTiles [10] ∧
      (((Game.demoRound.revealRemainingTiles [10]).revealRemainingTiles [17]).timers.map
        SweepTimer.cardId).Nodup ∧
      ((Game.demoRound.revealRemainingTiles [10]).revealRemainingTiles [17]).timers.map
          SweepTimer.cardId
        = [9, 11, 12, 13, 14, 15, 16, 17, 10] :=
  ⟨Game.demoRound_sound.after_sweep [10], rfl,
    (c19_sweep_idempotent_in_flight _ (Game.demoRound_sound.after_sweep [10])).1
      (Or.inl (by
        intro hnil
        have hlen : (Game.demoRound.revealRemainingTiles [10]).timers.length = 8 := rfl
        rw [hnil] at hlen
        cases hlen)),
    ((c19_sweep_idempotent_in_flight _ (Game.demoRound_sound.after_sweep [10])).2 [17]).2.1,
    rfl⟩

namespace Game

/-- The invariant reads the cards, the timers, the counters of handles and card
ids, and the flag `autoRevealTriggered`. -/
theorem Sound.frame {g g' : Game} (h : Sound g) (hcards : g'.cards = g.cards)
    (hdetached : g'.detached = g.detached) (htimers : g'.timers = g.timers)
    (hhandles : g'.handles = g.handles) (hnext : g'.nextHandle = g.nextHandle)
    (hids : g'.nextCardId = g.nextCardId)
    (htriggered : g.outcome.autoRevealTriggered = true → g'.outcome.autoRevealTriggered = true) :
    Sound g' := by
  refine
    { ids := ?_, cardIds := ?_, flags := ?_, owners := ?_, handles := ?_, distinct := ?_
      fresh := ?_, triggered := ?_ }
  · rw [hcards, hdetached]
    exact h.ids
  · rw [hcards, hdetached, hids]
    exact h.cardIds
  · rw [hcards, hdetached]
    exact h.flags
  · rw [hcards, hdetached, htimers]
    exact h.owners
  · rw [hhandles, htimers]
    exact h.handles
  · rw [htimers]
    exact h.distinct
  · rw [htimers, hnext]
    exact h.fresh
  · intro hbusy
    apply htriggered
    apply h.triggered
    unfold isAutoRevealInProgress at hbusy ⊢
    rw [hhandles, hcards] at hbusy
    exact hbusy

/-- A change of one card that keeps its id and its timer fields keeps the
invariant. -/
theorem Sound.modifyCard {g : Game} (h : Sound g) (id : Nat) (f : Card → Card)
    (hid : ∀ c, (f c).id = c.id)
    (hs : ∀ c, (f c).autoRevealScheduled = c.autoRevealScheduled)
    (ht : ∀ c, (f c).autoRevealTimer = c.autoRevealTimer) : Sound (g.modifyCard id f) := by
  refine
    { ids := ?_, cardIds := ?_, flags := ?_, owners := ?_, handles := h.handles
      distinct := h.distinct, fresh := h.fresh, triggered := ?_ }
  · rw [modifyCard_ids _ _ _ hid]
    exact h.ids
  · intro c hc
    obtain ⟨c₀, hc₀, rfl⟩ := (mem_modifyCard_iff _ _ _ _).mp hc
    have := h.cardIds c₀ hc₀
    split
    · rw [hid]
      exact this
    · exact this
  · intro c hc hflag
    obtain ⟨c₀, hc₀, rfl⟩ := (mem_modifyCard_iff _ _ _ _).mp hc
    by_cases hi : c₀.id = id
    · rw [if_pos hi] at hflag ⊢
      rw [hs] at hflag
      rw [ht]
      exact h.flags c₀ hc₀ hflag
    · rw [if_neg hi] at hflag ⊢
      exact h.flags c₀ hc₀ hflag
  · intro t htm
    obtain ⟨c₀, hc₀, hcid, htimer⟩ := h.owners t htm
    refine ⟨if c₀.id = id then f c₀ else c₀, (mem_modifyCard_iff _ _ _ _).mpr ⟨c₀, hc₀, rfl⟩, ?_, ?_⟩
    · split
      · rw [hid]
        exact hcid
      · exact hcid
    · split
      · rw [ht]
        exact htimer
      · exact htimer
  · intro hbusy
    apply h.triggered
    unfold isAutoRevealInProgress at hbusy ⊢
    rw [any_scheduled_modifyCard _ _ _ hs] at hbusy
    exact hbusy

theorem findCard_mem {g : Game} {id : Nat} {card : Card} (hfind : g.findCard id = some card) :
    card ∈ g.cards ++ g.detached ∧ card.id = id := by
  unfold findCard at hfind
  exact ⟨List.mem_of_find?_eq_some hfind, by simpa using List.find?_some hfind⟩

/-- The function `clearScheduledAutoReveal` keeps the invariant. -/
theorem Sound.clearScheduledAutoReveal {g : Game} (h : Sound g) (id : Nat) :
    Sound (g.clearScheduledAutoReveal id) := by
  unfold Game.clearScheduledAutoReveal
  cases hfind : g.findCard id with
  | none => exact h
  | some card =>
    obtain ⟨hmem, hcid⟩ := findCard_mem hfind
    dsimp only
    have key : ∀ g₁ : Game, g₁.cards = g.cards → g₁.detached = g.detached →
        g₁.nextCardId = g.nextCardId → g₁.nextHandle = g.nextHandle →
        g₁.outcome = g.outcome →
        (∃ p : Nat → Bool, g₁.timers = g.timers.filter (fun t => p t.handle) ∧
          g₁.handles = g.handles.filter p ∧
          ∀ t ∈ g.timers, card.autoRevealTimer = some t.handle → p t.handle = false) →
        Sound (g₁.modifyCard id fun c =>
          { c with autoRevealTimer := none, autoRevealScheduled := false }) := by
      intro g₁ hcards hdetached hids hnext houtcome ⟨p, htimers, hhandles, hp⟩
      have hsub : ∀ t ∈ g₁.timers, t ∈ g.timers := by
        intro t ht
        rw [htimers] at ht
        exact (List.mem_filter.mp ht).1
      refine
        { ids := ?_, cardIds := ?_, flags := ?_, owners := ?_, handles := ?_, distinct := ?_
          fresh := ?_, triggered := ?_ }
      · rw [modifyCard_ids]
        · rw [hcards, hdetached]
          exact h.ids
        · intro c
          rfl
      · intro c hc
        obtain ⟨c₀, hc₀, rfl⟩ := (mem_modifyCard_iff _ _ _ _).mp hc
        rw [hcards, hdetached] at hc₀
        have := h.cardIds c₀ hc₀
        show _ < g₁.nextCardId
        rw [hids]
        split <;> exact this
      · intro c hc hflag
        obtain ⟨c₀, hc₀, rfl⟩ := (mem_modifyCard_iff _ _ _ _).mp hc
        rw [hcards, hdetached] at hc₀
        by_cases hi : c₀.id = id
        · rw [if_pos hi]
        · rw [if_neg hi] at hflag ⊢
          exact h.flags c₀ hc₀ hflag
      · intro t ht
        have htg : t ∈ g.timers := hsub t ht
        obtain ⟨c₀, hc₀, hid₀, htimer⟩ := h.owners t htg
        have hne : c₀.id ≠ id := by
          intro hi
          have hcc : c₀ = card := h.unique hc₀ hmem (by rw [hi, hcid])
          rw [hcc] at htimer
          have hfalse := hp t htg htimer
          have ht' : t ∈ g₁.timers := ht
          rw [htimers] at ht'
          have htrue := (List.mem_filter.mp ht').2
          rw [hfalse] at htrue
          cases htrue
        refine ⟨c₀, (mem_modifyCard_iff _ _ _ _).mpr ⟨c₀, ?_, by rw [if_neg hne]⟩, hid₀, htimer⟩
        rw [hcards, hdetached]
        exact hc₀
      · show g₁.handles = g₁.timers.map SweepTimer.handle
        rw [hhandles, htimers, h.handles, List.filter_map]
        rfl
      · show (g₁.timers.map SweepTimer.handle).Nodup
        rw [htimers]
        exact (List.filter_sublist _).map SweepTimer.handle |>.nodup h.distinct
      · intro t ht
        show t.handle < g₁.nextHandle
        rw [hnext]
        exact h.fresh t (hsub t ht)
      · intro hbusy
        show g₁.outcome.autoRevealTriggered = true
        rw [houtcome]
        apply h.triggered
        unfold isAutoRevealInProgress at hbusy ⊢
        simp only [Bool.or_eq_true, decide_eq_true_eq, List.any_eq_true] at hbusy ⊢
        rcases hbusy with hlen | ⟨c, hc, hflag⟩
        · left
          have hlen' : 0 < g₁.handles.length := hlen
          rw [hhandles] at hlen'
          exact lt_of_lt_of_le hlen' (List.length_filter_le _ _)
        · right
          have hc' : c ∈ List.map _ g₁.cards := hc
          obtain ⟨c₀, hc₀, rfl⟩ := List.mem_map.mp hc'
          by_cases hi : c₀.id = id
          · rw [if_pos hi] at hflag
            cases hflag
          · rw [if_neg hi] at hflag
            rw [hcards] at hc₀
            exact ⟨c₀, hc₀, hflag⟩
    cases htimer : card.autoRevealTimer with
    | none =>
      refine key g rfl rfl rfl rfl rfl ⟨fun _ => true, ?_, ?_, ?_⟩
      · simp
      · simp
      · intro t _ habs
        rw [htimer] at habs
        cases habs
    | some handle =>
      refine key _ rfl rfl rfl rfl rfl ⟨fun x => decide (x ≠ handle), rfl, rfl, ?_⟩
      intro t _ heq
      rw [htimer] at heq
      simp [Option.some.inj heq]

theorem clearScheduledAutoReveal_frame (g : Game) (id : Nat) :
    (g.clearScheduledAutoReveal id).nextHandle = g.nextHandle ∧
      (g.clearScheduledAutoReveal id).disableAnimations = g.disableAnimations ∧
      (g.clearScheduledAutoReveal id).flipDuration = g.flipDuration ∧
      (g.clearScheduledAutoReveal id).revealAllIntervalDelay = g.revealAllIntervalDelay ∧
      (g.clearScheduledAutoReveal id).flights = g.flights ∧
      (g.clearScheduledAutoReveal id).contentKeys = g.contentKeys ∧
      (g.clearScheduledAutoReveal id).cards
        = g.cards.map fun c =>
            if c.id = id then { c with autoRevealTimer := none, autoRevealScheduled := false }
            else c := by
  unfold clearScheduledAutoReveal
  cases hfind : g.findCard id with
  | none =>
    refine ⟨rfl, rfl, rfl, rfl, rfl, rfl, ?_⟩
    dsimp only
    symm
    conv_rhs => rw [← List.map_id g.cards]
    apply List.map_congr_left
    intro c hc
    have hne : c.id ≠ id := by
      intro hi
      unfold findCard at hfind
      rw [List.find?_eq_none] at hfind
      have := hfind c (List.mem_append_left _ hc)
      simp [hi] at this
    rw [if_neg hne]
    rfl
  | some card =>
    dsimp only
    cases card.autoRevealTimer <;> exact ⟨rfl, rfl, rfl, rfl, rfl, rfl, rfl⟩

/-- The filter of the sweep does not look at an excluded card. -/
theorem eligible_of_cards (g g' : Game) (id : Nat) (f : Card → Card)
    (hid : ∀ c, (f c).id = c.id)
    (hcards : g'.cards = g.cards.map fun c => if c.id = id then f c else c) :
    g'.eligible [id] = g.eligible [id] := by
  unfold eligible
  rw [hcards, List.filter_map]
  have hfilter : ∀ l : List Card,
      (l.filter ((fun card : Card =>
          !card.revealed && !card.destroyed && !card.animating && !card.autoRevealScheduled
            && !decide (card.id ∈ [id])) ∘ fun c => if c.id = id then f c else c)).map
          (fun c => if c.id = id then f c else c)
        = l.filter fun card =>
          !card.revealed && !card.destroyed && !card.animating && !card.autoRevealScheduled
            && !decide (card.id ∈ [id]) := by
    intro l
    induction l with
    | nil => rfl
    | cons c rest ih =>
      by_cases hi : c.id = id
      · have h₁ : (((fun card : Card =>
            !card.revealed && !card.destroyed && !card.animating && !card.autoRevealScheduled
              && !decide (card.id ∈ [id])) ∘ fun c => if c.id = id then f c else c) c) = false := by
          simp [hi, hid]
        have h₂ : (!c.revealed && !c.destroyed && !c.animating && !c.autoRevealScheduled
              && !decide (c.id ∈ [id])) = false := by
          simp [hi]
        rw [List.filter_cons_of_neg (by rw [h₁]; decide), List.filter_cons_of_neg (by rw [h₂]; decide)]
        exact ih
      · have h₁ : (((fun card : Card =>
            !card.revealed && !card.destroyed && !card.animating && !card.autoRevealScheduled
              && !decide (card.id ∈ [id])) ∘ fun c => if c.id = id then f c else c) c)
            = (!c.revealed && !c.destroyed && !c.animating && !c.autoRevealScheduled
              && !decide (c.id ∈ [id])) := by
          simp [hi]
        simp only [List.filter_cons, h₁]
        split
        · rw [List.map_cons, if_neg hi, ih]
        · exact ih
  exact hfilter g.cards

end Game

namespace Game

theorem findCard_clearScheduledAutoReveal (g : Game) (id : Nat) (card : Card)
    (hfind : g.findCard id = some card) :
    (g.clearScheduledAutoReveal id).findCard id
      = some { card with autoRevealTimer := none, autoRevealScheduled := false } := by
  have hid := (findCard_mem hfind).2
  unfold clearScheduledAutoReveal
  rw [hfind]
  dsimp only
  rw [findCard_modifyCard]
  · have : ∀ g₁ : Game, g₁.cards = g.cards → g₁.detached = g.detached →
        g₁.findCard id = some card := by
      intro g₁ h₁ h₂
      unfold findCard at hfind ⊢
      rw [h₁, h₂, hfind]
    rw [this]
    · simp [hid]
    · cases card.autoRevealTimer <;> rfl
    · cases card.autoRevealTimer <;> rfl
  · intro c
    rfl

/-- The method `card.reveal` with animations enabled: the flip starts unless
the card is destroyed or revealed, and its completion has not run. -/
theorem cardReveal_animated (g : Game) (id : Nat) (face : Face) (card : Card)
    (hfind : g.findCard id = some card)
    (hanim : g.disableAnimations = false) (hflip : g.flipDuration ≠ 0) :
    (card.destroyed = true ∨ card.revealed = true → g.cardReveal id face = (false, g)) ∧
      (¬(card.destroyed = true ∨ card.revealed = true) →
        ∃ key : Face, g.cardReveal id face
          = (true,
              { g.modifyCard id fun c => { c with animating := false, wiggling := false } with
                flights := g.flights ++ [{ cardId := id, key := key }] })) := by
  constructor
  · intro hstop
    unfold cardReveal
    rw [hfind]
    simp only [hstop, if_true]
  · intro hstart
    unfold cardReveal
    rw [hfind]
    simp only [hstart, if_false]
    refine ⟨(match face with
      | some name => if name ∈ g.contentKeys then some name else none
      | none => none), ?_⟩
    have : ¬((g.modifyCard id fun c => { c with animating := false, wiggling := false }).disableAnimations
        = true ∨ (g.modifyCard id fun c =>
          { c with animating := false, wiggling := false }).flipDuration = 0) := by
      show ¬(g.disableAnimations = true ∨ g.flipDuration = 0)
      rw [hanim]
      simp [hflip]
    rw [if_neg this]
    rfl

end Game

namespace Game

theorem scheduleReveal_outcome (g : Game) (card : Card) (index : Nat) :
    (g.scheduleReveal card index).outcome = g.outcome ∧
      (g.scheduleReveal card index).flights = g.flights ∧
      (g.scheduleReveal card index).rules = g.rules := by
  unfold scheduleReveal
  exact ⟨clearScheduledAutoReveal_outcome g card.id, (clearScheduledAutoReveal_frame g card.id).2.2.2.2.1,
    clearScheduledAutoReveal_rules g card.id⟩

theorem foldl_scheduleReveal_outcome (items : List (Nat × Card)) :
    ∀ g : Game,
      (items.foldl (fun acc item => scheduleReveal acc item.2 item.1) g).outcome = g.outcome ∧
        (items.foldl (fun acc item => scheduleReveal acc item.2 item.1) g).flights = g.flights ∧
        (items.foldl (fun acc item => scheduleReveal acc item.2 item.1) g).rules = g.rules := by
  induction items with
  | nil =>
    intro g
    exact ⟨rfl, rfl, rfl⟩
  | cons item rest ih =>
    intro g
    obtain ⟨h₁, h₂, h₃⟩ := ih (g.scheduleReveal item.2 item.1)
    obtain ⟨k₁, k₂, k₃⟩ := scheduleReveal_outcome g item.2 item.1
    simp only [List.foldl_cons]
    exact ⟨h₁.trans k₁, h₂.trans k₂, h₃.trans k₃⟩

/-- The function `revealRemainingTiles` sets `autoRevealTriggered` and leaves
the rest of the round outcome, the running flips and the rules alone. -/
theorem revealRemainingTiles_outcome (g : Game) (exclude : List Nat) :
    (g.revealRemainingTiles exclude).outcome = { g.outcome with autoRevealTriggered := true } ∧
      (g.revealRemainingTiles exclude).flights = g.flights ∧
      (g.revealRemainingTiles exclude).rules = g.rules := by
  unfold revealRemainingTiles
  dsimp only
  split
  · exact ⟨rfl, rfl, rfl⟩
  · split
    · exact ⟨rfl, rfl, rfl⟩
    · exact foldl_scheduleReveal_outcome _ _

theorem sweepTimers_congr (g g' : Game) (ordered : List Card)
    (hnext : g'.nextHandle = g.nextHandle) (hanim : g'.disableAnimations = g.disableAnimations)
    (hdelay : g'.revealAllIntervalDelay = g.revealAllIntervalDelay)
    (hassign : g'.currentAssignments = g.currentAssignments) :
    g'.sweepTimers ordered = g.sweepTimers ordered := by
  unfold sweepTimers
  rw [hnext, hanim, hdelay, hassign]

/-- The sweep that leaves out a card, on a state that differs from a sound one
in fields of that card other than its id and its timer, and in fields that the
sweep does not read. -/
theorem revealRemainingTiles_touched (g X : Game) (id : Nat) (f : Card → Card) (h : Sound g)
    (hid : ∀ c, (f c).id = c.id)
    (hs : ∀ c, (f c).autoRevealScheduled = c.autoRevealScheduled)
    (ht : ∀ c, (f c).autoRevealTimer = c.autoRevealTimer)
    (hcards : X.cards = g.cards.map fun c => if c.id = id then f c else c)
    (hdetached : X.detached = g.detached.map fun c => if c.id = id then f c else c)
    (htimers : X.timers = g.timers) (hhandles : X.handles = g.handles)
    (hnext : X.nextHandle = g.nextHandle) (hids : X.nextCardId = g.nextCardId)
    (hanim : X.disableAnimations = g.disableAnimations)
    (hdelay : X.revealAllIntervalDelay = g.revealAllIntervalDelay)
    (hassign : X.currentAssignments = g.currentAssignments)
    (htriggered : X.outcome.autoRevealTriggered = true) :
    Sound X ∧
      (X.revealRemainingTiles [id]).timers
        = g.timers ++ g.sweepTimers ((g.eligible [id]).insertionSort rowMajorLE) := by
  have hX : Sound X :=
    (h.modifyCard id f hid hs ht).frame hcards hdetached htimers hhandles hnext hids
      (fun _ => htriggered)
  refine ⟨hX, ?_⟩
  rw [revealRemainingTiles_timers X [id] hX (by simp), htimers,
    eligible_of_cards g X id f hid hcards, sweepTimers_congr g X _ hnext hanim hdelay hassign]

end Game

namespace Game

/-- The function `clearScheduledAutoReveal(card)` cancels at most the timer of
the card: the pending timers that stay are timers of other cards. -/
theorem clearScheduledAutoReveal_timers {g : Game} (h : Sound g) (id : Nat) (card : Card)
    (hfind : g.findCard id = some card) :
    (g.clearScheduledAutoReveal id).timers.Sublist g.timers ∧
      ∀ t ∈ (g.clearScheduledAutoReveal id).timers, t.cardId ≠ id := by
  constructor
  · unfold clearScheduledAutoReveal
    rw [hfind]
    dsimp only
    cases card.autoRevealTimer with
    | none => exact List.Sublist.refl _
    | some handle => exact List.filter_sublist _
  · intro t ht heq
    have hs := h.clearScheduledAutoReveal id
    obtain ⟨c, hc, hcid, htimer⟩ := hs.owners t ht
    have hfind' := findCard_clearScheduledAutoReveal g id card hfind
    obtain ⟨hmem, hid⟩ := findCard_mem hfind'
    have hcc := hs.unique hc hmem (by rw [hcid, heq, hid])
    rw [hcc] at htimer
    cases htimer

end Game

/-- With animations enabled, on every sound board, `revealCard` on a tile T
triggers the sweep exactly when `card.reveal` reports the reveal as started, the
face is the winning key of a 'win' round, `autoRevealTriggered` is false,
`winningCountRequired > 0` and
`revealedWinning + pendingWinningReveals + 1 >= winningCountRequired`. Then the
flag is set, the flip of T is still running and one timer was added for every
eligible tile other than T, in row-major order; otherwise no timer is added
and the flag is left as it was. -/
theorem revealCard_sweep_animated (g : Game) (id : Nat) (face : Face) (card : Card)
    (h : Game.Sound g) (hfind : g.findCard id = some card)
    (hanim : g.disableAnimations = false) (hflip : g.flipDuration ≠ 0) :
    (((card.destroyed = false ∧ card.revealed = false) ∧
          (g.outcome.betResult = some "win" ∧ face ≠ none ∧ face = g.outcome.winningKey) ∧
          g.outcome.autoRevealTriggered = false ∧ 0 < g.outcome.winningCountRequired ∧
          g.outcome.winningCountRequired
            ≤ g.outcome.revealedWinning + g.outcome.pendingWinningReveals + 1) →
        (g.revealCard id face).outcome.autoRevealTriggered = true ∧
        (∃ key : Face, ({ cardId := id, key := key } : Flight) ∈ (g.revealCard id face).flights) ∧
        (g.revealCard id face).outcome.pendingReveals = g.outcome.pendingReveals + 1 ∧
        ∃ ordered : List Card,
          ordered.Perm (g.eligible [id]) ∧ ordered.Sorted Game.rowMajorLE ∧
          (g.revealCard id face).timers
            = (g.clearScheduledAutoReveal id).timers ++ g.sweepTimers ordered) ∧
      (¬((card.destroyed = false ∧ card.revealed = false) ∧
          (g.outcome.betResult = some "win" ∧ face ≠ none ∧ face = g.outcome.winningKey) ∧
          g.outcome.autoRevealTriggered = false ∧ 0 < g.outcome.winningCountRequired ∧
          g.outcome.winningCountRequired
            ≤ g.outcome.revealedWinning + g.outcome.pendingWinningReveals + 1) →
        (g.revealCard id face).timers = (g.clearScheduledAutoReveal id).timers ∧
        (g.revealCard id face).outcome.autoRevealTriggered = g.outcome.autoRevealTriggered) ∧
      (g.clearScheduledAutoReveal id).timers.Sublist g.timers ∧
      ∀ t ∈ (g.clearScheduledAutoReveal id).timers, t.cardId ≠ id := by
  have hs₁ := h.clearScheduledAutoReveal id
  have hfind₁ := Game.findCard_clearScheduledAutoReveal g id card hfind
  have ho₁ := Game.clearScheduledAutoReveal_outcome g id
  obtain ⟨hf₁, hf₂, hf₃, hf₄, hf₅, hf₆, hf₇⟩ := Game.clearScheduledAutoReveal_frame g id
  have hf₈ := Game.clearScheduledAutoReveal_currentAssignments g id
  refine ⟨?_, ?_, Game.clearScheduledAutoReveal_timers h id card hfind⟩
  · rintro ⟨⟨hd, hr⟩, ⟨hbet, hface, hkey⟩, huntr, hreq, hcount⟩
    unfold Game.revealCard
    dsimp only
    generalize g.clearScheduledAutoReveal id = g₁ at hs₁ hfind₁ ho₁ hf₁ hf₂ hf₃ hf₄ hf₅ hf₆ hf₇ hf₈ ⊢
    have hfind₂ : (g₁.modifyCard id fun c => { c with revealedFace := face }).findCard id
        = some { card with
            autoRevealTimer := none, autoRevealScheduled := false, revealedFace := face } := by
      rw [Game.findCard_modifyCard, hfind₁]
      · simp [(Game.findCard_mem hfind).2]
      · intro c
        rfl
    obtain ⟨key, hreveal⟩ := (Game.cardReveal_animated _ id face _ hfind₂
      (hf₂.trans hanim) (fun h0 => hflip (hf₃.symm.trans h0))).2
      (by simp [hd, hr])
    rw [hreveal]
    simp only [Game.modifyCard]
    have hwin : decide (g₁.outcome.betResult = some "win" ∧ g₁.outcome.winningKey ≠ none ∧
        face ≠ none ∧ face = g₁.outcome.winningKey) = true := by
      rw [ho₁, ← hkey]
      simp [hbet, hface]
    have hcond : g₁.outcome.autoRevealTriggered = false ∧ g₁.outcome.winningCountRequired > 0 ∧
        g₁.outcome.revealedWinning + g₁.outcome.pendingWinningReveals + 1
          ≥ g₁.outcome.winningCountRequired := by
      rw [ho₁]
      exact ⟨huntr, hreq, hcount⟩
    rw [if_pos trivial, if_pos hwin, if_pos hcond]
    have aux : ∀ X : Game,
        (X.cards = g₁.cards.map fun c =>
          if c.id = id then
            { c with
              revealedFace := face, animating := false, wiggling := false
              pendingWinningReveal := decide (g₁.outcome.betResult = some "win" ∧
                g₁.outcome.winningKey ≠ none ∧ face ≠ none ∧ face = g₁.outcome.winningKey) }
          else c) →
        (X.detached = g₁.detached.map fun c =>
          if c.id = id then
            { c with
              revealedFace := face, animating := false, wiggling := false
              pendingWinningReveal := decide (g₁.outcome.betResult = some "win" ∧
                g₁.outcome.winningKey ≠ none ∧ face ≠ none ∧ face = g₁.outcome.winningKey) }
          else c) →
        X.timers = g₁.timers → X.handles = g₁.handles → X.nextHandle = g₁.nextHandle →
        X.nextCardId = g₁.nextCardId → X.disableAnimations = g₁.disableAnimations →
        X.revealAllIntervalDelay = g₁.revealAllIntervalDelay →
        X.currentAssignments = g₁.currentAssignments →
        X.outcome.autoRevealTriggered = true →
        X.outcome.pendingReveals = g₁.outcome.pendingReveals + 1 →
        X.flights = g₁.flights ++ [{ cardId := id, key := key }] →
        (X.revealRemainingTiles [id]).outcome.autoRevealTriggered = true ∧
          (∃ key : Face,
            ({ cardId := id, key := key } : Flight) ∈ (X.revealRemainingTiles [id]).flights) ∧
          (X.revealRemainingTiles [id]).outcome.pendingReveals = g.outcome.pendingReveals + 1 ∧
          ∃ ordered : List Card,
            ordered.Perm (g.eligible [id]) ∧ ordered.Sorted Game.rowMajorLE ∧
            (X.revealRemainingTiles [id]).timers = g₁.timers ++ g.sweepTimers ordered := by
      intro X hcards hdetached htimers hhandles hnext hids hanimX hdelay hassign htrig hpending
        hflights
      obtain ⟨-, htm⟩ := Game.revealRemainingTiles_touched g₁ X id
        (fun c =>
          { c with
            revealedFace := face, animating := false, wiggling := false
            pendingWinningReveal := decide (g₁.outcome.betResult = some "win" ∧
              g₁.outcome.winningKey ≠ none ∧ face ≠ none ∧ face = g₁.outcome.winningKey) })
        hs₁ (fun _ => rfl) (fun _ => rfl) (fun _ => rfl) hcards hdetached htimers hhandles hnext hids hanimX hdelay
        hassign htrig
      obtain ⟨ho, hfl, -⟩ := Game.revealRemainingTiles_outcome X [id]
      refine ⟨by rw [ho], ⟨key, ?_⟩, ?_, (g.eligible [id]).insertionSort Game.rowMajorLE,
        List.perm_insertionSort _ _, Game.sorted_insertionSort_rowMajor _, ?_⟩
      · rw [hfl, hflights]
        exact List.mem_append_right _ (List.mem_singleton.mpr rfl)
      · rw [ho]
        show X.outcome.pendingReveals = _
        rw [hpending, ho₁]
      · rw [htm, Game.eligible_of_cards g g₁ id
            (fun c => { c with autoRevealTimer := none, autoRevealScheduled := false })
            (fun _ => rfl) hf₇,
          Game.sweepTimers_congr g g₁ _ hf₁ hf₂ hf₄ hf₈]
    refine aux _ ?_ ?_ rfl rfl rfl rfl rfl rfl rfl rfl rfl rfl
    · show List.map _ (List.map _ (List.map _ g₁.cards)) = _
      rw [Game.map_modify_map, Game.map_modify_map]
      all_goals try (intro c; rfl)
    · show List.map _ (List.map _ (List.map _ g₁.detached)) = _
      rw [Game.map_modify_map, Game.map_modify_map]
      all_goals try (intro c; rfl)
  · intro hnot
    unfold Game.revealCard
    dsimp only
    generalize g.clearScheduledAutoReveal id = g₁ at hs₁ hfind₁ ho₁ hf₁ hf₂ hf₃ hf₄ hf₅ hf₆ hf₇ hf₈ ⊢
    have hfind₂ : (g₁.modifyCard id fun c => { c with revealedFace := face }).findCard id
        = some { card with
            autoRevealTimer := none, autoRevealScheduled := false, revealedFace := face } := by
      rw [Game.findCard_modifyCard, hfind₁]
      · simp [(Game.findCard_mem hfind).2]
      · intro c
        rfl
    obtain ⟨hstop, hgo⟩ := Game.cardReveal_animated _ id face _ hfind₂
      (hf₂.trans hanim) (fun h0 => hflip (hf₃.symm.trans h0))
    by_cases hstart : card.destroyed = true ∨ card.revealed = true
    · rw [hstop hstart]
      simp only [Game.modifyCard, Bool.false_eq_true, if_false]
      exact ⟨trivial, by rw [ho₁]⟩
    · obtain ⟨key, hreveal⟩ := hgo hstart
      rw [hreveal]
      simp only [Game.modifyCard]
      rw [if_pos trivial]
      split
      · rename_i hwin
        split
        · rename_i hcond
          exfalso
          apply hnot
          rw [ho₁] at hwin hcond
          simp only [decide_eq_true_eq] at hwin
          refine ⟨?_, ⟨hwin.1, hwin.2.2.1, hwin.2.2.2⟩, hcond.1, hcond.2.1, hcond.2.2⟩
          constructor
          · cases hdd : card.destroyed
            · rfl
            · exact absurd (Or.inl hdd) hstart
          · cases hrr : card.revealed
            · rfl
            · exact absurd (Or.inr hrr) hstart
        · exact ⟨rfl, by rw [ho₁]⟩
      · exact ⟨rfl, by rw [ho₁]⟩


namespace Game

/-- The function `handleCardRevealComplete` as the sequence of its blocks. -/
theorem handleCardRevealComplete_blocks (g : Game) (id : Nat) (key : Face) :
    g.handleCardRevealComplete id key
      = match g.findCard id with
        | none => g
        | some card =>
          feedbackBlock
            (sweepWhenDue
              (settlePending (g.modifyCard id fun c => { c with randomSelectionPending := false })
                id card
                (countReveal g.outcome id
                  (key.orElse fun _ => card.revealedFace.orElse fun _ =>
                    (JsMap.get g.currentAssignments (getCardKey card.row card.col)).join))))
            (decide ((settlePending
                (g.modifyCard id fun c => { c with randomSelectionPending := false }) id card
                (countReveal g.outcome id
                  (key.orElse fun _ => card.revealedFace.orElse fun _ =>
                    (JsMap.get g.currentAssignments
                      (getCardKey card.row card.col)).join))).rules.getState.revealed
              ≥ (settlePending
                (g.modifyCard id fun c => { c with randomSelectionPending := false }) id card
                (countReveal g.outcome id
                  (key.orElse fun _ => card.revealedFace.orElse fun _ =>
                    (JsMap.get g.currentAssignments
                      (getCardKey card.row card.col)).join))).rules.getState.totalTiles)) := by
  unfold handleCardRevealComplete feedbackBlock sweepWhenDue settlePending countReveal
  cases g.findCard id with
  | none => rfl
  | some card =>
    dsimp only [modifyCard_outcome, modifyCard_currentAssignments]

end Game

namespace Game

theorem clearScheduledAutoReveal_feedbackSounds (g : Game) (id : Nat) :
    (g.clearScheduledAutoReveal id).feedbackSounds = g.feedbackSounds := by
  unfold clearScheduledAutoReveal
  split
  · rfl
  · split <;> rfl

theorem foldl_scheduleReveal_feedbackSounds (items : List (Nat × Card)) :
    ∀ g : Game,
      (items.foldl (fun acc item => scheduleReveal acc item.2 item.1) g).feedbackSounds
        = g.feedbackSounds := by
  induction items with
  | nil =>
    intro g
    rfl
  | cons item rest ih =>
    intro g
    simp only [List.foldl_cons]
    rw [ih]
    unfold scheduleReveal
    exact clearScheduledAutoReveal_feedbackSounds g item.2.id

theorem revealRemainingTiles_feedbackSounds (g : Game) (exclude : List Nat) :
    (g.revealRemainingTiles exclude).feedbackSounds = g.feedbackSounds := by
  unfold revealRemainingTiles
  dsimp only
  split
  · rfl
  · split
    · rfl
    · exact foldl_scheduleReveal_feedbackSounds _ _

theorem countReveal_frame (o : RoundOutcome) (id : Nat) (payloadKey : Face) :
    (countReveal o id payloadKey).feedbackPlayed = o.feedbackPlayed ∧
      (countReveal o id payloadKey).pendingReveals = o.pendingReveals ∧
      (countReveal o id payloadKey).soundKey = o.soundKey ∧
      (countReveal o id payloadKey).autoRevealTriggered = o.autoRevealTriggered := by
  unfold countReveal
  dsimp only
  refine ⟨?_, ?_, ?_, ?_⟩
  · simp only [apply_ite RoundOutcome.feedbackPlayed, ite_self]
  · simp only [apply_ite RoundOutcome.pendingReveals, ite_self]
  · simp only [apply_ite RoundOutcome.soundKey, ite_self]
  · simp only [apply_ite RoundOutcome.autoRevealTriggered, ite_self]

theorem settlePending_frame (g₁ : Game) (id : Nat) (card : Card) (o₂ : RoundOutcome) :
    (settlePending g₁ id card o₂).rules = g₁.rules ∧
      (settlePending g₁ id card o₂).flights = g₁.flights ∧
      (settlePending g₁ id card o₂).feedbackSounds = g₁.feedbackSounds ∧
      (settlePending g₁ id card o₂).outcome.feedbackPlayed = o₂.feedbackPlayed ∧
      (settlePending g₁ id card o₂).outcome.pendingReveals = o₂.pendingReveals ∧
      (settlePending g₁ id card o₂).outcome.soundKey = o₂.soundKey ∧
      (settlePending g₁ id card o₂).outcome.autoRevealTriggered = o₂.autoRevealTriggered := by
  unfold settlePending
  split <;> exact ⟨rfl, rfl, rfl, rfl, rfl, rfl, rfl⟩

theorem sweepWhenDue_frame (g₂ : Game) :
    (sweepWhenDue g₂).rules = g₂.rules ∧
      (sweepWhenDue g₂).flights = g₂.flights ∧
      (sweepWhenDue g₂).feedbackSounds = g₂.feedbackSounds ∧
      (sweepWhenDue g₂).outcome.feedbackPlayed = g₂.outcome.feedbackPlayed ∧
      (sweepWhenDue g₂).outcome.pendingReveals = g₂.outcome.pendingReveals ∧
      (sweepWhenDue g₂).outcome.soundKey = g₂.outcome.soundKey := by
  unfold sweepWhenDue
  dsimp only
  split
  · obtain ⟨ho, hfl, hr⟩ := revealRemainingTiles_outcome
      { g₂ with outcome := { g₂.outcome with autoRevealTriggered := true } } []
    refine ⟨hr, hfl, revealRemainingTiles_feedbackSounds _ _, ?_, ?_, ?_⟩
    · rw [ho]
    · rw [ho]
    · rw [ho]
  · exact ⟨rfl, rfl, rfl, rfl, rfl, rfl⟩

/-- The feedback block runs exactly when the latch is not set, every tile is
revealed and no reveal is counted as pending; it sets the latch and plays the
sound of the round. -/
theorem feedbackBlock_spec (g₃ : Game) (allCardsRevealed : Bool) :
    (feedbackBlock g₃ allCardsRevealed).rules = g₃.rules ∧
      (feedbackBlock g₃ allCardsRevealed).flights = g₃.flights ∧
      (feedbackBlock g₃ allCardsRevealed).outcome.pendingReveals = g₃.outcome.pendingReveals ∧
      (feedbackBlock g₃ allCardsRevealed).outcome.soundKey = g₃.outcome.soundKey ∧
      ((g₃.outcome.feedbackPlayed = false ∧ allCardsRevealed = true ∧
          g₃.outcome.pendingReveals = 0) →
        (feedbackBlock g₃ allCardsRevealed).outcome.feedbackPlayed = true ∧
        (feedbackBlock g₃ allCardsRevealed).feedbackSounds
          = g₃.feedbackSounds ++ g₃.outcome.soundKey.toList) ∧
      (¬(g₃.outcome.feedbackPlayed = false ∧ allCardsRevealed = true ∧
          g₃.outcome.pendingReveals = 0) →
        feedbackBlock g₃ allCardsRevealed = g₃) := by
  unfold feedbackBlock
  dsimp only
  by_cases hc : g₃.outcome.feedbackPlayed = false ∧ allCardsRevealed = true ∧
      g₃.outcome.pendingReveals = 0
  · have hc' : g₃.outcome.feedbackPlayed = false ∧ allCardsRevealed = true ∧
        decide (g₃.outcome.pendingReveals ≤ 0) = true := by
      refine ⟨hc.1, hc.2.1, ?_⟩
      rw [hc.2.2]
      rfl
    rw [if_pos hc']
    refine ⟨rfl, rfl, rfl, rfl, fun _ => ⟨rfl, ?_⟩, fun hn => absurd hc hn⟩
    show (match g₃.outcome.soundKey with
      | some name => g₃.feedbackSounds ++ [name]
      | none => g₃.feedbackSounds) = _
    cases g₃.outcome.soundKey <;> simp
  · have hc' : ¬(g₃.outcome.feedbackPlayed = false ∧ allCardsRevealed = true ∧
        decide (g₃.outcome.pendingReveals ≤ 0) = true) := by
      intro h
      apply hc
      refine ⟨h.1, h.2.1, ?_⟩
      have := h.2.2
      simp only [decide_eq_true_eq] at this
      omega
    rw [if_neg hc']
    exact ⟨rfl, rfl, rfl, rfl, fun h => absurd h hc, fun _ => rfl⟩

/-- The feedback block of `handleCardRevealComplete`: the handler leaves
`pendingReveals`, the rules and the running flips alone; it runs the block,
which sets the latch `feedbackPlayed` and plays the sound of the round, exactly
when the latch is not set, `revealedCount >= totalTiles` and
`pendingReveals = 0`; otherwise the latch and the sounds played stay as they
were. -/
theorem handleCardRevealComplete_feedback (g : Game) (id : Nat) (key : Face) (card : Card)
    (hfind : g.findCard id = some card) :
    (g.handleCardRevealComplete id key).outcome.pendingReveals = g.outcome.pendingReveals ∧
      (g.handleCardRevealComplete id key).rules = g.rules ∧
      (g.handleCardRevealComplete id key).outcome.soundKey = g.outcome.soundKey ∧
      (g.handleCardRevealComplete id key).flights = g.flights ∧
      ((g.outcome.feedbackPlayed = false ∧ g.rules.totalTiles ≤ g.rules.revealedCount ∧
          g.outcome.pendingReveals = 0) →
        (g.handleCardRevealComplete id key).outcome.feedbackPlayed = true ∧
        (g.handleCardRevealComplete id key).feedbackSounds
          = g.feedbackSounds ++ g.outcome.soundKey.toList) ∧
      (¬(g.outcome.feedbackPlayed = false ∧ g.rules.totalTiles ≤ g.rules.revealedCount ∧
          g.outcome.pendingReveals = 0) →
        (g.handleCardRevealComplete id key).outcome.feedbackPlayed = g.outcome.feedbackPlayed ∧
        (g.handleCardRevealComplete id key).feedbackSounds = g.feedbackSounds) := by
  rw [handleCardRevealComplete_blocks, hfind]
  dsimp only
  generalize (key.orElse fun _ => card.revealedFace.orElse fun _ =>
    (JsMap.get g.currentAssignments (getCardKey card.row card.col)).join) = payloadKey
  obtain ⟨c₁, c₂, c₃, -⟩ := countReveal_frame g.outcome id payloadKey
  obtain ⟨s₁, s₂, s₃, s₄, s₅, s₆, -⟩ := settlePending_frame
    (g.modifyCard id fun c => { c with randomSelectionPending := false }) id card
    (countReveal g.outcome id payloadKey)
  generalize settlePending (g.modifyCard id fun c => { c with randomSelectionPending := false })
    id card (countReveal g.outcome id payloadKey) = g₂ at s₁ s₂ s₃ s₄ s₅ s₆ ⊢
  obtain ⟨w₁, w₂, w₃, w₄, w₅, w₆⟩ := sweepWhenDue_frame g₂
  generalize sweepWhenDue g₂ = g₃ at w₁ w₂ w₃ w₄ w₅ w₆ ⊢
  have hplayed : g₃.outcome.feedbackPlayed = g.outcome.feedbackPlayed := by
    rw [w₄, s₄, c₁]
  have hpending : g₃.outcome.pendingReveals = g.outcome.pendingReveals := by
    rw [w₅, s₅, c₂]
  have hsound : g₃.outcome.soundKey = g.outcome.soundKey := by
    rw [w₆, s₆, c₃]
  have hrules : g₂.rules = g.rules := s₁
  have hsounds : g₃.feedbackSounds = g.feedbackSounds := by
    rw [w₃, s₃]
    rfl
  have hflights : g₃.flights = g.flights := by
    rw [w₂, s₂]
    rfl
  have hall : (decide (g₂.rules.getState.revealed ≥ g₂.rules.getState.totalTiles) = true)
      ↔ g.rules.totalTiles ≤ g.rules.revealedCount := by
    rw [hrules]
    simp [GameRules.getState]
  obtain ⟨f₁, f₂, f₃, f₄, f₅, f₆⟩ := feedbackBlock_spec g₃
    (decide (g₂.rules.getState.revealed ≥ g₂.rules.getState.totalTiles))
  refine ⟨by rw [f₃, hpending], by rw [f₁, w₁, hrules], by rw [f₄, hsound],
    by rw [f₂, hflights], ?_, ?_⟩
  · rintro ⟨h₁, h₂, h₃⟩
    obtain ⟨k₁, k₂⟩ := f₅ ⟨hplayed.trans h₁, hall.mpr h₂, hpending.trans h₃⟩
    exact ⟨k₁, by rw [k₂, hsounds, hsound]⟩
  · intro hn
    rw [f₆ (fun h => hn ⟨hplayed.symm.trans h.1, hall.mp h.2.1, hpending.symm.trans h.2.2⟩)]
    exact ⟨hplayed, hsounds⟩

end Game

namespace Game

theorem handleCardRevealComplete_latched (g : Game) (id : Nat) (key : Face) (sounds : List String)
    (h : g.outcome.feedbackPlayed = true ∧ g.feedbackSounds = sounds) :
    (g.handleCardRevealComplete id key).outcome.feedbackPlayed = true ∧
      (g.handleCardRevealComplete id key).feedbackSounds = sounds := by
  cases hfind : g.findCard id with
  | none =>
    rw [handleCardRevealComplete_blocks, hfind]
    exact h
  | some card =>
    obtain ⟨h₁, h₂⟩ := (handleCardRevealComplete_feedback g id key card hfind).2.2.2.2.2
      (fun hc => by
        rw [h.1] at hc
        cases hc.1)
    exact ⟨h₁.trans h.1, h₂.trans h.2⟩

theorem completeReveal_latched (g : Game) (id : Nat) (key : Face) (sounds : List String)
    (h : g.outcome.feedbackPlayed = true ∧ g.feedbackSounds = sounds) :
    (g.completeReveal id key).outcome.feedbackPlayed = true ∧
      (g.completeReveal id key).feedbackSounds = sounds := by
  unfold completeReveal
  exact handleCardRevealComplete_latched _ id key sounds h

theorem cardReveal_latched (g : Game) (id : Nat) (face : Face) (sounds : List String)
    (h : g.outcome.feedbackPlayed = true ∧ g.feedbackSounds = sounds) :
    (g.cardReveal id face).2.outcome.feedbackPlayed = true ∧
      (g.cardReveal id face).2.feedbackSounds = sounds := by
  unfold cardReveal
  split
  · exact h
  · split
    · exact h
    · dsimp only
      split
      · exact completeReveal_latched _ id _ sounds h
      · exact h

theorem revealCard_latched (g : Game) (id : Nat) (face : Face) (sounds : List String)
    (h : g.outcome.feedbackPlayed = true ∧ g.feedbackSounds = sounds) :
    (g.revealCard id face).outcome.feedbackPlayed = true ∧
      (g.revealCard id face).feedbackSounds = sounds := by
  have h₁ : (g.clearScheduledAutoReveal id).outcome.feedbackPlayed = true ∧
      (g.clearScheduledAutoReveal id).feedbackSounds = sounds := by
    rw [clearScheduledAutoReveal_outcome, clearScheduledAutoReveal_feedbackSounds]
    exact h
  have h₂ := cardReveal_latched
    ((g.clearScheduledAutoReveal id).modifyCard id fun c => { c with revealedFace := face })
    id face sounds h₁
  unfold revealCard
  dsimp only
  generalize ((g.clearScheduledAutoReveal id).modifyCard id fun c =>
    { c with revealedFace := face }).cardReveal id face = result at h₂ ⊢
  split
  · split
    · split
      · exact ⟨(congrArg RoundOutcome.feedbackPlayed (revealRemainingTiles_outcome _ _).1).trans h₂.1,
          (revealRemainingTiles_feedbackSounds _ _).trans h₂.2⟩
      · exact h₂
    · exact h₂
  · exact h₂

end Game

namespace Game

theorem revealTile_latched (g : Game) (card : Card) (result : Face) (sounds : List String)
    (h : g.outcome.feedbackPlayed = true ∧ g.feedbackSounds = sounds) :
    (App.revealTile g card result).outcome.feedbackPlayed = true ∧
      (App.revealTile g card result).feedbackSounds = sounds := by
  unfold App.revealTile
  exact revealCard_latched _ _ _ sounds h

theorem finishFlight_latched (g : Game) (flight : Flight) (sounds : List String)
    (h : g.outcome.feedbackPlayed = true ∧ g.feedbackSounds = sounds) :
    (g.finishFlight flight).outcome.feedbackPlayed = true ∧
      (g.finishFlight flight).feedbackSounds = sounds := by
  unfold finishFlight
  split
  · exact completeReveal_latched _ _ _ sounds h
  · exact h

theorem sweepTimerBody_latched (g : Game) (timer : SweepTimer) (sounds : List String)
    (h : g.outcome.feedbackPlayed = true ∧ g.feedbackSounds = sounds) :
    (App.sweepTimerBody g timer).2.outcome.feedbackPlayed = true ∧
      (App.sweepTimerBody g timer).2.feedbackSounds = sounds := by
  unfold App.sweepTimerBody
  dsimp only
  split
  · exact h
  · split
    · exact h
    · exact revealTile_latched _ _ _ sounds h

theorem roundStep_latched (g : Game) (step : RoundStep) (sounds : List String)
    (h : g.outcome.feedbackPlayed = true ∧ g.feedbackSounds = sounds) :
    (g.roundStep step).outcome.feedbackPlayed = true ∧
      (g.roundStep step).feedbackSounds = sounds := by
  cases step with
  | reveal id result =>
    simp only [roundStep]
    cases g.findCard id with
    | none => exact h
    | some card => exact revealTile_latched _ _ _ sounds h
  | complete flight => exact finishFlight_latched g flight sounds h
  | timer handle =>
    simp only [roundStep]
    cases g.timers.find? fun t => t.handle = handle with
    | none => exact h
    | some timer => exact sweepTimerBody_latched _ _ sounds h
  | sweep exclude =>
    exact ⟨(congrArg RoundOutcome.feedbackPlayed (revealRemainingTiles_outcome g exclude).1).trans h.1,
      (revealRemainingTiles_feedbackSounds g exclude).trans h.2⟩
  | animations enabled => exact h

/-- Once the latch `feedbackPlayed` is set, no step of the round runs the
feedback block again: the latch stays set and no sound is played. -/
theorem roundRun_latched (steps : List RoundStep) :
    ∀ g : Game, g.outcome.feedbackPlayed = true →
      (g.roundRun steps).outcome.feedbackPlayed = true ∧
        (g.roundRun steps).feedbackSounds = g.feedbackSounds := by
  induction steps with
  | nil =>
    intro g h
    exact ⟨h, rfl⟩
  | cons step rest ih =>
    intro g h
    obtain ⟨h₁, h₂⟩ := roundStep_latched g step g.feedbackSounds ⟨h, rfl⟩
    obtain ⟨k₁, k₂⟩ := ih (g.roundStep step) h₁
    exact ⟨k₁, k₂.trans h₂⟩

end Game

namespace Game

/-- A state without a sweep in progress is sound whatever its flag
`autoRevealTriggered`. -/
theorem Sound.frame_idle {g g' : Game} (h : Sound g) (hcards : g'.cards = g.cards)
    (hdetached : g'.detached = g.detached) (htimers : g'.timers = g.timers)
    (hhandles : g'.handles = g.handles) (hnext : g'.nextHandle = g.nextHandle)
    (hids : g'.nextCardId = g.nextCardId) (hidle : g.isAutoRevealInProgress = false) :
    Sound g' := by
  refine
    { ids := ?_, cardIds := ?_, flags := ?_, owners := ?_, handles := ?_, distinct := ?_
      fresh := ?_, triggered := ?_ }
  · rw [hcards, hdetached]
    exact h.ids
  · rw [hcards, hdetached, hids]
    exact h.cardIds
  · rw [hcards, hdetached]
    exact h.flags
  · rw [hcards, hdetached, htimers]
    exact h.owners
  · rw [hhandles, htimers]
    exact h.handles
  · rw [htimers]
    exact h.distinct
  · rw [htimers, hnext]
    exact h.fresh
  · intro hbusy
    unfold isAutoRevealInProgress at hbusy hidle
    rw [hhandles, hcards, hidle] at hbusy
    cases hbusy

theorem foldl_clearScheduled_sound (ids : List Nat) :
    ∀ g : Game, Sound g → Sound (ids.foldl clearScheduledAutoReveal g) := by
  induction ids with
  | nil =>
    intro g h
    exact h
  | cons id rest ih =>
    intro g h
    exact ih _ (h.clearScheduledAutoReveal id)

theorem clearScheduledAutoReveal_board (g : Game) (id : Nat) :
    (g.clearScheduledAutoReveal id).nextCardId = g.nextCardId ∧
      (g.clearScheduledAutoReveal id).detached
        = g.detached.map fun c =>
            if c.id = id then { c with autoRevealTimer := none, autoRevealScheduled := false }
            else c := by
  unfold clearScheduledAutoReveal
  cases hfind : g.findCard id with
  | none =>
    refine ⟨rfl, ?_⟩
    dsimp only
    symm
    conv_rhs => rw [← List.map_id g.detached]
    apply List.map_congr_left
    intro c hc
    have hne : c.id ≠ id := by
      intro hi
      unfold findCard at hfind
      rw [List.find?_eq_none] at hfind
      have := hfind c (List.mem_append_right _ hc)
      simp [hi] at this
    rw [if_neg hne]
    rfl
  | some card =>
    dsimp only
    cases card.autoRevealTimer <;> exact ⟨rfl, rfl⟩

theorem foldl_clearScheduled_frame (ids : List Nat) :
    ∀ g : Game,
      (ids.foldl clearScheduledAutoReveal g).cards
          = g.cards.map (fun c =>
              if c.id ∈ ids then { c with autoRevealTimer := none, autoRevealScheduled := false }
              else c) ∧
        (ids.foldl clearScheduledAutoReveal g).detached
          = g.detached.map (fun c =>
              if c.id ∈ ids then { c with autoRevealTimer := none, autoRevealScheduled := false }
              else c) ∧
        (ids.foldl clearScheduledAutoReveal g).nextCardId = g.nextCardId ∧
        (ids.foldl clearScheduledAutoReveal g).nextHandle = g.nextHandle ∧
        (ids.foldl clearScheduledAutoReveal g).flights = g.flights ∧
        ((ids.foldl clearScheduledAutoReveal g).timers.Sublist g.timers) ∧
        ((ids.foldl clearScheduledAutoReveal g).handles.Sublist g.handles) := by
  induction ids with
  | nil =>
    intro g
    refine ⟨?_, ?_, rfl, rfl, rfl, List.Sublist.refl _, List.Sublist.refl _⟩
    · simp
    · simp
  | cons id rest ih =>
    intro g
    obtain ⟨h₁, h₁', h₁'', h₂, h₃, h₄, h₅⟩ := ih (g.clearScheduledAutoReveal id)
    obtain ⟨k₁, -, -, -, k₅, -, k₇⟩ := clearScheduledAutoReveal_frame g id
    obtain ⟨k₈, k₉⟩ := clearScheduledAutoReveal_board g id
    have ksub : (g.clearScheduledAutoReveal id).timers.Sublist g.timers ∧
        (g.clearScheduledAutoReveal id).handles.Sublist g.handles := by
      unfold clearScheduledAutoReveal
      split
      · exact ⟨List.Sublist.refl _, List.Sublist.refl _⟩
      · dsimp only
        split
        · exact ⟨List.filter_sublist _, List.filter_sublist _⟩
        · exact ⟨List.Sublist.refl _, List.Sublist.refl _⟩
    have hcomp : ∀ l : List Card,
        (l.map fun c =>
            if c.id = id then { c with autoRevealTimer := none, autoRevealScheduled := false }
            else c).map (fun c =>
              if c.id ∈ rest then { c with autoRevealTimer := none, autoRevealScheduled := false }
              else c)
          = l.map fun c =>
              if c.id ∈ id :: rest then
                { c with autoRevealTimer := none, autoRevealScheduled := false }
              else c := by
      intro l
      rw [List.map_map]
      apply List.map_congr_left
      intro c _
      simp only [Function.comp, List.mem_cons]
      by_cases hi : c.id = id
      · simp [hi]
      · simp [hi]
    simp only [List.foldl_cons]
    refine ⟨?_, ?_, h₁''.trans k₈, h₂.trans k₁, h₃.trans k₅, h₄.trans ksub.1, h₅.trans ksub.2⟩
    · rw [h₁, k₇, hcomp]
    · rw [h₁', k₉, hcomp]

/-- The function `cancelPendingAutoReveals` leaves no pending timer and no
scheduled card on the board. -/
theorem Sound.after_cancel {g : Game} (h : Sound g) :
    Sound g.cancelPendingAutoReveals ∧ g.cancelPendingAutoReveals.timers = [] ∧
      g.cancelPendingAutoReveals.handles = [] ∧
      g.cancelPendingAutoReveals.isAutoRevealInProgress = false ∧
      g.cancelPendingAutoReveals.nextHandle = g.nextHandle ∧
      g.cancelPendingAutoReveals.nextCardId = g.nextCardId ∧
      g.cancelPendingAutoReveals.flights = g.flights ∧
      g.cancelPendingAutoReveals.detached.map Card.id = g.detached.map Card.id ∧
      g.cancelPendingAutoReveals.cards.map Card.id = g.cards.map Card.id := by
  have key : ∀ g₁ : Game, Sound g₁ → g₁.timers = [] → g₁.handles = [] →
      g₁.nextHandle = g.nextHandle → g₁.nextCardId = g.nextCardId → g₁.flights = g.flights →
      g₁.cards = g.cards → g₁.detached = g.detached →
      Sound ((g₁.cards.map Card.id).foldl Game.clearScheduledAutoReveal g₁) ∧
        ((g₁.cards.map Card.id).foldl Game.clearScheduledAutoReveal g₁).timers = [] ∧
        ((g₁.cards.map Card.id).foldl Game.clearScheduledAutoReveal g₁).handles = [] ∧
        ((g₁.cards.map Card.id).foldl Game.clearScheduledAutoReveal
          g₁).isAutoRevealInProgress = false ∧
        ((g₁.cards.map Card.id).foldl Game.clearScheduledAutoReveal g₁).nextHandle
          = g.nextHandle ∧
        ((g₁.cards.map Card.id).foldl Game.clearScheduledAutoReveal g₁).nextCardId
          = g.nextCardId ∧
        ((g₁.cards.map Card.id).foldl Game.clearScheduledAutoReveal g₁).flights = g.flights ∧
        ((g₁.cards.map Card.id).foldl Game.clearScheduledAutoReveal g₁).detached.map Card.id
          = g.detached.map Card.id ∧
        ((g₁.cards.map Card.id).foldl Game.clearScheduledAutoReveal g₁).cards.map Card.id
          = g.cards.map Card.id := by
    intro g₁ hs ht hh hn hi hf hc hd
    have hsound := foldl_clearScheduled_sound (g₁.cards.map Card.id) g₁ hs
    obtain ⟨f₁, f₁', f₁'', f₂, f₃, f₄, f₅⟩ := foldl_clearScheduled_frame (g₁.cards.map Card.id) g₁
    rw [ht] at f₄
    rw [hh] at f₅
    have htimers := List.eq_nil_of_sublist_nil f₄
    have hhandles := List.eq_nil_of_sublist_nil f₅
    refine ⟨hsound, htimers, hhandles, ?_, f₂.trans hn, f₁''.trans hi, f₃.trans hf, ?_, ?_⟩
    · unfold isAutoRevealInProgress
      rw [hhandles, f₁]
      simp only [List.length_nil, gt_iff_lt, lt_self_iff_false, decide_False, Bool.false_or]
      rw [List.any_eq_false]
      intro c hc'
      obtain ⟨c₀, hc₀, rfl⟩ := List.mem_map.mp hc'
      have : c₀.id ∈ g₁.cards.map Card.id := List.mem_map.mpr ⟨c₀, hc₀, rfl⟩
      rw [if_pos this]
      simp
    · rw [f₁', List.map_map, ← hd]
      apply List.map_congr_left
      intro c _
      simp only [Function.comp]
      split <;> rfl
    · rw [f₁, List.map_map, ← hc]
      apply List.map_congr_left
      intro c _
      simp only [Function.comp]
      split <;> rfl
  unfold Game.cancelPendingAutoReveals
  dsimp only
  split
  · rename_i hpos
    refine key _ ?_ ?_ rfl rfl rfl rfl rfl rfl
    · have hnil : g.timers.filter (fun t => decide (t.handle ∉ g.handles)) = [] := by
        rw [List.filter_eq_nil_iff]
        intro t ht
        have : t.handle ∈ g.handles := by
          rw [h.handles]
          exact List.mem_map.mpr ⟨t, ht, rfl⟩
        simp [this]
      refine
        { ids := h.ids, cardIds := h.cardIds, flags := h.flags, owners := ?_, handles := ?_
          distinct := ?_, fresh := ?_, triggered := ?_ }
      · intro t ht
        have ht' : t ∈ g.timers.filter (fun t => decide (t.handle ∉ g.handles)) := ht
        rw [hnil] at ht'
        cases ht'
      · show ([] : List Nat) = List.map _ (g.timers.filter fun t => decide (t.handle ∉ g.handles))
        rw [hnil]
        rfl
      · show (List.map _ (g.timers.filter fun t => decide (t.handle ∉ g.handles))).Nodup
        rw [hnil]
        exact List.nodup_nil
      · intro t ht
        have ht' : t ∈ g.timers.filter (fun t => decide (t.handle ∉ g.handles)) := ht
        rw [hnil] at ht'
        cases ht'
      · intro hbusy
        apply h.triggered
        unfold isAutoRevealInProgress at hbusy ⊢
        simp only [Bool.or_eq_true, decide_eq_true_eq] at hbusy ⊢
        rcases hbusy with hb | hb
        · exact absurd hb (by simp)
        · exact Or.inr hb
    · show g.timers.filter (fun t => decide (t.handle ∉ g.handles)) = []
      rw [List.filter_eq_nil_iff]
      intro t ht
      have : t.handle ∈ g.handles := by
        rw [h.handles]
        exact List.mem_map.mpr ⟨t, ht, rfl⟩
      simp [this]
  · rename_i hzero
    have hh : g.handles = [] := by
      cases hg : g.handles with
      | nil => rfl
      | cons a l =>
        rw [hg] at hzero
        simp at hzero
    have ht : g.timers = [] := by
      have := h.handles
      rw [hh] at this
      exact List.map_eq_nil_iff.mp this.symm
    exact key g h ht hh rfl rfl rfl rfl rfl

end Game

namespace Game

theorem clearScheduledAutoReveal_setOutcome (g : Game) (o : RoundOutcome) (id : Nat) :
    clearScheduledAutoReveal { g with outcome := o } id
      = { clearScheduledAutoReveal g id with outcome := o } := by
  unfold clearScheduledAutoReveal
  show (match g.findCard id with
    | none => ({ g with outcome := o } : Game)
    | some card => _) = _
  cases g.findCard id with
  | none => rfl
  | some card =>
    dsimp only
    cases card.autoRevealTimer <;> rfl

theorem foldl_clearScheduled_setOutcome (ids : List Nat) (o : RoundOutcome) :
    ∀ g : Game, ids.foldl clearScheduledAutoReveal { g with outcome := o }
      = { ids.foldl clearScheduledAutoReveal g with outcome := o } := by
  induction ids with
  | nil =>
    intro g
    rfl
  | cons id rest ih =>
    intro g
    simp only [List.foldl_cons]
    rw [clearScheduledAutoReveal_setOutcome, ih]

theorem cancelPendingAutoReveals_setOutcome (g : Game) (o : RoundOutcome) :
    cancelPendingAutoReveals { g with outcome := o }
      = { cancelPendingAutoReveals g with outcome := o } := by
  unfold cancelPendingAutoReveals
  dsimp only
  by_cases hpos : g.handles.length > 0
  · rw [if_pos hpos, if_pos hpos]
    exact foldl_clearScheduled_setOutcome (g.cards.map Card.id) o
      { g with timers := g.timers.filter (fun t => t.handle ∉ g.handles), handles := [] }
  · rw [if_neg hpos, if_neg hpos]
    exact foldl_clearScheduled_setOutcome (g.cards.map Card.id) o g

/-- The function `resetRoundOutcome` keeps the invariant: it clears
`autoRevealTriggered` and cancels every timer and every scheduled mark. -/
theorem Sound.after_resetRoundOutcome {g : Game} (h : Sound g) :
    Sound g.resetRoundOutcome ∧ g.resetRoundOutcome.timers = [] ∧
      g.resetRoundOutcome.handles = [] ∧
      g.resetRoundOutcome.isAutoRevealInProgress = false ∧
      g.resetRoundOutcome.nextHandle = g.nextHandle ∧
      g.resetRoundOutcome.nextCardId = g.nextCardId := by
  obtain ⟨h₁, h₂, h₃, h₄, h₅, h₆, -, -, -⟩ := h.after_cancel
  unfold Game.resetRoundOutcome
  rw [cancelPendingAutoReveals_setOutcome]
  exact ⟨h₁.frame_idle rfl rfl rfl rfl rfl rfl h₄, h₂, h₃, h₄, h₅, h₆⟩

/-- A change of the cards of the board that keeps their ids and their timer
fields keeps the invariant. -/
theorem Sound.map_cards {g : Game} (h : Sound g) (f : Card → Card)
    (hid : ∀ c, (f c).id = c.id)
    (hs : ∀ c, (f c).autoRevealScheduled = c.autoRevealScheduled)
    (ht : ∀ c, (f c).autoRevealTimer = c.autoRevealTimer) :
    Sound { g with cards := g.cards.map f } := by
  have hmem : ∀ c, c ∈ g.cards.map f ++ g.detached ↔
      (∃ c₀ ∈ g.cards, c = f c₀) ∨ c ∈ g.detached := by
    intro c
    rw [List.mem_append, List.mem_map]
    constructor
    · rintro (⟨c₀, hc₀, rfl⟩ | hc)
      · exact Or.inl ⟨c₀, hc₀, rfl⟩
      · exact Or.inr hc
    · rintro (⟨c₀, hc₀, rfl⟩ | hc)
      · exact Or.inl ⟨c₀, hc₀, rfl⟩
      · exact Or.inr hc
  refine
    { ids := ?_, cardIds := ?_, flags := ?_, owners := ?_, handles := h.handles
      distinct := h.distinct, fresh := h.fresh, triggered := ?_ }
  · show ((g.cards.map f ++ g.detached).map Card.id).Nodup
    have : (g.cards.map f ++ g.detached).map Card.id = (g.cards ++ g.detached).map Card.id := by
      rw [List.map_append, List.map_append, List.map_map]
      congr 1
      apply List.map_congr_left
      intro c _
      exact hid c
    rw [this]
    exact h.ids
  · intro c hc
    rcases (hmem c).mp hc with ⟨c₀, hc₀, rfl⟩ | hc
    · rw [hid]
      exact h.cardIds c₀ (List.mem_append_left _ hc₀)
    · exact h.cardIds c (List.mem_append_right _ hc)
  · intro c hc hflag
    rcases (hmem c).mp hc with ⟨c₀, hc₀, rfl⟩ | hc
    · rw [hs] at hflag
      rw [ht]
      exact h.flags c₀ (List.mem_append_left _ hc₀) hflag
    · exact h.flags c (List.mem_append_right _ hc) hflag
  · intro t htm
    obtain ⟨c₀, hc₀, hcid, htimer⟩ := h.owners t htm
    rcases List.mem_append.mp hc₀ with hc | hc
    · exact ⟨f c₀, (hmem _).mpr (Or.inl ⟨c₀, hc, rfl⟩), (hid c₀).trans hcid,
        (ht c₀).trans htimer⟩
    · exact ⟨c₀, (hmem _).mpr (Or.inr hc), hcid, htimer⟩
  · intro hbusy
    apply h.triggered
    unfold isAutoRevealInProgress at hbusy ⊢
    have : ((g.cards.map f).any fun c => c.autoRevealScheduled)
        = g.cards.any fun c => c.autoRevealScheduled := by
      rw [List.any_map]
      congr 1
      funext c
      exact hs c
    rw [← this]
    exact hbusy

/-- The function `registerCards` keeps the invariant. -/
theorem Sound.after_registerCards {g : Game} (h : Sound g) : Sound g.registerCards := by
  unfold Game.registerCards
  generalize g.cards.map Card.id = ids
  induction ids generalizing g with
  | nil => exact h
  | cons id rest ih =>
    simp only [List.foldl_cons]
    apply ih
    apply Sound.clearScheduledAutoReveal
    exact h.modifyCard id _ (fun _ => rfl) (fun _ => rfl) (fun _ => rfl)

end Game

namespace Game

theorem buildGrid_board (g : Game) :
    g.buildGrid.cards ++ g.buildGrid.detached
      = (createCardPositions.enum.map fun item =>
          Card.fresh (g.nextCardId + item.1) item.2.row item.2.col) ++
        (g.detached ++
          (g.cards.filter fun c => g.flights.any fun f => f.cardId = c.id).map fun c =>
            { c with destroyed := true, animating := false, wiggling := false }) := rfl

/-- The invariant reads the cards up to a change that keeps their ids and timer
fields, the timers, the counters of handles and card ids, and, while a sweep is
in progress, the flag `autoRevealTriggered`. -/
theorem Sound.frame_map {g g' : Game} (h : Sound g) (f : Card → Card)
    (hid : ∀ c, (f c).id = c.id)
    (hs : ∀ c, (f c).autoRevealScheduled = c.autoRevealScheduled)
    (ht : ∀ c, (f c).autoRevealTimer = c.autoRevealTimer)
    (hcards : g'.cards = g.cards.map f)
    (hdetached : g'.detached = g.detached) (htimers : g'.timers = g.timers)
    (hhandles : g'.handles = g.handles) (hnext : g'.nextHandle = g.nextHandle)
    (hids : g'.nextCardId = g.nextCardId)
    (htriggered : g.isAutoRevealInProgress = true → g'.outcome.autoRevealTriggered = true) :
    Sound g' := by
  have hG := h.map_cards f hid hs ht
  refine
    { ids := ?_, cardIds := ?_, flags := ?_, owners := ?_, handles := ?_, distinct := ?_
      fresh := ?_, triggered := ?_ }
  · rw [hcards, hdetached]
    exact hG.ids
  · rw [hcards, hdetached, hids]
    exact hG.cardIds
  · rw [hcards, hdetached]
    exact hG.flags
  · rw [hcards, hdetached, htimers]
    exact hG.owners
  · rw [hhandles, htimers]
    exact h.handles
  · rw [htimers]
    exact h.distinct
  · rw [htimers, hnext]
    exact h.fresh
  · intro hbusy
    apply htriggered
    unfold isAutoRevealInProgress at hbusy ⊢
    rw [hhandles, hcards, List.any_map] at hbusy
    have : ((fun c : Card => c.autoRevealScheduled) ∘ f) = fun c => c.autoRevealScheduled := by
      funext c
      exact hs c
    rw [this] at hbusy
    exact hbusy

/-- The calls `clearGrid()` and `buildGrid()` keep the invariant when no timer
is pending. -/
theorem Sound.after_buildGrid {g : Game} (h : Sound g) (ht : g.timers = [])
    (hh : g.handles = []) :
    Sound g.buildGrid ∧ g.buildGrid.timers = [] ∧ g.buildGrid.handles = [] := by
  refine ⟨?_, ht, hh⟩
  have hold := h.ids
  rw [List.map_append, List.nodup_append] at hold
  obtain ⟨hcards, hdetached, hdisjoint⟩ := hold
  have hnew : ∀ c ∈ (createCardPositions.enum.map fun item =>
      Card.fresh (g.nextCardId + item.1) item.2.row item.2.col),
      g.nextCardId ≤ c.id ∧ c.id < g.nextCardId + GRID * GRID ∧
        c.autoRevealScheduled = false ∧ c.autoRevealTimer = none := by
    intro c hc
    obtain ⟨item, hitem, rfl⟩ := List.mem_map.mp hc
    have hlt : item.1 < createCardPositions.length := by
      have := List.fst_lt_add_of_mem_enumFrom hitem
      simpa using this
    have hlen : createCardPositions.length = 9 := by
      rw [createCardPositions_eq]
      rfl
    rw [hlen] at hlt
    refine ⟨Nat.le_add_right _ _, ?_, rfl, rfl⟩
    show g.nextCardId + item.1 < g.nextCardId + GRID * GRID
    have : GRID * GRID = 9 := rfl
    omega
  have hnewids : ((createCardPositions.enum.map fun item =>
      Card.fresh (g.nextCardId + item.1) item.2.row item.2.col).map Card.id).Nodup := by
    rw [List.map_map]
    have : (Card.id ∘ fun item : Nat × Position =>
        Card.fresh (g.nextCardId + item.1) item.2.row item.2.col)
        = (fun i => g.nextCardId + i) ∘ Prod.fst := by
      funext item
      rfl
    rw [this, ← List.map_map, List.enum_map_fst]
    exact (List.nodup_range _).map (fun a b hab => Nat.add_left_cancel hab)
  have hstale : ((g.cards.filter fun c => g.flights.any fun f => f.cardId = c.id).map fun c =>
      { c with destroyed := true, animating := false, wiggling := false }).map Card.id
      = (g.cards.filter fun c => g.flights.any fun f => f.cardId = c.id).map Card.id := by
    rw [List.map_map]
    rfl
  have hsub : ((g.cards.filter fun c => g.flights.any fun f => f.cardId = c.id).map Card.id).Sublist
      (g.cards.map Card.id) := (List.filter_sublist _).map Card.id
  refine
    { ids := ?_, cardIds := ?_, flags := ?_, owners := ?_, handles := ?_, distinct := ?_
      fresh := ?_, triggered := ?_ }
  · rw [buildGrid_board, List.map_append, List.map_append, hstale, List.nodup_append]
    refine ⟨hnewids, ?_, ?_⟩
    · rw [List.nodup_append]
      refine ⟨hdetached, hsub.nodup hcards, ?_⟩
      intro a ha hb
      exact hdisjoint (hsub.subset hb) ha
    · intro a ha hb
      obtain ⟨c, hc, rfl⟩ := List.mem_map.mp ha
      have hge := (hnew c hc).1
      have hlt : c.id < g.nextCardId := by
        rcases List.mem_append.mp hb with hb | hb
        · obtain ⟨c', hc', heq⟩ := List.mem_map.mp hb
          rw [← heq]
          exact h.cardIds c' (List.mem_append_right _ hc')
        · obtain ⟨c', hc', heq⟩ := List.mem_map.mp (hsub.subset hb)
          rw [← heq]
          exact h.cardIds c' (List.mem_append_left _ hc')
      omega
  · intro c hc
    show c.id < g.nextCardId + GRID * GRID
    rw [buildGrid_board] at hc
    rcases List.mem_append.mp hc with hc | hc
    · exact (hnew c hc).2.1
    · have hlt : c.id < g.nextCardId := by
        rcases List.mem_append.mp hc with hc | hc
        · exact h.cardIds c (List.mem_append_right _ hc)
        · obtain ⟨c₀, hc₀, rfl⟩ := List.mem_map.mp hc
          exact h.cardIds c₀ (List.mem_append_left _ (List.mem_filter.mp hc₀).1)
      omega
  · intro c hc hflag
    rw [buildGrid_board] at hc
    rcases List.mem_append.mp hc with hc | hc
    · exact (hnew c hc).2.2.2
    · rcases List.mem_append.mp hc with hc | hc
      · exact h.flags c (List.mem_append_right _ hc) hflag
      · obtain ⟨c₀, hc₀, rfl⟩ := List.mem_map.mp hc
        exact h.flags c₀ (List.mem_append_left _ (List.mem_filter.mp hc₀).1) hflag
  · intro t htm
    have htm' : t ∈ g.timers := htm
    rw [ht] at htm'
    cases htm'
  · show g.handles = g.timers.map SweepTimer.handle
    rw [ht, hh]
    rfl
  · show (g.timers.map SweepTimer.handle).Nodup
    rw [ht]
    exact List.nodup_nil
  · intro t htm
    have htm' : t ∈ g.timers := htm
    rw [ht] at htm'
    cases htm'
  · intro hbusy
    exfalso
    unfold isAutoRevealInProgress at hbusy
    have hbusy' : (decide (g.handles.length > 0) ||
        (List.map (fun item : Nat × Position =>
          Card.fresh (g.nextCardId + item.1) item.2.row item.2.col) createCardPositions.enum).any
          fun c => c.autoRevealScheduled) = true := hbusy
    rw [hh] at hbusy'
    simp only [List.length_nil, gt_iff_lt, lt_self_iff_false, decide_False, Bool.false_or,
      List.any_eq_true] at hbusy'
    obtain ⟨c, hc, hflag⟩ := hbusy'
    rw [(hnew c hc).2.2.1] at hflag
    cases hflag

theorem registerCards_timers (g : Game) (ht : g.timers = []) (hh : g.handles = []) :
    g.registerCards.timers = [] ∧ g.registerCards.handles = [] := by
  unfold registerCards
  generalize g.cards.map Card.id = ids
  induction ids generalizing g with
  | nil => exact ⟨ht, hh⟩
  | cons id rest ih =>
    simp only [List.foldl_cons]
    apply ih
    · have := (foldl_clearScheduled_frame [id] (g.modifyCard id fun c =>
        { c with
          assignedContent := (JsMap.get g.currentAssignments (getCardKey c.row c.col)).join
          pendingWinningReveal := false
          randomSelectionPending := false })).2.2.2.2.2.1
      simp only [List.foldl_cons, List.foldl_nil, modifyCard_timers, ht] at this
      exact List.eq_nil_of_sublist_nil this
    · have := (foldl_clearScheduled_frame [id] (g.modifyCard id fun c =>
        { c with
          assignedContent := (JsMap.get g.currentAssignments (getCardKey c.row c.col)).join
          pendingWinningReveal := false
          randomSelectionPending := false })).2.2.2.2.2.2
      simp only [List.foldl_cons, List.foldl_nil, modifyCard_handles, hh] at this
      exact List.eq_nil_of_sublist_nil this

/-- The function `reset()` keeps the invariant and leaves no pending timer. -/
theorem Sound.after_resetBoard {g : Game} (h : Sound g) :
    Sound g.resetBoard ∧ g.resetBoard.timers = [] ∧ g.resetBoard.handles = [] := by
  unfold Game.resetBoard
  dsimp only
  have h₁ : Sound ({ g with rules := g.rules.reset, currentAssignments := [] } : Game) :=
    h.frame rfl rfl rfl rfl rfl rfl (fun ht => ht)
  obtain ⟨h₂, t₂, hd₂, -, -, -⟩ := h₁.after_resetRoundOutcome
  have h₂' : Sound ({ Game.resetRoundOutcome
        ({ g with rules := g.rules.reset, currentAssignments := [] } : Game) with
      rules := (Game.resetRoundOutcome
        ({ g with rules := g.rules.reset, currentAssignments := [] } : Game)).rules.setAssignments
          (some (Game.resetRoundOutcome
            ({ g with rules := g.rules.reset, currentAssignments := [] }
              : Game)).currentAssignments) } : Game) :=
    h₂.frame rfl rfl rfl rfl rfl rfl (fun ht => ht)
  obtain ⟨h₃, t₃, hd₃⟩ := Sound.after_buildGrid h₂' t₂ hd₂
  exact ⟨h₃.after_registerCards, registerCards_timers _ t₃ hd₃⟩

/-- The game as `createGame` returns it is sound. -/
theorem create_sound (disableAnimations : Bool)
    (flipDuration revealAllIntervalDelay autoResetDelayMs : Nat) (wiggleSelectionEnabled : Bool)
    (contentKeys : List String) :
    Sound (create disableAnimations flipDuration revealAllIntervalDelay autoResetDelayMs
      wiggleSelectionEnabled contentKeys) := by
  unfold create
  refine (Sound.after_buildGrid (g := _) ?_ rfl rfl).1.after_registerCards
  exact sound_of_check _ rfl

/-- The function `setRoundAssignments` keeps the invariant. -/
theorem Sound.after_installAssignments {g : Game} (h : Sound g) (assignments : List Entry)
    (info : OutcomeMeta) : Sound (g.installAssignments assignments info) := by
  unfold Game.installAssignments Game.applyRoundOutcomeMeta
  dsimp only
  have h₁ : Sound ({ g with currentAssignments := [] } : Game) :=
    h.frame rfl rfl rfl rfl rfl rfl (fun ht => ht)
  obtain ⟨h₂, -, -, hidle, -, -⟩ := h₁.after_resetRoundOutcome
  generalize (assignments.foldl (fun m e => JsMap.set m (getCardKey e.row e.col) e.contentKey)
    (Game.resetRoundOutcome
      ({ g with currentAssignments := [] } : Game)).currentAssignments) = store
  refine h₂.frame_map
    (fun c => { c with assignedContent := (JsMap.get store (getCardKey c.row c.col)).join })
    (fun _ => rfl) (fun _ => rfl) (fun _ => rfl) rfl rfl rfl rfl rfl rfl ?_
  intro hbusy
  rw [hidle] at hbusy
  cases hbusy

end Game

namespace Game

/-- A state that differs from a sound one in fields of one card other than its
id and its timer fields, and in fields that the invariant does not read, is
sound. -/
theorem Sound.touch {g X : Game} {id : Nat} {f : Card → Card} (h : Sound g)
    (hcards : X.cards = g.cards.map fun c => if c.id = id then f c else c)
    (hdetached : X.detached = g.detached.map fun c => if c.id = id then f c else c)
    (htimers : X.timers = g.timers) (hhandles : X.handles = g.handles)
    (hnext : X.nextHandle = g.nextHandle) (hids : X.nextCardId = g.nextCardId)
    (htriggered : g.outcome.autoRevealTriggered = true → X.outcome.autoRevealTriggered = true)
    (hid : ∀ c, (f c).id = c.id)
    (hs : ∀ c, (f c).autoRevealScheduled = c.autoRevealScheduled)
    (ht : ∀ c, (f c).autoRevealTimer = c.autoRevealTimer) : Sound X :=
  (h.modifyCard id f hid hs ht).frame hcards hdetached htimers hhandles hnext hids htriggered

theorem settlePending_sound {g₁ : Game} (h : Sound g₁) (id : Nat) (card : Card)
    (o₂ : RoundOutcome)
    (ho : g₁.outcome.autoRevealTriggered = true → o₂.autoRevealTriggered = true) :
    Sound (settlePending g₁ id card o₂) := by
  unfold settlePending
  split
  · exact h.touch rfl rfl rfl rfl rfl rfl ho (fun _ => rfl) (fun _ => rfl) (fun _ => rfl)
  · exact h.frame rfl rfl rfl rfl rfl rfl ho

theorem sweepWhenDue_sound {g₂ : Game} (h : Sound g₂) : Sound (sweepWhenDue g₂) := by
  unfold sweepWhenDue
  dsimp only
  split
  · refine Sound.after_sweep (g := _) ?_ []
    exact h.frame rfl rfl rfl rfl rfl rfl (fun _ => rfl)
  · exact h

theorem feedbackBlock_sound {g₃ : Game} (h : Sound g₃) (allCardsRevealed : Bool) :
    Sound (feedbackBlock g₃ allCardsRevealed) := by
  unfold feedbackBlock
  dsimp only
  split
  · exact h.frame rfl rfl rfl rfl rfl rfl (fun ht => ht)
  · exact h

/-- The function `handleCardRevealComplete` keeps the invariant. -/
theorem Sound.after_handleCardRevealComplete {g : Game} (h : Sound g) (id : Nat) (key : Face) :
    Sound (g.handleCardRevealComplete id key) := by
  rw [handleCardRevealComplete_blocks]
  cases g.findCard id with
  | none => exact h
  | some card =>
    dsimp only
    apply feedbackBlock_sound
    apply sweepWhenDue_sound
    apply settlePending_sound
      (h.modifyCard id (fun c => { c with randomSelectionPending := false }) (fun _ => rfl)
        (fun _ => rfl) (fun _ => rfl))
    intro ht
    rw [(countReveal_frame _ _ _).2.2.2]
    exact ht

theorem Sound.after_completeReveal {g : Game} (h : Sound g) (id : Nat) (key : Face) :
    Sound (g.completeReveal id key) := by
  unfold Game.completeReveal
  dsimp only
  apply Sound.after_handleCardRevealComplete
  exact h.touch rfl rfl rfl rfl rfl rfl (fun ht => ht) (fun _ => rfl) (fun _ => rfl)
    (fun _ => rfl)

theorem Sound.after_cardReveal {g : Game} (h : Sound g) (id : Nat) (face : Face) :
    Sound (g.cardReveal id face).2 := by
  unfold Game.cardReveal
  split
  · exact h
  · split
    · exact h
    · dsimp only
      split
      · apply Sound.after_completeReveal
        exact h.modifyCard id (fun c => { c with animating := false, wiggling := false })
          (fun _ => rfl) (fun _ => rfl) (fun _ => rfl)
      · exact h.touch rfl rfl rfl rfl rfl rfl (fun ht => ht) (fun _ => rfl) (fun _ => rfl)
          (fun _ => rfl)

/-- The function `revealCard` keeps the invariant. -/
theorem Sound.after_revealCard {g : Game} (h : Sound g) (id : Nat) (face : Face) :
    Sound (g.revealCard id face) := by
  have h₂ := Sound.after_cardReveal
    ((h.clearScheduledAutoReveal id).modifyCard id (fun c => { c with revealedFace := face })
      (fun _ => rfl) (fun _ => rfl) (fun _ => rfl)) id face
  unfold Game.revealCard
  dsimp only
  generalize ((g.clearScheduledAutoReveal id).modifyCard id fun c =>
    { c with revealedFace := face }).cardReveal id face = result at h₂ ⊢
  split
  · split
    · split
      · refine Sound.after_sweep (g := _) ?_ [id]
        exact h₂.touch rfl rfl rfl rfl rfl rfl (fun _ => rfl) (fun _ => rfl) (fun _ => rfl)
          (fun _ => rfl)
      · exact h₂.touch rfl rfl rfl rfl rfl rfl (fun ht => ht) (fun _ => rfl) (fun _ => rfl)
          (fun _ => rfl)
    · exact h₂.touch rfl rfl rfl rfl rfl rfl (fun ht => ht) (fun _ => rfl) (fun _ => rfl)
        (fun _ => rfl)
  · exact h₂.modifyCard id (fun c => { c with pendingWinningReveal := false }) (fun _ => rfl)
      (fun _ => rfl) (fun _ => rfl)

theorem Sound.after_revealTile {g : Game} (h : Sound g) (card : Card) (result : Face) :
    Sound (App.revealTile g card result) := by
  unfold App.revealTile
  dsimp only
  apply Sound.after_revealCard
  exact h.frame rfl rfl rfl rfl rfl rfl (fun ht => ht)

theorem Sound.after_finishFlight {g : Game} (h : Sound g) (flight : Flight) :
    Sound (g.finishFlight flight) := by
  unfold Game.finishFlight
  split
  · apply Sound.after_completeReveal
    exact h.frame rfl rfl rfl rfl rfl rfl (fun ht => ht)
  · exact h

end Game

namespace Game

theorem Sound.findCard_of_mem {g : Game} (h : Sound g) {card : Card}
    (hmem : card ∈ g.cards ++ g.detached) : g.findCard card.id = some card := by
  unfold findCard
  cases hfind : (g.cards ++ g.detached).find? fun c => c.id = card.id with
  | none =>
    rw [List.find?_eq_none] at hfind
    have := hfind card hmem
    simp at this
  | some c =>
    have hc := List.mem_of_find?_eq_some hfind
    have hid : c.id = card.id := by simpa using List.find?_some hfind
    rw [h.unique hc hmem hid]

/-- The first statements of the callback of a sweep timer are those of
`clearScheduledAutoReveal` on the card of the timer. -/
theorem Sound.timer_cleared {g : Game} (h : Sound g) (timer : SweepTimer)
    (hmem : timer ∈ g.timers) :
    (({ g with
        timers := g.timers.filter fun t => t.handle ≠ timer.handle
        handles := g.handles.filter fun x => x ≠ timer.handle } : Game).modifyCard timer.cardId
        fun c => { c with autoRevealTimer := none, autoRevealScheduled := false })
      = g.clearScheduledAutoReveal timer.cardId := by
  obtain ⟨c, hc, hid, htimer⟩ := h.owners timer hmem
  have hfind := h.findCard_of_mem hc
  rw [hid] at hfind
  unfold Game.clearScheduledAutoReveal
  rw [hfind]
  simp only [htimer]

/-- The callback of a sweep timer keeps the invariant. -/
theorem Sound.after_sweepTimerBody {g : Game} (h : Sound g) (timer : SweepTimer)
    (hmem : timer ∈ g.timers) : Sound (App.sweepTimerBody g timer).2 := by
  unfold App.sweepTimerBody
  dsimp only
  rw [h.timer_cleared timer hmem]
  have h₁ := h.clearScheduledAutoReveal timer.cardId
  split
  · exact h₁
  · split
    · exact h₁
    · exact h₁.after_revealTile _ _

/-- Every step of a round keeps the invariant. -/
theorem Sound.after_roundStep {g : Game} (h : Sound g) (step : RoundStep) :
    Sound (g.roundStep step) := by
  cases step with
  | reveal id result =>
    simp only [roundStep]
    cases g.findCard id with
    | none => exact h
    | some card => exact h.after_revealTile card result
  | complete flight => exact h.after_finishFlight flight
  | timer handle =>
    simp only [roundStep]
    cases hfind : g.timers.find? fun t => t.handle = handle with
    | none => exact h
    | some timer => exact h.after_sweepTimerBody timer (List.mem_of_find?_eq_some hfind)
  | sweep exclude => exact h.after_sweep exclude
  | animations enabled => exact h.frame rfl rfl rfl rfl rfl rfl (fun ht => ht)

/-- The invariant holds along every round. -/
theorem Sound.after_roundRun (steps : List RoundStep) :
    ∀ g : Game, Sound g → Sound (g.roundRun steps) := by
  induction steps with
  | nil =>
    intro g h
    exact h
  | cons step rest ih =>
    intro g h
    exact ih _ (h.after_roundStep step)

end Game

namespace Game

theorem scheduleReveal_config (g : Game) (card : Card) (index : Nat) :
    (g.scheduleReveal card index).disableAnimations = g.disableAnimations ∧
      (g.scheduleReveal card index).flipDuration = g.flipDuration := by
  unfold scheduleReveal
  obtain ⟨-, h₂, h₃, -⟩ := clearScheduledAutoReveal_frame g card.id
  exact ⟨h₂, h₃⟩

theorem foldl_scheduleReveal_config (items : List (Nat × Card)) :
    ∀ g : Game,
      (items.foldl (fun acc item => scheduleReveal acc item.2 item.1) g).disableAnimations
          = g.disableAnimations ∧
        (items.foldl (fun acc item => scheduleReveal acc item.2 item.1) g).flipDuration
          = g.flipDuration := by
  induction items with
  | nil =>
    intro g
    exact ⟨rfl, rfl⟩
  | cons item rest ih =>
    intro g
    obtain ⟨h₁, h₂⟩ := ih (g.scheduleReveal item.2 item.1)
    obtain ⟨k₁, k₂⟩ := scheduleReveal_config g item.2 item.1
    simp only [List.foldl_cons]
    exact ⟨h₁.trans k₁, h₂.trans k₂⟩

theorem revealRemainingTiles_config (g : Game) (exclude : List Nat) :
    (g.revealRemainingTiles exclude).disableAnimations = g.disableAnimations ∧
      (g.revealRemainingTiles exclude).flipDuration = g.flipDuration := by
  unfold revealRemainingTiles
  dsimp only
  split
  · exact ⟨rfl, rfl⟩
  · split
    · exact ⟨rfl, rfl⟩
    · exact foldl_scheduleReveal_config _ _

theorem handleCardRevealComplete_config (g : Game) (id : Nat) (key : Face) :
    (g.handleCardRevealComplete id key).disableAnimations = g.disableAnimations ∧
      (g.handleCardRevealComplete id key).flipDuration = g.flipDuration := by
  rw [handleCardRevealComplete_blocks]
  cases g.findCard id with
  | none => exact ⟨rfl, rfl⟩
  | some card =>
    dsimp only
    generalize (countReveal g.outcome id _) = o₂
    have h₁ : (settlePending (g.modifyCard id fun c => { c with randomSelectionPending := false })
        id card o₂).disableAnimations = g.disableAnimations ∧
        (settlePending (g.modifyCard id fun c => { c with randomSelectionPending := false })
          id card o₂).flipDuration = g.flipDuration := by
      unfold settlePending
      split <;> exact ⟨rfl, rfl⟩
    generalize settlePending (g.modifyCard id fun c => { c with randomSelectionPending := false })
      id card o₂ = g₂ at h₁ ⊢
    have h₂ : (sweepWhenDue g₂).disableAnimations = g.disableAnimations ∧
        (sweepWhenDue g₂).flipDuration = g.flipDuration := by
      unfold sweepWhenDue
      dsimp only
      split
      · obtain ⟨k₁, k₂⟩ := revealRemainingTiles_config
          { g₂ with outcome := { g₂.outcome with autoRevealTriggered := true } } []
        exact ⟨k₁.trans h₁.1, k₂.trans h₁.2⟩
      · exact h₁
    generalize sweepWhenDue g₂ = g₃ at h₂ ⊢
    generalize decide (g₂.rules.getState.revealed ≥ g₂.rules.getState.totalTiles) = b
    unfold feedbackBlock
    dsimp only
    split
    · exact h₂
    · exact h₂

/-- The bookkeeping of a round whose reveals all run with animations: the
counter `pendingReveals` is the number of running flips. -/
theorem revealCard_counts (g : Game) (id : Nat) (face : Face)
    (hcount : g.outcome.pendingReveals = g.flights.length)
    (hanim : g.disableAnimations = false) (hflip : g.flipDuration ≠ 0) :
    (g.revealCard id face).outcome.pendingReveals = (g.revealCard id face).flights.length ∧
      (g.revealCard id face).disableAnimations = false ∧
      (g.revealCard id face).flipDuration ≠ 0 ∧
      (g.revealCard id face).outcome.feedbackPlayed = g.outcome.feedbackPlayed := by
  have ho₁ := clearScheduledAutoReveal_outcome g id
  obtain ⟨-, hf₂, hf₃, -, hf₅, -, -⟩ := clearScheduledAutoReveal_frame g id
  have hresult : ∀ g₂ : Game, g₂.outcome = g.outcome → g₂.flights = g.flights →
      g₂.disableAnimations = false → g₂.flipDuration ≠ 0 →
      (g₂.cardReveal id face).2.outcome = g.outcome ∧
        (g₂.cardReveal id face).2.disableAnimations = false ∧
        (g₂.cardReveal id face).2.flipDuration ≠ 0 ∧
        ((g₂.cardReveal id face).1 = true →
          (g₂.cardReveal id face).2.flights.length = g.flights.length + 1) ∧
        ((g₂.cardReveal id face).1 = false →
          (g₂.cardReveal id face).2.flights.length = g.flights.length) := by
    intro g₂ ho hf ha hd
    cases hfind : g₂.findCard id with
    | none =>
      have : g₂.cardReveal id face = (false, g₂) := by
        unfold cardReveal
        rw [hfind]
      rw [this]
      refine ⟨ho, ha, hd, ?_, ?_⟩
      · intro hc
        cases hc
      · intro _
        exact congrArg List.length hf
    | some card =>
      obtain ⟨hstop, hgo⟩ := cardReveal_animated g₂ id face card hfind ha hd
      by_cases hstart : card.destroyed = true ∨ card.revealed = true
      · rw [hstop hstart]
        refine ⟨ho, ha, hd, ?_, ?_⟩
        · intro hc
          cases hc
        · intro _
          exact congrArg List.length hf
      · obtain ⟨key, hreveal⟩ := hgo hstart
        rw [hreveal]
        refine ⟨ho, ha, hd, ?_, ?_⟩
        · intro _
          show (g₂.flights ++ [_]).length = _
          rw [List.length_append, hf]
          rfl
        · intro hc
          cases hc
  have h₂ := hresult ((g.clearScheduledAutoReveal id).modifyCard id fun c =>
    { c with revealedFace := face }) ho₁ hf₅ (hf₂.trans hanim)
    (fun h0 => hflip (hf₃.symm.trans h0))
  unfold revealCard
  dsimp only
  generalize ((g.clearScheduledAutoReveal id).modifyCard id fun c =>
    { c with revealedFace := face }).cardReveal id face = result at h₂ ⊢
  obtain ⟨r₁, r₂, r₃, r₄, r₅⟩ := h₂
  split
  · rename_i hstarted
    have hlen := r₄ hstarted
    split
    · split
      · obtain ⟨ho, hfl, -⟩ := revealRemainingTiles_outcome
          (_ : Game) [id]
        obtain ⟨hc₁, hc₂⟩ := revealRemainingTiles_config (_ : Game) [id]
        refine ⟨?_, hc₁.trans r₂, fun h0 => r₃ (hc₂.symm.trans h0), ?_⟩
        · rw [ho, hfl]
          show result.2.outcome.pendingReveals + 1 = result.2.flights.length
          rw [r₁, hcount, hlen]
        · rw [ho]
          show result.2.outcome.feedbackPlayed = _
          rw [r₁]
      · refine ⟨?_, r₂, r₃, ?_⟩
        · show result.2.outcome.pendingReveals + 1 = result.2.flights.length
          rw [r₁, hcount, hlen]
        · show result.2.outcome.feedbackPlayed = _
          rw [r₁]
    · refine ⟨?_, r₂, r₃, ?_⟩
      · show result.2.outcome.pendingReveals + 1 = result.2.flights.length
        rw [r₁, hcount, hlen]
      · show result.2.outcome.feedbackPlayed = _
        rw [r₁]
  · rename_i hstarted
    have hlen := r₅ (by simpa using hstarted)
    refine ⟨?_, r₂, r₃, ?_⟩
    · show result.2.outcome.pendingReveals = result.2.flights.length
      rw [r₁, hcount, hlen]
    · show result.2.outcome.feedbackPlayed = _
      rw [r₁]

end Game

namespace Game

theorem finishFlight_counts (g : Game) (flight : Flight)
    (hcount : g.outcome.pendingReveals = g.flights.length)
    (hanim : g.disableAnimations = false) (hflip : g.flipDuration ≠ 0) :
    (g.finishFlight flight).outcome.pendingReveals = (g.finishFlight flight).flights.length ∧
      (g.finishFlight flight).disableAnimations = false ∧
      (g.finishFlight flight).flipDuration ≠ 0 ∧
      (g.outcome.feedbackPlayed = false →
        (g.finishFlight flight).outcome.feedbackPlayed = true →
        (g.finishFlight flight).outcome.pendingReveals = 0 ∧
          g.rules.totalTiles ≤ g.rules.revealedCount) := by
  unfold finishFlight
  by_cases hmem : flight ∈ g.flights
  · rw [if_pos hmem]
    have hlen : g.outcome.pendingReveals - 1 = (g.flights.erase flight).length := by
      rw [List.length_erase_of_mem hmem, hcount]
    have hcr : ({ g with flights := g.flights.erase flight } : Game).completeReveal
        flight.cardId flight.key
        = Game.handleCardRevealComplete
          ({ ({ g with flights := g.flights.erase flight } : Game).modifyCard
              flight.cardId fun c => { c with animating := false, revealed := true } with
            outcome :=
              { g.outcome with pendingReveals := g.outcome.pendingReveals - 1 } } : Game)
          flight.cardId flight.key := rfl
    rw [hcr]
    generalize hG : ({ ({ g with flights := g.flights.erase flight } : Game).modifyCard
        flight.cardId fun c => { c with animating := false, revealed := true } with
      outcome :=
        { g.outcome with pendingReveals := g.outcome.pendingReveals - 1 } } : Game) = G
    have hGp : G.outcome.pendingReveals = g.outcome.pendingReveals - 1 := by
      rw [← hG]
    have hGf : G.flights = g.flights.erase flight := by
      rw [← hG]
      rfl
    have hGa : G.disableAnimations = false := by
      rw [← hG]
      exact hanim
    have hGd : G.flipDuration = g.flipDuration := by
      rw [← hG]
      rfl
    have hGfp : G.outcome.feedbackPlayed = g.outcome.feedbackPlayed := by
      rw [← hG]
    have hGr : G.rules = g.rules := by
      rw [← hG]
      rfl
    obtain ⟨c₁, c₂⟩ := handleCardRevealComplete_config G flight.cardId flight.key
    cases hfind : G.findCard flight.cardId with
    | none =>
      have : G.handleCardRevealComplete flight.cardId flight.key = G := by
        rw [handleCardRevealComplete_blocks, hfind]
      rw [this]
      refine ⟨by rw [hGp, hGf, hlen], hGa, fun h0 => hflip (hGd.symm.trans h0), ?_⟩
      intro hnot hset
      rw [hGfp, hnot] at hset
      cases hset
    | some card =>
      obtain ⟨f₁, -, -, f₄, -, f₆⟩ :=
        handleCardRevealComplete_feedback G flight.cardId flight.key card hfind
      refine ⟨by rw [f₁, f₄, hGp, hGf, hlen], c₁.trans hGa,
        fun h0 => hflip (hGd.symm.trans (c₂.symm.trans h0)), ?_⟩
      intro hnot hset
      by_contra hcond
      have hkeep := (f₆ (fun hc => hcond ⟨by rw [f₁]; exact hc.2.2, by
        rw [← hGr]
        exact hc.2.1⟩)).1
      rw [hkeep, hGfp, hnot] at hset
      cases hset
  · rw [if_neg hmem]
    refine ⟨hcount, hanim, hflip, ?_⟩
    intro hnot hset
    rw [hnot] at hset
    cases hset

/-- In a round whose reveals all run with animations, `pendingReveals` is the
number of running flips after every step, and a step that runs the feedback
block leaves no flip running. -/
theorem roundStep_counts (g : Game) (step : RoundStep)
    (hcount : g.outcome.pendingReveals = g.flights.length)
    (hanim : g.disableAnimations = false) (hflip : g.flipDuration ≠ 0)
    (hstep : step ≠ .animations false) :
    (g.roundStep step).outcome.pendingReveals = (g.roundStep step).flights.length ∧
      (g.roundStep step).disableAnimations = false ∧
      (g.roundStep step).flipDuration ≠ 0 ∧
      (g.outcome.feedbackPlayed = false →
        (g.roundStep step).outcome.feedbackPlayed = true →
        (g.roundStep step).flights = []) := by
  have hrevealTile : ∀ (g₁ : Game) (card : Card) (result : Face),
      g₁.outcome.pendingReveals = g₁.flights.length → g₁.disableAnimations = false →
      g₁.flipDuration ≠ 0 → g₁.outcome.feedbackPlayed = g.outcome.feedbackPlayed →
      (App.revealTile g₁ card result).outcome.pendingReveals
          = (App.revealTile g₁ card result).flights.length ∧
        (App.revealTile g₁ card result).disableAnimations = false ∧
        (App.revealTile g₁ card result).flipDuration ≠ 0 ∧
        (g.outcome.feedbackPlayed = false →
          (App.revealTile g₁ card result).outcome.feedbackPlayed = true →
          (App.revealTile g₁ card result).flights = []) := by
    intro g₁ card result h₁ h₂ h₃ h₄
    unfold App.revealTile
    dsimp only
    obtain ⟨k₁, k₂, k₃, k₄⟩ := revealCard_counts
      { g₁ with rules := (g₁.rules.revealResult card.row card.col result).2 } card.id
      (g₁.rules.revealResult card.row card.col result).1.face h₁ h₂ h₃
    refine ⟨k₁, k₂, k₃, ?_⟩
    intro hnot hset
    rw [k₄] at hset
    have : g₁.outcome.feedbackPlayed = true := hset
    rw [h₄, hnot] at this
    cases this
  cases step with
  | reveal id result =>
    simp only [roundStep]
    cases g.findCard id with
    | none =>
      refine ⟨hcount, hanim, hflip, ?_⟩
      intro hnot hset
      rw [hnot] at hset
      cases hset
    | some card => exact hrevealTile g card result hcount hanim hflip rfl
  | complete flight =>
    obtain ⟨k₁, k₂, k₃, k₄⟩ := finishFlight_counts g flight hcount hanim hflip
    refine ⟨k₁, k₂, k₃, ?_⟩
    intro hnot hset
    have hzero := (k₄ hnot hset).1
    have hlen : (g.finishFlight flight).flights.length = 0 := by
      rw [← k₁]
      exact hzero
    exact List.length_eq_zero.mp hlen
  | timer handle =>
    simp only [roundStep]
    cases g.timers.find? fun t => t.handle = handle with
    | none =>
      refine ⟨hcount, hanim, hflip, ?_⟩
      intro hnot hset
      rw [hnot] at hset
      cases hset
    | some timer =>
      unfold App.sweepTimerBody
      dsimp only
      split
      · refine ⟨hcount, hanim, hflip, ?_⟩
        intro hnot hset
        have : g.outcome.feedbackPlayed = true := hset
        rw [hnot] at this
        cases this
      · split
        · refine ⟨hcount, hanim, hflip, ?_⟩
          intro hnot hset
          have : g.outcome.feedbackPlayed = true := hset
          rw [hnot] at this
          cases this
        · exact hrevealTile _ _ _ hcount hanim hflip rfl
  | sweep exclude =>
    obtain ⟨ho, hfl, -⟩ := revealRemainingTiles_outcome g exclude
    obtain ⟨hc₁, hc₂⟩ := revealRemainingTiles_config g exclude
    refine ⟨?_, hc₁.trans hanim, fun h0 => hflip (hc₂.symm.trans h0), ?_⟩
    · show (g.revealRemainingTiles exclude).outcome.pendingReveals
        = (g.revealRemainingTiles exclude).flights.length
      rw [ho, hfl]
      exact hcount
    · intro hnot hset
      have hset' : (g.revealRemainingTiles exclude).outcome.feedbackPlayed = true := hset
      rw [ho] at hset'
      have : g.outcome.feedbackPlayed = true := hset'
      rw [hnot] at this
      cases this
  | animations enabled =>
    cases enabled with
    | false => exact absurd rfl hstep
    | true =>
      refine ⟨hcount, rfl, hflip, ?_⟩
      intro hnot hset
      have : g.outcome.feedbackPlayed = true := hset
      rw [hnot] at this
      cases this

theorem roundRun_counts (steps : List RoundStep) :
    ∀ g : Game, g.outcome.pendingReveals = g.flights.length → g.disableAnimations = false →
      g.flipDuration ≠ 0 → (∀ step ∈ steps, step ≠ .animations false) →
      (g.roundRun steps).outcome.pendingReveals = (g.roundRun steps).flights.length ∧
        (g.roundRun steps).disableAnimations = false ∧ (g.roundRun steps).flipDuration ≠ 0 := by
  induction steps with
  | nil =>
    intro g h₁ h₂ h₃ _
    exact ⟨h₁, h₂, h₃⟩
  | cons step rest ih =>
    intro g h₁ h₂ h₃ hsteps
    obtain ⟨k₁, k₂, k₃, -⟩ := roundStep_counts g step h₁ h₂ h₃
      (hsteps step (List.mem_cons_self _ _))
    exact ih _ k₁ k₂ k₃ (fun s hs => hsteps s (List.mem_cons_of_mem _ hs))

end Game

set_option maxRecDepth 100000 in
/-- C20: what holds of the feedback block of `handleCardRevealComplete`, and
where it runs too early. Within a round, once the latch `feedbackPlayed` is set
no step sets it again or plays a sound, so the block runs at most once; a call
of the handler runs it only when `revealedCount >= totalTiles` and
`pendingReveals = 0`; and in a round whose flips all run with animations,
started with `pendingReveals` equal to the number of running flips, a step that
runs the block leaves no flip running. But `pendingReveals = 0` does not mean
that no reveal is outstanding once the animations are switched off: in the round
`demoRound`, after the reveals of the eight tiles other than tile 12 were
issued, the flips completed except that of tile 9 (`pendingReveals = 1`) and
the animations were switched off, the reveal of tile 12 runs its completion
inside `card.reveal`, before `revealCard` has counted it, with `pendingReveals`
decremented to 0: the block runs, the latch is set and `roundWin` is played
while the flip of tile 9 is still running and tile 9 is not revealed. -/
theorem c20_feedback_once_but_before_last_flip :
    (∀ (g : Game) (steps : List Game.RoundStep), g.outcome.feedbackPlayed = true →
        (g.roundRun steps).outcome.feedbackPlayed = true ∧
          (g.roundRun steps).feedbackSounds = g.feedbackSounds) ∧
      (∀ (g : Game) (id : Nat) (key : Face) (card : Card), g.findCard id = some card →
        g.outcome.feedbackPlayed = false →
        (g.handleCardRevealComplete id key).outcome.feedbackPlayed = true →
        g.rules.totalTiles ≤ g.rules.revealedCount ∧ g.outcome.pendingReveals = 0) ∧
      (∀ (g : Game) (steps : List Game.RoundStep) (step : Game.RoundStep),
        g.outcome.pendingReveals = g.flights.length → g.disableAnimations = false →
        g.flipDuration ≠ 0 → (∀ s ∈ steps ++ [step], s ≠ .animations false) →
        (g.roundRun steps).outcome.feedbackPlayed = false →
        ((g.roundRun steps).roundStep step).outcome.feedbackPlayed = true →
        ((g.roundRun steps).roundStep step).flights = []) ∧
      ((Game.demoRound.roundRun Game.flipOfNineRunning).outcome.feedbackPlayed,
          (Game.demoRound.roundRun Game.flipOfNineRunning).outcome.pendingReveals,
          (Game.demoRound.roundRun Game.flipOfNineRunning).rules.revealedCount,
          (Game.demoRound.roundRun Game.flipOfNineRunning).flights,
          (Game.demoRound.roundRun Game.flipOfNineRunning).feedbackSounds,
          (Game.demoRound.roundRun Game.flipOfNineRunning).disableAnimations)
        = (false, 1, 8, [{ cardId := 9, key := some "A" }], [], true) ∧
      (((Game.demoRound.roundRun Game.flipOfNineRunning).roundStep
            (.reveal 12 (some "B"))).outcome.feedbackPlayed,
          ((Game.demoRound.roundRun Game.flipOfNineRunning).roundStep
            (.reveal 12 (some "B"))).rules.revealedCount,
          ((Game.demoRound.roundRun Game.flipOfNineRunning).roundStep
            (.reveal 12 (some "B"))).flights,
          ((Game.demoRound.roundRun Game.flipOfNineRunning).roundStep
            (.reveal 12 (some "B"))).feedbackSounds,
          (((Game.demoRound.roundRun Game.flipOfNineRunning).roundStep
            (.reveal 12 (some "B"))).findCard 9).map Card.revealed)
        = (true, 9, [{ cardId := 9, key := some "A" }], ["roundWin"], some false) := by
  refine ⟨fun g steps h => Game.roundRun_latched steps g h, ?_, ?_, rfl, rfl⟩
  · intro g id key card hfind hnot hset
    by_contra hcond
    have := ((Game.handleCardRevealComplete_feedback g id key card hfind).2.2.2.2.2
      (fun hc => hcond ⟨hc.2.1, hc.2.2⟩)).1
    rw [this, hnot] at hset
    cases hset
  · intro g steps step hcount hanim hflip hsteps hnot hset
    obtain ⟨k₁, k₂, k₃⟩ := Game.roundRun_counts steps g hcount hanim hflip
      (fun s hs => hsteps s (List.mem_append_left _ hs))
    exact (Game.roundStep_counts _ step k₁ k₂ k₃
      (hsteps step (List.mem_append_right _ (List.mem_singleton.mpr rfl)))).2.2.2 hnot hset

namespace Game

theorem countReveal_round (o : RoundOutcome) (id : Nat) (payloadKey : Face) :
    (countReveal o id payloadKey).betResult = o.betResult ∧
      (countReveal o id payloadKey).winningKey = o.winningKey ∧
      (countReveal o id payloadKey).winningCountRequired = o.winningCountRequired := by
  unfold countReveal
  dsimp only
  refine ⟨?_, ?_, ?_⟩
  · simp only [apply_ite RoundOutcome.betResult, ite_self]
  · simp only [apply_ite RoundOutcome.winningKey, ite_self]
  · simp only [apply_ite RoundOutcome.winningCountRequired, ite_self]

/-- The feedback block changes `feedbackPlayed`, `winningCards` and the sounds
played, nothing else. -/
theorem feedbackBlock_frame (g₃ : Game) (allCardsRevealed : Bool) :
    (feedbackBlock g₃ allCardsRevealed).cards = g₃.cards ∧
      (feedbackBlock g₃ allCardsRevealed).detached = g₃.detached ∧
      (feedbackBlock g₃ allCardsRevealed).timers = g₃.timers ∧
      (feedbackBlock g₃ allCardsRevealed).outcome.autoRevealTriggered
        = g₃.outcome.autoRevealTriggered ∧
      (feedbackBlock g₃ allCardsRevealed).outcome.winningCountRequired
        = g₃.outcome.winningCountRequired := by
  unfold feedbackBlock
  dsimp only
  split <;> exact ⟨rfl, rfl, rfl, rfl, rfl⟩

theorem settlePending_board (g₁ : Game) (id : Nat) (card : Card) (o₂ : RoundOutcome) :
    ∃ f : Card → Card, (∀ c, (f c).id = c.id) ∧ (∀ c, (f c).revealed = c.revealed) ∧
      (∀ c, (f c).autoRevealScheduled = c.autoRevealScheduled) ∧
      (∀ c, (f c).autoRevealTimer = c.autoRevealTimer) ∧
      (settlePending g₁ id card o₂).cards = (g₁.cards.map fun c => if c.id = id then f c else c) ∧
      (settlePending g₁ id card o₂).detached
        = (g₁.detached.map fun c => if c.id = id then f c else c) ∧
      (settlePending g₁ id card o₂).timers = g₁.timers ∧
      (settlePending g₁ id card o₂).handles = g₁.handles ∧
      (settlePending g₁ id card o₂).nextHandle = g₁.nextHandle ∧
      (settlePending g₁ id card o₂).nextCardId = g₁.nextCardId ∧
      (settlePending g₁ id card o₂).disableAnimations = g₁.disableAnimations ∧
      (settlePending g₁ id card o₂).revealAllIntervalDelay = g₁.revealAllIntervalDelay ∧
      (settlePending g₁ id card o₂).currentAssignments = g₁.currentAssignments ∧
      (settlePending g₁ id card o₂).outcome.autoRevealTriggered = o₂.autoRevealTriggered ∧
      (settlePending g₁ id card o₂).outcome.winningCountRequired = o₂.winningCountRequired := by
  unfold settlePending
  split
  · exact ⟨fun c => { c with pendingWinningReveal := false }, fun _ => rfl, fun _ => rfl,
      fun _ => rfl, fun _ => rfl, rfl, rfl, rfl, rfl, rfl, rfl, rfl, rfl, rfl, rfl, rfl⟩
  · refine ⟨fun c => c, fun _ => rfl, fun _ => rfl, fun _ => rfl, fun _ => rfl, ?_, ?_, rfl, rfl,
      rfl, rfl, rfl, rfl, rfl, rfl, rfl⟩
    · show g₁.cards = _
      simp
    · show g₁.detached = _
      simp

/-- With an empty exclude list the filter of the sweep keeps what it keeps
when a revealed card is excluded. -/
theorem eligible_nil_of_revealed (g : Game) (id : Nat)
    (h : ∀ c ∈ g.cards, c.id = id → c.revealed = true) : g.eligible [] = g.eligible [id] := by
  unfold eligible
  apply List.filter_congr
  intro c hc
  by_cases hi : c.id = id
  · simp [h c hc hi]
  · simp [hi]

end Game

namespace Game

theorem feedbackBlock_config (g₃ : Game) (allCardsRevealed : Bool) :
    (feedbackBlock g₃ allCardsRevealed).nextHandle = g₃.nextHandle ∧
      (feedbackBlock g₃ allCardsRevealed).disableAnimations = g₃.disableAnimations ∧
      (feedbackBlock g₃ allCardsRevealed).revealAllIntervalDelay = g₃.revealAllIntervalDelay ∧
      (feedbackBlock g₃ allCardsRevealed).currentAssignments = g₃.currentAssignments := by
  unfold feedbackBlock
  dsimp only
  split <;> exact ⟨rfl, rfl, rfl, rfl⟩

theorem eligible_congr (g g' : Game) (exclude : List Nat) (hcards : g'.cards = g.cards) :
    g'.eligible exclude = g.eligible exclude := by
  unfold eligible
  rw [hcards]

/-- On a sound board without a sweep in progress the flag `autoRevealTriggered`
may be anything; with the flag clear no sweep is in progress. -/
theorem Sound.idle {g : Game} (h : Sound g) (huntr : g.outcome.autoRevealTriggered = false) :
    g.isAutoRevealInProgress = false := by
  cases hbusy : g.isAutoRevealInProgress with
  | false => rfl
  | true =>
    rw [h.triggered hbusy] at huntr
    cases huntr

theorem sweepWhenDue_cases (g₂ : Game) :
    sweepWhenDue g₂
        = revealRemainingTiles
            { g₂ with outcome := { g₂.outcome with autoRevealTriggered := true } } [] ∨
      sweepWhenDue g₂ = g₂ := by
  unfold sweepWhenDue
  dsimp only
  split
  · exact Or.inl rfl
  · exact Or.inr rfl

/-- The completion handler on a revealed card while no sweep was triggered:
either its own test starts the sweep, which schedules every eligible tile, or
it schedules nothing and leaves the other cards alone. -/
theorem handleCardRevealComplete_sweep (G : Game) (id : Nat) (key : Face) (card : Card)
    (hS : Sound G) (hfind : G.findCard id = some card) (hrev : card.revealed = true)
    (huntr : G.outcome.autoRevealTriggered = false) :
    Sound (G.handleCardRevealComplete id key) ∧
      (G.handleCardRevealComplete id key).outcome.winningCountRequired
        = G.outcome.winningCountRequired ∧
      (((G.handleCardRevealComplete id key).outcome.autoRevealTriggered = true ∧
          (G.handleCardRevealComplete id key).timers
            = G.timers ++ G.sweepTimers ((G.eligible [id]).insertionSort rowMajorLE)) ∨
        ((G.handleCardRevealComplete id key).outcome.autoRevealTriggered = false ∧
          (G.handleCardRevealComplete id key).timers = G.timers ∧
          (G.handleCardRevealComplete id key).eligible [id] = G.eligible [id] ∧
          ∀ ordered, (G.handleCardRevealComplete id key).sweepTimers ordered
            = G.sweepTimers ordered)) := by
  refine ⟨hS.after_handleCardRevealComplete id key, ?_⟩
  rw [handleCardRevealComplete_blocks, hfind]
  dsimp only
  generalize (key.orElse fun _ => card.revealedFace.orElse fun _ =>
    (JsMap.get G.currentAssignments (getCardKey card.row card.col)).join) = payloadKey
  obtain ⟨-, -, -, c₄⟩ := countReveal_frame G.outcome id payloadKey
  obtain ⟨-, -, c₇⟩ := countReveal_round G.outcome id payloadKey
  have hS₁ : Sound (G.modifyCard id fun c => { c with randomSelectionPending := false }) :=
    hS.modifyCard id (fun c => { c with randomSelectionPending := false }) (fun _ => rfl)
      (fun _ => rfl) (fun _ => rfl)
  have hSs := settlePending_sound hS₁ id card (countReveal G.outcome id payloadKey)
    (fun ht => by
      have ht' : G.outcome.autoRevealTriggered = true := ht
      rw [huntr] at ht'
      cases ht')
  obtain ⟨f, fid, frev, fs, ft, s₁, s₂, s₃, s₄, s₅, s₆, s₇, s₈, s₉, s₁₀, s₁₁⟩ :=
    settlePending_board (G.modifyCard id fun c => { c with randomSelectionPending := false })
      id card (countReveal G.outcome id payloadKey)
  generalize settlePending (G.modifyCard id fun c => { c with randomSelectionPending := false })
    id card (countReveal G.outcome id payloadKey) = S at hSs s₁ s₂ s₃ s₄ s₅ s₆ s₇ s₈ s₉ s₁₀ s₁₁ ⊢
  have hSuntr : S.outcome.autoRevealTriggered = false := by
    rw [s₁₀, c₄]
    exact huntr
  have hSreq : S.outcome.winningCountRequired = G.outcome.winningCountRequired := by
    rw [s₁₁, c₇]
  have hel₁ : S.eligible [id] = G.eligible [id] := by
    rw [eligible_of_cards
      (G.modifyCard id fun c => { c with randomSelectionPending := false }) S id f fid s₁]
    exact eligible_of_cards G _ id (fun c => { c with randomSelectionPending := false })
      (fun _ => rfl) rfl
  have hsweep : ∀ ordered, S.sweepTimers ordered = G.sweepTimers ordered :=
    fun ordered => sweepTimers_congr G S ordered s₅ s₇ s₈ s₉
  generalize decide (S.rules.getState.revealed ≥ S.rules.getState.totalTiles) = b
  obtain ⟨b₁, b₂, b₃, b₄, b₅⟩ := feedbackBlock_frame (sweepWhenDue S) b
  obtain ⟨d₁, d₂, d₃, d₄⟩ := feedbackBlock_config (sweepWhenDue S) b
  rcases sweepWhenDue_cases S with hw | hw <;> rw [hw] at b₁ b₂ b₃ b₄ b₅ d₁ d₂ d₃ d₄ ⊢
  · have hSw : Sound ({ S with outcome := { S.outcome with autoRevealTriggered := true } } : Game) :=
      hSs.frame rfl rfl rfl rfl rfl rfl (fun _ => rfl)
    have hgo : ¬(([] : List Nat).length = 0 ∧ isAutoRevealInProgress
        ({ S with outcome := { S.outcome with autoRevealTriggered := true } } : Game) = true) := by
      intro hc
      have : S.isAutoRevealInProgress = true := hc.2
      rw [hSs.idle hSuntr] at this
      cases this
    have htimers := revealRemainingTiles_timers _ [] hSw hgo
    obtain ⟨ho, -, -⟩ := revealRemainingTiles_outcome
      ({ S with outcome := { S.outcome with autoRevealTriggered := true } } : Game) []
    refine ⟨?_, Or.inl ⟨?_, ?_⟩⟩
    · rw [b₅, ho]
      exact hSreq
    · rw [b₄, ho]
    · rw [b₃, htimers]
      have hrevS : ∀ c ∈ S.cards, c.id = id → c.revealed = true := by
        intro c hc hid
        rw [s₁] at hc
        obtain ⟨c₁, hc₁, rfl⟩ := List.mem_map.mp hc
        have hc₁' : c₁ ∈ List.map _ G.cards := hc₁
        obtain ⟨c₀, hc₀, rfl⟩ := List.mem_map.mp hc₁'
        obtain ⟨hmem, hcid⟩ := findCard_mem hfind
        by_cases hi : c₀.id = id
        · have hcc : c₀ = card := hS.unique (List.mem_append_left _ hc₀) hmem (hi.trans hcid.symm)
          simp only [hi, if_true]
          rw [frev]
          rw [hcc]
          exact hrev
        · exfalso
          simp only [hi, if_false] at hid
      have hel₀ : eligible ({ S with outcome := { S.outcome with autoRevealTriggered := true } }
          : Game) [] = G.eligible [id] :=
        (eligible_congr S _ [] rfl).trans ((eligible_nil_of_revealed S id hrevS).trans hel₁)
      rw [hel₀]
      show S.timers ++ _ = _
      rw [s₃]
      congr 1
      exact sweepTimers_congr G _ _ s₅ s₇ s₈ s₉
  · refine ⟨by rw [b₅, hSreq], Or.inr ⟨by rw [b₄, hSuntr], by rw [b₃, s₃]; rfl, ?_, ?_⟩⟩
    · rw [eligible_congr S _ [id] b₁, hel₁]
    · intro ordered
      rw [sweepTimers_congr S _ ordered d₁ d₂ d₃ d₄]
      exact hsweep ordered

end Game

namespace Game

/-- The method `card.reveal` with animations disabled, or a flip of no
duration: the completion runs before the method returns. -/
theorem cardReveal_instant (g : Game) (id : Nat) (face : Face) (card : Card)
    (hfind : g.findCard id = some card)
    (hstart : ¬(card.destroyed = true ∨ card.revealed = true))
    (hdis : g.disableAnimations = true ∨ g.flipDuration = 0) :
    ∃ key : Face, g.cardReveal id face
      = (true,
          Game.handleCardRevealComplete
            ({ (g.modifyCard id fun c => { c with animating := false, wiggling := false }).modifyCard
                id fun c => { c with animating := false, revealed := true } with
              outcome := { g.outcome with pendingReveals := g.outcome.pendingReveals - 1 } } : Game)
            id key) := by
  unfold cardReveal
  rw [hfind]
  simp only [hstart, if_false]
  refine ⟨(match face with
    | some name => if name ∈ g.contentKeys then some name else none
    | none => none), ?_⟩
  have : (g.modifyCard id fun c => { c with animating := false, wiggling := false }).disableAnimations
      = true ∨ (g.modifyCard id fun c =>
        { c with animating := false, wiggling := false }).flipDuration = 0 := hdis
  rw [if_pos this]
  rfl

set_option maxHeartbeats 1000000 in
/-- What `revealCard` does under the condition of the sweep when the flip
completes at once: by the time it returns `autoRevealTriggered` is set and one
timer was added for every eligible tile other than the card, in row-major
order, by the completion handler or by `revealCard` itself. -/
theorem revealCard_sweep_instant (g : Game) (id : Nat) (face : Face) (card : Card)
    (h : Sound g) (hfind : g.findCard id = some card)
    (hdis : g.disableAnimations = true ∨ g.flipDuration = 0)
    (hd : card.destroyed = false) (hr : card.revealed = false)
    (hbet : g.outcome.betResult = some "win") (hface : face ≠ none)
    (hkey : face = g.outcome.winningKey) (huntr : g.outcome.autoRevealTriggered = false)
    (hreq : 0 < g.outcome.winningCountRequired)
    (hcount : g.outcome.winningCountRequired
      ≤ g.outcome.revealedWinning + g.outcome.pendingWinningReveals + 1) :
    (g.revealCard id face).outcome.autoRevealTriggered = true ∧
      (g.revealCard id face).timers
        = (g.clearScheduledAutoReveal id).timers
          ++ g.sweepTimers ((g.eligible [id]).insertionSort rowMajorLE) := by
  have hs₁ := h.clearScheduledAutoReveal id
  have hfind₁ := findCard_clearScheduledAutoReveal g id card hfind
  have ho₁ := clearScheduledAutoReveal_outcome g id
  obtain ⟨hf₁, hf₂, hf₃, hf₄, hf₅, hf₆, hf₇⟩ := clearScheduledAutoReveal_frame g id
  have hf₈ := clearScheduledAutoReveal_currentAssignments g id
  have hcid := (findCard_mem hfind).2
  unfold revealCard
  dsimp only
  generalize g.clearScheduledAutoReveal id = g₁ at hs₁ hfind₁ ho₁ hf₁ hf₂ hf₃ hf₄ hf₅ hf₆ hf₇ hf₈ ⊢
  have hfind₂ : (g₁.modifyCard id fun c => { c with revealedFace := face }).findCard id
      = some { card with
          autoRevealTimer := none, autoRevealScheduled := false, revealedFace := face } := by
    rw [findCard_modifyCard, hfind₁]
    · simp [hcid]
    · intro c
      rfl
  have hdis₂ : (g₁.modifyCard id fun c => { c with revealedFace := face }).disableAnimations = true ∨
      (g₁.modifyCard id fun c => { c with revealedFace := face }).flipDuration = 0 := by
    rcases hdis with hx | hx
    · exact Or.inl (hf₂.trans hx)
    · exact Or.inr (hf₃.trans hx)
  obtain ⟨key, hreveal⟩ := cardReveal_instant _ id face _ hfind₂ (by simp [hd, hr]) hdis₂
  have hreveal' : (g₁.modifyCard id fun c => { c with revealedFace := face }).cardReveal id face
      = (true, Game.handleCardRevealComplete
          ({ ((g₁.modifyCard id fun c => { c with revealedFace := face }).modifyCard id
              fun c => { c with animating := false, wiggling := false }).modifyCard
                id fun c => { c with animating := false, revealed := true } with
            outcome := { g₁.outcome with pendingReveals := g₁.outcome.pendingReveals - 1 } } : Game)
          id key) := hreveal
  rw [hreveal']
  -- the state on which the completion handler runs
  have hG : Sound ({ ((g₁.modifyCard id fun c => { c with revealedFace := face }).modifyCard id
        fun c => { c with animating := false, wiggling := false }).modifyCard
          id fun c => { c with animating := false, revealed := true } with
        outcome := { g₁.outcome with pendingReveals := g₁.outcome.pendingReveals - 1 } } : Game) := by
    refine @Sound.touch _ _ id (fun c => { c with animating := false, revealed := true })
      (((hs₁.modifyCard id (fun c => { c with revealedFace := face }) (fun _ => rfl) (fun _ => rfl)
        (fun _ => rfl)).modifyCard id (fun c => { c with animating := false, wiggling := false })
        (fun _ => rfl) (fun _ => rfl) (fun _ => rfl))) rfl rfl rfl rfl rfl rfl ?_ (fun _ => rfl)
      (fun _ => rfl) (fun _ => rfl)
    intro ht
    exact ht
  have hfindG : Game.findCard ({ ((g₁.modifyCard id fun c => { c with revealedFace := face }).modifyCard
        id fun c => { c with animating := false, wiggling := false }).modifyCard
          id fun c => { c with animating := false, revealed := true } with
        outcome := { g₁.outcome with pendingReveals := g₁.outcome.pendingReveals - 1 } } : Game) id
      = some { card with
          autoRevealTimer := none, autoRevealScheduled := false, revealedFace := face
          animating := false, wiggling := false, revealed := true } := by
    have : ∀ X : Game, Game.findCard ({ X with
        outcome := { g₁.outcome with pendingReveals := g₁.outcome.pendingReveals - 1 } } : Game) id
        = X.findCard id := fun _ => rfl
    rw [this, findCard_modifyCard, findCard_modifyCard, hfind₂]
    · simp [hcid]
    · intro c
      rfl
    · intro c
      rfl
  have helG : Game.eligible ({ ((g₁.modifyCard id fun c =>
        { c with revealedFace := face }).modifyCard
        id fun c => { c with animating := false, wiggling := false }).modifyCard
          id fun c => { c with animating := false, revealed := true } with
        outcome := { g₁.outcome with pendingReveals := g₁.outcome.pendingReveals - 1 } } : Game) [id]
      = g.eligible [id] := by
    rw [eligible_of_cards ((g₁.modifyCard id fun c => { c with revealedFace := face }).modifyCard
        id fun c => { c with animating := false, wiggling := false }) _ id
        (fun c => { c with animating := false, revealed := true }) (fun _ => rfl) rfl,
      eligible_of_cards (g₁.modifyCard id fun c => { c with revealedFace := face }) _ id
        (fun c => { c with animating := false, wiggling := false }) (fun _ => rfl) rfl,
      eligible_of_cards g₁ _ id (fun c => { c with revealedFace := face }) (fun _ => rfl) rfl,
      eligible_of_cards g g₁ id
        (fun c => { c with autoRevealTimer := none, autoRevealScheduled := false })
        (fun _ => rfl) hf₇]
  have hswG : ∀ ordered, Game.sweepTimers ({ ((g₁.modifyCard id fun c =>
        { c with revealedFace := face }).modifyCard
        id fun c => { c with animating := false, wiggling := false }).modifyCard
          id fun c => { c with animating := false, revealed := true } with
        outcome := { g₁.outcome with pendingReveals := g₁.outcome.pendingReveals - 1 } } : Game)
        ordered = g.sweepTimers ordered :=
    fun ordered => sweepTimers_congr g _ ordered hf₁ hf₂ hf₄ hf₈
  obtain ⟨hH, hHreq, hHcase⟩ := handleCardRevealComplete_sweep _ id key _ hG hfindG rfl
    (show g₁.outcome.autoRevealTriggered = false by rw [ho₁]; exact huntr)
  rw [helG, hswG] at hHcase
  generalize Game.handleCardRevealComplete ({ ((g₁.modifyCard id fun c =>
        { c with revealedFace := face }).modifyCard
        id fun c => { c with animating := false, wiggling := false }).modifyCard
          id fun c => { c with animating := false, revealed := true } with
        outcome := { g₁.outcome with pendingReveals := g₁.outcome.pendingReveals - 1 } } : Game)
      id key = H at hH hHreq hHcase ⊢
  simp only [Game.modifyCard]
  have hwin : decide (g₁.outcome.betResult = some "win" ∧ g₁.outcome.winningKey ≠ none ∧
      face ≠ none ∧ face = g₁.outcome.winningKey) = true := by
    rw [ho₁, ← hkey]
    simp [hbet, hface]
  rw [if_pos trivial, if_pos hwin]
  have hHreq' : H.outcome.winningCountRequired = g.outcome.winningCountRequired := by
    rw [hHreq, ho₁]
  rcases hHcase with ⟨htrig, htimers⟩ | ⟨htrig, htimers, hel, hsw⟩
  · have hno : ¬(H.outcome.autoRevealTriggered = false ∧ H.outcome.winningCountRequired > 0 ∧
        g₁.outcome.revealedWinning + g₁.outcome.pendingWinningReveals + 1
          ≥ H.outcome.winningCountRequired) := by
      intro hc
      rw [htrig] at hc
      cases hc.1
    rw [if_neg hno]
    exact ⟨htrig, htimers⟩
  · have hyes : H.outcome.autoRevealTriggered = false ∧ H.outcome.winningCountRequired > 0 ∧
        g₁.outcome.revealedWinning + g₁.outcome.pendingWinningReveals + 1
          ≥ H.outcome.winningCountRequired := by
      rw [hHreq', ho₁]
      exact ⟨htrig, hreq, hcount⟩
    rw [if_pos hyes]
    have aux : ∀ X : Game,
        (X.cards = H.cards.map fun c =>
          if c.id = id then
            { c with
              pendingWinningReveal := decide (g₁.outcome.betResult = some "win" ∧
                g₁.outcome.winningKey ≠ none ∧ face ≠ none ∧ face = g₁.outcome.winningKey) }
          else c) →
        (X.detached = H.detached.map fun c =>
          if c.id = id then
            { c with
              pendingWinningReveal := decide (g₁.outcome.betResult = some "win" ∧
                g₁.outcome.winningKey ≠ none ∧ face ≠ none ∧ face = g₁.outcome.winningKey) }
          else c) →
        X.timers = H.timers → X.handles = H.handles → X.nextHandle = H.nextHandle →
        X.nextCardId = H.nextCardId → X.disableAnimations = H.disableAnimations →
        X.revealAllIntervalDelay = H.revealAllIntervalDelay →
        X.currentAssignments = H.currentAssignments →
        X.outcome.autoRevealTriggered = true →
        (X.revealRemainingTiles [id]).outcome.autoRevealTriggered = true ∧
          (X.revealRemainingTiles [id]).timers
            = g₁.timers ++ g.sweepTimers ((g.eligible [id]).insertionSort rowMajorLE) := by
      intro X hcards hdetached htm hhandles hnext hids hanimX hdelay hassign htrigX
      obtain ⟨-, hsweep⟩ := revealRemainingTiles_touched H X id
        (fun c =>
          { c with
            pendingWinningReveal := decide (g₁.outcome.betResult = some "win" ∧
              g₁.outcome.winningKey ≠ none ∧ face ≠ none ∧ face = g₁.outcome.winningKey) })
        hH (fun _ => rfl) (fun _ => rfl) (fun _ => rfl) hcards hdetached htm hhandles hnext hids
        hanimX hdelay hassign htrigX
      obtain ⟨ho, -, -⟩ := revealRemainingTiles_outcome X [id]
      refine ⟨by rw [ho], ?_⟩
      rw [hsweep, htimers, hel, hsw, hswG]
      rfl
    exact aux _ rfl rfl rfl rfl rfl rfl rfl rfl rfl rfl

end Game

/-- C17, amended: on every sound board, when `revealCard` is called on a tile T
that
`card.reveal` can start (T is neither destroyed nor revealed) with the winning
key of a 'win' round as face, `autoRevealTriggered` is false,
`winningCountRequired > 0` and
`revealedWinning + pendingWinningReveals + 1 >= winningCountRequired`, then when
`revealCard` returns `autoRevealTriggered` is true and one timer was added for
every eligible tile (not revealed, not destroyed, not animating, not already
scheduled) other than T, in row-major order, after the timers that were
pending; with animations enabled the flip of T is then still running, its
completion callback has not run and `pendingReveals` was incremented. With
animations enabled, under any other condition `revealCard` adds no timer and
leaves `autoRevealTriggered` as it was. In every case the timers that were
pending stay, except that of T itself, which `clearScheduledAutoReveal`
cancels. -/
theorem c17_sweep_triggered_at_issue (g : Game) (id : Nat) (face : Face) (card : Card)
    (h : Game.Sound g) (hfind : g.findCard id = some card) :
    (((card.destroyed = false ∧ card.revealed = false) ∧
          (g.outcome.betResult = some "win" ∧ face ≠ none ∧ face = g.outcome.winningKey) ∧
          g.outcome.autoRevealTriggered = false ∧ 0 < g.outcome.winningCountRequired ∧
          g.outcome.winningCountRequired
            ≤ g.outcome.revealedWinning + g.outcome.pendingWinningReveals + 1) →
        (g.revealCard id face).outcome.autoRevealTriggered = true ∧
        (∃ ordered : List Card,
          ordered.Perm (g.eligible [id]) ∧ ordered.Sorted Game.rowMajorLE ∧
          (g.revealCard id face).timers
            = (g.clearScheduledAutoReveal id).timers ++ g.sweepTimers ordered) ∧
        (g.disableAnimations = false → g.flipDuration ≠ 0 →
          (∃ key : Face,
            ({ cardId := id, key := key } : Flight) ∈ (g.revealCard id face).flights) ∧
          (g.revealCard id face).outcome.pendingReveals = g.outcome.pendingReveals + 1)) ∧
      (g.disableAnimations = false → g.flipDuration ≠ 0 →
        ¬((card.destroyed = false ∧ card.revealed = false) ∧
          (g.outcome.betResult = some "win" ∧ face ≠ none ∧ face = g.outcome.winningKey) ∧
          g.outcome.autoRevealTriggered = false ∧ 0 < g.outcome.winningCountRequired ∧
          g.outcome.winningCountRequired
            ≤ g.outcome.revealedWinning + g.outcome.pendingWinningReveals + 1) →
        (g.revealCard id face).timers = (g.clearScheduledAutoReveal id).timers ∧
        (g.revealCard id face).outcome.autoRevealTriggered = g.outcome.autoRevealTriggered) ∧
      (g.clearScheduledAutoReveal id).timers.Sublist g.timers ∧
      ∀ t ∈ (g.clearScheduledAutoReveal id).timers, t.cardId ≠ id := by
  refine ⟨?_, ?_, Game.clearScheduledAutoReveal_timers h id card hfind⟩
  · intro hcond
    by_cases hmode : g.disableAnimations = false ∧ g.flipDuration ≠ 0
    · obtain ⟨k₁, k₂, k₃, k₄⟩ :=
        (revealCard_sweep_animated g id face card h hfind hmode.1 hmode.2).1 hcond
      exact ⟨k₁, k₄, fun _ _ => ⟨k₂, k₃⟩⟩
    · have hdis : g.disableAnimations = true ∨ g.flipDuration = 0 := by
        by_cases ha : g.disableAnimations = true
        · exact Or.inl ha
        · right
          by_contra hf
          apply hmode
          refine ⟨?_, hf⟩
          cases hb : g.disableAnimations
          · rfl
          · exact absurd hb ha
      obtain ⟨⟨hd, hr⟩, ⟨hbet, hface, hkey⟩, huntr, hreq, hcount⟩ := hcond
      obtain ⟨k₁, k₂⟩ := Game.revealCard_sweep_instant g id face card h hfind hdis hd hr hbet
        hface hkey huntr hreq hcount
      exact ⟨k₁, ⟨_, List.perm_insertionSort _ _, Game.sorted_insertionSort_rowMajor _, k₂⟩,
        fun ha hf => absurd ⟨ha, hf⟩ hmode⟩
  · intro hanim hflip hnot
    exact (revealCard_sweep_animated g id face card h hfind hanim hflip).2.1 hnot

set_option maxRecDepth 100000 in
/-- C17 on the round `twoIssued`, animations enabled: the reveal of tile 12,
the third tile with the winning key `B`, sets `autoRevealTriggered` and
schedules the other eight tiles in row-major order while the flip of tile 12 is
running; the reveal of tile 9, whose face `A` is not the winning key, schedules
nothing. And on the round `oneInstant`, animations disabled: the reveal of tile
11 sets `autoRevealTriggered` and schedules the seven tiles that are not
revealed. -/
theorem c17_sweep_trigger_witness :
    Game.Sound Game.twoIssued ∧
      Game.twoIssued.outcome.winningCountRequired = 3 ∧
      Game.twoIssued.outcome.revealedWinning + Game.twoIssued.outcome.pendingWinningReveals = 2 ∧
      (Game.twoIssued.revealCard 12 (some "B")).outcome.autoRevealTriggered = true ∧
      (Game.twoIssued.revealCard 12 (some "B")).timers.map SweepTimer.cardId
        = [9, 10, 11, 13, 14, 15, 16, 17] ∧
      (Game.twoIssued.revealCard 9 (some "A")).timers
        = (Game.twoIssued.clearScheduledAutoReveal 9).timers ∧
      (Game.twoIssued.revealCard 9 (some "A")).timers = [] ∧
      Game.Sound Game.oneInstant ∧
      Game.oneInstant.outcome.revealedWinning + Game.oneInstant.outcome.pendingWinningReveals = 2 ∧
      (Game.oneInstant.revealCard 11 (some "B")).outcome.autoRevealTriggered = true ∧
      (Game.oneInstant.revealCard 11 (some "B")).timers.map SweepTimer.cardId
        = [9, 12, 13, 14, 15, 16, 17] :=
  ⟨Game.sound_of_check _ rfl, rfl, rfl,
    ((c17_sweep_triggered_at_issue Game.twoIssued 12 (some "B")
        ((Game.twoIssued.findCard 12).getD (Card.fresh 12 1 0))
        (Game.sound_of_check _ rfl) rfl).1
      ⟨⟨rfl, rfl⟩, ⟨rfl, by decide, rfl⟩, rfl, by decide, by decide⟩).1,
    rfl,
    ((c17_sweep_triggered_at_issue Game.twoIssued 9 (some "A")
        ((Game.twoIssued.findCard 9).getD (Card.fresh 9 0 0))
        (Game.sound_of_check _ rfl) rfl).2.1 rfl (by decide)
      (fun hcond => absurd hcond.2.1.2.2 (by decide))).1,
    rfl,
    Game.sound_of_check _ rfl, rfl,
    ((c17_sweep_triggered_at_issue Game.oneInstant 11 (some "B")
        ((Game.oneInstant.findCard 11).getD (Card.fresh 11 0 2))
        (Game.sound_of_check _ rfl) rfl).1
      ⟨⟨rfl, rfl⟩, ⟨rfl, by decide, rfl⟩, rfl, by decide, by decide⟩).1,
    rfl⟩

set_option maxRecDepth 100000 in
/-- C17, as stated, fails when animations are disabled, because the flip then
completes inside `card.reveal`. On the round `twoDoneInstant` tile 12 can be
revealed, its face `B` is the winning key of the 'win' round,
`autoRevealTriggered` is false, `winningCountRequired` is 3 and
`revealedWinning + pendingWinningReveals + 1` is 3. When `card.reveal` returns
inside `revealCard(12, 'B')`, before the issue-time test is reached, the
completion callback of tile 12 has run (the tile is revealed and counted in
`revealedWinning`) and it is this callback that has set `autoRevealTriggered`
and scheduled the six timers; the issue-time test then finds the flag set and
adds nothing. And when `revealCard` is called on tile 12 with no face, so that
the face is not the winning key and the issue-time test is skipped, the
completion callback reads the face `B` assigned to the tile and `revealCard`
returns with `autoRevealTriggered` set and the same six timers scheduled. -/
theorem c17_completion_runs_inside_revealCard :
    Game.Sound Game.twoDoneInstant ∧
      Game.twoDoneInstant.disableAnimations = true ∧
      (Game.twoDoneInstant.findCard 12).map (fun c => (c.destroyed, c.revealed, c.assignedContent))
        = some (false, false, some "B") ∧
      (Game.twoDoneInstant.outcome.betResult, Game.twoDoneInstant.outcome.winningKey,
          Game.twoDoneInstant.outcome.autoRevealTriggered,
          Game.twoDoneInstant.outcome.winningCountRequired,
          Game.twoDoneInstant.outcome.revealedWinning,
          Game.twoDoneInstant.outcome.pendingWinningReveals, Game.twoDoneInstant.timers)
        = (some "win", some "B", false, 3, 2, 0, []) ∧
      (Game.cardReveal
          ((Game.twoDoneInstant.clearScheduledAutoReveal 12).modifyCard 12 fun c =>
            { c with revealedFace := some "B" }) 12 (some "B")).1 = true ∧
      ((Game.cardReveal
          ((Game.twoDoneInstant.clearScheduledAutoReveal 12).modifyCard 12 fun c =>
            { c with revealedFace := some "B" }) 12 (some "B")).2.findCard 12).map
          (fun c => c.revealed) = some true ∧
      ((Game.cardReveal
          ((Game.twoDoneInstant.clearScheduledAutoReveal 12).modifyCard 12 fun c =>
            { c with revealedFace := some "B" }) 12 (some "B")).2.outcome.autoRevealTriggered,
        (Game.cardReveal
          ((Game.twoDoneInstant.clearScheduledAutoReveal 12).modifyCard 12 fun c =>
            { c with revealedFace := some "B" }) 12 (some "B")).2.outcome.revealedWinning,
        (Game.cardReveal
          ((Game.twoDoneInstant.clearScheduledAutoReveal 12).modifyCard 12 fun c =>
            { c with revealedFace := some "B" }) 12 (some "B")).2.timers.map SweepTimer.cardId)
        = (true, 3, [9, 13, 14, 15, 16, 17]) ∧
      (Game.twoDoneInstant.revealCard 12 (some "B")).timers
        = (Game.cardReveal
          ((Game.twoDoneInstant.clearScheduledAutoReveal 12).modifyCard 12 fun c =>
            { c with revealedFace := some "B" }) 12 (some "B")).2.timers ∧
      (Game.twoDoneInstant.revealCard 12 (some "B")).flights = [] ∧
      ((Game.twoDoneInstant.revealCard 12 none).outcome.autoRevealTriggered,
        (Game.twoDoneInstant.revealCard 12 none).timers.map SweepTimer.cardId,
        (Game.twoDoneInstant.clearScheduledAutoReveal 12).timers)
        = (true, [9, 13, 14, 15, 16, 17], []) :=
  ⟨Game.sound_of_check _ rfl, rfl, rfl, rfl, rfl, rfl, rfl, rfl, rfl, rfl⟩

theorem tracks_primaryLoop (primaryType : Face) (slots : Nat) (positions : List Position)
    (st : GenState) (h : Tracks st) : Tracks (primaryLoop primaryType slots positions st).2 := by
  induction slots generalizing positions st with
  | zero => simpa [primaryLoop] using h
  | succ n ih =>
    cases positions with
    | nil => simpa [primaryLoop] using h
    | cons p rest =>
      simp only [primaryLoop]
      apply ih
      intro key
      simp only [countOf_set, occurrences_append, occurrences_singleton]
      by_cases hk : primaryType = key
      · subst hk
        simp [h primaryType]
      · simp [hk, h key]

theorem tracks_assignLoop (cardTypes : List Face) (cap : Face → Nat) (positions : List Position)
    (st : GenState) (h : Tracks st) : Tracks (assignLoop cardTypes cap positions st) := by
  induction positions generalizing st with
  | nil => simpa [assignLoop] using h
  | cons p rest ih => exact ih _ (tracks_assignStep _ _ _ _ h)

/-- The type a step picks is under its cap, or no type of the catalog is. -/
theorem assignStep_pick (cardTypes : List Face) (cap : Face → Nat) (st : GenState)
    (hne : cardTypes ≠ []) :
    (chooseType (poolOf cardTypes cap st.counts) st.rng).1 ∈ cardTypes ∧
    (countOf st.counts (chooseType (poolOf cardTypes cap st.counts) st.rng).1
        < cap (chooseType (poolOf cardTypes cap st.counts) st.rng).1 ∨
      (cardTypes.filter fun type => decide (countOf st.counts type < cap type)) = []) := by
  have hmem := chooseType_mem (poolOf cardTypes cap st.counts) st.rng
    (poolOf_ne_nil cardTypes cap st.counts hne)
  by_cases hav : (cardTypes.filter fun type => decide (countOf st.counts type < cap type)) = []
  · refine ⟨?_, Or.inr hav⟩
    have hpool : poolOf cardTypes cap st.counts = cardTypes := by
      unfold poolOf
      simp only [hav, List.length_nil, gt_iff_lt, lt_self_iff_false, ↓reduceIte]
    rw [hpool] at hmem ⊢
    exact hmem
  · have hpool : poolOf cardTypes cap st.counts
        = cardTypes.filter fun type => decide (countOf st.counts type < cap type) := by
      unfold poolOf
      simp only
      rw [if_pos (List.length_pos.mpr hav)]
    generalize (chooseType (poolOf cardTypes cap st.counts) st.rng).1 = pick at hmem ⊢
    rw [hpool, List.mem_filter] at hmem
    exact ⟨hmem.1, Or.inl (by simpa using hmem.2)⟩

theorem filter_eq_nil_full (cardTypes : List Face) (cap : Face → Nat) (st : GenState)
    (htr : Tracks st)
    (h : (cardTypes.filter fun type => decide (countOf st.counts type < cap type)) = []) :
    ∀ k ∈ cardTypes, cap k ≤ occurrences k st.assignments := by
  intro k hk
  have hnot : k ∉ cardTypes.filter fun type => decide (countOf st.counts type < cap type) := by
    rw [h]; simp
  rw [List.mem_filter] at hnot
  have : ¬ countOf st.counts k < cap k := fun hlt => hnot ⟨hk, by simpa using hlt⟩
  rw [← htr k]
  omega

theorem OverCapOnlyWhenFull.push {cardTypes : List Face} {cap : Face → Nat} {xs : List Entry}
    {e : Entry} (h : OverCapOnlyWhenFull cardTypes cap xs)
    (he : cap e.contentKey ≤ occurrences e.contentKey xs →
      ∀ k ∈ cardTypes, cap k ≤ occurrences k xs) :
    OverCapOnlyWhenFull cardTypes cap (xs ++ [e]) := by
  intro i e' hi hover
  rcases Nat.lt_trichotomy i xs.length with hlt | heq | hgt
  · rw [List.getElem?_append_left hlt] at hi
    rw [List.take_append_of_le_length (le_of_lt hlt)] at hover ⊢
    exact h i e' hi hover
  · subst heq
    rw [List.getElem?_append_right (le_refl _)] at hi
    simp only [Nat.sub_self, List.getElem?_cons_zero, Option.some.injEq] at hi
    subst hi
    rw [List.take_left'  rfl] at hover ⊢
    exact he hover
  · rw [List.getElem?_eq_none (by simp; omega)] at hi
    exact absurd hi (by simp)

theorem overCap_assignStep (cardTypes : List Face) (cap : Face → Nat) (st : GenState)
    (p : Position) (hne : cardTypes ≠ []) (htr : Tracks st)
    (h : OverCapOnlyWhenFull cardTypes cap st.assignments) :
    OverCapOnlyWhenFull cardTypes cap (assignStep cardTypes cap st p).assignments := by
  simp only [assignStep]
  apply h.push
  intro hover
  rcases (assignStep_pick cardTypes cap st hne).2 with hlt | hfull
  · rw [htr] at hlt
    simp only at hover
    omega
  · exact filter_eq_nil_full cardTypes cap st htr hfull

theorem overCap_assignLoop (cardTypes : List Face) (cap : Face → Nat) (positions : List Position)
    (st : GenState) (hne : cardTypes ≠ []) (htr : Tracks st)
    (h : OverCapOnlyWhenFull cardTypes cap st.assignments) :
    OverCapOnlyWhenFull cardTypes cap (assignLoop cardTypes cap positions st).assignments := by
  induction positions generalizing st with
  | nil => simpa [assignLoop] using h
  | cons p rest ih =>
    exact ih _ (tracks_assignStep _ _ _ _ htr) (overCap_assignStep _ _ _ _ hne htr h)

theorem take_three_of_length_nine {α : Type} (l : List α) (h : l.length = 9) :
    ∃ a b c, l.take 3 = [a, b, c] := by
  match l, h with
  | a :: b :: c :: _, _ => exact ⟨a, b, c, rfl⟩

/-- The win branch as its two loops: the state after the primary loop holds
the winning key three times, and the second loop runs from it over the six
positions left. -/
theorem generate_win_state (catalog : List String) (rng : Rng) :
    ∃ (st₀ : GenState) (rest : List Position) (a b c : Position),
      Tracks st₀ ∧ rest.length = 6 ∧
      st₀.assignments
        = [{ row := a.row, col := a.col,
             contentKey := (generateScratchCardAssignments catalog "win" rng).1.winningKey },
           { row := b.row, col := b.col,
             contentKey := (generateScratchCardAssignments catalog "win" rng).1.winningKey },
           { row := c.row, col := c.col,
             contentKey := (generateScratchCardAssignments catalog "win" rng).1.winningKey }] ∧
      (generateScratchCardAssignments catalog "win" rng).1.assignments
        = (assignLoop (cardTypesOf catalog)
            (fun type =>
              if type = (generateScratchCardAssignments catalog "win" rng).1.winningKey then 3
              else 2) rest st₀).assignments := by
  have hlen : (shuffleArray createCardPositions rng).1.length = 9 := by
    rw [shuffleArray_length]; decide
  have hprim : ∀ l : List Face, (if l.length > 0 then (l[0]?).join else none) = (l[0]?).join := by
    intro l
    cases l <;> simp
  obtain ⟨a, b, c, habc⟩ := take_three_of_length_nine _ hlen
  refine ⟨(primaryLoop ((shuffleArray (cardTypesOf catalog)
      (shuffleArray createCardPositions rng).2).1[0]?).join 3
      (shuffleArray createCardPositions rng).1
      { assignments := [],
        counts := JsMap.ofEntries ((cardTypesOf catalog).map fun key => (key, 0)),
        rng := (shuffleArray (cardTypesOf catalog) (shuffleArray createCardPositions rng).2).2 }).2,
    (shuffleArray createCardPositions rng).1.drop 3, a, b, c,
    tracks_primaryLoop _ _ _ _ (tracks_initial _ _), by simp [hlen], ?_, ?_⟩
  · obtain ⟨-, -, -, hkey⟩ := generate_win catalog rng
    rw [primaryLoop_assignments, habc, hkey]
    simp
  · simp only [generateScratchCardAssignments, if_true, hprim, hlen]
    rw [primaryLoop_positions]
    rfl

theorem erase_distinct (types : List Face) (w : Face) :
    types.dedup.length ≤ (types.filter fun t => decide (t ≠ w)).dedup.length + 1 := by
  classical
  rw [← List.card_toFinset, ← List.card_toFinset, List.toFinset_filter]
  have h : Finset.filter (fun t => decide (t ≠ w) = true) types.toFinset
      = types.toFinset.erase w := by
    ext x
    simp [Finset.mem_erase, and_comm]
  rw [h]
  have := Finset.pred_card_le_card_erase (s := types.toFinset) (a := w)
  omega

/-- When every type other than `w` occurs at least twice among the entries,
these hold two entries for each such distinct type besides those of `w`. -/
theorem full_needs_room (types : List Face) (w : Face) (xs : List Entry)
    (h : ∀ k ∈ types, k ≠ w → 2 ≤ occurrences k xs) :
    2 * (types.dedup.length - 1) + occurrences w xs ≤ xs.length := by
  have hall : ∀ k ∈ types.filter (fun t => decide (t ≠ w)),
      2 ≤ ((xs.map Entry.contentKey).filter fun x => decide (x ≠ w)).countP
        fun x => decide (x = k) := by
    intro k hk
    rw [List.mem_filter] at hk
    have hkw : k ≠ w := by simpa using hk.2
    have := h k hk.1 hkw
    rw [occurrences_eq_countP_keys] at this
    rw [List.countP_filter]
    have hfun : (fun x : Face => decide (x = k) && decide (x ≠ w))
        = fun x : Face => decide (x = k) := by
      funext x
      by_cases hx : x = k
      · subst hx; simp [hkw]
      · simp [hx]
    rw [hfun]
    exact this
  have hbound := distinct_mul_le_length _ _ 2 hall
  have hsplit := List.length_eq_countP_add_countP (fun x : Face => decide (x = w))
    (xs.map Entry.contentKey)
  rw [List.length_map] at hsplit
  have hocc : occurrences w xs
      = List.countP (fun x : Face => decide (x = w)) (xs.map Entry.contentKey) :=
    occurrences_eq_countP_keys w xs
  have hrest : (List.filter (fun x : Face => decide (x ≠ w)) (xs.map Entry.contentKey)).length
      = List.countP (fun x : Face => ¬ (decide (x = w)) = true) (xs.map Entry.contentKey) := by
    rw [List.countP_eq_length_filter]
    congr 1
    apply List.filter_congr
    intro x _
    by_cases hx : x = w <;> simp [hx]
  have hd := erase_distinct types w
  rw [hrest] at hbound
  omega

theorem assignLoop_keys_mem (cardTypes : List Face) (cap : Face → Nat)
    (positions : List Position) (st : GenState) (hne : cardTypes ≠ []) :
    ∀ e ∈ (assignLoop cardTypes cap positions st).assignments,
      e ∈ st.assignments ∨ e.contentKey ∈ cardTypes := by
  induction positions generalizing st with
  | nil => intro e he; exact Or.inl (by simpa [assignLoop] using he)
  | cons p rest ih =>
    intro e he
    rcases ih (assignStep cardTypes cap st p) e he with h | h
    · simp only [assignStep, List.mem_append, List.mem_singleton] at h
      rcases h with h | h
      · exact Or.inl h
      · subst h
        exact Or.inr (assignStep_pick cardTypes cap st hne).1
    · exact Or.inr h

/-- Nine entries over at most four distinct keys hold some key three times. -/
theorem some_key_thrice (types : List Face) (xs : List Entry)
    (hmem : ∀ e ∈ xs, e.contentKey ∈ types) (hd : types.dedup.length ≤ 4)
    (hlen : xs.length = 9) : ∃ k ∈ types, 3 ≤ occurrences k xs := by
  classical
  by_contra hcon
  push_neg at hcon
  have hcount : ∀ k, Multiset.count k ((xs.map Entry.contentKey : List Face) : Multiset Face)
      = occurrences k xs := by
    intro k
    rw [occurrences_eq_countP_keys]
    show Multiset.countP (k = ·) ((xs.map Entry.contentKey : List Face) : Multiset Face) = _
    rw [Multiset.coe_countP]
    congr 1
    funext x
    simp [eq_comm]
  have hm : ∀ a ∈ ((xs.map Entry.contentKey : List Face) : Multiset Face),
      a ∈ types.toFinset := by
    intro a ha
    rw [Multiset.mem_coe, List.mem_map] at ha
    obtain ⟨e, he, rfl⟩ := ha
    exact List.mem_toFinset.mpr (hmem e he)
  have hsum := Multiset.sum_count_eq_card hm
  have hle : ∑ k in types.toFinset,
      Multiset.count k ((xs.map Entry.contentKey : List Face) : Multiset Face)
      ≤ ∑ _k in types.toFinset, 2 := by
    apply Finset.sum_le_sum
    intro k hk
    rw [hcount]
    have := hcon k (List.mem_toFinset.mp hk)
    omega
  rw [hsum] at hle
  simp only [Multiset.coe_card, List.length_map, hlen, Finset.sum_const, smul_eq_mul,
    List.card_toFinset] at hle
  omega

theorem no_fallback_assignLoop (cardTypes : List Face) (cap : Nat) (positions : List Position)
    (st : GenState) (htr : Tracks st)
    (hroom : st.assignments.length + positions.length ≤ cap * cardTypes.dedup.length) :
    usesFallback cardTypes (fun _ => cap) positions st = false := by
  induction positions generalizing st with
  | nil => rfl
  | cons p rest ih =>
    simp only [List.length_cons] at hroom
    have hav := available_ne_nil cardTypes cap st htr (by omega)
    have hlen : (assignStep cardTypes (fun _ => cap) st p).assignments.length
        = st.assignments.length + 1 := by simp [assignStep]
    simp only [usesFallback, Bool.or_eq_false_iff]
    refine ⟨?_, ih _ (tracks_assignStep _ _ _ _ htr) (by rw [hlen]; omega)⟩
    cases hl : List.filter (fun type => decide (countOf st.counts type < cap)) cardTypes with
    | nil => exact absurd hl hav
    | cons x l => rfl

theorem win_capped_assignLoop (cardTypes : List Face) (w : Face) (positions : List Position)
    (st : GenState) (hne : cardTypes ≠ []) (hd : 4 ≤ cardTypes.dedup.length) (htr : Tracks st)
    (hw : occurrences w st.assignments = 3)
    (hcap : ∀ k, k ≠ w → occurrences k st.assignments ≤ 2)
    (hroom : st.assignments.length + positions.length ≤ 9) :
    occurrences w
        (assignLoop cardTypes (fun t => if t = w then 3 else 2) positions st).assignments = 3 ∧
      ∀ k, k ≠ w →
        occurrences k
          (assignLoop cardTypes (fun t => if t = w then 3 else 2) positions st).assignments
          ≤ 2 := by
  induction positions generalizing st with
  | nil => exact ⟨by simpa [assignLoop] using hw, by simpa [assignLoop] using hcap⟩
  | cons p rest ih =>
    simp only [List.length_cons] at hroom
    have hlen : (assignStep cardTypes (fun t => if t = w then 3 else 2) st p).assignments.length
        = st.assignments.length + 1 := by simp [assignStep]
    have hpick := (assignStep_pick cardTypes (fun t => if t = w then 3 else 2) st hne).2
    have hunder : countOf st.counts
        (chooseType (poolOf cardTypes (fun t => if t = w then 3 else 2) st.counts) st.rng).1
        < (fun t => if t = w then 3 else 2)
          (chooseType (poolOf cardTypes (fun t => if t = w then 3 else 2) st.counts) st.rng).1 := by
      rcases hpick with h | h
      · exact h
      · exfalso
        have hfull := filter_eq_nil_full cardTypes _ st htr h
        have hroom' := full_needs_room cardTypes w st.assignments (by
          intro k hk hkw
          have := hfull k hk
          simpa [hkw] using this)
        omega
    have hstep : occurrences w
          (assignStep cardTypes (fun t => if t = w then 3 else 2) st p).assignments = 3 ∧
        ∀ k, k ≠ w →
          occurrences k (assignStep cardTypes (fun t => if t = w then 3 else 2) st p).assignments
            ≤ 2 := by
      simp only [assignStep, occurrences_append, occurrences_singleton]
      generalize (chooseType (poolOf cardTypes (fun t => if t = w then 3 else 2) st.counts)
        st.rng).1 = pick at hunder
      rw [htr] at hunder
      by_cases hpw : pick = w
      · subst hpw
        simp only [↓reduceIte] at hunder
        omega
      · simp only [hpw, ↓reduceIte] at hunder
        refine ⟨by simp [hpw, hw], ?_⟩
        intro k hk
        by_cases hpk : pick = k
        · subst hpk
          simp only [↓reduceIte]
          omega
        · have := hcap k hk
          simp only [hpk, ↓reduceIte]
          omega
    exact ih _ (tracks_assignStep _ _ _ _ htr) hstep.1 hstep.2 (by rw [hlen]; omega)

theorem cardTypesOf_distinct (catalog : List String) (n : Nat) (h : n + 1 ≤ catalog.dedup.length) :
    (cardTypesOf catalog).dedup.length = catalog.dedup.length := by
  have hne : catalog ≠ [] := by
    intro hnil
    rw [hnil] at h
    simp at h
  unfold cardTypesOf
  rw [if_pos (List.length_pos.mpr hne),
    List.dedup_map_of_injective (Option.some_injective String), List.length_map]

theorem cardTypesOf_distinct_le (catalog : List String) (h : catalog.dedup.length ≤ 4) :
    (cardTypesOf catalog).dedup.length ≤ 4 := by
  unfold cardTypesOf
  split
  · rw [List.dedup_map_of_injective (Option.some_injective String), List.length_map]
    exact h
  · decide

/-- C27: for `betResult = 'lost'` on the 3x3 grid and any random draws: when
the catalog holds at least 5 distinct keys the full-catalog fallback is never
taken and every content key (and null) occurs at most 2 times in the generated
assignments; when it holds at most 4 distinct keys some key of `cardTypes`
(a catalog key, or null for the empty catalog) occurs at least 3 times. -/
theorem c27_lost_cap_by_catalog_size (catalog : List String) (rng : Rng) :
    (5 ≤ catalog.dedup.length →
      lostUsesFallback catalog rng = false ∧
      ∀ key : Face,
        occurrences key (generateScratchCardAssignments catalog "lost" rng).1.assignments ≤ 2) ∧
    (catalog.dedup.length ≤ 4 →
      ∃ key ∈ cardTypesOf catalog,
        3 ≤ occurrences key
          (generateScratchCardAssignments catalog "lost" rng).1.assignments) := by
  have hshape := generate_lost catalog "lost" rng (by decide)
  have hlen : (shuffleArray createCardPositions rng).1.length = 9 := by
    rw [shuffleArray_length]; decide
  constructor
  · intro hfive
    have hdistinct := cardTypesOf_distinct catalog 4 hfive
    have hroom : ([] : List Entry).length + (shuffleArray createCardPositions rng).1.length
        ≤ 2 * (cardTypesOf catalog).dedup.length := by
      rw [hlen, hdistinct]
      simp only [List.length_nil]
      omega
    constructor
    · unfold lostUsesFallback
      exact no_fallback_assignLoop _ 2 _ _ (tracks_initial _ _) hroom
    · intro key
      rw [hshape]
      dsimp only
      exact capped_assignLoop (cardTypesOf catalog) 2 _ _ (tracks_initial _ _)
        (fun k => Nat.zero_le 2) hroom key
  · intro hfour
    have hnine : (generateScratchCardAssignments catalog "lost" rng).1.assignments.length
        = 9 := by
      rw [hshape]
      obtain ⟨tail, hass, htail⟩ := assignLoop_assignments (cardTypesOf catalog) (fun _ => 2)
        (shuffleArray createCardPositions rng).1
        { assignments := [],
          counts := JsMap.ofEntries ((cardTypesOf catalog).map fun key => (key, 0)),
          rng := (shuffleArray createCardPositions rng).2 }
      have := congrArg List.length htail
      rw [List.length_map, hlen] at this
      simp only [hass, List.nil_append, this]
    apply some_key_thrice _ _ _ (cardTypesOf_distinct_le catalog hfour) hnine
    intro e he
    rw [hshape] at he
    rcases assignLoop_keys_mem _ _ _ _ (cardTypesOf_ne_nil catalog) e he with h | h
    · exact absurd h (by simp)
    · exact h

theorem c27_lost_cap_witness :
    (lostUsesFallback ["A", "B", "C", "D", "E"] [1, 2] = false ∧
      ∀ key : Face,
        occurrences key
          (generateScratchCardAssignments ["A", "B", "C", "D", "E"] "lost" [1, 2]).1.assignments
          ≤ 2) ∧
    ∃ key ∈ cardTypesOf ["A", "B", "C", "D"],
      3 ≤ occurrences key
        (generateScratchCardAssignments ["A", "B", "C", "D"] "lost" [1, 2]).1.assignments :=
  ⟨(c27_lost_cap_by_catalog_size ["A", "B", "C", "D", "E"] [1, 2]).1 (by decide),
   (c27_lost_cap_by_catalog_size ["A", "B", "C", "D"] [1, 2]).2 (by decide)⟩

/-- C28: for `betResult = 'win'` on the 3x3 grid and any random draws, with
cap 3 for the winning key and 2 for any other key: an entry whose key had
already reached its cap among the entries pushed before it was pushed when
every key of `cardTypes` had reached its cap; and when the catalog holds at
least 4 distinct keys, the winning key occurs exactly 3 times and every other
key (and null) at most 2 times. -/
theorem c28_win_caps (catalog : List String) (rng : Rng) :
    OverCapOnlyWhenFull (cardTypesOf catalog)
      (fun type =>
        if type = (generateScratchCardAssignments catalog "win" rng).1.winningKey then 3 else 2)
      (generateScratchCardAssignments catalog "win" rng).1.assignments ∧
    (4 ≤ catalog.dedup.length →
      occurrences (generateScratchCardAssignments catalog "win" rng).1.winningKey
          (generateScratchCardAssignments catalog "win" rng).1.assignments = 3 ∧
      ∀ key : Face, key ≠ (generateScratchCardAssignments catalog "win" rng).1.winningKey →
        occurrences key (generateScratchCardAssignments catalog "win" rng).1.assignments
          ≤ 2) := by
  obtain ⟨st₀, rest, a, b, c, htr, hrest, hst, hout⟩ := generate_win_state catalog rng
  generalize (generateScratchCardAssignments catalog "win" rng).1.winningKey = w at hst hout ⊢
  have hocc : ∀ k, occurrences k st₀.assignments = if k = w then 3 else 0 := by
    intro k
    rw [hst]
    by_cases hk : k = w
    · subst hk; simp [occurrences]
    · have hk' : ¬ w = k := fun h => hk h.symm
      simp [occurrences, hk, hk']
  constructor
  · rw [hout]
    apply overCap_assignLoop _ _ _ _ (cardTypesOf_ne_nil catalog) htr
    rw [hst]
    have h₀ : OverCapOnlyWhenFull (cardTypesOf catalog) (fun type => if type = w then 3 else 2)
        [] := by
      intro i e hi
      simp at hi
    have h₁ := h₀.push (e := { row := a.row, col := a.col, contentKey := w }) (by
      intro h; simp [occurrences] at h)
    have h₂ := h₁.push (e := { row := b.row, col := b.col, contentKey := w }) (by
      intro h; simp [occurrences] at h)
    have h₃ := h₂.push (e := { row := c.row, col := c.col, contentKey := w }) (by
      intro h; simp [occurrences] at h)
    simpa using h₃
  · intro hfour
    have hdistinct := cardTypesOf_distinct catalog 3 hfour
    rw [hout]
    apply win_capped_assignLoop _ _ _ _ (cardTypesOf_ne_nil catalog) (by omega) htr
    · rw [hocc]; simp
    · intro k hk
      rw [hocc]; simp [hk]
    · rw [hst, hrest]; simp

theorem c28_win_caps_witness :
    occurrences (generateScratchCardAssignments ["A", "B", "C", "D"] "win" [3, 5, 1]).1.winningKey
        (generateScratchCardAssignments ["A", "B", "C", "D"] "win" [3, 5, 1]).1.assignments = 3 ∧
      ∀ key : Face,
        key ≠ (generateScratchCardAssignments ["A", "B", "C", "D"] "win" [3, 5, 1]).1.winningKey →
        occurrences key
          (generateScratchCardAssignments ["A", "B", "C", "D"] "win" [3, 5, 1]).1.assignments
          ≤ 2 :=
  (c28_win_caps ["A", "B", "C", "D"] [3, 5, 1]).2 (by decide)

namespace JsMap

variable {κ υ : Type} [DecidableEq κ]

theorem get_eq_none_iff (m : JsMap κ υ) (k : κ) : get m k = none ↔ k ∉ m.map Prod.fst := by
  induction m with
  | nil => simp [get]
  | cons e rest ih =>
    obtain ⟨a, b⟩ := e
    by_cases h : a = k
    · simp [get, h]
    · have h' : ¬ k = a := fun e => h e.symm
      simp [get, h, h', ih]

theorem has_iff_mem (m : JsMap κ υ) (k : κ) : has m k = true ↔ k ∈ m.map Prod.fst := by
  unfold has
  rw [Option.isSome_iff_ne_none, Ne, get_eq_none_iff, not_not]

theorem keys_set_of_not_mem (m : JsMap κ υ) (k : κ) (v : υ) (h : k ∉ m.map Prod.fst) :
    (set m k v).map Prod.fst = m.map Prod.fst ++ [k] := by
  induction m with
  | nil => simp [set]
  | cons e rest ih =>
    obtain ⟨a, b⟩ := e
    simp only [List.map_cons, List.mem_cons, not_or] at h
    have h' : ¬ a = k := fun e => h.1 e.symm
    simp [set, h', ih h.2]

end JsMap

namespace GameRules

theorem counted_create (n : Nat) (hn : 1 ≤ n) : Counted n (create n) := by
  refine ⟨by simp [recorded, create, reset], rfl, Nat.zero_le _, rfl, ?_⟩
  have : 0 < n * n := Nat.mul_pos hn hn
  simp only [create, reset]
  constructor
  · intro h; exact absurd h (by simp)
  · intro h; omega

theorem Counted.reset {n : Nat} {g : GameRules} (hn : 1 ≤ n) (hg : g.gridSize = n) :
    Counted n (reset g) := by
  refine ⟨by simp [recorded, GameRules.reset], rfl, Nat.zero_le _, by simp [GameRules.reset, hg],
    ?_⟩
  have : 0 < n * n := Nat.mul_pos hn hn
  simp only [GameRules.reset, hg]
  constructor
  · intro h; exact absurd h (by simp)
  · intro h; omega

theorem Counted.setAssignments {n : Nat} {g : GameRules} (hn : 1 ≤ n) (h : Counted n g)
    (map : Option (List (TileKey × Face))) : Counted n (setAssignments g map) := by
  refine ⟨by simp [recorded, GameRules.setAssignments], rfl, Nat.zero_le _, h.total, ?_⟩
  have : 0 < n * n := Nat.mul_pos hn hn
  have ht := h.total
  simp only [GameRules.setAssignments]
  constructor
  · intro h; exact absurd h (by simp)
  · intro h; omega

/-- What `revealResult` does to the records: nothing, or one new position. -/
theorem revealResult_recorded (g : GameRules) (row col : Int) (result : Face) :
    ((revealResult g row col result).2.recorded = g.recorded ∧
      (revealResult g row col result).2.revealedCount = g.revealedCount ∧
      (revealResult g row col result).2.gameOver = g.gameOver ∧
      (revealResult g row col result).2.totalTiles = g.totalTiles) ∨
    (g.gameOver = false ∧ getCardKey row col ∉ g.recorded ∧
      (revealResult g row col result).2.recorded = g.recorded ++ [getCardKey row col] ∧
      (revealResult g row col result).2.revealedCount = g.revealedCount + 1 ∧
      (revealResult g row col result).2.gameOver
        = decide (g.totalTiles ≤ g.revealedCount + 1) ∧
      (revealResult g row col result).2.totalTiles = g.totalTiles) := by
  by_cases hover : g.gameOver = true
  · left
    simp [revealResult, hover]
  · have hover' : g.gameOver = false := by simpa using hover
    cases hrec : JsMap.get g.revealedMap (getCardKey row col) with
    | some recorded => left; simp [revealResult, hover', hrec]
    | none =>
      right
      have hnot := (JsMap.get_eq_none_iff _ _).mp hrec
      refine ⟨hover', hnot, ?_, ?_, ?_, ?_⟩
      · simp only [recorded, revealResult, hover', hrec, Bool.false_eq_true, ↓reduceIte]
        exact JsMap.keys_set_of_not_mem _ _ _ hnot
      · simp [revealResult, hover', hrec]
      · by_cases hlast : g.totalTiles ≤ g.revealedCount + 1 <;>
          simp [revealResult, hover', hrec, hlast]
      · simp [revealResult, hover', hrec]

theorem Counted.revealResult {n : Nat} {g : GameRules} (h : Counted n g) (row col : Int)
    (result : Face) : Counted n (revealResult g row col result).2 := by
  rcases revealResult_recorded g row col result with ⟨h₁, h₂, h₃, h₄⟩ | ⟨h₀, hnot, h₁, h₂, h₃, h₄⟩
  · exact ⟨by rw [h₁]; exact h.distinct, by rw [h₁, h₂]; exact h.count,
      by rw [h₂, h₄]; exact h.bound, by rw [h₄]; exact h.total, by rw [h₂, h₃, h₄]; exact h.over⟩
  · have hlt : g.revealedCount < g.totalTiles := by
      have hb := h.bound
      have ho := h.over
      rw [h₀] at ho
      by_contra hge
      have : g.totalTiles ≤ g.revealedCount := by omega
      exact absurd (ho.mpr this) (by simp)
    refine ⟨?_, ?_, ?_, by rw [h₄]; exact h.total, ?_⟩
    · rw [h₁]
      exact List.Nodup.append h.distinct (by simp) (by simpa using hnot)
    · rw [h₁, h₂, h.count]; simp
    · rw [h₂, h₄]; omega
    · rw [h₂, h₃, h₄]; simp

theorem Reachable.gridSize {n : Nat} {g : GameRules} (h : Reachable n g) : g.gridSize = n := by
  induction h with
  | create => rfl
  | reset _ ih => simpa [GameRules.reset] using ih
  | setAssignments map _ ih => simpa [GameRules.setAssignments] using ih
  | selectTile row col _ ih => simpa [GameRules.selectTile] using ih
  | clearSelection _ ih => simpa [GameRules.clearSelection] using ih
  | revealResult row col result _ ih =>
    rw [← ih]
    simp only [GameRules.revealResult]
    split
    · rfl
    · split <;> rfl

theorem Reachable.counted {n : Nat} (hn : 1 ≤ n) {g : GameRules} (h : Reachable n g) :
    Counted n g := by
  induction h with
  | create => exact counted_create n hn
  | reset hg _ => exact Counted.reset hn hg.gridSize
  | setAssignments map _ ih => exact ih.setAssignments hn map
  | selectTile row col _ ih => exact ⟨ih.distinct, ih.count, ih.bound, ih.total, ih.over⟩
  | clearSelection _ ih => exact ⟨ih.distinct, ih.count, ih.bound, ih.total, ih.over⟩
  | revealResult row col result _ ih => exact ih.revealResult row col result

end GameRules

namespace GameRules

theorem applyOp_counted {n : Nat} {g : GameRules} (h : Counted n g) (op : RoundOp) :
    Counted n (applyOp g op) := by
  cases op with
  | selectTile row col => exact ⟨h.distinct, h.count, h.bound, h.total, h.over⟩
  | clearSelection => exact ⟨h.distinct, h.count, h.bound, h.total, h.over⟩
  | getState => exact h
  | revealResult row col result => exact h.revealResult row col result

theorem applyOp_recorded_inRange {n : Nat} {g : GameRules} (op : RoundOp)
    (hop : inRange n op = true)
    (h : ∀ k ∈ g.recorded, 0 ≤ k.1 ∧ k.1 < n ∧ 0 ≤ k.2 ∧ k.2 < n) :
    ∀ k ∈ (applyOp g op).recorded, 0 ≤ k.1 ∧ k.1 < n ∧ 0 ≤ k.2 ∧ k.2 < n := by
  cases op with
  | selectTile row col => exact h
  | clearSelection => exact h
  | getState => exact h
  | revealResult row col result =>
    simp only [applyOp]
    rcases revealResult_recorded g row col result with ⟨h₁, -⟩ | ⟨-, -, h₁, -⟩
    · rw [h₁]; exact h
    · rw [h₁]
      intro k hk
      rw [List.mem_append, List.mem_singleton] at hk
      rcases hk with hk | hk
      · exact h k hk
      · subst hk
        simpa [inRange, getCardKey] using hop

theorem runOps_counted {n : Nat} (ops : List RoundOp) {g : GameRules} (h : Counted n g)
    (hops : ∀ op ∈ ops, inRange n op = true)
    (hkeys : ∀ k ∈ g.recorded, 0 ≤ k.1 ∧ k.1 < n ∧ 0 ≤ k.2 ∧ k.2 < n) :
    Counted n (runOps g ops) ∧
      ∀ k ∈ (runOps g ops).recorded, 0 ≤ k.1 ∧ k.1 < n ∧ 0 ≤ k.2 ∧ k.2 < n := by
  induction ops generalizing g with
  | nil => exact ⟨h, hkeys⟩
  | cons op ops ih =>
    exact ih (applyOp_counted h op) (fun o ho => hops o (List.mem_cons_of_mem _ ho))
      (applyOp_recorded_inRange op (hops op (List.mem_cons_self _ _)) hkeys)

/-- A duplicate-free list of positions of the `n` x `n` grid has `n * n`
entries or more exactly when it holds every position of the grid. -/
theorem covers_grid_iff (n : Nat) (keys : List TileKey) (hnd : keys.Nodup)
    (hin : ∀ k ∈ keys, 0 ≤ k.1 ∧ k.1 < n ∧ 0 ≤ k.2 ∧ k.2 < n) :
    n * n ≤ keys.length ↔
      ∀ row col : Int, 0 ≤ row → row < n → 0 ≤ col → col < n → (row, col) ∈ keys := by
  classical
  have hinj : Function.Injective (fun p : ℕ × ℕ => (((p.1 : Int), (p.2 : Int)) : TileKey)) := by
    intro p q hpq
    simp only [Prod.mk.injEq, Nat.cast_inj] at hpq
    exact Prod.ext hpq.1 hpq.2
  have hcard : ((Finset.range n ×ˢ Finset.range n).image
      (fun p : ℕ × ℕ => (((p.1 : Int), (p.2 : Int)) : TileKey))).card = n * n := by
    rw [Finset.card_image_of_injective _ hinj, Finset.card_product, Finset.card_range]
  have hmem : ∀ k : TileKey, k ∈ (Finset.range n ×ˢ Finset.range n).image
      (fun p : ℕ × ℕ => (((p.1 : Int), (p.2 : Int)) : TileKey))
      ↔ 0 ≤ k.1 ∧ k.1 < n ∧ 0 ≤ k.2 ∧ k.2 < n := by
    intro k
    simp only [Finset.mem_image, Finset.mem_product, Finset.mem_range, Prod.exists]
    constructor
    · rintro ⟨a, b, ⟨ha, hb⟩, rfl⟩
      simp only
      omega
    · intro hk
      refine ⟨k.1.toNat, k.2.toNat, ⟨by omega, by omega⟩, ?_⟩
      apply Prod.ext
      · simp only [Int.toNat_of_nonneg hk.1]
      · simp only [Int.toNat_of_nonneg hk.2.2.1]
  have hsub : keys.toFinset ⊆ (Finset.range n ×ˢ Finset.range n).image
      (fun p : ℕ × ℕ => (((p.1 : Int), (p.2 : Int)) : TileKey)) := by
    intro k hk
    exact (hmem k).mpr (hin k (List.mem_toFinset.mp hk))
  have hlen : keys.toFinset.card = keys.length := by
    rw [List.card_toFinset, List.Nodup.dedup hnd]
  constructor
  · intro hle row col h₁ h₂ h₃ h₄
    have heq := Finset.eq_of_subset_of_card_le hsub (by rw [hcard, hlen]; exact hle)
    have : ((row, col) : TileKey) ∈ keys.toFinset := by
      rw [heq]
      exact (hmem _).mpr ⟨h₁, h₂, h₃, h₄⟩
    exact List.mem_toFinset.mp this
  · intro hall
    rw [← hlen, ← hcard]
    apply Finset.card_le_card
    intro k hk
    have := (hmem k).mp hk
    exact List.mem_toFinset.mpr (hall k.1 k.2 this.1 this.2.1 this.2.2.1 this.2.2.2)

/-- C29: for `gridSize = n >= 1`, in every state reachable from the
constructor's `reset()` by `reset`, `setAssignments`, `selectTile`,
`clearSelection` and `revealResult`: the recorded positions are distinct and
are exactly those `revealedMap.has` answers true for, `revealedCount` is their
number, `revealedCount <= totalTiles = n * n`, and `gameOver` is true iff
`revealedCount >= totalTiles`. Hence, from a state without records (a round's
start), after any calls of a round whose `revealResult` positions are in range,
`gameOver` is true iff every position of the grid has a reveal record. -/
theorem c29_rules_invariant (n : Nat) (hn : 1 ≤ n) (g : GameRules) (h : Reachable n g) :
    g.recorded.Nodup ∧
    (∀ row col : Int,
      JsMap.has g.revealedMap (getCardKey row col) = true ↔ getCardKey row col ∈ g.recorded) ∧
    g.revealedCount = g.recorded.length ∧
    0 ≤ g.revealedCount ∧ g.revealedCount ≤ g.totalTiles ∧
    g.totalTiles = g.gridSize * g.gridSize ∧ g.gridSize = n ∧
    (g.gameOver = true ↔ g.totalTiles ≤ g.revealedCount) ∧
    ∀ ops : List RoundOp, g.revealedMap = [] → (∀ op ∈ ops, inRange n op = true) →
      ((runOps g ops).gameOver = true ↔
        ∀ row col : Int, 0 ≤ row → row < n → 0 ≤ col → col < n →
          JsMap.has (runOps g ops).revealedMap (getCardKey row col) = true) := by
  have hc := h.counted hn
  have hgrid := h.gridSize
  refine ⟨hc.distinct, fun row col => JsMap.has_iff_mem _ _, hc.count, Nat.zero_le _, hc.bound,
    by rw [hc.total, hgrid], hgrid, hc.over, ?_⟩
  intro ops hempty hops
  obtain ⟨hr, hkeys⟩ := runOps_counted ops hc hops (by simp [recorded, hempty])
  rw [hr.over, hr.count, hr.total, covers_grid_iff n _ hr.distinct hkeys]
  constructor
  · intro hall row col h₁ h₂ h₃ h₄
    exact (JsMap.has_iff_mem _ _).mpr (hall row col h₁ h₂ h₃ h₄)
  · intro hall row col h₁ h₂ h₃ h₄
    exact (JsMap.has_iff_mem _ _).mp (hall row col h₁ h₂ h₃ h₄)

theorem c29_rules_invariant_witness :
    (runOps (setAssignments (create 3) (some [((2, 2), some "A")]))
        [.revealResult 0 0 none, .revealResult 0 1 none, .selectTile 1 1,
         .revealResult 1 1 (some "B")]).recorded.Nodup ∧
      (runOps (setAssignments (create 3) (some [((2, 2), some "A")]))
        [.revealResult 0 0 none, .revealResult 0 1 none, .selectTile 1 1,
         .revealResult 1 1 (some "B")]).revealedCount = 3 ∧
      ((runOps eightRevealed [.revealResult 2 2 none]).gameOver = true ↔
        9 ≤ (runOps eightRevealed [.revealResult 2 2 none]).revealedCount) :=
  have h₁ := c29_rules_invariant 3 (by decide)
    (runOps (setAssignments (create 3) (some [((2, 2), some "A")]))
      [.revealResult 0 0 none, .revealResult 0 1 none, .selectTile 1 1,
       .revealResult 1 1 (some "B")])
    (reachable_runOps (Reachable.setAssignments _ Reachable.create) _)
  have h₂ := c29_rules_invariant 3 (by decide) (runOps eightRevealed [.revealResult 2 2 none])
    (reachable_runOps eightRevealed_reachable _)
  ⟨h₁.1, h₁.2.2.1.trans (by decide), h₂.2.2.2.2.2.2.2.1⟩

end GameRules

namespace App

theorem Kept.kept_refl (a : App) : Kept a a :=
  ⟨rfl, rfl, fun h => h, fun _ => rfl⟩

theorem Kept.kept_trans {a b c : App} (h₁ : Kept a b) (h₂ : Kept b c) : Kept a c := by
  obtain ⟨d₁, s₁, c₁, m₁⟩ := h₁
  obtain ⟨d₂, s₂, c₂, m₂⟩ := h₂
  refine ⟨d₂.trans d₁, s₂.trans s₁, fun h => c₂ (c₁ h), ?_⟩
  intro hm
  rw [m₂ (by rw [d₁, s₁]; exact hm), m₁ hm]

theorem Kept.kept_ite {a x y : App} {c : Prop} [Decidable c] (hx : Kept a x) (hy : Kept a y) :
    Kept a (if c then x else y) := by
  split <;> assumption

/-- A step that leaves the switches and the messages alone and leaves
`cashoutAvailable` alone or false. -/
theorem Kept.kept_of_same {a b : App} (h₁ : b.vars.demoMode = a.vars.demoMode)
    (h₂ : b.vars.suppressRelay = a.vars.suppressRelay)
    (h₃ : b.vars.cashoutAvailable = false ∨ b.vars.cashoutAvailable = a.vars.cashoutAvailable)
    (h₄ : b.sent = a.sent) : Kept a b := by
  refine ⟨h₁, h₂, ?_, fun _ => h₄⟩
  intro h
  rcases h₃ with h₃ | h₃
  · exact h₃
  · rw [h₃]; exact h

theorem kept_setVars (a : App) (f : Vars → Vars)
    (h₁ : (f a.vars).demoMode = a.vars.demoMode)
    (h₂ : (f a.vars).suppressRelay = a.vars.suppressRelay)
    (h₃ : (f a.vars).cashoutAvailable = false
      ∨ (f a.vars).cashoutAvailable = a.vars.cashoutAvailable) : Kept a (a.setVars f) :=
  Kept.kept_of_same h₁ h₂ h₃ rfl

theorem kept_panel (a : App) (f : Panel → Panel) : Kept a (a.panel f) :=
  Kept.kept_of_same rfl rfl (Or.inr rfl) rfl

theorem kept_withGame (a : App) (f : Game → Game) : Kept a (a.withGame f) :=
  Kept.kept_of_same rfl rfl (Or.inr rfl) rfl

theorem kept_setGame (a : App) (g : Option Game) : Kept a { a with game := g } :=
  Kept.kept_of_same rfl rfl (Or.inr rfl) rfl

theorem kept_sendRelayMessage (a : App) (type : String) (payload : Payload) :
    Kept a (a.sendRelayMessage type payload) := by
  refine ⟨by simp, by simp, fun h => by simpa using h, ?_⟩
  intro hm
  unfold sendRelayMessage
  rw [if_pos hm]

theorem kept_setControlPanelBetMode (a : App) (mode : BetButtonMode) :
    Kept a (a.setControlPanelBetMode mode) :=
  Kept.kept_of_same rfl rfl (Or.inr rfl) rfl

theorem kept_setControlPanelBetState (a : App) (x : Bool) :
    Kept a (a.setControlPanelBetState x) :=
  kept_panel a _

theorem kept_setControlPanelRandomState (a : App) (x : Bool) :
    Kept a (a.setControlPanelRandomState x) :=
  kept_panel a _

theorem kept_setControlPanelAutoStartState (a : App) (x : Bool) :
    Kept a (a.setControlPanelAutoStartState x) :=
  kept_panel a _

theorem kept_setControlPanelMinesState (a : App) (x : Bool) :
    Kept a (a.setControlPanelMinesState x) :=
  kept_panel a _

theorem kept_setModeAndBetControls (a : App) (x : Bool) :
    Kept a (a.setModeAndBetControls x) :=
  kept_panel a _

theorem kept_setGameBoardInteractivity (a : App) (x : Bool) :
    Kept a (a.setGameBoardInteractivity x) :=
  Kept.kept_of_same rfl rfl (Or.inr rfl) rfl

theorem kept_clearSelectionDelay (a : App) : Kept a a.clearSelectionDelay :=
  Kept.kept_of_same rfl rfl (Or.inr rfl) rfl

theorem kept_clearAutoRoundTimer (a : App) : Kept a a.clearAutoRoundTimer :=
  Kept.kept_of_same rfl rfl (Or.inr rfl) rfl

theorem kept_beginSelectionDelay (a : App) : Kept a a.beginSelectionDelay :=
  Kept.kept_of_same rfl rfl (Or.inr rfl) rfl

theorem kept_disableServerRoundSetupControls (a : App) :
    Kept a a.disableServerRoundSetupControls :=
  Kept.kept_of_same rfl rfl (Or.inr rfl) rfl

theorem kept_setAutoRunUIState (a : App) (x : Bool) : Kept a (a.setAutoRunUIState x) :=
  Kept.kept_of_same (by simp) (by simp) (Or.inr (by simp)) (by simp)

theorem kept_setAutoRunFinishingState (a : App) : Kept a a.setAutoRunFinishingState :=
  Kept.kept_of_same (by simp) (by simp) (Or.inr (by simp)) (by simp)

theorem kept_determineDemoBetResult (a : App) : Kept a a.determineDemoBetResult.2 :=
  Kept.kept_of_same rfl rfl (Or.inr rfl) rfl

theorem kept_finalizeRound (a : App) : Kept a a.finalizeRound :=
  Kept.kept_of_same (by simp) (by simp) (Or.inl (by simp)) (by simp)

theorem kept_applyRoundInteractiveState (a : App) (st : RulesState) :
    Kept a (a.applyRoundInteractiveState st) := by
  refine Kept.kept_of_same (by simp) (by simp) ?_ (by simp)
  simp only [applyRoundInteractiveState_vars]
  cases a.vars.roundActive <;> simp

theorem kept_stopAutoBetProcess (a : App) (reason : String) (completed : Bool) :
    Kept a (a.stopAutoBetProcess reason completed) := by
  unfold stopAutoBetProcess
  have h₁ : Kept a (a.clearSelectionDelay.clearAutoRoundTimer.setVars fun v =>
      { v with autoRunActive := false, autoRoundInProgress := false }) :=
    Kept.kept_of_same rfl rfl (Or.inr rfl) rfl
  have h₂ : Kept a (if (a.clearSelectionDelay.clearAutoRoundTimer.setVars fun v =>
        { v with autoRunActive := false, autoRoundInProgress := false }).vars.demoMode = false ∧
      (a.clearSelectionDelay.clearAutoRoundTimer.setVars fun v =>
        { v with autoRunActive := false, autoRoundInProgress := false }).vars.suppressRelay = false ∧
      a.clearSelectionDelay.clearAutoRoundTimer.vars.autoRunActive = true then
      (a.clearSelectionDelay.clearAutoRoundTimer.setVars fun v =>
        { v with autoRunActive := false, autoRoundInProgress := false }).sendRelayMessage
          "action:stop-autobet" (.stopAutobet reason completed)
      else a.clearSelectionDelay.clearAutoRoundTimer.setVars fun v =>
        { v with autoRunActive := false, autoRoundInProgress := false }) :=
    Kept.kept_ite (h₁.kept_trans (kept_sendRelayMessage _ _ _)) h₁
  dsimp only
  refine Kept.kept_ite ?_ ?_
  · exact ((h₂.kept_trans (kept_setVars _ _ rfl rfl (Or.inr rfl))).kept_trans
      (kept_setAutoRunFinishingState _)).kept_trans (kept_withGame _ _)
  · refine Kept.kept_trans ?_ (kept_setAutoRunUIState _ _)
    have h₃ := h₂.kept_trans (kept_setVars _ (fun v => { v with autoStopPending := false })
      rfl rfl (Or.inr rfl))
    exact Kept.kept_ite (h₃.kept_trans (kept_finalizeRound _)) h₃

theorem kept_scheduleNextAutoBetRound (a : App) : Kept a a.scheduleNextAutoBetRound := by
  unfold scheduleNextAutoBetRound
  exact Kept.kept_ite (Kept.kept_refl a) (Kept.kept_of_same rfl rfl (Or.inr rfl) rfl)

theorem kept_handleAutoRoundCompleted (a : App) : Kept a a.handleAutoRoundCompleted := by
  unfold handleAutoRoundCompleted
  have h₁ : Kept a ((if decide (a.vars.autoRemainingBets > 0) = true then
      (a.setVars fun v => { v with autoRemainingBets := jsMinusOne v.autoRemainingBets }).panel
        fun p => { p with numberOfBetsValue := jsMinusOne a.vars.autoRemainingBets }
      else a).setVars fun v => { v with autoRoundInProgress := false }) := by
    refine Kept.kept_trans (b := if decide (a.vars.autoRemainingBets > 0) = true then
      (a.setVars fun v => { v with autoRemainingBets := jsMinusOne v.autoRemainingBets }).panel
        fun p => { p with numberOfBetsValue := jsMinusOne a.vars.autoRemainingBets }
      else a) (Kept.kept_ite ?_ (Kept.kept_refl a)) (Kept.kept_of_same rfl rfl (Or.inr rfl) rfl)
    exact Kept.kept_of_same rfl rfl (Or.inr rfl) rfl
  exact Kept.kept_ite h₁ (Kept.kept_ite (h₁.kept_trans (kept_stopAutoBetProcess _ _ _))
    (h₁.kept_trans (kept_scheduleNextAutoBetRound _)))

theorem kept_handleGameStateChange (a : App) (st : RulesState) :
    Kept a (a.handleGameStateChange st) := by
  unfold handleGameStateChange
  have h₁ : Kept a (a.setVars fun v => { v with lastKnownGameState := some st }) :=
    Kept.kept_of_same rfl rfl (Or.inr rfl) rfl
  exact Kept.kept_ite h₁ (Kept.kept_ite
    (Kept.kept_ite ((h₁.kept_trans (kept_finalizeRound _)).kept_trans (kept_handleAutoRoundCompleted _))
      (h₁.kept_trans (kept_finalizeRound _)))
    (h₁.kept_trans (kept_applyRoundInteractiveState _ _)))

theorem kept_notifyStateChange (a : App) : Kept a a.notifyStateChange := by
  unfold notifyStateChange
  split
  · exact kept_handleGameStateChange _ _
  · exact Kept.kept_refl a

theorem kept_gameReset (a : App) : Kept a a.gameReset :=
  (kept_withGame a _).kept_trans (kept_notifyStateChange _)

theorem kept_setRoundAssignments (a : App) (assignments : List Entry) (info : OutcomeMeta) :
    Kept a (a.setRoundAssignments assignments info) :=
  (kept_withGame a _).kept_trans (kept_notifyStateChange _)

theorem kept_prepareForNewRoundState (a : App) : Kept a a.prepareForNewRoundState := by
  unfold prepareForNewRoundState
  have h₁ : Kept a ((a.setVars fun v => { v with roundActive := true, cashoutAvailable := false
      }).clearSelectionDelay) :=
    Kept.kept_of_same rfl rfl (Or.inl rfl) rfl
  dsimp only
  have h₂ : Kept a (if decide ((a.setVars fun v =>
        { v with roundActive := true, cashoutAvailable := false
        }).clearSelectionDelay.vars.controlPanelMode = .auto) = true then
      (((a.setVars fun v => { v with roundActive := true, cashoutAvailable := false
        }).clearSelectionDelay).setControlPanelBetMode .bet).setControlPanelBetState false
      else (((a.setVars fun v => { v with roundActive := true, cashoutAvailable := false
        }).clearSelectionDelay).setControlPanelBetMode .scratch).setControlPanelBetState true) :=
    Kept.kept_ite ((h₁.kept_trans (kept_setControlPanelBetMode _ _)).kept_trans
        (kept_setControlPanelBetState _ _))
      ((h₁.kept_trans (kept_setControlPanelBetMode _ _)).kept_trans (kept_setControlPanelBetState _ _))
  refine Kept.kept_ite ?_ ?_
  · refine Kept.kept_trans ?_ (kept_setModeAndBetControls _ _)
    refine Kept.kept_trans ?_ (kept_setControlPanelMinesState _ _)
    refine Kept.kept_trans ?_ (kept_setVars _ _ rfl rfl (Or.inr rfl))
    refine Kept.kept_trans ?_ (kept_setVars _ _ rfl rfl (Or.inr rfl))
    refine Kept.kept_trans ?_ (kept_setGameBoardInteractivity _ _)
    exact h₂.kept_trans (kept_setControlPanelRandomState _ _)
  · refine Kept.kept_ite ?_ ?_
    · refine Kept.kept_trans ?_ (kept_setControlPanelAutoStartState _ _)
      refine Kept.kept_trans ?_ (kept_setControlPanelMinesState _ _)
      refine Kept.kept_trans ?_ (kept_setModeAndBetControls _ _)
      refine Kept.kept_trans ?_ (kept_setVars _ _ rfl rfl (Or.inr rfl))
      refine Kept.kept_trans ?_ (kept_setGameBoardInteractivity _ _)
      exact h₂.kept_trans (kept_setControlPanelRandomState _ _)
    · refine Kept.kept_trans ?_ (kept_setModeAndBetControls _ _)
      refine Kept.kept_trans ?_ (kept_setVars _ _ rfl rfl (Or.inr rfl))
      refine Kept.kept_trans ?_ (kept_setGameBoardInteractivity _ _)
      exact h₂.kept_trans (kept_setControlPanelRandomState _ _)

theorem kept_performBet (a : App) : Kept a a.performBet :=
  (kept_prepareForNewRoundState a).kept_trans (kept_setVars _ _ rfl rfl (Or.inr rfl))

end App

namespace App

theorem kept_prepareScratchRound (a : App) (betResult : String) :
    Kept a (a.prepareScratchRound betResult) := by
  unfold prepareScratchRound
  refine Kept.kept_ite (Kept.kept_of_same rfl rfl (Or.inr rfl) rfl) ?_
  refine Kept.kept_trans ?_ (kept_setRoundAssignments _ _ _)
  exact Kept.kept_of_same rfl rfl (Or.inr rfl) rfl

theorem kept_handleBet (a : App) (betResult : String) : Kept a (a.handleBet betResult) := by
  unfold handleBet
  refine Kept.kept_ite ?_
    (((kept_performBet a).kept_trans (kept_gameReset _)).kept_trans (kept_prepareScratchRound _ _))
  exact (kept_disableServerRoundSetupControls a).kept_trans (kept_sendRelayMessage _ _ _)

theorem kept_executeAutoBetRound (a : App) : Kept a a.executeAutoBetRound := by
  unfold executeAutoBetRound
  refine Kept.kept_ite (Kept.kept_refl a) ?_
  have h₁ : Kept a (a.setVars fun v => { v with autoRoundInProgress := true }) :=
    kept_setVars a _ rfl rfl (Or.inr rfl)
  refine Kept.kept_ite (h₁.kept_trans (kept_sendRelayMessage _ _ _)) ?_
  exact ((h₁.kept_trans (kept_determineDemoBetResult _)).kept_trans (kept_handleBet _ _)).kept_trans
    (Kept.kept_of_same rfl rfl (Or.inr rfl) rfl)

theorem kept_fireRevealAllTimer (a : App) : Kept a a.fireRevealAllTimer := by
  unfold fireRevealAllTimer
  refine Kept.kept_ite (Kept.kept_refl a) (Kept.kept_ite ?_ ?_)
  · exact Kept.kept_of_same rfl rfl (Or.inr rfl) rfl
  · exact Kept.kept_of_same rfl rfl (Or.inr rfl) rfl

theorem kept_fireAutoResetTimer (a : App) : Kept a a.fireAutoResetTimer := by
  unfold fireAutoResetTimer
  split
  · exact Kept.kept_refl a
  · have h₁ : Kept a (a.setVars fun v => { v with autoResetTimer := none }) :=
      kept_setVars a _ rfl rfl (Or.inr rfl)
    exact Kept.kept_ite h₁ (h₁.kept_trans (kept_executeAutoBetRound _))

theorem kept_startAutoBetProcess (a : App) : Kept a a.startAutoBetProcess := by
  unfold startAutoBetProcess
  refine Kept.kept_ite (Kept.kept_refl a) ?_
  have h₁ : Kept a (({ a with autoStarts := a.autoStarts + 1 } : App).setVars fun v =>
      { v with
        autoRunActive := true, autoRoundInProgress := false, autoStopPending := false
        autoRemainingBets := a.configuredBets }) :=
    Kept.kept_of_same rfl rfl (Or.inr rfl) rfl
  dsimp only
  refine Kept.kept_trans ?_ (kept_executeAutoBetRound _)
  refine Kept.kept_trans ?_ (kept_setAutoRunUIState _ _)
  exact Kept.kept_ite ((h₁.kept_trans (kept_sendRelayMessage _ _ _)).kept_trans (kept_sendRelayMessage _ _ _)) h₁

theorem kept_handleStartAutobetClick (a : App) : Kept a a.handleStartAutobetClick := by
  unfold handleStartAutobetClick
  exact Kept.kept_ite (kept_stopAutoBetProcess _ _ _)
    (Kept.kept_ite (Kept.kept_refl a) (kept_startAutoBetProcess a))

theorem kept_markManualRoundForReset (a : App) : Kept a a.markManualRoundForReset := by
  unfold markManualRoundForReset
  exact Kept.kept_ite (kept_setVars a _ rfl rfl (Or.inr rfl)) (Kept.kept_refl a)

theorem kept_revealAndFinalize (a : App) :
    Kept a (a.markManualRoundForReset.withGame fun g => g.revealRemainingTiles []).finalizeRound :=
  ((kept_markManualRoundForReset a).kept_trans (kept_withGame _ _)).kept_trans (kept_finalizeRound _)

theorem kept_handleCashout (a : App) : Kept a a.handleCashout := by
  unfold handleCashout
  exact Kept.kept_ite (Kept.kept_refl a)
    (Kept.kept_ite (kept_sendRelayMessage _ _ _) (kept_revealAndFinalize a))

theorem kept_revealRemainingTilesAndFinalize (a : App) :
    Kept a a.revealRemainingTilesAndFinalize := by
  unfold revealRemainingTilesAndFinalize
  exact Kept.kept_ite (Kept.kept_refl a) (kept_revealAndFinalize a)

theorem kept_handleScratchButtonClick (a : App) : Kept a a.handleScratchButtonClick := by
  unfold handleScratchButtonClick
  exact Kept.kept_ite (Kept.kept_refl a) (kept_revealRemainingTilesAndFinalize a)

theorem kept_handleBetButtonClick (a : App) : Kept a a.handleBetButtonClick := by
  unfold handleBetButtonClick
  split
  · exact kept_handleCashout a
  · exact kept_handleScratchButtonClick a
  · exact Kept.kept_ite ((kept_determineDemoBetResult a).kept_trans (kept_handleBet _ _))
      (kept_handleBet _ _)

theorem kept_fireSweepTimer (a : App) (handle : Nat) : Kept a (a.fireSweepTimer handle) := by
  unfold fireSweepTimer
  split
  · exact Kept.kept_refl a
  · split
    · exact Kept.kept_refl a
    · exact Kept.kept_ite ((kept_setGame a _).kept_trans (kept_notifyStateChange _)) (kept_setGame a _)

theorem kept_finishFlight (a : App) (flight : Flight) : Kept a (a.finishFlight flight) :=
  kept_withGame a _

theorem kept_finishWiggle (a : App) (id : Nat) : Kept a (a.finishWiggle id) :=
  kept_withGame a _

theorem kept_revealSelectedCard (a : App) (contentKey : Face) :
    Kept a (a.revealSelectedCard contentKey) := by
  unfold revealSelectedCard
  split
  · exact Kept.kept_refl a
  · split
    · exact Kept.kept_refl a
    · split
      · exact Kept.kept_refl a
      · exact Kept.kept_ite (Kept.kept_refl a) ((kept_setGame a _).kept_trans (kept_notifyStateChange _))

theorem kept_handleCardSelected (a : App) (row col : Int) :
    Kept a (a.handleCardSelected row col) := by
  unfold handleCardSelected
  refine Kept.kept_ite (Kept.kept_refl a) (Kept.kept_ite (Kept.kept_refl a) ?_)
  have h₁ : Kept a (if a.vars.minesSelectionLocked = false then
      (a.setVars fun v => { v with minesSelectionLocked := true }).setControlPanelMinesState false
      else a) :=
    Kept.kept_ite (Kept.kept_of_same rfl rfl (Or.inr rfl) rfl) (Kept.kept_refl a)
  have h₂ := h₁.kept_trans (kept_beginSelectionDelay _)
  refine Kept.kept_ite (h₂.kept_trans (kept_sendRelayMessage _ _ _)) ?_
  exact (h₂.kept_trans (kept_setVars _ _ rfl rfl (Or.inr rfl))).kept_trans (kept_revealSelectedCard _ _)

theorem kept_handleCardTap (a : App) (id : Nat) : Kept a (a.handleCardTap id) := by
  unfold handleCardTap
  split
  · exact Kept.kept_refl a
  · split
    · exact Kept.kept_refl a
    · refine Kept.kept_ite (Kept.kept_refl a) (Kept.kept_ite (Kept.kept_refl a) (Kept.kept_ite (Kept.kept_refl a) ?_))
      exact ((kept_setGame a _).kept_trans (kept_handleCardSelected _ _ _)).kept_trans
        (kept_notifyStateChange _)

theorem kept_selectRandomTile (a : App) : Kept a a.selectRandomTile := by
  unfold selectRandomTile
  split
  · exact Kept.kept_refl a
  · rename_i g _
    dsimp only
    refine Kept.kept_ite (Kept.kept_refl a) ?_
    generalize (List.filter _ g.cards) = candidates
    split
    · exact Kept.kept_of_same rfl rfl (Or.inr rfl) rfl
    · refine Kept.kept_trans ?_ (kept_handleCardTap _ _)
      exact Kept.kept_of_same rfl rfl (Or.inr rfl) rfl

theorem kept_handleRandomPickClick (a : App) : Kept a a.handleRandomPickClick := by
  unfold handleRandomPickClick
  exact Kept.kept_ite (Kept.kept_refl a) (kept_selectRandomTile a)

theorem kept_handleNumberOfBetsChange (a : App) (value : Nat) :
    Kept a (a.handleNumberOfBetsChange value) := by
  unfold handleNumberOfBetsChange
  exact Kept.kept_trans (Kept.kept_ite (kept_setVars a _ rfl rfl (Or.inr rfl)) (Kept.kept_refl a))
    (kept_sendRelayMessage _ _ _)

theorem kept_revealAutoSelections (a : App) (results : List (Option ResultEntry)) :
    Kept a (a.revealAutoSelections results).1 := by
  unfold revealAutoSelections
  cases hgame : a.game with
  | none => exact Kept.kept_refl a
  | some g =>
    dsimp only
    have h₁ : Kept a { a with game := some (revealAutoEntries g results).1 } := kept_setGame a _
    split
    · exact h₁
    · exact h₁.kept_trans (kept_notifyStateChange _)

theorem kept_applyServerReveal (a : App) (payload : ResultEntry) :
    Kept a (a.applyServerReveal payload) := by
  unfold applyServerReveal
  have h₁ : Kept a (a.clearSelectionDelay.setVars fun v => { v with selectionPending := false }) :=
    Kept.kept_of_same rfl rfl (Or.inr rfl) rfl
  refine Kept.kept_trans (b := _) ?_ (kept_revealSelectedCard _ _)
  split
  · exact h₁.kept_trans (kept_setVars _ _ rfl rfl (Or.inr rfl))
  · exact h₁

theorem kept_applyAutoResultsFromServer (a : App)
    (results : Option (List (Option ResultEntry))) :
    Kept a (a.applyAutoResultsFromServer results).1 := by
  unfold applyAutoResultsFromServer
  have h₁ : Kept a (a.clearSelectionDelay.setVars fun v => { v with selectionPending := false }) :=
    Kept.kept_of_same rfl rfl (Or.inr rfl) rfl
  split
  · exact h₁
  · exact h₁
  · exact (h₁.kept_trans (kept_setVars _ _ rfl rfl (Or.inr rfl))).kept_trans (kept_revealAutoSelections _ _)

/-- The `switch` of the `incoming` listener leaves the switches of the relay
alone, does not make cashout available, and sends nothing when muted. -/
theorem kept_dispatchIncoming (a : App) (message : Inbound) :
    Kept a (a.dispatchIncoming message).1 := by
  unfold dispatchIncoming
  split
  · exact (kept_performBet a).kept_trans (kept_setControlPanelRandomState _ _)
  · exact kept_applyServerReveal a _
  · exact kept_applyAutoResultsFromServer a _
  · exact kept_stopAutoBetProcess a _ _
  · exact kept_finalizeRound a
  · exact Kept.kept_ite (kept_handleCashout a) (Kept.kept_refl a)
  · exact Kept.kept_refl a
  · exact Kept.kept_refl a

theorem kept_handleModeChange (a : App) (nextMode : Mode) :
    Kept a (a.handleModeChange nextMode) := by
  unfold handleModeChange
  dsimp only
  refine Kept.kept_ite (Kept.kept_refl a) ?_
  have h₁ : Kept a (if a.vars.autoRunActive = true ∧ nextMode ≠ .auto then
      a.stopAutoBetProcess "user" false else a) :=
    Kept.kept_ite (kept_stopAutoBetProcess _ _ _) (Kept.kept_refl a)
  have h₂ := h₁.kept_trans (kept_setVars _ (fun v => { v with controlPanelMode := nextMode })
    rfl rfl (Or.inr rfl))
  refine Kept.kept_ite ?_ (Kept.kept_ite ?_ ?_)
  · refine Kept.kept_ite (Kept.kept_trans ?_ (kept_setControlPanelAutoStartState _ _)) ?_ <;>
    · refine Kept.kept_trans ?_ (kept_setGameBoardInteractivity _ _)
      refine Kept.kept_trans ?_ (kept_setControlPanelRandomState _ _)
      refine Kept.kept_ite ?_ h₂
      refine Kept.kept_ite (Kept.kept_trans (Kept.kept_trans ?_ (kept_gameReset _))
        (kept_setVars _ _ rfl rfl (Or.inr rfl))) ?_ <;>
      · exact Kept.kept_ite (h₂.kept_trans (kept_finalizeRound _)) h₂
  · refine Kept.kept_trans ?_ (kept_setControlPanelBetState _ _)
    refine Kept.kept_trans ?_ (kept_setControlPanelRandomState _ _)
    refine Kept.kept_trans ?_ (kept_setGameBoardInteractivity _ _)
    refine Kept.kept_trans ?_ (kept_setVars _ _ rfl rfl (Or.inr rfl))
    refine Kept.kept_trans ?_ (kept_gameReset _)
    exact h₂.kept_trans (kept_setControlPanelAutoStartState _ _)
  · have h₃ := (h₂.kept_trans (kept_setControlPanelAutoStartState _ false)).kept_trans
      (kept_setGameBoardInteractivity _ true)
    exact Kept.kept_ite (h₃.kept_trans (kept_setControlPanelRandomState _ _)) h₃

/-- The handling of an inbound message: `suppressRelay` is false when it
returns, `demoMode` is as it was, cashout has not become available and nothing
was sent. -/
theorem handleIncoming_muted (a : App) (message : Inbound) :
    (a.handleIncoming message).vars.suppressRelay = false ∧
      (a.handleIncoming message).vars.demoMode = a.vars.demoMode ∧
      (a.vars.cashoutAvailable = false →
        (a.handleIncoming message).vars.cashoutAvailable = false) ∧
      (a.handleIncoming message).sent = a.sent := by
  obtain ⟨hd, -, hc, hm⟩ := kept_dispatchIncoming
    (a.setVars fun v => { v with suppressRelay := true }) message
  unfold handleIncoming
  exact ⟨rfl, hd, hc, hm (Or.inr rfl)⟩

theorem handleDemoModeChange_cashout (a : App) (value : Bool) :
    (a.handleDemoModeChange value).vars.cashoutAvailable = a.vars.cashoutAvailable ∧
      (a.handleDemoModeChange value).vars.suppressRelay = a.vars.suppressRelay ∧
      (a.handleDemoModeChange value).sent = a.sent := by
  unfold handleDemoModeChange
  split
  · exact ⟨rfl, rfl, rfl⟩
  · cases value <;> exact ⟨rfl, rfl, rfl⟩

/-- No event makes cashout available, and none leaves `suppressRelay` set. -/
theorem step_cashout (a : App) (e : Event) (hc : a.vars.cashoutAvailable = false)
    (hs : a.vars.suppressRelay = false) :
    (a.step e).vars.cashoutAvailable = false ∧ (a.step e).vars.suppressRelay = false := by
  have key : ∀ b : App, Kept a b →
      b.vars.cashoutAvailable = false ∧ b.vars.suppressRelay = false :=
    fun b hb => ⟨hb.2.2.1 hc, hb.2.1.trans hs⟩
  cases e with
  | betClick => exact key _ (kept_handleBetButtonClick a)
  | randomPickClick => exact key _ (kept_handleRandomPickClick a)
  | startAutobetClick => exact key _ (kept_handleStartAutobetClick a)
  | modeChange mode => exact key _ (kept_handleModeChange a mode)
  | numberOfBetsChange value => exact key _ (kept_handleNumberOfBetsChange a value)
  | cardTap id => exact key _ (kept_handleCardTap a id)
  | incoming message =>
    obtain ⟨h₁, -, h₃, -⟩ := handleIncoming_muted a message
    exact ⟨h₃ hc, h₁⟩
  | autoResetTimer => exact key _ (kept_fireAutoResetTimer a)
  | revealAllTimer => exact key _ (kept_fireRevealAllTimer a)
  | sweepTimer handle => exact key _ (kept_fireSweepTimer a handle)
  | flightDone flight => exact key _ (kept_finishFlight a flight)
  | wiggleDone id => exact key _ (kept_finishWiggle a id)
  | stateChange state => exact key _ (kept_handleGameStateChange a state)
  | demoModeChange value =>
    obtain ⟨h₁, h₂, -⟩ := handleDemoModeChange_cashout a value
    exact ⟨h₁.trans hc, h₂.trans hs⟩
  | animationsChange enabled => exact key _ (kept_withGame a _)
  | controlChange type => exact key _ (kept_sendRelayMessage a _ _)

theorem run_cashout (events : List Event) (a : App) (hc : a.vars.cashoutAvailable = false)
    (hs : a.vars.suppressRelay = false) :
    (a.run events).vars.cashoutAvailable = false ∧ (a.run events).vars.suppressRelay = false := by
  induction events generalizing a with
  | nil => exact ⟨hc, hs⟩
  | cons e rest ih =>
    obtain ⟨h₁, h₂⟩ := step_cashout a e hc hs
    exact ih (a.step e) h₁ h₂

end App

namespace Game

/-- A sweep over an empty list of eligible tiles only sets the flag. -/
theorem revealRemainingTiles_of_none (g : Game) (exclude : List Nat)
    (h : g.eligible exclude = []) :
    g.revealRemainingTiles exclude
      = { g with outcome := { g.outcome with autoRevealTriggered := true } } := by
  unfold revealRemainingTiles
  dsimp only
  split
  · rfl
  · have hnil : (List.filter (fun card : Card =>
        !card.revealed && !card.destroyed && !card.animating && !card.autoRevealScheduled
          && !decide (card.id ∈ exclude)) g.cards) = [] := h
    rw [hnil]
    rfl

/-- The call `if (!isAutoRevealInProgress()) revealRemainingTiles()` made twice
in a row does what one call does. -/
theorem sweep_unless_running_twice {g : Game} (h : Sound g) :
    (if (if g.isAutoRevealInProgress then g else g.revealRemainingTiles []).isAutoRevealInProgress
      then (if g.isAutoRevealInProgress then g else g.revealRemainingTiles [])
      else (if g.isAutoRevealInProgress then g
        else g.revealRemainingTiles []).revealRemainingTiles [])
      = if g.isAutoRevealInProgress then g else g.revealRemainingTiles [] := by
  by_cases hb : g.isAutoRevealInProgress = true
  · simp [hb]
  · simp only [hb, Bool.false_eq_true, ↓reduceIte]
    by_cases hb' : (g.revealRemainingTiles []).isAutoRevealInProgress = true
    · simp [hb']
    · simp only [hb', Bool.false_eq_true, ↓reduceIte]
      have hsound := h.after_sweep []
      have htimers := revealRemainingTiles_timers g [] h (by simp [hb])
      have hnone : (g.revealRemainingTiles []).timers = [] := by
        by_contra hne
        exact hb' (hsound.in_progress_iff.mpr (Or.inl hne))
      rw [hnone] at htimers
      have hsweep : g.sweepTimers ((g.eligible []).insertionSort rowMajorLE) = [] :=
        (List.append_eq_nil.mp htimers.symm).2
      have hel : g.eligible [] = [] := by
        have hlen := congrArg List.length hsweep
        simp only [sweepTimers, List.length_map, List.enum_length, List.length_insertionSort,
          List.length_nil] at hlen
        exact List.eq_nil_of_length_eq_zero hlen
      rw [revealRemainingTiles_of_none g [] hel]
      exact revealRemainingTiles_of_none
        ({ g with outcome := { g.outcome with autoRevealTriggered := true } }) []
        ((eligible_congr g _ [] rfl).trans hel)

end Game

namespace App

theorem stopAutoBetProcess_sent (a : App) (reason : String) (completed : Bool) :
    (a.stopAutoBetProcess reason completed).sent
      = if a.vars.demoMode = false ∧ a.vars.suppressRelay = false ∧ a.vars.autoRunActive = true
        then a.sent ++ [{ type := "action:stop-autobet", payload := .stopAutobet reason completed }]
        else a.sent := by
  unfold stopAutoBetProcess
  simp only [apply_ite App.sent, withGame_sent, setAutoRunFinishingState_sent, setVars_sent,
    setAutoRunUIState_sent, finalizeRound_sent, ite_self, clearAutoRoundTimer_vars,
    clearSelectionDelay_vars, setVars_vars, clearAutoRoundTimer_sent, clearSelectionDelay_sent]
  by_cases h : a.vars.demoMode = false ∧ a.vars.suppressRelay = false ∧ a.vars.autoRunActive = true
  · obtain ⟨h₁, h₂, h₃⟩ := h
    simp [sendRelayMessage, h₁, h₂, h₃]
  · rw [if_neg h, if_neg h]

theorem stopAutoBetProcess_twice_panel (a : App) (reason : String) (completed : Bool) :
    ((a.stopAutoBetProcess reason completed).stopAutoBetProcess reason completed).controlPanel
      = (a.stopAutoBetProcess reason completed).controlPanel ∧
    ((a.stopAutoBetProcess reason completed).stopAutoBetProcess reason completed).boardInteractive
      = (a.stopAutoBetProcess reason completed).boardInteractive := by
  obtain ⟨vars, game, panel, bi, rat, sent, rng, fc, starts⟩ := a
  obtain ⟨demoMode, suppressRelay, betButtonMode, roundActive, cashoutAvailable, lastKnownGameState,
    selectionDelayHandle, selectionPending, minesSelectionLocked, controlPanelMode, autoRunActive,
    autoRoundInProgress, autoResetTimer, autoStopPending, autoRemainingBets, manualRoundNeedsReset,
    availableCardTypes, currentBetResult, currentRoundAssignments, autoResetDelayMs⟩ := vars
  cases completed <;> cases roundActive <;> cases panel <;> cases autoStopPending <;>
    cases autoRunActive <;>
    simp [stopAutoBetProcess, finalizeRound, setAutoRunUIState, setAutoRunFinishingState,
      setAutoControls, sendRelayMessage, clearSelectionDelay, clearAutoRoundTimer, setVars, panel,
      withGame, setControlPanelBetMode, setControlPanelRandomState, setGameBoardInteractivity,
      setControlPanelMinesState, setControlPanelBetState, setModeAndBetControls,
      setControlPanelAutoStartState, apply_ite App.controlPanel, apply_ite App.boardInteractive,
      apply_ite App.vars]

theorem stopAutoBetProcess_twice_vars (a : App) (reason : String) (completed : Bool) :
    ((a.stopAutoBetProcess reason completed).stopAutoBetProcess reason completed).vars
      = (a.stopAutoBetProcess reason completed).vars ∧
    ((a.stopAutoBetProcess reason completed).stopAutoBetProcess reason completed).finalizeCalls
      = (a.stopAutoBetProcess reason completed).finalizeCalls ∧
    ((a.stopAutoBetProcess reason completed).stopAutoBetProcess reason completed).sent
      = (a.stopAutoBetProcess reason completed).sent ∧
    (a.stopAutoBetProcess reason completed).vars.autoRunActive = false := by
  by_cases hwait : a.vars.roundActive = true ∧ completed = false
  · obtain ⟨hr, rfl⟩ := hwait
    obtain ⟨hv, -, hf, -⟩ := stopAutoBetProcess_wait a reason hr
    have hr' : (a.stopAutoBetProcess reason false).vars.roundActive = true := by rw [hv]; exact hr
    obtain ⟨hv', -, hf', -⟩ := stopAutoBetProcess_wait (a.stopAutoBetProcess reason false) reason hr'
    refine ⟨?_, hf', ?_, by rw [hv]⟩
    · rw [hv', hv]
    · rw [stopAutoBetProcess_sent (a.stopAutoBetProcess reason false), hv]
      simp
  · have hnow : a.vars.roundActive = false ∨ completed = true := by
      cases hr : a.vars.roundActive <;> cases completed <;> simp_all
    obtain ⟨hv, -, hf, -⟩ := stopAutoBetProcess_now a reason completed hnow
    have hr' : (a.stopAutoBetProcess reason completed).vars.roundActive = false := by
      rw [hv]; split <;> simp_all
    obtain ⟨hv', -, hf', -⟩ := stopAutoBetProcess_now (a.stopAutoBetProcess reason completed)
      reason completed (Or.inl hr')
    refine ⟨?_, ?_, ?_, by rw [hv]; split <;> rfl⟩
    · rw [hv', hr']
      simp only [Bool.false_eq_true, ↓reduceIte]
      rw [hv]
      split <;> rfl
    · rw [hf', hr']
      simp
    · rw [stopAutoBetProcess_sent (a.stopAutoBetProcess reason completed), hv]
      split <;> simp

theorem stopAutoBetProcess_twice_game (a : App) (reason : String) (completed : Bool)
    (hgame : ∀ g, a.game = some g → Game.Sound g) :
    ((a.stopAutoBetProcess reason completed).stopAutoBetProcess reason completed).game
      = (a.stopAutoBetProcess reason completed).game := by
  by_cases hwait : a.vars.roundActive = true ∧ completed = false
  · obtain ⟨hr, rfl⟩ := hwait
    obtain ⟨hv, hg, -⟩ := stopAutoBetProcess_wait a reason hr
    have hr' : (a.stopAutoBetProcess reason false).vars.roundActive = true := by rw [hv]; exact hr
    obtain ⟨-, hg', -⟩ := stopAutoBetProcess_wait (a.stopAutoBetProcess reason false) reason hr'
    rw [hg', hg]
    cases hsome : a.game with
    | none => rfl
    | some g =>
      simp only [Option.map_some']
      rw [Game.sweep_unless_running_twice (hgame g hsome)]
  · have hnow : a.vars.roundActive = false ∨ completed = true := by
      cases hr : a.vars.roundActive <;> cases completed <;> simp_all
    obtain ⟨hv, hg, -⟩ := stopAutoBetProcess_now a reason completed hnow
    have hr' : (a.stopAutoBetProcess reason completed).vars.roundActive = false := by
      rw [hv]; split <;> simp_all
    obtain ⟨-, hg', -⟩ := stopAutoBetProcess_now (a.stopAutoBetProcess reason completed)
      reason completed (Or.inl hr')
    rw [hg']

/-- C26: calling `stopAutoBetProcess` twice in a row with the same argument
leaves the module variables (among them `roundActive`, `autoRunActive`,
`autoRoundInProgress`, `autoStopPending`, `autoRemainingBets`,
`selectionPending`, and the two timer handles `autoResetTimer` and
`selectionDelayHandle`), the control panel and the board's interactivity
exactly as one call does; the second call runs no `finalizeRound` and hands
nothing to `serverRelay.send`, `autoRunActive` being false after the first;
and when the game's timer bookkeeping is sound the second call leaves the
game, with its pending sweep timers, as the first did. -/
theorem c26_stop_twice_is_stop_once (a : App) (reason : String) (completed : Bool) :
    ((a.stopAutoBetProcess reason completed).stopAutoBetProcess reason completed).vars
      = (a.stopAutoBetProcess reason completed).vars ∧
    (a.stopAutoBetProcess reason completed).vars.autoRunActive = false ∧
    ((a.stopAutoBetProcess reason completed).stopAutoBetProcess reason completed).sent
      = (a.stopAutoBetProcess reason completed).sent ∧
    ((a.stopAutoBetProcess reason completed).stopAutoBetProcess reason completed).finalizeCalls
      = (a.stopAutoBetProcess reason completed).finalizeCalls ∧
    ((a.stopAutoBetProcess reason completed).stopAutoBetProcess reason completed).controlPanel
      = (a.stopAutoBetProcess reason completed).controlPanel ∧
    ((a.stopAutoBetProcess reason completed).stopAutoBetProcess reason completed).boardInteractive
      = (a.stopAutoBetProcess reason completed).boardInteractive ∧
    ((∀ g, a.game = some g → Game.Sound g) →
      ((a.stopAutoBetProcess reason completed).stopAutoBetProcess reason completed).game
        = (a.stopAutoBetProcess reason completed).game) := by
  obtain ⟨h₁, h₂, h₃, h₄⟩ := stopAutoBetProcess_twice_vars a reason completed
  obtain ⟨h₅, h₆⟩ := stopAutoBetProcess_twice_panel a reason completed
  exact ⟨h₁, h₄, h₃, h₂, h₅, h₆, stopAutoBetProcess_twice_game a reason completed⟩

end App

namespace App

theorem relayAutoRound_game :
    relayAutoRound.game = some (Game.create false 300 40 1000 true ["A", "B"]) := rfl

theorem relayAutoRound_sound (g : Game) (h : relayAutoRound.game = some g) : Game.Sound g := by
  rw [relayAutoRound_game] at h
  injection h with h
  subst h
  exact Game.create_sound _ _ _ _ _ _

theorem c26_stop_twice_witness :
    relayAutoRound.vars.roundActive = true ∧ relayAutoRound.vars.autoRunActive = true ∧
    (relayAutoRound.stopAutoBetProcess "user" false).sent
      = relayAutoRound.sent
        ++ [{ type := "action:stop-autobet", payload := .stopAutobet "user" false }] ∧
    ((relayAutoRound.stopAutoBetProcess "user" false).stopAutoBetProcess "user" false).sent
      = (relayAutoRound.stopAutoBetProcess "user" false).sent ∧
    ((relayAutoRound.stopAutoBetProcess "user" false).stopAutoBetProcess "user" false).vars
      = (relayAutoRound.stopAutoBetProcess "user" false).vars ∧
    ((relayAutoRound.stopAutoBetProcess "user" false).stopAutoBetProcess "user" false).game
      = (relayAutoRound.stopAutoBetProcess "user" false).game :=
  have h := c26_stop_twice_is_stop_once relayAutoRound "user" false
  ⟨by decide, by decide, by decide, h.2.2.1, h.1, h.2.2.2.2.2.2 relayAutoRound_sound⟩

/-- The `incoming` listener is `withRelaySuppressed` around the `switch`. -/
theorem handleIncoming_eq (a : App) (message : Inbound) :
    a.handleIncoming message = (withRelaySuppressed a fun b => b.dispatchIncoming message).1 :=
  rfl

/-- C22: for every inbound message (whatever its type and payload: `row` and
`col` of any value, entries that are `null`) and every state, the handling of
the message inside `withRelaySuppressed` hands nothing to `serverRelay.send`
and leaves `suppressRelay` false, also when the handling throws, as
`game.revealAutoSelections` does on an entry that is `null`: the exception that
leaves the listener is the one of the `switch`. `withRelaySuppressed` leaves
`suppressRelay` false for any callback, also one that throws (the exception is
passed on); and `sendRelayMessage` sends nothing when `demoMode` or
`suppressRelay` is true. -/
theorem c22_inbound_handling_sends_nothing (a : App) :
    (∀ message : Inbound,
      a.handleIncoming message
        = (withRelaySuppressed a fun b => b.dispatchIncoming message).1 ∧
      a.incomingError message
        = ((a.setVars fun v => { v with suppressRelay := true }).dispatchIncoming message).2 ∧
      (a.handleIncoming message).sent = a.sent ∧
      (a.handleIncoming message).vars.suppressRelay = false) ∧
    (∀ (ε : Type) (callback : App → App × Option ε),
      (withRelaySuppressed a callback).1.vars.suppressRelay = false ∧
      (withRelaySuppressed a callback).2
        = (callback (a.setVars fun v => { v with suppressRelay := true })).2) ∧
    (∀ (type : String) (payload : Payload),
      a.vars.demoMode = true ∨ a.vars.suppressRelay = true →
        (a.sendRelayMessage type payload).sent = a.sent) := by
  refine ⟨?_, ?_, ?_⟩
  · intro message
    obtain ⟨h₁, -, -, h₄⟩ := handleIncoming_muted a message
    exact ⟨rfl, rfl, h₄, h₁⟩
  · intro ε callback
    exact ⟨rfl, rfl⟩
  · intro type payload hm
    exact (kept_sendRelayMessage a type payload).2.2.2 hm

/-- C22 on the relay-mode auto round `relayAutoRound`: an inbound
`stop-autobet` stops the run and sends nothing; an inbound `auto-bet-result`
whose first entry has the strings `'0'`, `'0'` as `row` and `col` and whose
second entry is `null` reveals tile `(0, 0)` and then throws a `TypeError`,
with nothing sent and `suppressRelay` false afterwards; and `sendRelayMessage`
sends nothing while `suppressRelay` is set. -/
theorem c22_inbound_witness :
    (relayAutoRound.handleIncoming (.stopAutobet (some "server") false)).sent
        = relayAutoRound.sent ∧
      (relayAutoRound.handleIncoming (.stopAutobet (some "server") false)).vars.autoRunActive
        = false ∧
      relayAutoRound.incomingError
          (.autoBetResult (some [some ⟨.other (some 0), .other (some 0), some "A"⟩, none]))
        = some .typeError ∧
      (relayAutoRound.handleIncoming
          (.autoBetResult
            (some [some ⟨.other (some 0), .other (some 0), some "A"⟩, none]))).game.map
          (fun g => g.rules.revealedCount) = some 1 ∧
      (relayAutoRound.handleIncoming
          (.autoBetResult
            (some [some ⟨.other (some 0), .other (some 0), some "A"⟩, none]))).sent
        = relayAutoRound.sent ∧
      (relayAutoRound.handleIncoming
          (.autoBetResult
            (some [some ⟨.other (some 0), .other (some 0), some "A"⟩,
              none]))).vars.suppressRelay = false ∧
      ((relayAutoRound.setVars fun v => { v with suppressRelay := true }).sendRelayMessage
        "action:bet" .empty).sent = relayAutoRound.sent :=
  ⟨((c22_inbound_handling_sends_nothing relayAutoRound).1 _).2.2.1, by decide, by decide,
   by decide, ((c22_inbound_handling_sends_nothing relayAutoRound).1 _).2.2.1,
   ((c22_inbound_handling_sends_nothing relayAutoRound).1 _).2.2.2,
   (c22_inbound_handling_sends_nothing
      (relayAutoRound.setVars fun v => { v with suppressRelay := true })).2.2 _ _ (Or.inr rfl)⟩

theorem boot_cashout (contentKeys : List String) (numberOfBets : Nat) (disableAnimations : Bool)
    (rng : Rng) :
    (boot contentKeys numberOfBets disableAnimations rng).vars.cashoutAvailable = false ∧
      (boot contentKeys numberOfBets disableAnimations rng).vars.suppressRelay = false := by
  constructor <;> simp [boot, initial]

theorem handleCashout_of_unavailable (a : App) (h : a.vars.cashoutAvailable = false) :
    a.handleCashout = a := by
  unfold handleCashout
  rw [if_pos (Or.inr h)]

theorem handleIncoming_cashout (a : App) (h : a.vars.cashoutAvailable = false)
    (hs : a.vars.suppressRelay = false) : a.handleIncoming .cashout = a := by
  obtain ⟨vars, game, panel, bi, rat, sent, rng, fc, starts⟩ := a
  obtain ⟨demoMode, suppressRelay, betButtonMode, roundActive, cashoutAvailable, lastKnownGameState,
    selectionDelayHandle, selectionPending, minesSelectionLocked, controlPanelMode, autoRunActive,
    autoRoundInProgress, autoResetTimer, autoStopPending, autoRemainingBets, manualRoundNeedsReset,
    availableCardTypes, currentBetResult, currentRoundAssignments, autoResetDelayMs⟩ := vars
  simp only at h hs
  subst h hs
  simp [handleIncoming, withRelaySuppressed, dispatchIncoming, setVars]

theorem revealRemainingTilesAndFinalize_settles (a : App) (hr : a.vars.roundActive = true)
    (hs : a.vars.selectionPending = false) :
    a.revealRemainingTilesAndFinalize.game = a.game.map (fun g => g.revealRemainingTiles []) ∧
      a.revealRemainingTilesAndFinalize.vars.roundActive = false ∧
      a.revealRemainingTilesAndFinalize.finalizeCalls = a.finalizeCalls + 1 ∧
      a.revealRemainingTilesAndFinalize.vars.manualRoundNeedsReset
        = (decide (a.vars.controlPanelMode = .manual) || a.vars.manualRoundNeedsReset) ∧
      a.revealRemainingTilesAndFinalize.sent = a.sent := by
  unfold revealRemainingTilesAndFinalize
  rw [if_neg (by simp [hr, hs])]
  refine ⟨by simp [markManualRoundForReset, apply_ite App.game, withGame],
    by simp, by simp [markManualRoundForReset, apply_ite App.finalizeCalls, withGame], ?_,
    by simp [markManualRoundForReset, apply_ite App.sent, withGame]⟩
  simp only [finalizeRound_vars, withGame_vars, markManualRoundForReset]
  by_cases hm : a.vars.controlPanelMode = .manual <;> simp [hm]

/-- The inbound `finalize-bet` finalizes whatever the state and leaves the
game alone. -/
theorem handleIncoming_finalizeBet (a : App) :
    (a.handleIncoming .finalizeBet).vars.roundActive = false ∧
      (a.handleIncoming .finalizeBet).finalizeCalls = a.finalizeCalls + 1 ∧
      (a.handleIncoming .finalizeBet).game = a.game := by
  simp [handleIncoming, withRelaySuppressed, dispatchIncoming]

/-- The inbound `stop-autobet` with `completed` true finalizes an active round
and leaves the game alone. -/
theorem handleIncoming_stop_completed (a : App) (reason : Option String)
    (hround : a.vars.roundActive = true) :
    (a.handleIncoming (.stopAutobet reason true)).vars.roundActive = false ∧
      (a.handleIncoming (.stopAutobet reason true)).finalizeCalls = a.finalizeCalls + 1 ∧
      (a.handleIncoming (.stopAutobet reason true)).game = a.game := by
  obtain ⟨hv, hg, hf, -⟩ := @stopAutoBetProcess_now
    (a.setVars fun v => { v with suppressRelay := true }) (reason.getD "user") true (Or.inr rfl)
  simp only [setVars_vars, hround, if_true, setVars_finalizeCalls, setVars_game] at hv hg hf
  refine ⟨?_, ?_, ?_⟩
  · show ((stopAutoBetProcess _ _ true).setVars _).vars.roundActive = false
    simp only [setVars_vars, hv]
  · show ((stopAutoBetProcess _ _ true).setVars _).finalizeCalls = _
    simp only [setVars_finalizeCalls, hf]
  · show ((stopAutoBetProcess _ _ true).setVars _).game = _
    simp only [setVars_game, hg]

/-- The change of mode from manual to auto finalizes an active round. -/
theorem handleModeChange_auto_settles (a : App) (hmode : a.vars.controlPanelMode = .manual)
    (hround : a.vars.roundActive = true) :
    (a.handleModeChange .auto).vars.roundActive = false ∧
      (a.handleModeChange .auto).finalizeCalls = a.finalizeCalls + 1 := by
  unfold handleModeChange
  obtain ⟨⟨l, c, hshape⟩, hgame, hfin, -⟩ := gameReset_shape
    ((a.setVars fun v => { v with controlPanelMode := Mode.auto }).finalizeRound)
  cases hreset : a.vars.manualRoundNeedsReset <;>
    simp [hmode, hround, hreset, hshape, hgame, hfin, apply_ite App.vars, apply_ite App.game,
      apply_ite App.finalizeCalls]

/-- C30, as stated, fails in its last clause: a manual round in which no tile
has been revealed is settled (`finalizeRound` runs, `roundActive` becomes
false, still no tile revealed and none scheduled) by the inbound
`finalize-bet`, by the inbound `stop-autobet` with `completed` true, and by the
change of mode to auto; none of them is the scratch path. -/
theorem c30_other_paths_settle_a_manual_round :
    (manualRelayRound.vars.roundActive, manualRelayRound.vars.controlPanelMode,
      manualRelayRound.finalizeCalls,
      manualRelayRound.game.map fun g => (g.rules.revealedCount, g.timers.length))
      = (true, .manual, 1, some (0, 0)) ∧
    ((manualRelayRound.step (.incoming .finalizeBet)).vars.roundActive,
      (manualRelayRound.step (.incoming .finalizeBet)).finalizeCalls,
      (manualRelayRound.step (.incoming .finalizeBet)).game.map fun g =>
        (g.rules.revealedCount, g.timers.length))
      = (false, 2, some (0, 0)) ∧
    ((manualRelayRound.step (.incoming (.stopAutobet none true))).vars.roundActive,
      (manualRelayRound.step (.incoming (.stopAutobet none true))).finalizeCalls,
      (manualRelayRound.step (.incoming (.stopAutobet none true))).game.map fun g =>
        (g.rules.revealedCount, g.timers.length))
      = (false, 2, some (0, 0)) ∧
    ((manualRelayRound.step (.modeChange .auto)).vars.roundActive,
      (manualRelayRound.step (.modeChange .auto)).finalizeCalls,
      (manualRelayRound.step (.modeChange .auto)).game.map fun g =>
        (g.rules.revealedCount, g.timers.length))
      = (false, 2, some (0, 0)) := by
  refine ⟨?_, ?_, ?_, ?_⟩ <;> decide

/-- C30, amended: in every state the application reaches from start-up by any
events, `cashoutAvailable` is false; so `handleCashout` and the inbound
`cashout` message change nothing at all (no tile is revealed or scheduled, no
round finalized, nothing sent). The scratch button, in a manual round with no
selection pending, finalizes the round at once; and an active round is also
settled, whatever has been revealed, by the inbound `finalize-bet`, by the
inbound `stop-autobet` with `completed` true (both leave the game alone) and,
in manual mode, by the change of mode to auto. -/
theorem c30_cashout_never_available (contentKeys : List String) (numberOfBets : Nat)
    (disableAnimations : Bool) (rng : Rng) (events : List Event) :
    ((boot contentKeys numberOfBets disableAnimations rng).run events).vars.cashoutAvailable
      = false ∧
    ((boot contentKeys numberOfBets disableAnimations rng).run events).handleCashout
      = (boot contentKeys numberOfBets disableAnimations rng).run events ∧
    ((boot contentKeys numberOfBets disableAnimations rng).run events).handleIncoming .cashout
      = (boot contentKeys numberOfBets disableAnimations rng).run events ∧
    (((boot contentKeys numberOfBets disableAnimations rng).run events).vars.roundActive = true →
      ((boot contentKeys numberOfBets disableAnimations rng).run events).vars.controlPanelMode
        = .manual →
      ((boot contentKeys numberOfBets disableAnimations rng).run events).vars.selectionPending
        = false →
      ((boot contentKeys numberOfBets disableAnimations rng).run
          events).handleScratchButtonClick.vars.roundActive = false ∧
      ((boot contentKeys numberOfBets disableAnimations rng).run
          events).handleScratchButtonClick.finalizeCalls
        = ((boot contentKeys numberOfBets disableAnimations rng).run events).finalizeCalls
          + 1) ∧
    (((boot contentKeys numberOfBets disableAnimations rng).run events).vars.roundActive = true →
      (((boot contentKeys numberOfBets disableAnimations rng).run events).handleIncoming
          .finalizeBet).vars.roundActive = false ∧
      (((boot contentKeys numberOfBets disableAnimations rng).run events).handleIncoming
          .finalizeBet).finalizeCalls
        = ((boot contentKeys numberOfBets disableAnimations rng).run events).finalizeCalls
          + 1 ∧
      (((boot contentKeys numberOfBets disableAnimations rng).run events).handleIncoming
          .finalizeBet).game
        = ((boot contentKeys numberOfBets disableAnimations rng).run events).game ∧
      ∀ reason : Option String,
        (((boot contentKeys numberOfBets disableAnimations rng).run events).handleIncoming
            (.stopAutobet reason true)).vars.roundActive = false ∧
        (((boot contentKeys numberOfBets disableAnimations rng).run events).handleIncoming
            (.stopAutobet reason true)).finalizeCalls
          = ((boot contentKeys numberOfBets disableAnimations rng).run events).finalizeCalls
            + 1 ∧
        (((boot contentKeys numberOfBets disableAnimations rng).run events).handleIncoming
            (.stopAutobet reason true)).game
          = ((boot contentKeys numberOfBets disableAnimations rng).run events).game) ∧
    (((boot contentKeys numberOfBets disableAnimations rng).run events).vars.roundActive = true →
      ((boot contentKeys numberOfBets disableAnimations rng).run events).vars.controlPanelMode
        = .manual →
      (((boot contentKeys numberOfBets disableAnimations rng).run events).handleModeChange
          .auto).vars.roundActive = false ∧
      (((boot contentKeys numberOfBets disableAnimations rng).run events).handleModeChange
          .auto).finalizeCalls
        = ((boot contentKeys numberOfBets disableAnimations rng).run events).finalizeCalls
          + 1) := by
  obtain ⟨h₀, s₀⟩ := boot_cashout contentKeys numberOfBets disableAnimations rng
  obtain ⟨h, hs⟩ := run_cashout events _ h₀ s₀
  refine ⟨h, handleCashout_of_unavailable _ h, handleIncoming_cashout _ h hs, ?_, ?_, ?_⟩
  · intro hr hm hsel
    unfold handleScratchButtonClick
    rw [if_neg (by simp [hm])]
    obtain ⟨-, h₁, h₂, -⟩ := revealRemainingTilesAndFinalize_settles _ hr hsel
    exact ⟨h₁, h₂⟩
  · intro hr
    obtain ⟨f₁, f₂, f₃⟩ := handleIncoming_finalizeBet
      ((boot contentKeys numberOfBets disableAnimations rng).run events)
    exact ⟨f₁, f₂, f₃, fun reason => handleIncoming_stop_completed _ reason hr⟩
  · intro hr hm
    exact handleModeChange_auto_settles _ hm hr

/-- C30 on the manual demo round after one click on the bet button:
`cashoutAvailable` is false and `handleCashout` leaves the round active, while
the scratch button, the inbound `finalize-bet`, the inbound `stop-autobet` with
`completed` true and the change of mode to auto each leave it settled. -/
theorem c30_cashout_witness :
    ((boot ["A", "B"] 0 false [7, 3, 5, 1, 2, 0, 2, 1, 0, 1, 0, 1, 1, 0, 1, 1]).run
        [.betClick]).vars.cashoutAvailable = false ∧
    ((boot ["A", "B"] 0 false [7, 3, 5, 1, 2, 0, 2, 1, 0, 1, 0, 1, 1, 0, 1, 1]).run
        [.betClick]).vars.roundActive = true ∧
    ((boot ["A", "B"] 0 false [7, 3, 5, 1, 2, 0, 2, 1, 0, 1, 0, 1, 1, 0, 1, 1]).run
        [.betClick]).handleCashout.vars.roundActive = true ∧
    ((boot ["A", "B"] 0 false [7, 3, 5, 1, 2, 0, 2, 1, 0, 1, 0, 1, 1, 0, 1, 1]).run
        [.betClick]).handleScratchButtonClick.vars.roundActive = false ∧
    (((boot ["A", "B"] 0 false [7, 3, 5, 1, 2, 0, 2, 1, 0, 1, 0, 1, 1, 0, 1, 1]).run
        [.betClick]).handleIncoming .finalizeBet).vars.roundActive = false ∧
    (((boot ["A", "B"] 0 false [7, 3, 5, 1, 2, 0, 2, 1, 0, 1, 0, 1, 1, 0, 1, 1]).run
        [.betClick]).handleIncoming (.stopAutobet none true)).vars.roundActive = false ∧
    (((boot ["A", "B"] 0 false [7, 3, 5, 1, 2, 0, 2, 1, 0, 1, 0, 1, 1, 0, 1, 1]).run
        [.betClick]).handleModeChange .auto).vars.roundActive = false :=
  have h := c30_cashout_never_available ["A", "B"] 0 false
    [7, 3, 5, 1, 2, 0, 2, 1, 0, 1, 0, 1, 1, 0, 1, 1] [.betClick]
  ⟨h.1, by decide, by rw [h.2.1]; decide, (h.2.2.2.1 (by decide) (by decide) (by decide)).1,
    (h.2.2.2.2.1 (by decide)).1, ((h.2.2.2.2.1 (by decide)).2.2.2 none).1,
    (h.2.2.2.2.2 (by decide) (by decide)).1⟩

/-- C24: `revealRemainingTilesAndFinalize()`. With a round active and no
selection pending it calls `game.revealRemainingTiles()` and `finalizeRound()`
in the same call: when it returns `roundActive` is false, no flip has been
started or completed meanwhile (the running flips, the `GameRules` state and
`pendingReveals` are as before), `manualRoundNeedsReset` is set in manual mode
(unchanged otherwise), and nothing was sent. What the request does to a game
whose timer bookkeeping is sound and that has no sweep in progress is to
schedule one timer per eligible tile, in row-major order. With no round active
or a selection pending the function changes nothing. -/
theorem c24_scratch_all_settles_at_once (a : App) :
    (a.vars.roundActive = true → a.vars.selectionPending = false →
      a.revealRemainingTilesAndFinalize.game
        = a.game.map (fun g => g.revealRemainingTiles []) ∧
      a.revealRemainingTilesAndFinalize.vars.roundActive = false ∧
      a.revealRemainingTilesAndFinalize.finalizeCalls = a.finalizeCalls + 1 ∧
      a.revealRemainingTilesAndFinalize.vars.manualRoundNeedsReset
        = (decide (a.vars.controlPanelMode = .manual) || a.vars.manualRoundNeedsReset) ∧
      a.revealRemainingTilesAndFinalize.sent = a.sent ∧
      ∀ g, a.game = some g →
        (g.revealRemainingTiles []).flights = g.flights ∧
        (g.revealRemainingTiles []).rules = g.rules ∧
        (g.revealRemainingTiles []).outcome.pendingReveals = g.outcome.pendingReveals ∧
        (Game.Sound g → g.isAutoRevealInProgress = false →
          (g.revealRemainingTiles []).timers
            = g.timers ++ g.sweepTimers ((g.eligible []).insertionSort Game.rowMajorLE))) ∧
    (a.vars.roundActive = false ∨ a.vars.selectionPending = true →
      a.revealRemainingTilesAndFinalize = a) := by
  constructor
  · intro hr hs
    obtain ⟨h₁, h₂, h₃, h₄, h₅⟩ := revealRemainingTilesAndFinalize_settles a hr hs
    refine ⟨h₁, h₂, h₃, h₄, h₅, ?_⟩
    intro g _
    obtain ⟨ho, hf, hrules⟩ := Game.revealRemainingTiles_outcome g []
    refine ⟨hf, hrules, by rw [ho], ?_⟩
    intro hsound hidle
    exact Game.revealRemainingTiles_timers g [] hsound (by simp [hidle])
  · intro h
    unfold revealRemainingTilesAndFinalize
    rw [if_pos h]

theorem c24_scratch_all_witness :
    manualRoundStarted.vars.roundActive = true ∧
      manualRoundStarted.revealRemainingTilesAndFinalize.vars.roundActive = false ∧
      manualRoundStarted.revealRemainingTilesAndFinalize.vars.manualRoundNeedsReset = true ∧
      manualRoundStarted.revealRemainingTilesAndFinalize.revealRemainingTilesAndFinalize
        = manualRoundStarted.revealRemainingTilesAndFinalize :=
  have h := (c24_scratch_all_settles_at_once manualRoundStarted).1 (by decide) (by decide)
  ⟨by decide, h.2.1, h.2.2.2.1.trans (by decide),
    (c24_scratch_all_settles_at_once manualRoundStarted.revealRemainingTilesAndFinalize).2
      (Or.inl h.2.1)⟩

end App

namespace Game

/-- With animations enabled, `revealCard` on a tile that is neither revealed
nor destroyed starts a flip and counts it: when it returns, the flip is
running, `pendingReveals` is one more, and the `GameRules` state and the
feedback latch are as before. -/
theorem revealCard_issue_animated (g : Game) (id : Nat) (face : Face) (card : Card)
    (hfind : g.findCard id = some card) (hd : card.destroyed = false)
    (hr : card.revealed = false) (hanim : g.disableAnimations = false)
    (hflip : g.flipDuration ≠ 0) :
    (g.revealCard id face).rules = g.rules ∧
      (g.revealCard id face).outcome.pendingReveals = g.outcome.pendingReveals + 1 ∧
      (g.revealCard id face).outcome.feedbackPlayed = g.outcome.feedbackPlayed ∧
      ∃ key : Face, ({ cardId := id, key := key } : Flight) ∈ (g.revealCard id face).flights := by
  have hfind₁ := findCard_clearScheduledAutoReveal g id card hfind
  have ho₁ := clearScheduledAutoReveal_outcome g id
  have hr₁ := clearScheduledAutoReveal_rules g id
  obtain ⟨-, hf₂, hf₃, -, -, -, -⟩ := clearScheduledAutoReveal_frame g id
  unfold revealCard
  dsimp only
  generalize g.clearScheduledAutoReveal id = g₁ at hfind₁ ho₁ hr₁ hf₂ hf₃ ⊢
  have hfind₂ : (g₁.modifyCard id fun c => { c with revealedFace := face }).findCard id
      = some { card with
          autoRevealTimer := none, autoRevealScheduled := false, revealedFace := face } := by
    rw [findCard_modifyCard, hfind₁]
    · simp [(findCard_mem hfind).2]
    · intro c
      rfl
  obtain ⟨key, hreveal⟩ := (cardReveal_animated _ id face _ hfind₂
    (hf₂.trans hanim) (fun h0 => hflip (hf₃.symm.trans h0))).2 (by simp [hd, hr])
  rw [hreveal]
  simp only [modifyCard]
  rw [if_pos trivial]
  split
  · split
    · obtain ⟨ho, hfl, hrules⟩ := revealRemainingTiles_outcome
        ({ g₁ with
            cards := List.map
              (fun c =>
                if c.id = id then
                  { c with
                    pendingWinningReveal := decide (g₁.outcome.betResult = some "win" ∧
                      g₁.outcome.winningKey ≠ none ∧ face ≠ none ∧
                      face = g₁.outcome.winningKey) }
                else c)
              (List.map
                (fun c => if c.id = id then { c with animating := false, wiggling := false } else c)
                (List.map (fun c => if c.id = id then { c with revealedFace := face } else c)
                  g₁.cards))
            detached := List.map
              (fun c =>
                if c.id = id then
                  { c with
                    pendingWinningReveal := decide (g₁.outcome.betResult = some "win" ∧
                      g₁.outcome.winningKey ≠ none ∧ face ≠ none ∧
                      face = g₁.outcome.winningKey) }
                else c)
              (List.map
                (fun c => if c.id = id then { c with animating := false, wiggling := false } else c)
                (List.map (fun c => if c.id = id then { c with revealedFace := face } else c)
                  g₁.detached))
            flights := g₁.flights ++ [{ cardId := id, key := key }]
            outcome :=
              { g₁.outcome with
                pendingReveals := g₁.outcome.pendingReveals + 1
                pendingWinningReveals := g₁.outcome.pendingWinningReveals + 1
                autoRevealTriggered := true } } : Game) [id]
      refine ⟨hrules.trans hr₁, ?_, ?_, key, ?_⟩
      · rw [ho]
        show g₁.outcome.pendingReveals + 1 = _
        rw [ho₁]
      · rw [ho]
        show g₁.outcome.feedbackPlayed = _
        rw [ho₁]
      · rw [hfl]
        exact List.mem_append_right _ (List.mem_singleton.mpr rfl)
    · exact ⟨hr₁, by rw [← ho₁], by rw [← ho₁],
        key, List.mem_append_right _ (List.mem_singleton.mpr rfl)⟩
  · exact ⟨hr₁, by rw [← ho₁], by rw [← ho₁],
      key, List.mem_append_right _ (List.mem_singleton.mpr rfl)⟩

end Game

namespace App

theorem scheduleNextAutoBetRound_idle (a : App) :
    a.scheduleNextAutoBetRound.vars.roundActive = a.vars.roundActive ∧
      a.scheduleNextAutoBetRound.finalizeCalls = a.finalizeCalls ∧
      a.scheduleNextAutoBetRound.game = a.game := by
  unfold scheduleNextAutoBetRound
  split <;> exact ⟨rfl, rfl, rfl⟩

/-- With no round active `handleAutoRoundCompleted` finalizes nothing and
leaves the game alone. -/
theorem handleAutoRoundCompleted_idle (a : App) (h : a.vars.roundActive = false) :
    a.handleAutoRoundCompleted.vars.roundActive = false ∧
      a.handleAutoRoundCompleted.finalizeCalls = a.finalizeCalls ∧
      a.handleAutoRoundCompleted.game = a.game := by
  unfold handleAutoRoundCompleted
  dsimp only
  have key : ∀ b : App, b.vars.roundActive = false → b.finalizeCalls = a.finalizeCalls →
      b.game = a.game →
      (if b.vars.autoRunActive = false then b
        else if decide (a.vars.autoRemainingBets > 0) = true ∧ b.vars.autoRemainingBets = 0 then
          b.stopAutoBetProcess "completed" true
        else b.scheduleNextAutoBetRound).vars.roundActive = false ∧
      (if b.vars.autoRunActive = false then b
        else if decide (a.vars.autoRemainingBets > 0) = true ∧ b.vars.autoRemainingBets = 0 then
          b.stopAutoBetProcess "completed" true
        else b.scheduleNextAutoBetRound).finalizeCalls = a.finalizeCalls ∧
      (if b.vars.autoRunActive = false then b
        else if decide (a.vars.autoRemainingBets > 0) = true ∧ b.vars.autoRemainingBets = 0 then
          b.stopAutoBetProcess "completed" true
        else b.scheduleNextAutoBetRound).game = a.game := by
    intro b hb hf hg
    split
    · exact ⟨hb, hf, hg⟩
    · split
      · obtain ⟨hv, hgame, hcalls, -⟩ := stopAutoBetProcess_now b "completed" true (Or.inl hb)
        refine ⟨?_, ?_, hgame.trans hg⟩
        · rw [hv]
          simp [hb]
        · rw [hcalls]
          simp [hb, hf]
      · obtain ⟨h₁, h₂, h₃⟩ := scheduleNextAutoBetRound_idle b
        exact ⟨h₁.trans hb, h₂.trans hf, h₃.trans hg⟩
  apply key
  · show ((if decide (a.vars.autoRemainingBets > 0) = true then _ else a).vars).roundActive = false
    split
    · exact h
    · exact h
  · show ((if decide (a.vars.autoRemainingBets > 0) = true then _ else a)).finalizeCalls = _
    split <;> rfl
  · show ((if decide (a.vars.autoRemainingBets > 0) = true then _ else a)).game = _
    split <;> rfl

/-- A state notification with `gameOver` during a round finalizes the round,
once, and leaves the game alone. -/
theorem handleGameStateChange_finalizes (a : App) (st : RulesState)
    (hround : a.vars.roundActive = true) (hover : st.gameOver = true) :
    (a.handleGameStateChange st).vars.roundActive = false ∧
      (a.handleGameStateChange st).finalizeCalls = a.finalizeCalls + 1 ∧
      (a.handleGameStateChange st).game = a.game := by
  unfold handleGameStateChange
  dsimp only
  have hfin : (a.setVars fun v => { v with lastKnownGameState := some st
      }).finalizeRound.vars.roundActive = false := by simp
  rw [if_neg (by simp [hround]), if_pos hover]
  split
  · obtain ⟨h₁, h₂, h₃⟩ := handleAutoRoundCompleted_idle _ hfin
    exact ⟨h₁, by rw [h₂]; simp, by rw [h₃]; simp⟩
  · exact ⟨hfin, by simp, by simp⟩

/-- The callback of the sweep timer of the last hidden tile, animations
enabled: the round is finalized inside the callback, the flip it has started
still running. -/
theorem fireSweepTimer_last_tile (a : App) (g : Game) (handle : Nat) (timer : SweepTimer)
    (card : Card) (hgame : a.game = some g)
    (htimer : g.timers.find? (fun t => t.handle = handle) = some timer)
    (hfind : g.findCard timer.cardId = some card)
    (hd : card.destroyed = false) (hr : card.revealed = false)
    (hover : g.rules.gameOver = false)
    (hrec : JsMap.get g.rules.revealedMap (getCardKey card.row card.col) = none)
    (hlast : g.rules.totalTiles ≤ g.rules.revealedCount + 1)
    (hanim : g.disableAnimations = false) (hflip : g.flipDuration ≠ 0)
    (hround : a.vars.roundActive = true) :
    (a.fireSweepTimer handle).vars.roundActive = false ∧
      (a.fireSweepTimer handle).finalizeCalls = a.finalizeCalls + 1 ∧
      ∃ g', (a.fireSweepTimer handle).game = some g' ∧ g'.rules.gameOver = true ∧
        g'.outcome.pendingReveals = g.outcome.pendingReveals + 1 ∧
        g'.outcome.feedbackPlayed = g.outcome.feedbackPlayed ∧
        ∃ key : Face, ({ cardId := timer.cardId, key := key } : Flight) ∈ g'.flights := by
  have hid : card.id = timer.cardId := (Game.findCard_mem hfind).2
  have hfind₁ : (({ g with
        timers := g.timers.filter fun t => t.handle ≠ timer.handle
        handles := g.handles.filter fun h => h ≠ timer.handle } : Game).modifyCard timer.cardId
        fun c => { c with autoRevealTimer := none, autoRevealScheduled := false }).findCard
        timer.cardId
      = some { card with autoRevealTimer := none, autoRevealScheduled := false } := by
    rw [Game.findCard_modifyCard]
    · show Option.map _ (g.findCard timer.cardId) = _
      rw [hfind]
      simp [hid]
    · intro c
      rfl
  have hreveal : g.rules.revealResult card.row card.col timer.assignedFace
      = ({ face := timer.assignedFace.orElse fun _ =>
              (JsMap.get g.rules.assignments (getCardKey card.row card.col)).join
           gameOver := true, win := false },
          { g.rules with
            revealedCount := g.rules.revealedCount + 1
            gameOver := true
            revealedMap := JsMap.set g.rules.revealedMap (getCardKey card.row card.col)
              { face := timer.assignedFace.orElse fun _ =>
                  (JsMap.get g.rules.assignments (getCardKey card.row card.col)).join
                gameOver := true, win := false } }) := by
    simp [GameRules.revealResult, hover, hrec, hlast]
  have hbody : sweepTimerBody g timer
      = (true, Game.revealCard
          ({ (({ g with
              timers := g.timers.filter fun t => t.handle ≠ timer.handle
              handles := g.handles.filter fun h => h ≠ timer.handle } : Game).modifyCard
                timer.cardId
              fun c => { c with autoRevealTimer := none, autoRevealScheduled := false }) with
            rules :=
              { g.rules with
                revealedCount := g.rules.revealedCount + 1
                gameOver := true
                revealedMap := JsMap.set g.rules.revealedMap (getCardKey card.row card.col)
                  { face := timer.assignedFace.orElse fun _ =>
                      (JsMap.get g.rules.assignments (getCardKey card.row card.col)).join
                    gameOver := true, win := false } } } : Game)
          timer.cardId
          (timer.assignedFace.orElse fun _ =>
            (JsMap.get g.rules.assignments (getCardKey card.row card.col)).join)) := by
    unfold sweepTimerBody
    dsimp only
    rw [hfind₁]
    simp only [hd, hr, Bool.false_eq_true, or_self, ↓reduceIte, revealTile, Game.modifyCard_rules,
      hreveal, hid]
  unfold fireSweepTimer
  rw [hgame]
  dsimp only
  rw [htimer]
  dsimp only
  rw [hbody]
  dsimp only
  rw [if_pos rfl]
  obtain ⟨k₁, k₂, k₃, key, k₄⟩ := Game.revealCard_issue_animated
    ({ (({ g with
        timers := g.timers.filter fun t => t.handle ≠ timer.handle
        handles := g.handles.filter fun h => h ≠ timer.handle } : Game).modifyCard timer.cardId
        fun c => { c with autoRevealTimer := none, autoRevealScheduled := false }) with
      rules :=
        { g.rules with
          revealedCount := g.rules.revealedCount + 1
          gameOver := true
          revealedMap := JsMap.set g.rules.revealedMap (getCardKey card.row card.col)
            { face := timer.assignedFace.orElse fun _ =>
                (JsMap.get g.rules.assignments (getCardKey card.row card.col)).join
              gameOver := true, win := false } } } : Game)
    timer.cardId
    (timer.assignedFace.orElse fun _ =>
      (JsMap.get g.rules.assignments (getCardKey card.row card.col)).join)
    { card with autoRevealTimer := none, autoRevealScheduled := false }
    hfind₁ hd hr hanim hflip
  generalize Game.revealCard _ timer.cardId _ = G at k₁ k₂ k₃ k₄ ⊢
  unfold notifyStateChange
  dsimp only
  obtain ⟨h₁, h₂, h₃⟩ := handleGameStateChange_finalizes ({ a with game := some G } : App)
    G.rules.getState hround (by rw [k₁]; rfl)
  refine ⟨h₁, h₂, G, h₃, by rw [k₁], ?_, ?_, key, ?_⟩
  · rw [k₂]; rfl
  · rw [k₃]; rfl
  · exact k₄

end App

namespace App

theorem eq_some_getD (o : Option Game) (d : Game) (h : o.isSome = true) :
    o = some (o.getD d) := by
  cases o with
  | none => cases h
  | some g => rfl

set_option maxRecDepth 100000 in
theorem lastTileScheduled_game : lastTileScheduled.game = some lastTileGame :=
  eq_some_getD _ _ rfl

set_option maxRecDepth 100000 in
/-- C21, as stated, fails: in a relay-mode auto round, the inbound
`auto-bet-result` that names all nine tiles starts nine flips and then
notifies the state, `gameOver` being true; `handleGameStateChange` finalizes
the round inside that call (and `handleAutoRoundCompleted` counts it), with
`pendingReveals = 9`, nine flips running and the feedback not played. -/
theorem c21_finalized_while_flips_run :
    relayAutoRound.vars.roundActive = true ∧
    (relayAutoRound.step (.incoming (.autoBetResult (some allTiles)))).vars.roundActive = false ∧
    (relayAutoRound.step (.incoming (.autoBetResult (some allTiles)))).finalizeCalls
      = relayAutoRound.finalizeCalls + 1 ∧
    (relayAutoRound.vars.autoRemainingBets,
      (relayAutoRound.step
        (.incoming (.autoBetResult (some allTiles)))).vars.autoRemainingBets) = (3, 2) ∧
    (relayAutoRound.step (.incoming (.autoBetResult (some allTiles)))).game.map
        (fun g => (g.rules.gameOver, g.outcome.pendingReveals, g.flights.length,
          g.outcome.feedbackPlayed))
      = some (true, 9, 9, false) := by
  refine ⟨?_, ?_, ?_, ?_, ?_⟩ <;> rfl

/-- C21, amended: the coordinator settles a round that ends by all tiles being
revealed when the game notifies a state whose `gameOver` is true, which
`GameRules` sets when the reveal of the last tile is issued.
`handleGameStateChange` finalizes exactly when a round is active and the state
is game over, whatever the game's `pendingReveals` (the game is not read), and
is `finalizeRound` then `handleAutoRoundCompleted` in auto mode with a run
active. So with animations enabled the callback of the sweep timer of the last
hidden tile finalizes the round while the flip it has just started is running:
`pendingReveals` is at least 1 and the feedback latch is as before. -/
theorem c21_settles_when_last_reveal_is_issued (a : App) :
    (∀ st : RulesState, a.vars.roundActive = true → st.gameOver = true →
      (a.handleGameStateChange st).vars.roundActive = false ∧
      (a.handleGameStateChange st).finalizeCalls = a.finalizeCalls + 1 ∧
      (a.handleGameStateChange st).game = a.game ∧
      (a.vars.controlPanelMode = .auto → a.vars.autoRunActive = true →
        a.handleGameStateChange st
          = ((a.setVars fun v => { v with lastKnownGameState := some st
              }).finalizeRound).handleAutoRoundCompleted)) ∧
    (∀ st : RulesState, a.vars.roundActive = false ∨ st.gameOver = false →
      (a.handleGameStateChange st).finalizeCalls = a.finalizeCalls ∧
      (a.handleGameStateChange st).vars.roundActive = a.vars.roundActive) ∧
    (∀ (g : Game) (handle : Nat) (timer : SweepTimer) (card : Card),
      a.game = some g →
      g.timers.find? (fun t => t.handle = handle) = some timer →
      g.findCard timer.cardId = some card →
      card.destroyed = false → card.revealed = false →
      g.rules.gameOver = false →
      JsMap.get g.rules.revealedMap (getCardKey card.row card.col) = none →
      g.rules.totalTiles ≤ g.rules.revealedCount + 1 →
      g.disableAnimations = false → g.flipDuration ≠ 0 →
      a.vars.roundActive = true →
      (a.fireSweepTimer handle).vars.roundActive = false ∧
      (a.fireSweepTimer handle).finalizeCalls = a.finalizeCalls + 1 ∧
      ∃ g', (a.fireSweepTimer handle).game = some g' ∧ g'.rules.gameOver = true ∧
        g'.outcome.pendingReveals = g.outcome.pendingReveals + 1 ∧
        g'.outcome.feedbackPlayed = g.outcome.feedbackPlayed ∧
        ∃ key : Face, ({ cardId := timer.cardId, key := key } : Flight) ∈ g'.flights) := by
  refine ⟨?_, ?_, ?_⟩
  · intro st hround hover
    obtain ⟨h₁, h₂, h₃⟩ := handleGameStateChange_finalizes a st hround hover
    exact ⟨h₁, h₂, h₃, fun hmode hrun => handleGameStateChange_over a st hround hover hmode hrun⟩
  · intro st h
    obtain ⟨hv, -, hf, -⟩ := handleGameStateChange_quiet a st h
    exact ⟨hf, by rw [hv]⟩
  · intro g handle timer card hgame htimer hfind hd hr hover hrec hlast hanim hflip hround
    exact fireSweepTimer_last_tile a g handle timer card hgame htimer hfind hd hr hover hrec hlast
      hanim hflip hround

set_option maxRecDepth 100000 in
theorem c21_settles_witness :
    lastTileScheduled.vars.roundActive = true ∧
    lastTileGame.outcome.pendingReveals = 8 ∧
    (lastTileScheduled.fireSweepTimer 9).vars.roundActive = false ∧
    (lastTileScheduled.fireSweepTimer 9).finalizeCalls = lastTileScheduled.finalizeCalls + 1 ∧
    ∃ g', (lastTileScheduled.fireSweepTimer 9).game = some g' ∧ g'.rules.gameOver = true ∧
      g'.outcome.pendingReveals = lastTileGame.outcome.pendingReveals + 1 ∧
      g'.outcome.feedbackPlayed = lastTileGame.outcome.feedbackPlayed ∧
      ∃ key : Face, ({ cardId := 8, key := key } : Flight) ∈ g'.flights :=
  have h := (c21_settles_when_last_reveal_is_issued lastTileScheduled).2.2 lastTileGame 9
    { handle := 9, delay := 320, cardId := 8, row := 2, col := 2, assignedFace := none }
    { id := 8, row := 2, col := 2, revealed := false, destroyed := false, animating := false,
      wiggling := false, autoRevealScheduled := true, autoRevealTimer := some 9,
      pendingWinningReveal := false, randomSelectionPending := false, assignedContent := none,
      revealedFace := none, taped := false }
    lastTileScheduled_game rfl rfl rfl rfl rfl rfl
    (by
      have h₁ : lastTileGame.rules.totalTiles = 9 := rfl
      have h₂ : lastTileGame.rules.revealedCount = 8 := rfl
      rw [h₁, h₂])
    rfl
    (by
      have h₁ : lastTileGame.flipDuration = 300 := rfl
      rw [h₁]
      decide)
    rfl
  ⟨rfl, rfl, h.1, h.2.1, h.2.2⟩

end App

namespace App

/-- The module variables after `performBet()`. -/
theorem performBet_vars (a : App) :
    a.performBet.vars
      = { a.vars with
          roundActive := true, cashoutAvailable := false, selectionDelayHandle := none
          selectionPending := false, minesSelectionLocked := false
          manualRoundNeedsReset := false
          betButtonMode := if a.vars.controlPanelMode = .auto then .bet else .scratch } := by
  obtain ⟨vars, game, cp, bi, rat, sent, rng, fc, starts⟩ := a
  obtain ⟨demoMode, suppressRelay, betButtonMode, roundActive, cashoutAvailable, lastKnownGameState,
    selectionDelayHandle, selectionPending, minesSelectionLocked, controlPanelMode, autoRunActive,
    autoRoundInProgress, autoResetTimer, autoStopPending, autoRemainingBets, manualRoundNeedsReset,
    availableCardTypes, currentBetResult, currentRoundAssignments, autoResetDelayMs⟩ := vars
  cases controlPanelMode <;> cases autoRunActive <;>
    simp [performBet, prepareForNewRoundState, setVars, clearSelectionDelay, panel,
      setControlPanelBetMode, setControlPanelBetState, setControlPanelRandomState,
      setGameBoardInteractivity, setControlPanelMinesState, setModeAndBetControls,
      setControlPanelAutoStartState]

theorem performBet_frame (a : App) :
    a.performBet.game = a.game ∧ a.performBet.sent = a.sent ∧
      a.performBet.finalizeCalls = a.finalizeCalls ∧ a.performBet.rng = a.rng := by
  obtain ⟨-, -, h₁, -, h₂, h₃⟩ := performBet_run a
  refine ⟨h₂, ?_, h₁, h₃⟩
  unfold performBet prepareForNewRoundState
  simp [apply_ite App.sent]

/-- A state notification of a game that is not over records the state and
may clear `cashoutAvailable`, nothing else. -/
theorem notifyStateChange_quiet (a : App)
    (h : ∀ g, a.game = some g → g.rules.gameOver = false) :
    (∃ l c, a.notifyStateChange.vars
        = { a.vars with lastKnownGameState := l, cashoutAvailable := c } ∧
        (a.vars.cashoutAvailable = false → c = false)) ∧
      a.notifyStateChange.game = a.game ∧ a.notifyStateChange.sent = a.sent ∧
      a.notifyStateChange.finalizeCalls = a.finalizeCalls := by
  unfold notifyStateChange
  cases hg : a.game with
  | none =>
    dsimp only
    exact ⟨⟨a.vars.lastKnownGameState, a.vars.cashoutAvailable, rfl, fun h => h⟩, hg, rfl, rfl⟩
  | some g =>
    dsimp only
    obtain ⟨hv, hgame, hf, -, hs, -⟩ := handleGameStateChange_quiet a g.rules.getState
      (Or.inr (by simpa [GameRules.getState] using h g hg))
    refine ⟨⟨_, _, hv, ?_⟩, hgame.trans hg, hs, hf⟩
    intro hc
    simp [hc]

/-- A method of the game that leaves `rules.gameOver` false, followed by its
state notification, as the coordinator sees it. -/
theorem withGame_notify_vars (a : App) (f : Game → Game)
    (hf : ∀ g, (f g).rules.gameOver = false) :
    (∃ l c, (a.withGame f).notifyStateChange.vars
        = { a.vars with lastKnownGameState := l, cashoutAvailable := c } ∧
        (a.vars.cashoutAvailable = false → c = false)) ∧
      (a.withGame f).notifyStateChange.game = a.game.map f ∧
      (a.withGame f).notifyStateChange.sent = a.sent ∧
      (a.withGame f).notifyStateChange.finalizeCalls = a.finalizeCalls := by
  have h := notifyStateChange_quiet (a.withGame f) (by
    intro g hg
    simp only [withGame_game] at hg
    cases hgame : a.game with
    | none => rw [hgame] at hg; cases hg
    | some g₀ =>
      rw [hgame] at hg
      simp only [Option.map_some', Option.some.injEq] at hg
      rw [← hg]
      exact hf g₀)
  simpa only [withGame_vars, withGame_game, withGame_sent, withGame_finalizeCalls] using h

/-- Inbound `start-bet` with the relay on: the module variables are those
`performBet` leaves, the panel is that of `performBet` with random pick
enabled, and the game, the generator and the relay are not touched. -/
theorem handleIncoming_startBet (a : App) (hsup : a.vars.suppressRelay = false) :
    (a.handleIncoming .startBet).vars = a.performBet.vars ∧
      (a.handleIncoming .startBet).controlPanel
        = (a.performBet.setControlPanelRandomState true).controlPanel ∧
      (a.handleIncoming .startBet).game = a.game ∧
      (a.handleIncoming .startBet).rng = a.rng ∧
      (a.handleIncoming .startBet).sent = a.sent := by
  obtain ⟨vars, game, cp, bi, rat, sent, rng, fc, starts⟩ := a
  obtain ⟨demoMode, suppressRelay, betButtonMode, roundActive, cashoutAvailable, lastKnownGameState,
    selectionDelayHandle, selectionPending, minesSelectionLocked, controlPanelMode, autoRunActive,
    autoRoundInProgress, autoResetTimer, autoStopPending, autoRemainingBets, manualRoundNeedsReset,
    availableCardTypes, currentBetResult, currentRoundAssignments, autoResetDelayMs⟩ := vars
  simp only at hsup
  subst hsup
  cases controlPanelMode <;> cases autoRunActive <;>
    simp [handleIncoming, withRelaySuppressed, dispatchIncoming, performBet, prepareForNewRoundState, setVars,
      clearSelectionDelay, panel, setControlPanelBetMode, setControlPanelBetState,
      setControlPanelRandomState, setGameBoardInteractivity, setControlPanelMinesState,
      setModeAndBetControls, setControlPanelAutoStartState]

set_option maxRecDepth 100000 in
/-- C23 (code bug): one manual round has been played over the relay (the tile
`(0, 0)` revealed, the round settled by `finalize-bet`). The inbound
`start-bet` of the next round sets `roundActive` but leaves the game as it was:
the reveal record of the previous round is still in `GameRules`
(`revealedCount = 1`) and tile 0 is still revealed. A demo-mode
`handleBet('win')` from the same state resets the board: no record, no
revealed tile, nine fresh tiles. -/
theorem c23_relay_start_bet_keeps_the_stale_board :
    afterRelayRound.vars.demoMode = false ∧ afterRelayRound.vars.suppressRelay = false ∧
    afterRelayRound.vars.roundActive = false ∧
    (afterRelayRound.handleIncoming .startBet).vars.roundActive = true ∧
    (afterRelayRound.handleIncoming .startBet).game = afterRelayRound.game ∧
    (afterRelayRound.handleIncoming .startBet).game.map
        (fun g => (g.rules.revealedCount, g.rules.revealedMap.length,
          (g.cards.filter fun c => c.revealed).map Card.id, g.cards.map Card.id))
      = some (1, 1, [0], [0, 1, 2, 3, 4, 5, 6, 7, 8]) ∧
    ((afterRelayRound.setVars fun v => { v with demoMode := true }).handleBet
      "win").vars.roundActive = true ∧
    ((afterRelayRound.setVars fun v => { v with demoMode := true }).handleBet "win").game.map
        (fun g => (g.rules.revealedCount, g.rules.revealedMap.length,
          (g.cards.filter fun c => c.revealed).map Card.id, g.cards.map Card.id))
      = some (0, 0, [], [9, 10, 11, 12, 13, 14, 15, 16, 17]) := by
  refine ⟨?_, ?_, ?_, ?_, ?_, ?_, ?_, ?_⟩ <;> rfl

end App

namespace Game

/-- A game without a pending sweep timer: the callback of no handle runs. -/
theorem roundStep_timer_of_no_timers (g : Game) (ht : g.timers = []) (handle : Nat) :
    g.roundStep (.timer handle) = g := by
  simp [roundStep, ht]

theorem clearScheduledAutoReveal_cards (g : Game) (id : Nat) :
    (g.clearScheduledAutoReveal id).cards
      = g.cards.map fun c =>
          if c.id = id then { c with autoRevealTimer := none, autoRevealScheduled := false }
          else c := by
  have h := (foldl_clearScheduled_frame [id] g).1
  simpa using h

/-- The function `registerCards` leaves no card of `scene.cards` marked. -/
theorem registerCards_unscheduled (g : Game)
    (h : ∀ c ∈ g.cards, c.autoRevealScheduled = false ∧ c.autoRevealTimer = none) :
    ∀ c ∈ g.registerCards.cards, c.autoRevealScheduled = false ∧ c.autoRevealTimer = none := by
  unfold registerCards
  generalize g.cards.map Card.id = ids
  induction ids generalizing g with
  | nil => exact h
  | cons id rest ih =>
    simp only [List.foldl_cons]
    apply ih
    intro c hc
    rw [clearScheduledAutoReveal_cards] at hc
    obtain ⟨c₁, hc₁, rfl⟩ := List.mem_map.mp hc
    simp only [modifyCard] at hc₁
    obtain ⟨c₀, hc₀, rfl⟩ := List.mem_map.mp hc₁
    by_cases hid : c₀.id = id
    · simp [hid]
    · simp [hid, h c₀ hc₀]

/-- After `reset()` no sweep timer is pending and no card is marked. -/
theorem resetBoard_unscheduled {g : Game} (h : Sound g) :
    g.resetBoard.timers = [] ∧ g.resetBoard.handles = [] ∧
      (∀ c ∈ g.resetBoard.cards, c.autoRevealScheduled = false ∧ c.autoRevealTimer = none) ∧
      g.resetBoard.isAutoRevealInProgress = false := by
  obtain ⟨-, ht, hh⟩ := h.after_resetBoard
  have hcards : ∀ c ∈ g.resetBoard.cards,
      c.autoRevealScheduled = false ∧ c.autoRevealTimer = none := by
    unfold resetBoard
    dsimp only
    apply registerCards_unscheduled
    intro c hc
    simp only [buildGrid] at hc
    obtain ⟨item, -, rfl⟩ := List.mem_map.mp hc
    exact ⟨rfl, rfl⟩
  refine ⟨ht, hh, hcards, ?_⟩
  unfold isAutoRevealInProgress
  rw [hh]
  simp only [List.length_nil, gt_iff_lt, lt_self_iff_false, decide_False, Bool.false_or]
  rw [Bool.eq_false_iff]
  intro hany
  obtain ⟨c, hc, hflag⟩ := List.any_eq_true.mp hany
  rw [(hcards c hc).1] at hflag
  cases hflag

/-- After `setRoundAssignments` no sweep timer is pending and no card is
marked. -/
theorem installAssignments_unscheduled {g : Game} (h : Sound g) (assignments : List Entry)
    (info : OutcomeMeta) :
    (g.installAssignments assignments info).timers = [] ∧
      (g.installAssignments assignments info).handles = [] ∧
      (∀ c ∈ (g.installAssignments assignments info).cards,
        c.autoRevealScheduled = false ∧ c.autoRevealTimer = none) ∧
      (g.installAssignments assignments info).isAutoRevealInProgress = false := by
  have h₁ : Sound ({ g with currentAssignments := [] } : Game) :=
    h.frame rfl rfl rfl rfl rfl rfl (fun ht => ht)
  obtain ⟨h₂, ht, hh, hidle, -, -⟩ := h₁.after_resetRoundOutcome
  have hflags : ∀ c ∈ (Game.resetRoundOutcome ({ g with currentAssignments := [] } : Game)).cards,
      c.autoRevealScheduled = false ∧ c.autoRevealTimer = none := by
    intro c hc
    have hs : c.autoRevealScheduled = false := by
      unfold isAutoRevealInProgress at hidle
      rw [Bool.or_eq_false_iff] at hidle
      have := hidle.2
      rw [Bool.eq_false_iff] at this
      cases hflag : c.autoRevealScheduled with
      | false => rfl
      | true => exact absurd (List.any_eq_true.mpr ⟨c, hc, hflag⟩) this
    exact ⟨hs, h₂.flags c (List.mem_append_left _ hc) hs⟩
  have hcards : ∀ c ∈ (g.installAssignments assignments info).cards,
      c.autoRevealScheduled = false ∧ c.autoRevealTimer = none := by
    unfold installAssignments applyRoundOutcomeMeta
    dsimp only
    intro c hc
    obtain ⟨c₀, hc₀, rfl⟩ := List.mem_map.mp hc
    exact hflags c₀ hc₀
  have ht' : (g.installAssignments assignments info).timers = [] := by
    unfold installAssignments applyRoundOutcomeMeta
    exact ht
  have hh' : (g.installAssignments assignments info).handles = [] := by
    unfold installAssignments applyRoundOutcomeMeta
    exact hh
  refine ⟨ht', hh', hcards, ?_⟩
  unfold isAutoRevealInProgress
  rw [hh']
  simp only [List.length_nil, gt_iff_lt, lt_self_iff_false, decide_False, Bool.false_or]
  rw [Bool.eq_false_iff]
  intro hany
  obtain ⟨c, hc, hflag⟩ := List.any_eq_true.mp hany
  rw [(hcards c hc).1] at hflag
  cases hflag

end Game

namespace Game

theorem Sound.setRules {g : Game} (h : Sound g) (r : GameRules) :
    Sound ({ g with rules := r } : Game) :=
  h.frame rfl rfl rfl rfl rfl rfl (fun ht => ht)

end Game

namespace App

theorem SoundKept.sk_refl (a : App) : SoundKept a a :=
  fun h => h

theorem SoundKept.sk_trans {a b c : App} (h₁ : SoundKept a b) (h₂ : SoundKept b c) :
    SoundKept a c :=
  fun h => h₂ (h₁ h)

theorem SoundKept.sk_ite {a x y : App} {c : Prop} [Decidable c] (hx : SoundKept a x)
    (hy : SoundKept a y) : SoundKept a (if c then x else y) := by
  split <;> assumption

/-- A step that leaves the game alone. -/
theorem SoundKept.of_game {a b : App} (h : b.game = a.game) : SoundKept a b := by
  intro hs g hg
  rw [h] at hg
  exact hs g hg

theorem sk_setVars (a : App) (f : Vars → Vars) : SoundKept a (a.setVars f) :=
  SoundKept.of_game rfl

theorem sk_panel (a : App) (f : Panel → Panel) : SoundKept a (a.panel f) :=
  SoundKept.of_game rfl

/-- A method of the game that keeps the invariant. -/
theorem sk_withGame (a : App) (f : Game → Game) (hf : ∀ g, Game.Sound g → Game.Sound (f g)) :
    SoundKept a (a.withGame f) := by
  intro hs g hg
  unfold withGame at hg
  cases hgame : a.game with
  | none => simp [hgame] at hg
  | some g₀ =>
    simp only [hgame, Option.map_some', Option.some.injEq] at hg
    rw [← hg]
    exact hf g₀ (hs g₀ hgame)

/-- A step that replaces the game `g₀` by `g₁`. -/
theorem SoundKept.of_some {a b : App} (g₀ g₁ : Game) (hgame : a.game = some g₀)
    (hb : b.game = some g₁) (h : Game.Sound g₀ → Game.Sound g₁) : SoundKept a b := by
  intro hs g hg
  rw [hb] at hg
  simp only [Option.some.injEq] at hg
  rw [← hg]
  exact h (hs g₀ hgame)

theorem sk_sendRelayMessage (a : App) (type : String) (payload : Payload) :
    SoundKept a (a.sendRelayMessage type payload) :=
  SoundKept.of_game (by simp)

theorem sk_setControlPanelBetMode (a : App) (mode : BetButtonMode) :
    SoundKept a (a.setControlPanelBetMode mode) :=
  SoundKept.of_game rfl

theorem sk_setControlPanelBetState (a : App) (x : Bool) :
    SoundKept a (a.setControlPanelBetState x) :=
  sk_panel a _

theorem sk_setControlPanelRandomState (a : App) (x : Bool) :
    SoundKept a (a.setControlPanelRandomState x) :=
  sk_panel a _

theorem sk_setControlPanelAutoStartState (a : App) (x : Bool) :
    SoundKept a (a.setControlPanelAutoStartState x) :=
  sk_panel a _

theorem sk_setControlPanelMinesState (a : App) (x : Bool) :
    SoundKept a (a.setControlPanelMinesState x) :=
  sk_panel a _

theorem sk_setModeAndBetControls (a : App) (x : Bool) :
    SoundKept a (a.setModeAndBetControls x) :=
  sk_panel a _

theorem sk_setGameBoardInteractivity (a : App) (x : Bool) :
    SoundKept a (a.setGameBoardInteractivity x) :=
  SoundKept.of_game rfl

theorem sk_clearSelectionDelay (a : App) : SoundKept a a.clearSelectionDelay :=
  SoundKept.of_game rfl

theorem sk_clearAutoRoundTimer (a : App) : SoundKept a a.clearAutoRoundTimer :=
  SoundKept.of_game rfl

theorem sk_beginSelectionDelay (a : App) : SoundKept a a.beginSelectionDelay :=
  SoundKept.of_game rfl

theorem sk_disableServerRoundSetupControls (a : App) :
    SoundKept a a.disableServerRoundSetupControls :=
  SoundKept.of_game rfl

theorem sk_setAutoRunUIState (a : App) (x : Bool) : SoundKept a (a.setAutoRunUIState x) :=
  SoundKept.of_game (by simp)

theorem sk_setAutoRunFinishingState (a : App) : SoundKept a a.setAutoRunFinishingState :=
  SoundKept.of_game (by simp)

theorem sk_determineDemoBetResult (a : App) : SoundKept a a.determineDemoBetResult.2 :=
  SoundKept.of_game rfl

theorem sk_finalizeRound (a : App) : SoundKept a a.finalizeRound :=
  SoundKept.of_game (by simp)

theorem sk_applyRoundInteractiveState (a : App) (st : RulesState) :
    SoundKept a (a.applyRoundInteractiveState st) :=
  SoundKept.of_game (by simp)

theorem sk_stopAutoBetProcess (a : App) (reason : String) (completed : Bool) :
    SoundKept a (a.stopAutoBetProcess reason completed) := by
  unfold stopAutoBetProcess
  have h₁ : SoundKept a (a.clearSelectionDelay.clearAutoRoundTimer.setVars fun v =>
      { v with autoRunActive := false, autoRoundInProgress := false }) :=
    SoundKept.of_game rfl
  have h₂ : SoundKept a (if (a.clearSelectionDelay.clearAutoRoundTimer.setVars fun v =>
        { v with autoRunActive := false, autoRoundInProgress := false }).vars.demoMode = false ∧
      (a.clearSelectionDelay.clearAutoRoundTimer.setVars fun v =>
        { v with autoRunActive := false, autoRoundInProgress := false }).vars.suppressRelay = false ∧
      a.clearSelectionDelay.clearAutoRoundTimer.vars.autoRunActive = true then
      (a.clearSelectionDelay.clearAutoRoundTimer.setVars fun v =>
        { v with autoRunActive := false, autoRoundInProgress := false }).sendRelayMessage
          "action:stop-autobet" (.stopAutobet reason completed)
      else a.clearSelectionDelay.clearAutoRoundTimer.setVars fun v =>
        { v with autoRunActive := false, autoRoundInProgress := false }) :=
    SoundKept.sk_ite (h₁.sk_trans (sk_sendRelayMessage _ _ _)) h₁
  dsimp only
  refine SoundKept.sk_ite ?_ ?_
  · exact ((h₂.sk_trans (sk_setVars _ _)).sk_trans
      (sk_setAutoRunFinishingState _)).sk_trans
      (sk_withGame _ _ fun g h => by
        show Game.Sound (if g.isAutoRevealInProgress then g else g.revealRemainingTiles [])
        split
        · exact h
        · exact h.after_sweep [])
  · refine SoundKept.sk_trans ?_ (sk_setAutoRunUIState _ _)
    have h₃ := h₂.sk_trans (sk_setVars _ (fun v => { v with autoStopPending := false }))
    exact SoundKept.sk_ite (h₃.sk_trans (sk_finalizeRound _)) h₃

theorem sk_scheduleNextAutoBetRound (a : App) : SoundKept a a.scheduleNextAutoBetRound := by
  unfold scheduleNextAutoBetRound
  exact SoundKept.sk_ite (SoundKept.sk_refl a) (SoundKept.of_game rfl)

theorem sk_handleAutoRoundCompleted (a : App) : SoundKept a a.handleAutoRoundCompleted := by
  unfold handleAutoRoundCompleted
  have h₁ : SoundKept a ((if decide (a.vars.autoRemainingBets > 0) = true then
      (a.setVars fun v => { v with autoRemainingBets := jsMinusOne v.autoRemainingBets }).panel
        fun p => { p with numberOfBetsValue := jsMinusOne a.vars.autoRemainingBets }
      else a).setVars fun v => { v with autoRoundInProgress := false }) := by
    refine SoundKept.sk_trans (b := if decide (a.vars.autoRemainingBets > 0) = true then
      (a.setVars fun v => { v with autoRemainingBets := jsMinusOne v.autoRemainingBets }).panel
        fun p => { p with numberOfBetsValue := jsMinusOne a.vars.autoRemainingBets }
      else a) (SoundKept.sk_ite ?_ (SoundKept.sk_refl a)) (SoundKept.of_game rfl)
    exact SoundKept.of_game rfl
  exact SoundKept.sk_ite h₁ (SoundKept.sk_ite (h₁.sk_trans (sk_stopAutoBetProcess _ _ _))
    (h₁.sk_trans (sk_scheduleNextAutoBetRound _)))

theorem sk_handleGameStateChange (a : App) (st : RulesState) :
    SoundKept a (a.handleGameStateChange st) := by
  unfold handleGameStateChange
  have h₁ : SoundKept a (a.setVars fun v => { v with lastKnownGameState := some st }) :=
    SoundKept.of_game rfl
  exact SoundKept.sk_ite h₁ (SoundKept.sk_ite
    (SoundKept.sk_ite ((h₁.sk_trans (sk_finalizeRound _)).sk_trans (sk_handleAutoRoundCompleted _))
      (h₁.sk_trans (sk_finalizeRound _)))
    (h₁.sk_trans (sk_applyRoundInteractiveState _ _)))

theorem sk_notifyStateChange (a : App) : SoundKept a a.notifyStateChange := by
  unfold notifyStateChange
  split
  · exact sk_handleGameStateChange _ _
  · exact SoundKept.sk_refl a

theorem sk_gameReset (a : App) : SoundKept a a.gameReset :=
  (sk_withGame a _ fun _ h => h.after_resetBoard.1).sk_trans (sk_notifyStateChange _)

theorem sk_setRoundAssignments (a : App) (assignments : List Entry) (info : OutcomeMeta) :
    SoundKept a (a.setRoundAssignments assignments info) :=
  (sk_withGame a _ fun _ h => h.after_installAssignments assignments info).sk_trans
    (sk_notifyStateChange _)

theorem sk_prepareForNewRoundState (a : App) : SoundKept a a.prepareForNewRoundState := by
  unfold prepareForNewRoundState
  have h₁ : SoundKept a ((a.setVars fun v => { v with roundActive := true, cashoutAvailable := false
      }).clearSelectionDelay) :=
    SoundKept.of_game rfl
  dsimp only
  have h₂ : SoundKept a (if decide ((a.setVars fun v =>
        { v with roundActive := true, cashoutAvailable := false
        }).clearSelectionDelay.vars.controlPanelMode = .auto) = true then
      (((a.setVars fun v => { v with roundActive := true, cashoutAvailable := false
        }).clearSelectionDelay).setControlPanelBetMode .bet).setControlPanelBetState false
      else (((a.setVars fun v => { v with roundActive := true, cashoutAvailable := false
        }).clearSelectionDelay).setControlPanelBetMode .scratch).setControlPanelBetState true) :=
    SoundKept.sk_ite ((h₁.sk_trans (sk_setControlPanelBetMode _ _)).sk_trans
        (sk_setControlPanelBetState _ _))
      ((h₁.sk_trans (sk_setControlPanelBetMode _ _)).sk_trans (sk_setControlPanelBetState _ _))
  refine SoundKept.sk_ite ?_ ?_
  · refine SoundKept.sk_trans ?_ (sk_setModeAndBetControls _ _)
    refine SoundKept.sk_trans ?_ (sk_setControlPanelMinesState _ _)
    refine SoundKept.sk_trans ?_ (sk_setVars _ _)
    refine SoundKept.sk_trans ?_ (sk_setVars _ _)
    refine SoundKept.sk_trans ?_ (sk_setGameBoardInteractivity _ _)
    exact h₂.sk_trans (sk_setControlPanelRandomState _ _)
  · refine SoundKept.sk_ite ?_ ?_
    · refine SoundKept.sk_trans ?_ (sk_setControlPanelAutoStartState _ _)
      refine SoundKept.sk_trans ?_ (sk_setControlPanelMinesState _ _)
      refine SoundKept.sk_trans ?_ (sk_setModeAndBetControls _ _)
      refine SoundKept.sk_trans ?_ (sk_setVars _ _)
      refine SoundKept.sk_trans ?_ (sk_setGameBoardInteractivity _ _)
      exact h₂.sk_trans (sk_setControlPanelRandomState _ _)
    · refine SoundKept.sk_trans ?_ (sk_setModeAndBetControls _ _)
      refine SoundKept.sk_trans ?_ (sk_setVars _ _)
      refine SoundKept.sk_trans ?_ (sk_setGameBoardInteractivity _ _)
      exact h₂.sk_trans (sk_setControlPanelRandomState _ _)

theorem sk_performBet (a : App) : SoundKept a a.performBet :=
  (sk_prepareForNewRoundState a).sk_trans (sk_setVars _ _)

end App

namespace App

theorem sk_prepareScratchRound (a : App) (betResult : String) :
    SoundKept a (a.prepareScratchRound betResult) := by
  unfold prepareScratchRound
  refine SoundKept.sk_ite (SoundKept.of_game rfl) ?_
  refine SoundKept.sk_trans ?_ (sk_setRoundAssignments _ _ _)
  exact SoundKept.of_game rfl

theorem sk_handleBet (a : App) (betResult : String) : SoundKept a (a.handleBet betResult) := by
  unfold handleBet
  refine SoundKept.sk_ite ?_
    (((sk_performBet a).sk_trans (sk_gameReset _)).sk_trans (sk_prepareScratchRound _ _))
  exact (sk_disableServerRoundSetupControls a).sk_trans (sk_sendRelayMessage _ _ _)

theorem sk_executeAutoBetRound (a : App) : SoundKept a a.executeAutoBetRound := by
  unfold executeAutoBetRound
  refine SoundKept.sk_ite (SoundKept.sk_refl a) ?_
  have h₁ : SoundKept a (a.setVars fun v => { v with autoRoundInProgress := true }) :=
    sk_setVars a _
  refine SoundKept.sk_ite (h₁.sk_trans (sk_sendRelayMessage _ _ _)) ?_
  exact ((h₁.sk_trans (sk_determineDemoBetResult _)).sk_trans (sk_handleBet _ _)).sk_trans
    (SoundKept.of_game rfl)

theorem sk_fireRevealAllTimer (a : App) : SoundKept a a.fireRevealAllTimer := by
  unfold fireRevealAllTimer
  refine SoundKept.sk_ite (SoundKept.sk_refl a) (SoundKept.sk_ite ?_ ?_)
  · exact SoundKept.of_game rfl
  · exact SoundKept.sk_trans (b := { a with revealAllTimers := a.revealAllTimers - 1 })
      (SoundKept.of_game rfl) (sk_withGame _ _ fun _ h => h.after_sweep [])

theorem sk_fireAutoResetTimer (a : App) : SoundKept a a.fireAutoResetTimer := by
  unfold fireAutoResetTimer
  split
  · exact SoundKept.sk_refl a
  · have h₁ : SoundKept a (a.setVars fun v => { v with autoResetTimer := none }) :=
      sk_setVars a _
    exact SoundKept.sk_ite h₁ (h₁.sk_trans (sk_executeAutoBetRound _))

theorem sk_startAutoBetProcess (a : App) : SoundKept a a.startAutoBetProcess := by
  unfold startAutoBetProcess
  refine SoundKept.sk_ite (SoundKept.sk_refl a) ?_
  have h₁ : SoundKept a (({ a with autoStarts := a.autoStarts + 1 } : App).setVars fun v =>
      { v with
        autoRunActive := true, autoRoundInProgress := false, autoStopPending := false
        autoRemainingBets := a.configuredBets }) :=
    SoundKept.of_game rfl
  dsimp only
  refine SoundKept.sk_trans ?_ (sk_executeAutoBetRound _)
  refine SoundKept.sk_trans ?_ (sk_setAutoRunUIState _ _)
  exact SoundKept.sk_ite ((h₁.sk_trans (sk_sendRelayMessage _ _ _)).sk_trans (sk_sendRelayMessage _ _ _)) h₁

theorem sk_handleStartAutobetClick (a : App) : SoundKept a a.handleStartAutobetClick := by
  unfold handleStartAutobetClick
  exact SoundKept.sk_ite (sk_stopAutoBetProcess _ _ _)
    (SoundKept.sk_ite (SoundKept.sk_refl a) (sk_startAutoBetProcess a))

theorem sk_markManualRoundForReset (a : App) : SoundKept a a.markManualRoundForReset := by
  unfold markManualRoundForReset
  exact SoundKept.sk_ite (sk_setVars a _) (SoundKept.sk_refl a)

theorem sk_revealAndFinalize (a : App) :
    SoundKept a (a.markManualRoundForReset.withGame fun g => g.revealRemainingTiles []).finalizeRound :=
  ((sk_markManualRoundForReset a).sk_trans (sk_withGame _ _ fun _ h => h.after_sweep [])).sk_trans
    (sk_finalizeRound _)

theorem sk_handleCashout (a : App) : SoundKept a a.handleCashout := by
  unfold handleCashout
  exact SoundKept.sk_ite (SoundKept.sk_refl a)
    (SoundKept.sk_ite (sk_sendRelayMessage _ _ _) (sk_revealAndFinalize a))

theorem sk_revealRemainingTilesAndFinalize (a : App) :
    SoundKept a a.revealRemainingTilesAndFinalize := by
  unfold revealRemainingTilesAndFinalize
  exact SoundKept.sk_ite (SoundKept.sk_refl a) (sk_revealAndFinalize a)

theorem sk_handleScratchButtonClick (a : App) : SoundKept a a.handleScratchButtonClick := by
  unfold handleScratchButtonClick
  exact SoundKept.sk_ite (SoundKept.sk_refl a) (sk_revealRemainingTilesAndFinalize a)

theorem sk_handleBetButtonClick (a : App) : SoundKept a a.handleBetButtonClick := by
  unfold handleBetButtonClick
  split
  · exact sk_handleCashout a
  · exact sk_handleScratchButtonClick a
  · exact SoundKept.sk_ite ((sk_determineDemoBetResult a).sk_trans (sk_handleBet _ _))
      (sk_handleBet _ _)

theorem sk_fireSweepTimer (a : App) (handle : Nat) : SoundKept a (a.fireSweepTimer handle) := by
  unfold fireSweepTimer
  cases hgame : a.game with
  | none => exact SoundKept.sk_refl a
  | some g =>
    dsimp only
    cases hfind : g.timers.find? (fun t => t.handle = handle) with
    | none => exact SoundKept.sk_refl a
    | some timer =>
      dsimp only
      have hk : SoundKept a { a with game := some (sweepTimerBody g timer).2 } :=
        SoundKept.of_some g _ hgame rfl fun h =>
          h.after_sweepTimerBody timer (List.mem_of_find?_eq_some hfind)
      exact SoundKept.sk_ite (hk.sk_trans (sk_notifyStateChange _)) hk

theorem sk_finishFlight (a : App) (flight : Flight) : SoundKept a (a.finishFlight flight) :=
  sk_withGame a _ fun _ h => h.after_finishFlight flight

theorem sk_finishWiggle (a : App) (id : Nat) : SoundKept a (a.finishWiggle id) :=
  sk_withGame a _ fun _ h =>
    h.modifyCard id _ (fun c => by split <;> rfl) (fun c => by split <;> rfl)
      (fun c => by split <;> rfl)

theorem sk_revealSelectedCard (a : App) (contentKey : Face) :
    SoundKept a (a.revealSelectedCard contentKey) := by
  unfold revealSelectedCard
  cases hgame : a.game with
  | none => exact SoundKept.sk_refl a
  | some g =>
    dsimp only
    split
    · exact SoundKept.sk_refl a
    · split
      · exact SoundKept.sk_refl a
      · refine SoundKept.sk_ite (SoundKept.sk_refl a) (SoundKept.sk_trans ?_ (sk_notifyStateChange _))
        exact SoundKept.of_some g _ hgame rfl fun h =>
          (h.after_revealTile _ _).setRules _

theorem sk_handleCardSelected (a : App) (row col : Int) :
    SoundKept a (a.handleCardSelected row col) := by
  unfold handleCardSelected
  refine SoundKept.sk_ite (SoundKept.sk_refl a) (SoundKept.sk_ite (SoundKept.sk_refl a) ?_)
  have h₁ : SoundKept a (if a.vars.minesSelectionLocked = false then
      (a.setVars fun v => { v with minesSelectionLocked := true }).setControlPanelMinesState false
      else a) :=
    SoundKept.sk_ite (SoundKept.of_game rfl) (SoundKept.sk_refl a)
  have h₂ := h₁.sk_trans (sk_beginSelectionDelay _)
  refine SoundKept.sk_ite (h₂.sk_trans (sk_sendRelayMessage _ _ _)) ?_
  exact (h₂.sk_trans (sk_setVars _ _)).sk_trans (sk_revealSelectedCard _ _)

theorem sk_handleCardTap (a : App) (id : Nat) : SoundKept a (a.handleCardTap id) := by
  unfold handleCardTap
  cases hgame : a.game with
  | none => exact SoundKept.sk_refl a
  | some g =>
    dsimp only
    split
    · exact SoundKept.sk_refl a
    · refine SoundKept.sk_ite (SoundKept.sk_refl a) (SoundKept.sk_ite (SoundKept.sk_refl a)
        (SoundKept.sk_ite (SoundKept.sk_refl a) ?_))
      refine SoundKept.sk_trans (SoundKept.sk_trans ?_ (sk_handleCardSelected _ _ _))
        (sk_notifyStateChange _)
      refine SoundKept.of_some g _ hgame rfl fun h => ?_
      have h₂ := fun r : GameRules =>
        (h.modifyCard id (fun c => { c with taped := true }) (fun _ => rfl) (fun _ => rfl)
          (fun _ => rfl)).setRules r
      split
      · exact h₂ _
      · exact (h₂ _).modifyCard id _ (fun _ => rfl) (fun _ => rfl) (fun _ => rfl)

theorem sk_selectRandomTile (a : App) : SoundKept a a.selectRandomTile := by
  unfold selectRandomTile
  cases hgame : a.game with
  | none => exact SoundKept.sk_refl a
  | some g =>
    dsimp only
    refine SoundKept.sk_ite (SoundKept.sk_refl a) ?_
    generalize (List.filter _ g.cards) = candidates
    split
    · exact SoundKept.of_game hgame.symm
    · refine SoundKept.sk_trans ?_ (sk_handleCardTap _ _)
      exact SoundKept.of_some g _ hgame rfl fun h =>
        h.modifyCard _ _ (fun _ => rfl) (fun _ => rfl) (fun _ => rfl)

theorem sk_handleRandomPickClick (a : App) : SoundKept a a.handleRandomPickClick := by
  unfold handleRandomPickClick
  exact SoundKept.sk_ite (SoundKept.sk_refl a) (sk_selectRandomTile a)

theorem sk_handleNumberOfBetsChange (a : App) (value : Nat) :
    SoundKept a (a.handleNumberOfBetsChange value) := by
  unfold handleNumberOfBetsChange
  exact SoundKept.sk_trans (SoundKept.sk_ite (sk_setVars a _) (SoundKept.sk_refl a))
    (sk_sendRelayMessage _ _ _)

theorem revealAutoEntry_sound (g : Game) (entry : ResultEntry) (h : Game.Sound g) :
    Game.Sound (revealAutoEntry g entry) := by
  unfold revealAutoEntry
  split
  · split
    · exact h
    · split
      · exact h
      · exact h.after_revealTile _ _
  · exact h

theorem revealAutoEntries_sound (results : List (Option ResultEntry)) :
    ∀ g : Game, Game.Sound g → Game.Sound (revealAutoEntries g results).1 := by
  induction results with
  | nil =>
    intro g h
    exact h
  | cons entry rest ih =>
    intro g h
    cases entry with
    | none => exact h
    | some e => exact ih _ (revealAutoEntry_sound g e h)

theorem sk_revealAutoSelections (a : App) (results : List (Option ResultEntry)) :
    SoundKept a (a.revealAutoSelections results).1 := by
  unfold revealAutoSelections
  cases hgame : a.game with
  | none => exact SoundKept.sk_refl a
  | some g =>
    dsimp only
    have h₁ : SoundKept a { a with game := some (revealAutoEntries g results).1 } :=
      SoundKept.of_some g _ hgame rfl fun h => revealAutoEntries_sound results g h
    split
    · exact h₁
    · exact h₁.sk_trans (sk_notifyStateChange _)

theorem sk_applyServerReveal (a : App) (payload : ResultEntry) :
    SoundKept a (a.applyServerReveal payload) := by
  unfold applyServerReveal
  have h₁ : SoundKept a (a.clearSelectionDelay.setVars fun v => { v with selectionPending := false }) :=
    SoundKept.of_game rfl
  refine SoundKept.sk_trans (b := _) ?_ (sk_revealSelectedCard _ _)
  split
  · exact h₁.sk_trans (sk_setVars _ _)
  · exact h₁

theorem sk_applyAutoResultsFromServer (a : App)
    (results : Option (List (Option ResultEntry))) :
    SoundKept a (a.applyAutoResultsFromServer results).1 := by
  unfold applyAutoResultsFromServer
  have h₁ : SoundKept a (a.clearSelectionDelay.setVars fun v => { v with selectionPending := false }) :=
    SoundKept.of_game rfl
  split
  · exact h₁
  · exact h₁
  · exact (h₁.sk_trans (sk_setVars _ _)).sk_trans (sk_revealAutoSelections _ _)

/-- The `switch` of the `incoming` listener leaves the switches of the relay
alone, does not make cashout available, and sends nothing when muted. -/
theorem sk_dispatchIncoming (a : App) (message : Inbound) :
    SoundKept a (a.dispatchIncoming message).1 := by
  unfold dispatchIncoming
  split
  · exact (sk_performBet a).sk_trans (sk_setControlPanelRandomState _ _)
  · exact sk_applyServerReveal a _
  · exact sk_applyAutoResultsFromServer a _
  · exact sk_stopAutoBetProcess a _ _
  · exact sk_finalizeRound a
  · exact SoundKept.sk_ite (sk_handleCashout a) (SoundKept.sk_refl a)
  · exact SoundKept.sk_refl a
  · exact SoundKept.sk_refl a

theorem sk_handleModeChange (a : App) (nextMode : Mode) :
    SoundKept a (a.handleModeChange nextMode) := by
  unfold handleModeChange
  dsimp only
  refine SoundKept.sk_ite (SoundKept.sk_refl a) ?_
  have h₁ : SoundKept a (if a.vars.autoRunActive = true ∧ nextMode ≠ .auto then
      a.stopAutoBetProcess "user" false else a) :=
    SoundKept.sk_ite (sk_stopAutoBetProcess _ _ _) (SoundKept.sk_refl a)
  have h₂ := h₁.sk_trans (sk_setVars _ (fun v => { v with controlPanelMode := nextMode }))
  refine SoundKept.sk_ite ?_ (SoundKept.sk_ite ?_ ?_)
  · refine SoundKept.sk_ite (SoundKept.sk_trans ?_ (sk_setControlPanelAutoStartState _ _)) ?_ <;>
    · refine SoundKept.sk_trans ?_ (sk_setGameBoardInteractivity _ _)
      refine SoundKept.sk_trans ?_ (sk_setControlPanelRandomState _ _)
      refine SoundKept.sk_ite ?_ h₂
      refine SoundKept.sk_ite (SoundKept.sk_trans (SoundKept.sk_trans ?_ (sk_gameReset _))
        (sk_setVars _ _)) ?_ <;>
      · exact SoundKept.sk_ite (h₂.sk_trans (sk_finalizeRound _)) h₂
  · refine SoundKept.sk_trans ?_ (sk_setControlPanelBetState _ _)
    refine SoundKept.sk_trans ?_ (sk_setControlPanelRandomState _ _)
    refine SoundKept.sk_trans ?_ (sk_setGameBoardInteractivity _ _)
    refine SoundKept.sk_trans ?_ (sk_setVars _ _)
    refine SoundKept.sk_trans ?_ (sk_gameReset _)
    exact h₂.sk_trans (sk_setControlPanelAutoStartState _ _)
  · have h₃ := (h₂.sk_trans (sk_setControlPanelAutoStartState _ false)).sk_trans
      (sk_setGameBoardInteractivity _ true)
    exact SoundKept.sk_ite (h₃.sk_trans (sk_setControlPanelRandomState _ _)) h₃


theorem sk_handleIncoming (a : App) (message : Inbound) :
    SoundKept a (a.handleIncoming message) := by
  unfold handleIncoming withRelaySuppressed
  exact ((sk_setVars a _).sk_trans (sk_dispatchIncoming _ _)).sk_trans (sk_setVars _ _)

theorem sk_handleDemoModeChange (a : App) (value : Bool) :
    SoundKept a (a.handleDemoModeChange value) := by
  unfold handleDemoModeChange
  exact SoundKept.sk_ite (SoundKept.sk_refl a)
    (SoundKept.sk_ite ((sk_setVars a _).sk_trans (sk_clearSelectionDelay _)) (sk_setVars a _))

theorem sk_handleAnimationsChange (a : App) (enabled : Bool) :
    SoundKept a (a.handleAnimationsChange enabled) :=
  sk_withGame a _ fun _ h => h.frame rfl rfl rfl rfl rfl rfl (fun ht => ht)

/-- Every listener and callback keeps the invariant of the game. -/
theorem sk_step (a : App) (event : Event) : SoundKept a (a.step event) := by
  cases event with
  | betClick => exact sk_handleBetButtonClick a
  | randomPickClick => exact sk_handleRandomPickClick a
  | startAutobetClick => exact sk_handleStartAutobetClick a
  | modeChange mode => exact sk_handleModeChange a mode
  | numberOfBetsChange value => exact sk_handleNumberOfBetsChange a value
  | cardTap id => exact sk_handleCardTap a id
  | incoming message => exact sk_handleIncoming a message
  | autoResetTimer => exact sk_fireAutoResetTimer a
  | revealAllTimer => exact sk_fireRevealAllTimer a
  | sweepTimer handle => exact sk_fireSweepTimer a handle
  | flightDone flight => exact sk_finishFlight a flight
  | wiggleDone id => exact sk_finishWiggle a id
  | stateChange state => exact sk_handleGameStateChange a state
  | demoModeChange value => exact sk_handleDemoModeChange a value
  | animationsChange enabled => exact sk_handleAnimationsChange a enabled
  | controlChange type => exact sk_sendRelayMessage a type .empty

theorem sk_run (events : List Event) : ∀ a : App, SoundKept a (a.run events) := by
  induction events with
  | nil =>
    intro a
    exact SoundKept.sk_refl a
  | cons event rest ih =>
    intro a
    exact (sk_step a event).sk_trans (ih _)

theorem boot_game (contentKeys : List String) (numberOfBets : Nat) (disableAnimations : Bool)
    (rng : Rng) :
    (boot contentKeys numberOfBets disableAnimations rng).game
      = some (Game.create disableAnimations 300 40 1000 true contentKeys) :=
  rfl

/-- The game of every state the application reaches from its start-up, by any
sequence of events, satisfies the invariant `Game.Sound`. -/
theorem run_sound (contentKeys : List String) (numberOfBets : Nat) (disableAnimations : Bool)
    (rng : Rng) (events : List Event) (g : Game)
    (hg : ((boot contentKeys numberOfBets disableAnimations rng).run events).game = some g) :
    Game.Sound g := by
  refine sk_run events _ ?_ g hg
  intro g₀ hg₀
  rw [boot_game] at hg₀
  injection hg₀ with hg₀
  subst hg₀
  exact Game.create_sound _ _ _ _ _ _

end App

namespace App

theorem gameReset_game (a : App) : a.gameReset.game = a.game.map Game.resetBoard :=
  (withGame_notify_vars a Game.resetBoard Game.resetBoard_rules_gameOver).2.1

theorem setRoundAssignments_game (a : App) (assignments : List Entry) (info : OutcomeMeta) :
    (a.setRoundAssignments assignments info).game
      = a.game.map fun g => g.installAssignments assignments info :=
  (withGame_notify_vars a (fun g => g.installAssignments assignments info)
    (fun g => Game.installAssignments_rules_gameOver g _ _)).2.1

theorem fireSweepTimer_of_game (a : App) (g : Game) (hg : a.game = some g)
    (ht : g.timers = []) (handle : Nat) : a.fireSweepTimer handle = a := by
  unfold fireSweepTimer
  rw [hg]
  dsimp only
  rw [ht]
  rfl

/-- C25: in every state that the application reaches from its start-up by any
sequence of events, immediately after `game.reset()` and immediately after
`game.setRoundAssignments(assignments, meta)` no sweep timer is pending, the
set `scheduledAutoRevealTimers` is empty and no card of the board is marked
`_autoRevealScheduled` or remembers a timer; so the callback of no sweep timer
scheduled before can run afterwards, in the game or seen from the
coordinator. -/
theorem c25_no_sweep_timer_survives_reset (contentKeys : List String) (numberOfBets : Nat)
    (disableAnimations : Bool) (rng : Rng) (events : List Event) (g : Game)
    (hg : ((boot contentKeys numberOfBets disableAnimations rng).run events).game = some g)
    (assignments : List Entry) (info : OutcomeMeta) :
    (g.resetBoard.timers = [] ∧ g.resetBoard.handles = [] ∧
      (∀ c ∈ g.resetBoard.cards, c.autoRevealScheduled = false ∧ c.autoRevealTimer = none) ∧
      g.resetBoard.isAutoRevealInProgress = false ∧
      ∀ handle, g.resetBoard.roundStep (.timer handle) = g.resetBoard) ∧
    ((g.installAssignments assignments info).timers = [] ∧
      (g.installAssignments assignments info).handles = [] ∧
      (∀ c ∈ (g.installAssignments assignments info).cards,
        c.autoRevealScheduled = false ∧ c.autoRevealTimer = none) ∧
      (g.installAssignments assignments info).isAutoRevealInProgress = false ∧
      ∀ handle, (g.installAssignments assignments info).roundStep (.timer handle)
        = g.installAssignments assignments info) ∧
    ((boot contentKeys numberOfBets disableAnimations rng).run events).gameReset.game
      = some g.resetBoard ∧
    (((boot contentKeys numberOfBets disableAnimations rng).run events).setRoundAssignments
        assignments info).game
      = some (g.installAssignments assignments info) ∧
    (∀ handle,
      ((boot contentKeys numberOfBets disableAnimations rng).run events).gameReset.fireSweepTimer
          handle
        = ((boot contentKeys numberOfBets disableAnimations rng).run events).gameReset) ∧
    (∀ handle,
      (((boot contentKeys numberOfBets disableAnimations rng).run events).setRoundAssignments
          assignments info).fireSweepTimer handle
        = ((boot contentKeys numberOfBets disableAnimations rng).run events).setRoundAssignments
            assignments info) := by
  have hs : Game.Sound g := run_sound contentKeys numberOfBets disableAnimations rng events g hg
  obtain ⟨r₁, r₂, r₃, r₄⟩ := Game.resetBoard_unscheduled hs
  obtain ⟨i₁, i₂, i₃, i₄⟩ := Game.installAssignments_unscheduled hs assignments info
  generalize (boot contentKeys numberOfBets disableAnimations rng).run events = a at hg
  have hreset : a.gameReset.game = some g.resetBoard := by
    rw [gameReset_game, hg]
    rfl
  have hinstall : (a.setRoundAssignments assignments info).game
      = some (g.installAssignments assignments info) := by
    rw [setRoundAssignments_game, hg]
    rfl
  refine ⟨⟨r₁, r₂, r₃, r₄, Game.roundStep_timer_of_no_timers _ r₁⟩,
    ⟨i₁, i₂, i₃, i₄, Game.roundStep_timer_of_no_timers _ i₁⟩, hreset, hinstall, ?_, ?_⟩
  · exact fireSweepTimer_of_game _ _ hreset r₁
  · exact fireSweepTimer_of_game _ _ hinstall i₁

set_option maxRecDepth 100000 in
theorem c25_no_sweep_timer_witness :
    (sweepPendingGame.timers.length, sweepPendingGame.handles.length,
      (sweepPendingGame.cards.filter fun c => c.autoRevealScheduled).length) = (9, 9, 9) ∧
    sweepPendingGame.resetBoard.timers = [] ∧ sweepPendingGame.resetBoard.handles = [] ∧
    sweepPendingGame.resetBoard.isAutoRevealInProgress = false ∧
    (sweepPendingGame.installAssignments [] ⟨none, none, none⟩).timers = [] ∧
    (sweepPendingGame.installAssignments [] ⟨none, none, none⟩).handles = [] ∧
    (sweepPendingGame.installAssignments [] ⟨none, none, none⟩).isAutoRevealInProgress = false ∧
    sweepPending.gameReset.fireSweepTimer 9 = sweepPending.gameReset :=
  have h := c25_no_sweep_timer_survives_reset ["A", "B"] 3 false []
    [.demoModeChange false, .modeChange .auto, .startAutobetClick, .incoming .startBet,
      .incoming (.autoBetResult (some (allTiles.take 8))), .startAutobetClick]
    sweepPendingGame (eq_some_getD _ _ rfl) [] ⟨none, none, none⟩
  ⟨rfl, h.1.1, h.1.2.1, h.1.2.2.2.1, h.2.1.1, h.2.1.2.1, h.2.1.2.2.2.1, h.2.2.2.2.1 9⟩

end App

end ScratchCard
